import Mathlib

/-! # sysbios-rpmsg: VirtQueue engine and RPMsg/MessageQ transport

A shallow embedding of `src/ti/ipc/rpmsg/VirtQueue.c` and
`src/ti/ipc/transports/TransportVirtio.c`.

Conventions of the embedding.

* Machine integers are natural numbers (or integers, for the signed `Int16`
  token). A field holds a value within the range of its C type; wherever C
  arithmetic or a narrowing conversion can change a value the wrap-around is
  written out: `% 65536` for `UInt16`, `% 4294967296` for `UInt`/`UInt32` and
  pointers.
* A C array in shared memory is a total map from the index to the element;
  storing into an element is `Function.update`.
* The functions of the two files are embedded twice. The first embedding keeps the
  contents of each ring inside its `VirtQueue_Object` and the buffers in a pool of
  their own (`Machine.pool`), so that no buffer store reaches a ring word. The
  second one (names ending in `_mem`) runs on one memory of bytes in which rings and
  buffers lie at their addresses, and shows what happens where a buffer overlies a
  ring.
* `Error_raise(NULL, ...)` and a failed `Assert_isTrue(..., NULL)` terminate the
  program: a function that may reach one returns a `Result`, whose constructor
  `raised` carries the state at the moment of the fault.
* `Log_print*` calls (trace logging) and the `GateSwi` enter/leave pairs have no
  effect on the sequential state and are not represented.
-/

namespace SysbiosRpmsg

/-! ## Shared ring memory (`virtio_ring.h` layout) -/

/-- One descriptor: `{ addr: 64-bit, len: 32-bit, flags: 16-bit, next: 16-bit }`. -/
structure vring_desc where
  addr : Nat
  len : Nat
  flags : Nat
  next : Nat

/-- Available ring: header `{ flags, idx }` and the ring of 16-bit descriptor indices. -/
structure vring_avail where
  flags : Nat
  idx : Nat
  ring : Nat → Nat

/-- One used-ring element `{ id: 32-bit, len: 32-bit }`. -/
structure vring_used_elem where
  id : Nat
  len : Nat

/-- Used ring: header `{ flags, idx }` and the ring of used elements. -/
structure vring_used where
  flags : Nat
  idx : Nat
  ring : Nat → vring_used_elem

/-- The `struct vring`: element count and the three shared areas it points to. -/
structure vring where
  num : Nat
  desc : Nat → vring_desc
  avail : vring_avail
  used : vring_used

/-- The two upcalls that `TransportVirtio_Instance_init` installs in a VirtQueue. -/
inductive VirtQueue_callback where
  | callback_usedBufReady
  | callback_availBufReady
deriving DecidableEq, Repr

/-- The `VirtQueue_Object`: local state of one end of one ring, together with the
contents of the shared ring that its `vring` pointers designate. -/
structure VirtQueue_Object where
  id : Nat
  callback : VirtQueue_callback
  vring : vring
  num_free : Nat
  last_avail_idx : Nat
  last_used_idx : Nat
  procId : Nat
  arg : Nat

/-- Declarations that the sources use but that live in headers outside `src/`
(`_VirtQueue.h`, `virtio_ring.h`) or in a compile-time switch. They are
parameters of the embedding.

* `APPM3_IS_HOST`: whether the macro of `VirtQueue.c` line 82 is defined.
* `RP_MSG_NUM_BUFS`, `RP_MSG_BUF_SIZE`, `IPU_MEM_VRING0`: constants (values of
  the C type `int`, respectively of a 32-bit address).
* `VRING_USED_F_NO_NOTIFY`, `VRING_AVAIL_F_NO_INTERRUPT`: flag masks.
* `NUM_FREE_MOD`: the modulus of the unsigned type of the field `num_free`.
* `VirtQueue_isHost`, `VirtQueue_isSlave`: the role predicates on a VirtQueue. -/
structure Build where
  APPM3_IS_HOST : Bool
  RP_MSG_NUM_BUFS : Nat
  RP_MSG_BUF_SIZE : Nat
  IPU_MEM_VRING0 : Nat
  VRING_USED_F_NO_NOTIFY : Nat
  VRING_AVAIL_F_NO_INTERRUPT : Nat
  NUM_FREE_MOD : Nat
  VirtQueue_isHost : VirtQueue_Object → Bool
  VirtQueue_isSlave : VirtQueue_Object → Bool

/-- Outcome of a function that can reach `Error_raise(NULL, ...)` or a failing
`Assert_isTrue`: either it returns `a` in state `s`, or the program is terminated
in state `s`. -/
inductive Result (σ α : Type) where
  | ret (a : α) (s : σ)
  | raised (s : σ)

/-- The state in which the function returned or was terminated. -/
def Result.state {σ α : Type} : Result σ α → σ
  | .ret _ s => s
  | .raised s => s

/-- Whether the function was terminated by a raised error. -/
def Result.isRaised {σ α : Type} : Result σ α → Bool
  | .ret _ _ => false
  | .raised _ => true

/-- The returned value, when the function returned. -/
def Result.value {σ α : Type} : Result σ α → Option α
  | .ret a _ => some a
  | .raised _ => none

/-- Conversion of a 16-bit unsigned value to `Int16` (two's complement). -/
def toInt16 (x : Nat) : Int :=
  if x % 65536 < 32768 then ((x % 65536 : Nat) : Int) else ((x % 65536 : Nat) : Int) - 65536

/-! ## `VirtQueue.c` -/

/-- `mapPAtoVA`, `VirtQueue.c` lines 157-160; the argument is converted to `UInt`. -/
def mapPAtoVA (pa : Nat) : Nat :=
  ((pa % 4294967296) &&& 0x000fffff) ||| 0xa0000000

/-- `mapVAtoPA`, `VirtQueue.c` lines 162-165; the pointer is converted to `UInt`. -/
def mapVAtoPA (va : Nat) : Nat :=
  ((va % 4294967296) &&& 0x000fffff) ||| 0xa9000000

/-- `VirtQueue_kick`, lines 170-183. The mailbox is the list of `(procId, payload)`
pairs passed to `InterruptM3_intSend`, oldest first. -/
def VirtQueue_kick (b : Build) (vq : VirtQueue_Object) (mbox : List (Nat × Nat)) :
    List (Nat × Nat) :=
  if vq.vring.avail.flags &&& b.VRING_AVAIL_F_NO_INTERRUPT ≠ 0 then mbox
  else mbox ++ [(vq.procId, vq.id)]

/-- `VirtQueue_addUsedBuf`, lines 188-211. `head` is the `Int16` argument; in the
comparison with the unsigned `vring.num` it is converted to `unsigned int`; past
the test it is not negative, so that its conversion to the 32-bit `id` keeps it. -/
def VirtQueue_addUsedBuf (b : Build) (vq : VirtQueue_Object) (head : Int) :
    Result VirtQueue_Object Int :=
  if (head % 4294967296).toNat > vq.vring.num ∨ head < 0 then
    .raised vq
  else
    let slot := vq.vring.used.idx % vq.vring.num
    let elem : vring_used_elem := { id := head.toNat, len := b.RP_MSG_BUF_SIZE }
    .ret 0 { vq with
      vring := { vq.vring with
        used := { vq.vring.used with
          ring := Function.update vq.vring.used.ring slot elem
          idx := (vq.vring.used.idx + 1) % 65536 } } }

/-- `VirtQueue_addAvailBuf`, lines 216-236. -/
def VirtQueue_addAvailBuf (b : Build) (vq : VirtQueue_Object) (buf : Nat) :
    Result VirtQueue_Object Int :=
  if vq.num_free = 0 then
    .raised vq
  else
    let num_free := vq.num_free - 1
    let avail := vq.vring.avail.idx % vq.vring.num
    let d : vring_desc :=
      { vq.vring.desc avail with addr := mapVAtoPA buf, len := b.RP_MSG_BUF_SIZE }
    .ret (num_free : Int) { vq with
      num_free := num_free
      vring := { vq.vring with
        avail := { vq.vring.avail with idx := (vq.vring.avail.idx + 1) % 65536 }
        desc := Function.update vq.vring.desc avail d } }

/-- `VirtQueue_getUsedBuf`, lines 241-262. The result is the returned pointer
(`NULL` is `0`) and the updated object. -/
def VirtQueue_getUsedBuf (b : Build) (vq : VirtQueue_Object) : Nat × VirtQueue_Object :=
  if vq.last_used_idx = vq.vring.used.idx then
    (0, vq)
  else
    let head := (vq.vring.used.ring (vq.last_used_idx % vq.vring.num)).id % 65536
    (mapPAtoVA (vq.vring.desc head).addr,
      { vq with
        last_used_idx := (vq.last_used_idx + 1) % 65536
        num_free := (vq.num_free + 1) % b.NUM_FREE_MOD })

/-- The statement `vq->vring.used->flags &= ~VRING_USED_F_NO_NOTIFY` on the 16-bit field. -/
def clearNoNotify (b : Build) (vq : VirtQueue_Object) : VirtQueue_Object :=
  { vq with
    vring := { vq.vring with
      used := { vq.vring.used with
        flags := vq.vring.used.flags &&& (65535 - b.VRING_USED_F_NO_NOTIFY % 65536) } } }

/-- The statement `vq->vring.used->flags |= VRING_USED_F_NO_NOTIFY` on the 16-bit field. -/
def setNoNotify (b : Build) (vq : VirtQueue_Object) : VirtQueue_Object :=
  { vq with
    vring := { vq.vring with
      used := { vq.vring.used with
        flags := (vq.vring.used.flags ||| b.VRING_USED_F_NO_NOTIFY) % 65536 } } }

/-- Lines 291-308 of `VirtQueue_getAvailBuf`: the part after the emptiness test. -/
def getAvailBuf_take (b : Build) (vq : VirtQueue_Object) : Int × Nat × VirtQueue_Object :=
  let vq1 := if b.VirtQueue_isHost vq then setNoNotify b vq else vq
  let head :=
    if b.APPM3_IS_HOST then vq1.last_avail_idx % vq1.vring.num
    else vq1.vring.avail.ring (vq1.last_avail_idx % vq1.vring.num)
  let vq2 := { vq1 with last_avail_idx := (vq1.last_avail_idx + 1) % 65536 }
  (toInt16 head, mapPAtoVA (vq2.vring.desc head).addr, vq2)

/-- `VirtQueue_getAvailBuf`, lines 267-309. `buf` is the value of `*buf` at entry;
the result is the returned `Int16`, the value of `*buf` at exit and the updated
object. -/
def VirtQueue_getAvailBuf (b : Build) (vq : VirtQueue_Object) (buf : Nat) :
    Int × Nat × VirtQueue_Object :=
  if vq.last_avail_idx = vq.vring.avail.idx then
    if b.VirtQueue_isHost vq then
      let vq1 := clearNoNotify b vq
      if vq1.last_avail_idx = vq1.vring.avail.idx then (-1, buf, vq1)
      else getAvailBuf_take b vq1
    else (-1, buf, vq)
  else getAvailBuf_take b vq

/-! ## Producer and consumer on one ring -/

/-- The producer calls `VirtQueue_addAvailBuf` once for each buffer of the list, in
order (as the priming loop of `TransportVirtio_Instance_init` does). -/
def addAvailBufs (b : Build) : VirtQueue_Object → List Nat → Result VirtQueue_Object Unit
  | vq, [] => .ret () vq
  | vq, buf :: rest =>
    match VirtQueue_addAvailBuf b vq buf with
    | .ret _ vq1 => addAvailBufs b vq1 rest
    | .raised s => .raised s

/-- The consumer calls `VirtQueue_getAvailBuf` `k` times in a row with the same
pointer variable; the list holds, for each call, the returned token and the value
of `*buf` after it. -/
def getAvailBufs (b : Build) : Nat → VirtQueue_Object → Nat → List (Int × Nat) × VirtQueue_Object
  | 0, vq, _ => ([], vq)
  | k + 1, vq, buf =>
    let r := VirtQueue_getAvailBuf b vq buf
    let rest := getAvailBufs b k r.2.2 r.2.1
    ((r.1, r.2.1) :: rest.1, rest.2)

/-- The VirtQueue whose local fields are those of `vq` and whose ring pointers
designate shared memory with the contents `r`. -/
def onRing (vq : VirtQueue_Object) (r : vring) : VirtQueue_Object :=
  { vq with vring := r }

/-- The descriptor index that `VirtQueue_getAvailBuf` takes when its cursor is `j`
(lines 300-304). -/
def headAt (b : Build) (r : vring) (j : Nat) : Nat :=
  if b.APPM3_IS_HOST then j % r.num else r.avail.ring (j % r.num)

/-- A ring of `n` elements at the given indices, every shared word zero: the memory
that the host leaves after `memset` in `VirtQueue_startup`. -/
def zeroRing (n : Nat) : vring :=
  { num := n
    desc := fun _ => { addr := 0, len := 0, flags := 0, next := 0 }
    avail := { flags := 0, idx := 0, ring := fun _ => 0 }
    used := { flags := 0, idx := 0, ring := fun _ => { id := 0, len := 0 } } }

/-- The reference build: 256 buffers of 512 bytes, ring memory at `0xA0000000`,
the virtio flag masks, a 16-bit `num_free`, and the role read off the parity of the
queue id. The macro `APPM3_IS_HOST` is not defined, as in `VirtQueue.c`. -/
def refBuild : Build :=
  { APPM3_IS_HOST := false
    RP_MSG_NUM_BUFS := 256
    RP_MSG_BUF_SIZE := 512
    IPU_MEM_VRING0 := 0xA0000000
    VRING_USED_F_NO_NOTIFY := 1
    VRING_AVAIL_F_NO_INTERRUPT := 1
    NUM_FREE_MOD := 65536
    VirtQueue_isHost := fun vq => vq.id % 2 == 0
    VirtQueue_isSlave := fun vq => vq.id % 2 == 1 }

/-- A VirtQueue as `VirtQueue_create` leaves it, on a zeroed ring of `n` elements. -/
def freshVq (id n : Nat) : VirtQueue_Object :=
  { id := id
    callback := .callback_availBufReady
    vring := zeroRing n
    num_free := n
    last_avail_idx := 0
    last_used_idx := 0
    procId := 0
    arg := 0 }

/-- A queue of `n` elements whose ring holds one available entry, the descriptor
index `h` in slot 0, with `desc[h].addr = pa`. -/
def oneAvailVq (id n h pa : Nat) : VirtQueue_Object :=
  { freshVq id n with
    vring := { zeroRing n with
      desc := Function.update (zeroRing n).desc h { addr := pa, len := 512, flags := 0, next := 0 }
      avail := { flags := 0, idx := 1, ring := Function.update (fun _ => 0) 0 h } } }

/-- The state that `VirtQueue_addAvailBuf` leaves when it returns. -/
def addAvailBuf_post (b : Build) (vq : VirtQueue_Object) (buf : Nat) : VirtQueue_Object :=
  (VirtQueue_addAvailBuf b vq buf).state

/-! ## `TransportVirtio.c` -/

/-- A ring buffer seen through `RpMsg_Header *`: the five header fields (16 bytes)
and the payload bytes that follow, by offset. -/
structure RpMsg_Header where
  srcAddr : Nat
  dstAddr : Nat
  reserved : Nat
  dataLen : Nat
  flags : Nat
  payload : Nat → Nat

/-- `sizeof(RpMsg_Header)`: three 32-bit and two 16-bit fields, then the flexible
array. -/
def sizeof_RpMsg_Header : Nat := 16

/-- `MAX_PAYLOAD`, line 113, in the unsigned arithmetic of `size_t` (32 bits). -/
def MAX_PAYLOAD (b : Build) : Nat :=
  (b.RP_MSG_BUF_SIZE + 4294967296 - sizeof_RpMsg_Header) % 4294967296

/-- `RPMSG_MESSAGEQ_PORT`, line 116. -/
def RPMSG_MESSAGEQ_PORT : Nat := 61

/-- `NAMESERVICE_PORT`, line 191. -/
def NAMESERVICE_PORT : Nat := 53

/-- The MessageQ facility, an external collaborator. A message is the image of its
bytes in memory, by offset from its address; the accessors read its header.
`alloc heapId size` tells whether `MessageQ_alloc` returns a message. -/
structure MessageQ where
  getMsgSize : (Nat → Nat) → Nat
  heapId : (Nat → Nat) → Nat
  getDstQueue : (Nat → Nat) → Nat
  STATICMSG : Nat
  alloc : Nat → Nat → Bool

/-- The instance state `TransportVirtio_Object`; the two VirtQueues are held with
the contents of their rings. -/
structure TransportVirtio_Object where
  priority : Nat
  remoteProcId : Nat
  isHost : Bool
  vq_host : VirtQueue_Object
  vq_slave : VirtQueue_Object
  sbufs : Nat
  last_sbuf : Nat

/-- One processor running the transport.

* `pool`: the shared buffer memory, by virtual address of the buffer. It is held
  apart from the contents of the rings, which lie in the two `VirtQueue_Object`s;
  `Processor` holds rings and buffers in one memory.
* `mbox`: the `InterruptM3_intSend (procId, payload)` calls made, oldest first.
* `inbox`: the `MessageQ_put (queueId, buf)` calls made, oldest first, `buf` being
  the bytes of the newly allocated copy.
* `freed`: the number of `MessageQ_free` calls made. -/
structure Machine where
  obj : TransportVirtio_Object
  pool : Nat → RpMsg_Header
  mbox : List (Nat × Nat)
  inbox : List (Nat × List Nat)
  freed : Nat

/-- `getTxBuf`, lines 157-174. The result is the buffer pointer, the updated
instance and the updated VirtQueue that `vq` points to. -/
def getTxBuf (b : Build) (obj : TransportVirtio_Object) (vq : VirtQueue_Object) :
    Nat × TransportVirtio_Object × VirtQueue_Object :=
  if obj.last_sbuf < b.RP_MSG_NUM_BUFS then
    ((obj.sbufs + b.RP_MSG_BUF_SIZE * obj.last_sbuf) % 4294967296,
      { obj with last_sbuf := obj.last_sbuf + 1 }, vq)
  else
    let r := VirtQueue_getUsedBuf b vq
    (r.1, obj, r.2)

/-- Lines 405-412 of `TransportVirtio_put`: acquiring the tx buffer. The result is
`rp_msg`, `token` and the updated instance. -/
def put_acquire (b : Build) (obj : TransportVirtio_Object) : Nat × Int × TransportVirtio_Object :=
  if obj.isHost then
    let r := getTxBuf b obj obj.vq_slave
    (r.1, -1, { r.2.1 with vq_slave := r.2.2 })
  else
    let r := VirtQueue_getAvailBuf b obj.vq_host 0
    (r.2.1, r.1, { obj with vq_host := r.2.2 })

/-- Lines 421-430 of `TransportVirtio_put`: `memcpy` of `msgSize` bytes of the message
into the payload, then the five header stores (`BIND_IMPLEMENTED` is not defined). -/
def put_fill (old : RpMsg_Header) (msg : Nat → Nat) (msgSize : Nat) : RpMsg_Header :=
  { payload := fun i => if i < msgSize then msg i else old.payload i
    dataLen := msgSize % 65536
    dstAddr := 1024
    srcAddr := RPMSG_MESSAGEQ_PORT
    flags := 0
    reserved := 0 }

/-- `TransportVirtio_put`, lines 393-460, the stores into the buffer going to
`Machine.pool`. `TransportVirtio_put_mem` has them in the memory of the rings; the
two agree on the returned value, on the fatal outcomes and on the local fields
(`put_mem_agrees`). -/
def TransportVirtio_put (b : Build) (q : MessageQ) (m : Machine) (msg : Nat → Nat) :
    Result Machine Bool :=
  let a := put_acquire b m.obj
  let rp_msg := a.1
  let token := a.2.1
  let obj := a.2.2
  if (obj.isHost = true ∧ rp_msg ≠ 0) ∨ token ≥ 0 then
    let msgSize := q.getMsgSize msg
    if ¬ msgSize ≤ MAX_PAYLOAD b then
      .raised { m with obj := obj }
    else
      let pool := Function.update m.pool rp_msg (put_fill (m.pool rp_msg) msg msgSize)
      let freed := if q.heapId msg ≠ q.STATICMSG then m.freed + 1 else m.freed
      if obj.isHost then
        match VirtQueue_addAvailBuf b obj.vq_slave rp_msg with
        | .raised vq =>
          .raised { m with obj := { obj with vq_slave := vq }, pool := pool, freed := freed }
        | .ret _ vq =>
          .ret true { m with
            obj := { obj with vq_slave := vq }, pool := pool, freed := freed
            mbox := VirtQueue_kick b vq m.mbox }
      else
        match VirtQueue_addUsedBuf b obj.vq_host token with
        | .raised vq =>
          .raised { m with obj := { obj with vq_host := vq }, pool := pool, freed := freed }
        | .ret _ vq =>
          .ret true { m with
            obj := { obj with vq_host := vq }, pool := pool, freed := freed
            mbox := VirtQueue_kick b vq m.mbox }
  else
    .ret false { m with obj := obj }

/-- The locals of `TransportVirtio_swiFxn` that live across loop iterations. -/
structure SwiLocals where
  rp_msg : Nat
  token : Int
  buf_avail : Bool
  bufAdded : Bool

/-- Lines 509-516 and 567-574 of `TransportVirtio_swiFxn`: taking the next buffer. -/
def swiFxn_next (b : Build) (m : Machine) (l : SwiLocals) : Machine × SwiLocals :=
  if m.obj.isHost then
    let r := VirtQueue_getUsedBuf b m.obj.vq_host
    ({ m with obj := { m.obj with vq_host := r.2 } },
      { l with rp_msg := r.1, buf_avail := decide (r.1 ≠ 0) })
  else
    let r := VirtQueue_getAvailBuf b m.obj.vq_slave l.rp_msg
    ({ m with obj := { m.obj with vq_slave := r.2.2 } },
      { l with rp_msg := r.2.1, token := r.1, buf_avail := decide (r.1 ≥ 0) })

/-- Lines 525-555 of `TransportVirtio_swiFxn`: a buffer whose `dstAddr` is not the
MessageQ port is skipped (the name-service branch only logs); otherwise the
payload is copied into a newly allocated message, which is passed to
`MessageQ_put`. -/
def swiFxn_deliver (q : MessageQ) (m : Machine) (rp_msg : Nat) : Result Machine Unit :=
  if (m.pool rp_msg).dstAddr ≠ RPMSG_MESSAGEQ_PORT then
    .ret () m
  else
    let msg := (m.pool rp_msg).payload
    let msgSize := q.getMsgSize msg
    if q.alloc (q.heapId msg) msgSize = false then
      .raised m
    else
      let buf := (List.range msgSize).map msg
      let queueId := q.getDstQueue msg
      .ret () { m with inbox := m.inbox ++ [(queueId, buf)] }

/-- Lines 557-564 of `TransportVirtio_swiFxn`: returning the ring slot. -/
def swiFxn_giveBack (b : Build) (m : Machine) (l : SwiLocals) : Result Machine Unit :=
  if m.obj.isHost then
    match VirtQueue_addAvailBuf b m.obj.vq_host l.rp_msg with
    | .raised vq => .raised { m with obj := { m.obj with vq_host := vq } }
    | .ret _ vq => .ret () { m with obj := { m.obj with vq_host := vq } }
  else
    match VirtQueue_addUsedBuf b m.obj.vq_slave l.token with
    | .raised vq => .raised { m with obj := { m.obj with vq_slave := vq } }
    | .ret _ vq => .ret () { m with obj := { m.obj with vq_slave := vq } }

/-- The `while (buf_avail)` loop of `TransportVirtio_swiFxn`, lines 518-575, run for
at most `fuel` iterations; `none` when the fuel does not suffice. -/
def swiFxn_loop (b : Build) (q : MessageQ) :
    Nat → Machine → SwiLocals → Option (Result Machine SwiLocals)
  | 0, m, l => if l.buf_avail then none else some (.ret l m)
  | fuel + 1, m, l =>
    if l.buf_avail then
      match swiFxn_deliver q m l.rp_msg with
      | .raised s => some (.raised s)
      | .ret _ m1 =>
        match swiFxn_giveBack b m1 l with
        | .raised s => some (.raised s)
        | .ret _ m2 =>
          let n := swiFxn_next b m2 { l with bufAdded := true }
          swiFxn_loop b q fuel n.1 n.2
    else some (.ret l m)

/-- `TransportVirtio_swiFxn`, lines 491-582. The cursors are 16-bit, so that no
drain of an unchanging ring takes `65536` iterations. -/
def TransportVirtio_swiFxn (b : Build) (q : MessageQ) (m : Machine) :
    Option (Result Machine Unit) :=
  let n := swiFxn_next b m { rp_msg := 0, token := 0, buf_avail := false, bufAdded := false }
  match swiFxn_loop b q 65536 n.1 n.2 with
  | none => none
  | some (.raised s) => some (.raised s)
  | some (.ret l m1) =>
    if l.bufAdded then
      some (.ret () { m1 with
        mbox := VirtQueue_kick b (if m1.obj.isHost then m1.obj.vq_host else m1.obj.vq_slave)
          m1.mbox })
    else some (.ret () m1)

/-- `VirtQueue_create`, lines 465-517, without the registry store: the object
for the queue number `numQueues` (shifted by 2 on CORE1 in the default build),
whose ring is the shared memory `shared id` seen with `RP_MSG_NUM_BUFS` elements. -/
def VirtQueue_create (b : Build) (numQueues : Nat) (onAppM3 : Bool) (shared : Nat → vring)
    (callback : VirtQueue_callback) (remoteProcId arg : Nat) : VirtQueue_Object :=
  let id := if b.APPM3_IS_HOST = false ∧ onAppM3 = true then numQueues + 2 else numQueues
  { id := id
    callback := callback
    procId := remoteProcId
    last_avail_idx := 0
    last_used_idx := 0
    num_free := b.RP_MSG_NUM_BUFS
    arg := arg
    vring := { shared id with num := b.RP_MSG_NUM_BUFS } }

/-- The addresses of the receive half of the pool, as the priming loop of
`TransportVirtio_Instance_init` computes them (line 336). -/
def recvBufs (b : Build) : List Nat :=
  (List.range b.RP_MSG_NUM_BUFS).map
    (fun i => (b.IPU_MEM_VRING0 + i * b.RP_MSG_BUF_SIZE) % 4294967296)

/-- Lines 328-339 of `TransportVirtio_Instance_init`, the host-role part: the send
half of the pool, its cursor, the priming of `vq_host` and the kick. -/
def Instance_init_host (b : Build) (m : Machine) : Result Machine Unit :=
  let obj := { m.obj with
    sbufs := (b.IPU_MEM_VRING0 + b.RP_MSG_NUM_BUFS * b.RP_MSG_BUF_SIZE) % 4294967296
    last_sbuf := 0 }
  match addAvailBufs b obj.vq_host (recvBufs b) with
  | .raised vq => .raised { m with obj := { obj with vq_host := vq } }
  | .ret _ vq =>
    .ret () { m with obj := { obj with vq_host := vq }, mbox := VirtQueue_kick b vq m.mbox }

/-- The instance that lines 273-326 of `TransportVirtio_Instance_init` leave on a
processor in the given role, the two queues created in the order `vq_host`,
`vq_slave` from the queue count `numQueues` over the shared memory `shared`. -/
def createdObj (b : Build) (isHost onAppM3 : Bool) (numQueues : Nat) (shared : Nat → vring)
    (remoteProcId priority swi : Nat) : TransportVirtio_Object :=
  let cb : VirtQueue_callback :=
    if isHost then .callback_usedBufReady else .callback_availBufReady
  { priority := priority
    remoteProcId := remoteProcId
    isHost := isHost
    vq_host := VirtQueue_create b numQueues onAppM3 shared cb remoteProcId swi
    vq_slave := VirtQueue_create b (numQueues + 1) onAppM3 shared cb remoteProcId swi
    sbufs := 0
    last_sbuf := 0 }

/-- The view that a processor has after its peer ran: its own local fields, and
the shared memory (both rings and the buffer pool) as the peer left it. -/
def peerView (own peer : Machine) : Machine :=
  { own with
    pool := peer.pool
    obj := { own.obj with
      vq_host := { own.obj.vq_host with vring := peer.obj.vq_host.vring }
      vq_slave := { own.obj.vq_slave with vring := peer.obj.vq_slave.vring } } }

/-! ## Reference instances -/

/-- A MessageQ whose accessors read the little-endian header fields at the offsets
of the `MessageQ_MsgHeader` of TI IPC (`msgSize` at 8, `dstId` at 16, `dstProc` at
18, `heapId` at 26), and whose heaps never run out. -/
def refMessageQ : MessageQ :=
  { getMsgSize := fun m => m 8 + 256 * m 9 + 65536 * m 10 + 16777216 * m 11
    heapId := fun m => m 26 + 256 * m 27
    getDstQueue := fun m => (m 18 + 256 * m 19) * 65536 + (m 16 + 256 * m 17)
    STATICMSG := 0xFFFF
    alloc := fun _ _ => true }

/-- Buffer memory after the `memset` of `VirtQueue_startup`. -/
def zeroPool : Nat → RpMsg_Header :=
  fun _ => { srcAddr := 0, dstAddr := 0, reserved := 0, dataLen := 0, flags := 0,
             payload := fun _ => 0 }

/-- A processor after lines 273-326 of `TransportVirtio_Instance_init` in the given
role: both queues created (ids 0 and 1) over zeroed shared memory, nothing sent. -/
def bootMachine (b : Build) (isHost : Bool) : Machine :=
  { obj := createdObj b isHost false 0 (fun _ => zeroRing b.RP_MSG_NUM_BUFS) 0 0 0
    pool := zeroPool
    mbox := []
    inbox := []
    freed := 0 }

/-- A host-role processor after `TransportVirtio_Instance_init`. -/
def hostBoot (b : Build) : Machine :=
  (Instance_init_host b (bootMachine b true)).state

/-- A 64-byte message with `msgId = 1` (offset 14), heap 0, destination queue 0. -/
def testMsg : Nat → Nat :=
  fun i => if i = 8 then 64 else if i = 14 then 1 else 0

/-- Successive `TransportVirtio_put` calls, one per message of the list, with
nothing else running in between; the results are collected, and a raised error
ends the run. -/
def putAll (b : Build) (q : MessageQ) : Machine → List (Nat → Nat) → Result Machine (List Bool)
  | m, [] => .ret [] m
  | m, msg :: rest =>
    match TransportVirtio_put b q m msg with
    | .raised s => .raised s
    | .ret r m1 =>
      match putAll b q m1 rest with
      | .raised s => .raised s
      | .ret rs m2 => .ret (r :: rs) m2

/-- The address that `getTxBuf` computes for the unused tx buffer number `i` of a
host initialised by `TransportVirtio_Instance_init` (lines 167 and 330). -/
def sendBuf (b : Build) (i : Nat) : Nat :=
  ((b.IPU_MEM_VRING0 + b.RP_MSG_NUM_BUFS * b.RP_MSG_BUF_SIZE) % 4294967296
    + b.RP_MSG_BUF_SIZE * i) % 4294967296

/-- The state of a host-role transport that has sent the messages `msgs 0`, ...,
`msgs (n - 1)` from unused tx buffers while its peer consumed nothing. -/
def SentFresh (b : Build) (q : MessageQ) (msgs : Nat → Nat → Nat) (n : Nat) (m : Machine) :
    Prop :=
  m.obj.isHost = true ∧ m.obj.last_sbuf = n ∧
  m.obj.sbufs = (b.IPU_MEM_VRING0 + b.RP_MSG_NUM_BUFS * b.RP_MSG_BUF_SIZE) % 4294967296 ∧
  m.obj.vq_slave.num_free = b.RP_MSG_NUM_BUFS - n ∧
  m.obj.vq_slave.vring.avail.idx = n ∧
  m.obj.vq_slave.vring.num = b.RP_MSG_NUM_BUFS ∧
  m.obj.vq_slave.last_used_idx = m.obj.vq_slave.vring.used.idx ∧
  (∀ i, i < n → (m.obj.vq_slave.vring.desc i).addr = mapVAtoPA (sendBuf b i)) ∧
  (∀ i, i < n → ∀ j, j < q.getMsgSize (msgs i) →
    (m.pool (sendBuf b i)).payload j = msgs i j)

/-- `NUM_QUEUES`, `VirtQueue.c` line 85. -/
def NUM_QUEUES : Nat := 5

/-- `RP_MSG_MBOX_READY`, line 112, as the `UInt` that the dispatcher compares with. -/
def RP_MSG_MBOX_READY : Nat := 0xFFFFFF00

/-- `RP_MSG_MBOX_STATE_CHANGE`, line 113. -/
def RP_MSG_MBOX_STATE_CHANGE : Nat := 0xFFFFFF01

/-- `RP_MSG_MBOX_CRASH`, line 114. -/
def RP_MSG_MBOX_CRASH : Nat := 0xFFFFFF02

/-- `RP_MBOX_ECHO_REQUEST`, line 115. -/
def RP_MBOX_ECHO_REQUEST : Nat := 0xFFFFFF03

/-- `RP_MBOX_ECHO_REPLY`, line 116. -/
def RP_MBOX_ECHO_REPLY : Nat := 0xFFFFFF04

/-- `RP_MBOX_ABORT_REQUEST`, line 117. -/
def RP_MBOX_ABORT_REQUEST : Nat := 0xFFFFFF05

/-- `RP_MSG_FLUSH_CACHE`, line 118. -/
def RP_MSG_FLUSH_CACHE : Nat := 0xFFFFFF06

/-- `RP_MSG_HIBERNATION`, line 119. -/
def RP_MSG_HIBERNATION : Nat := 0xFFFFFF07

/-- `ID_APPM3_TO_A9`, line 142. -/
def ID_APPM3_TO_A9 : Nat := 2

/-- `ID_A9_TO_APPM3`, line 143. -/
def ID_A9_TO_APPM3 : Nat := 3

/-- The processor ids that the dispatcher compares: the value of `MultiProc_self()`
and the statics `hostProcId`, `dspProcId`, `sysm3ProcId` (CORE0) and `appm3ProcId`
(CORE1) of lines 148-151. -/
structure ProcIds where
  self : Nat
  hostProcId : Nat
  dspProcId : Nat
  sysm3ProcId : Nat
  appm3ProcId : Nat

/-- What one run of the dispatcher does, in program order.

* `intSend procId payload`: a call of `InterruptM3_intSend`.
* `registryRead i`: the load of `queueRegistry[i]`.
* `callback id cb`: the call `vq->callback(vq)` on the registered queue with that
  id and upcall.
* `crashOnDemand`: the call through the null function pointer (lines 418-420).
* `cacheWbAll`, `powerSuspend`: calls of `Cache_wbAll` and `IpcPower_suspend`.
* `setSynced`: the store `synced = 1` (build with `APPM3_IS_HOST`). -/
inductive IsrEvent where
  | intSend (procId payload : Nat)
  | registryRead (index : Nat)
  | callback (id : Nat) (cb : VirtQueue_callback)
  | crashOnDemand
  | cacheWbAll
  | powerSuspend
  | setSynced
deriving DecidableEq, Repr

/-- Lines 454-457 (and 389-392): `vq = queueRegistry[msg]; if (vq) vq->callback(vq)`.
The registry is a map from the index to the registered queue, `none` for `NULL`;
an index past `NUM_QUEUES` reads the memory behind the array. -/
def isr_lookup (registry : Nat → Option VirtQueue_Object) (msg : Nat) : List IsrEvent :=
  .registryRead msg ::
    (match registry msg with
     | some vq => [.callback vq.id vq.callback]
     | none => [])

/-- Lines 449-458 of the default-build dispatcher: on CORE0 the ids of the CORE1
queues are forwarded to CORE1, every other value indexes the registry. -/
def isr_route (p : ProcIds) (registry : Nat → Option VirtQueue_Object) (msg : Nat) :
    List IsrEvent :=
  if p.self = p.sysm3ProcId ∧ (msg = ID_A9_TO_APPM3 ∨ msg = ID_APPM3_TO_A9) then
    [.intSend p.appm3ProcId msg]
  else isr_lookup registry msg

/-- `VirtQueue_isr`, lines 401-459 (default build) and 336-393 (build with
`APPM3_IS_HOST`). `msg` is the 32-bit mailbox word. -/
def VirtQueue_isr (b : Build) (p : ProcIds) (registry : Nat → Option VirtQueue_Object)
    (msg : Nat) : List IsrEvent :=
  if b.APPM3_IS_HOST then
    if p.self = p.sysm3ProcId then
      if msg = RP_MSG_MBOX_READY then []
      else if msg = RP_MBOX_ECHO_REQUEST then
        [.intSend p.appm3ProcId RP_MBOX_ECHO_REPLY, .setSynced]
      else if msg = RP_MBOX_ABORT_REQUEST then [.crashOnDemand]
      else if msg = RP_MSG_FLUSH_CACHE then [.cacheWbAll]
      else if msg = RP_MSG_HIBERNATION then
        [.intSend p.appm3ProcId RP_MSG_HIBERNATION, .powerSuspend]
      else isr_lookup registry msg
    else if msg &&& 0xFFFF0000 ≠ 0 then
      (if msg = RP_MSG_HIBERNATION then [.powerSuspend] else []) ++
      (if p.self = p.appm3ProcId ∧ msg = RP_MBOX_ECHO_REPLY then [.setSynced] else [])
    else isr_lookup registry msg
  else
    if p.self = p.sysm3ProcId then
      if msg = RP_MSG_MBOX_READY then []
      else if msg = RP_MBOX_ECHO_REQUEST then [.intSend p.hostProcId RP_MBOX_ECHO_REPLY]
      else if msg = RP_MBOX_ABORT_REQUEST then [.crashOnDemand]
      else if msg = RP_MSG_FLUSH_CACHE then [.cacheWbAll]
      else if msg = RP_MSG_HIBERNATION then
        [.intSend p.appm3ProcId RP_MSG_HIBERNATION, .powerSuspend]
      else isr_route p registry msg
    else if msg &&& 0xFFFF0000 ≠ 0 then
      (if msg = RP_MSG_HIBERNATION then [.powerSuspend] else [])
    else isr_route p registry msg

/-- Processor ids of a system with HOST = 0, CORE0 = 1, CORE1 = 2, DSP = 3, seen from
the processor `self`. -/
def refProcs (self : Nat) : ProcIds :=
  { self := self, hostProcId := 0, dspProcId := 3, sysm3ProcId := 1, appm3ProcId := 2 }

/-- A registry holding the two queues of a slave-role transport at indices 0 and 1. -/
def refRegistry : Nat → Option VirtQueue_Object :=
  fun i => if i = 0 then some (bootMachine refBuild false).obj.vq_host
    else if i = 1 then some (bootMachine refBuild false).obj.vq_slave
    else none

/-! ## `sendRpmsg` -/

/-- `RPMSG_NAME_SIZE`, `TransportVirtio.c` line 180. -/
def RPMSG_NAME_SIZE : Nat := 32

/-- The C library `strncpy (dst, src, n)` on a string given by its characters: the
characters before the first NUL, at most `n` of them, then NUL bytes up to `n`. -/
def strncpy (src : List Nat) (n : Nat) : List Nat :=
  (src.takeWhile (fun c => c != 0)).take n ++
    List.replicate (n - (src.takeWhile (fun c => c != 0)).length) 0

/-- The four bytes of a 32-bit word in memory, least significant first. -/
def le32 (x : Nat) : List Nat :=
  [x % 256, x / 256 % 256, x / 65536 % 256, x / 16777216 % 256]

/-- The 40 bytes of the `struct rpmsg_ns_msg` that lines 217-219 fill:
`name[32]`, `addr`, `flags`. -/
def rpmsg_ns_msg (name : List Nat) (port flags : Nat) : List Nat :=
  strncpy name RPMSG_NAME_SIZE ++ le32 port ++ le32 flags

/-- Lines 229-234 of `sendRpmsg`: `memcpy` of the `len = sizeof(nsMsg) = 40` bytes
into the payload, then the five header stores. -/
def ns_fill (old : RpMsg_Header) (name : List Nat) (port flags : Nat) : RpMsg_Header :=
  { payload := fun i => if i < 40 then (rpmsg_ns_msg name port flags).getD i 0 else old.payload i
    dataLen := 40
    dstAddr := NAMESERVICE_PORT
    srcAddr := port
    flags := 0
    reserved := 0 }

/-- `sendRpmsg`, lines 205-245, the stores into the buffer going to `Machine.pool`
(`sendRpmsg_mem` has them in the memory of the rings; the two agree on the outcome
and on the local fields, `sendRpmsg_mem_agrees`). `dstProc` is
`MultiProc_getId("HOST")`, `self` is `MultiProc_self()`; the static `vq_host` is the
`vq_host` of the instance. The constructor `raised` stands for `System_abort` as
well as for a raised error. -/
def sendRpmsg (b : Build) (dstProc self : Nat) (m : Machine) (name : List Nat)
    (port flags : Nat) : Result Machine Unit :=
  if dstProc ≠ self then
    let r := VirtQueue_getAvailBuf b m.obj.vq_host 0
    let token := r.1
    let msg := r.2.1
    if token ≥ 0 then
      let pool := Function.update m.pool msg (ns_fill (m.pool msg) name port flags)
      match VirtQueue_addUsedBuf b r.2.2 token with
      | .raised vq => .raised { m with obj := { m.obj with vq_host := vq }, pool := pool }
      | .ret _ vq =>
        .ret () { m with
          obj := { m.obj with vq_host := vq }, pool := pool
          mbox := VirtQueue_kick b vq m.mbox }
    else
      .raised { m with obj := { m.obj with vq_host := r.2.2 } }
  else
    .ret () m

/-- A slave-role processor of the reference build whose host-direction ring holds
one available entry, descriptor 7, designating the buffer at `0xA0000E00`. -/
def slaveOneAvail : Machine :=
  { bootMachine refBuild false with
    obj := { (bootMachine refBuild false).obj with vq_host := oneAvailVq 0 256 7 0xA9000E00 } }

/-- The slave of the reference build after its host sent `testMsg` addressed, as the
Linux host does, to the MessageQ port: one buffer is available on the receive ring
and carries `dstAddr = 61`, `srcAddr = 1024`. -/
def slaveInbound : Machine :=
  { peerView (bootMachine refBuild false)
      (TransportVirtio_put refBuild refMessageQ (hostBoot refBuild) testMsg).state with
    pool := Function.update
      (TransportVirtio_put refBuild refMessageQ (hostBoot refBuild) testMsg).state.pool
      0xA0020000
      { (TransportVirtio_put refBuild refMessageQ (hostBoot refBuild) testMsg).state.pool
          0xA0020000 with
        dstAddr := RPMSG_MESSAGEQ_PORT, srcAddr := 1024 } }

/-! ## Vocabulary for the receive drain -/

/-- The number of buffers waiting on the receive queue: `used.idx - last_used_idx`
modulo `2^16` on `vq_host` in host role, `avail.idx - last_avail_idx` modulo `2^16`
on `vq_slave` in slave role. -/
def drainPending (m : Machine) : Nat :=
  if m.obj.isHost then
    (m.obj.vq_host.vring.used.idx + 65536 - m.obj.vq_host.last_used_idx) % 65536
  else
    (m.obj.vq_slave.vring.avail.idx + 65536 - m.obj.vq_slave.last_avail_idx) % 65536

/-- The index through which the drain returns slots: `avail.idx` of `vq_host` in
host role, `used.idx` of `vq_slave` in slave role. -/
def drainReturned (m : Machine) : Nat :=
  if m.obj.isHost then m.obj.vq_host.vring.avail.idx else m.obj.vq_slave.vring.used.idx

/-- The index that the peer advances: `used.idx` of `vq_host` in host role,
`avail.idx` of `vq_slave` in slave role. -/
def drainIndex (m : Machine) : Nat :=
  if m.obj.isHost then m.obj.vq_host.vring.used.idx else m.obj.vq_slave.vring.avail.idx

/-- The local cursor of the drain: `last_used_idx` of `vq_host` in host role,
`last_avail_idx` of `vq_slave` in slave role. -/
def drainCursor (m : Machine) : Nat :=
  if m.obj.isHost then m.obj.vq_host.last_used_idx else m.obj.vq_slave.last_avail_idx

/-- A state in which the drain reaches neither `Error_raise` nor a failing assertion:
`MessageQ_alloc` succeeds for every buffer addressed to the MessageQ port; the
16-bit indices and cursors of the receive queue are in range; in host role
`num_free` is below the largest value of its type; in slave role the ring has at
most `32768` elements and every entry the consumer can take is a valid descriptor
index. -/
def DrainReady (b : Build) (q : MessageQ) (m : Machine) : Prop :=
  (∀ p, (m.pool p).dstAddr = RPMSG_MESSAGEQ_PORT →
    q.alloc (q.heapId (m.pool p).payload) (q.getMsgSize (m.pool p).payload) = true) ∧
  (m.obj.isHost = true →
    m.obj.vq_host.last_used_idx < 65536 ∧ m.obj.vq_host.vring.used.idx < 65536 ∧
    m.obj.vq_host.vring.avail.idx < 65536 ∧
    m.obj.vq_host.num_free + 1 < b.NUM_FREE_MOD) ∧
  (m.obj.isHost = false →
    m.obj.vq_slave.last_avail_idx < 65536 ∧ m.obj.vq_slave.vring.avail.idx < 65536 ∧
    m.obj.vq_slave.vring.used.idx < 65536 ∧
    m.obj.vq_slave.vring.num ≤ 32768 ∧
    ∀ j, headAt b m.obj.vq_slave.vring j < m.obj.vq_slave.vring.num)

/-- The locals of `TransportVirtio_swiFxn` at entry (`bufAdded = FALSE`,
`buf_avail = FALSE`; `rp_msg` and `token` are not initialised). -/
def swiEntry : SwiLocals :=
  { rp_msg := 0, token := 0, buf_avail := false, bufAdded := false }

/-! ## Fixtures for the index wrap-around -/

/-- A queue of 256 elements of the reference build whose four 16-bit indices and
cursors stand at `65535`, with descriptor 7 designating the buffer at `0xA0000E00`
and all 256 descriptors free. -/
def wrapVq : VirtQueue_Object :=
  { freshVq 1 256 with
    last_avail_idx := 65535
    last_used_idx := 65535
    vring := { zeroRing 256 with
      desc := Function.update (zeroRing 256).desc 7 { addr := 0xA9000E00, len := 512, flags := 0, next := 0 }
      avail := { flags := 0, idx := 65535, ring := fun _ => 0 }
      used := { flags := 0, idx := 65535, ring := fun _ => { id := 0, len := 0 } } } }

/-! ## `VirtQueue_create` with the registry, `VirtQueue_startup` -/

/-- The statics `numQueues` and `queueRegistry` of `VirtQueue.c`, lines 145-146;
`none` is a `NULL` entry. -/
structure Registry where
  numQueues : Nat
  queueRegistry : Nat → Option VirtQueue_Object

/-- `VirtQueue_create`, lines 465-517, with its effect on the statics. `allocOk`
tells whether `Memory_alloc` returns a block (otherwise the function returns `NULL`
before touching anything); `p.self` is `MultiProc_self()` and `p.appm3ProcId` the
static set by `VirtQueue_startup`. The store `queueRegistry[vq->id] = vq` is an
update of the map at `vq->id`, also past `NUM_QUEUES`. -/
def VirtQueue_create_call (b : Build) (p : ProcIds) (shared : Nat → vring) (allocOk : Bool)
    (st : Registry) (callback : VirtQueue_callback) (remoteProcId arg : Nat) :
    Option VirtQueue_Object × Registry :=
  if allocOk = false then (none, st)
  else
    let vq := VirtQueue_create b st.numQueues (decide (p.self = p.appm3ProcId)) shared
      callback remoteProcId arg
    (some vq,
      { numQueues := (st.numQueues + 1) % 4294967296
        queueRegistry := Function.update st.queueRegistry vq.id (some vq) })

/-- Line 282 of `TransportVirtio_Instance_init`: the role of the local processor,
`MultiProc_self() == CORE1 || MultiProc_self() == HOST`. -/
def Instance_init_isHost (p : ProcIds) : Bool :=
  decide (p.self = p.appm3ProcId) || decide (p.self = p.hostProcId)

/-- Lines 308-322 of `TransportVirtio_Instance_init`: the choice of the callback and
the two `VirtQueue_create` calls, `vq_host` first. The result is `obj->vq_host`,
`obj->vq_slave` and the statics. -/
def Instance_init_queues (b : Build) (p : ProcIds) (shared : Nat → vring)
    (allocOk1 allocOk2 : Bool) (st : Registry) (remoteProcId swiHandle : Nat) :
    Option VirtQueue_Object × Option VirtQueue_Object × Registry :=
  let callback : VirtQueue_callback :=
    if Instance_init_isHost p then .callback_usedBufReady else .callback_availBufReady
  let r1 := VirtQueue_create_call b p shared allocOk1 st callback remoteProcId swiHandle
  let r2 := VirtQueue_create_call b p shared allocOk2 r1.2 callback remoteProcId swiHandle
  (r1.1, r2.1, r2.2)

/-- The statics at program start: `numQueues = 0`, the registry all `NULL`. -/
def emptyRegistry : Registry :=
  { numQueues := 0, queueRegistry := fun _ => none }

/-- The reference build with the macro `APPM3_IS_HOST` defined. -/
def appm3Build : Build :=
  { refBuild with APPM3_IS_HOST := true }

/-- What `VirtQueue_startup` does, in program order.

* `ipcPowerInit`: the call of `IpcPower_init`.
* `memset addr len`: the zeroing of `len` bytes at `addr`.
* `intRegister`: the call `InterruptM3_intRegister (VirtQueue_isr)`.
* `intSend procId payload`: a call of `InterruptM3_intSend`.
* `readSynced v`: one evaluation of the loop condition `!synced`, the flag being
  read as `v` (build with `APPM3_IS_HOST`). -/
inductive StartupEvent where
  | ipcPowerInit
  | memset (addr len : Nat)
  | intRegister
  | intSend (procId payload : Nat)
  | readSynced (value : Bool)
deriving DecidableEq, Repr

/-- `DIV_ROUND_UP`, `VirtQueue.c` line 122. -/
def DIV_ROUND_UP (n d : Nat) : Nat := (n + d - 1) / d

/-- `PAGE_SIZE`, line 125. -/
def PAGE_SIZE : Nat := 4096

/-- `RP_MSG_VRING_ALIGN`, line 131. -/
def RP_MSG_VRING_ALIGN : Nat := 4096

/-- `RP_MSG_BUFS_SPACE`, line 123. -/
def RP_MSG_BUFS_SPACE (b : Build) : Nat :=
  b.RP_MSG_NUM_BUFS * b.RP_MSG_BUF_SIZE * 2

/-- `RP_MSG_RING_SIZE`, lines 134-135. The function `vring_size` of
`virtio_ring.h` is not among the sources and is a parameter. -/
def RP_MSG_RING_SIZE (b : Build) (vring_size : Nat → Nat → Nat) : Nat :=
  DIV_ROUND_UP (vring_size b.RP_MSG_NUM_BUFS RP_MSG_VRING_ALIGN) PAGE_SIZE * PAGE_SIZE

/-- Lines 524-553 of `VirtQueue_startup`: everything before the busy wait. The
processor ids `p` are the values that `MultiProc_self` and `MultiProc_getId` return
for `HOST`, `DSP`, `CORE0` and `CORE1`, which lines 524-527 store in the statics. -/
def startup_events (b : Build) (vring_size : Nat → Nat → Nat) (p : ProcIds) (isHost : Bool) :
    List StartupEvent :=
  [.ipcPowerInit] ++
  (if isHost then
    [.memset b.IPU_MEM_VRING0 (RP_MSG_RING_SIZE b vring_size * 2 + RP_MSG_BUFS_SPACE b)]
   else []) ++
  (if p.self = p.appm3ProcId then [.intRegister]
   else if p.self = p.sysm3ProcId then [.intRegister]
   else if p.self = p.dspProcId then [.intRegister]
   else []) ++
  (if isHost then
    [.intSend p.sysm3ProcId RP_MSG_MBOX_READY, .intSend p.sysm3ProcId RP_MBOX_ECHO_REQUEST]
   else [])

/-- The busy wait `while (!synced);` of line 557, for at most `fuel` evaluations of
the condition. `synced k` is the value of the flag at the evaluation number `k`
(the flag is written by the interrupt handler, which preempts the loop); `none`
when the fuel does not suffice. -/
def startup_wait (synced : Nat → Bool) : Nat → Nat → Option (List StartupEvent)
  | 0, _ => none
  | fuel + 1, k =>
    if synced k then some [.readSynced true]
    else (startup_wait synced fuel (k + 1)).map (fun es => .readSynced false :: es)

/-- `VirtQueue_startup`, lines 522-559: the events of the call when it returns,
`none` when the busy wait does not end within `fuel` evaluations. -/
def VirtQueue_startup (b : Build) (vring_size : Nat → Nat → Nat) (p : ProcIds)
    (synced : Nat → Bool) (fuel : Nat) (isHost : Bool) : Option (List StartupEvent) :=
  if b.APPM3_IS_HOST then
    (startup_wait synced fuel 0).map (fun es => startup_events b vring_size p isHost ++ es)
  else some (startup_events b vring_size p isHost)

/-- The value of the static `synced` (initially 0) after the dispatcher handled the
mailbox words `msgs`: the only store to it is `synced = 1` in `VirtQueue_isr`. -/
def syncedAfter (b : Build) (p : ProcIds) (registry : Nat → Option VirtQueue_Object)
    (msgs : List Nat) : Bool :=
  msgs.any (fun msg => decide (IsrEvent.setSynced ∈ VirtQueue_isr b p registry msg))

/-- The `InterruptM3_intSend` calls among the events, in order. -/
def startup_sends : List StartupEvent → List (Nat × Nat)
  | [] => []
  | .intSend procId payload :: es => (procId, payload) :: startup_sends es
  | _ :: es => startup_sends es

/-! ## The stores of the two producer functions, in program order -/

/-- A store of `VirtQueue_addAvailBuf` or `VirtQueue_addUsedBuf`, with the value
stored: into `vq->num_free`, `avail->idx`, `desc[slot].addr`, `desc[slot].len`,
`used->ring[slot].id`, `used->ring[slot].len`, `used->idx`. -/
inductive Store where
  | num_free (v : Nat)
  | avail_idx (v : Nat)
  | desc_addr (slot v : Nat)
  | desc_len (slot v : Nat)
  | used_id (slot v : Nat)
  | used_len (slot v : Nat)
  | used_idx (v : Nat)
deriving DecidableEq, Repr

/-- The effect of one store on the queue and its ring. -/
def Store.apply (vq : VirtQueue_Object) : Store → VirtQueue_Object
  | .num_free v => { vq with num_free := v }
  | .avail_idx v => { vq with vring := { vq.vring with avail := { vq.vring.avail with idx := v } } }
  | .desc_addr slot v =>
    { vq with vring := { vq.vring with
        desc := Function.update vq.vring.desc slot { vq.vring.desc slot with addr := v } } }
  | .desc_len slot v =>
    { vq with vring := { vq.vring with
        desc := Function.update vq.vring.desc slot { vq.vring.desc slot with len := v } } }
  | .used_id slot v =>
    { vq with vring := { vq.vring with used := { vq.vring.used with
        ring := Function.update vq.vring.used.ring slot { vq.vring.used.ring slot with id := v } } } }
  | .used_len slot v =>
    { vq with vring := { vq.vring with used := { vq.vring.used with
        ring := Function.update vq.vring.used.ring slot { vq.vring.used.ring slot with len := v } } } }
  | .used_idx v => { vq with vring := { vq.vring with used := { vq.vring.used with idx := v } } }

/-- The stores of `VirtQueue_addAvailBuf` in program order: line 228
(`vq->num_free--`), line 230 (`avail = vq->vring.avail->idx++ % vq->vring.num`, whose
post-increment stores `avail->idx`), line 232 (`desc[avail].addr`), line 233
(`desc[avail].len`). None when the function raises the error. -/
def VirtQueue_addAvailBuf_stores (b : Build) (vq : VirtQueue_Object) (buf : Nat) : List Store :=
  if vq.num_free = 0 then []
  else
    let avail := vq.vring.avail.idx % vq.vring.num
    [ .num_free (vq.num_free - 1),
      .avail_idx ((vq.vring.avail.idx + 1) % 65536),
      .desc_addr avail (mapVAtoPA buf),
      .desc_len avail b.RP_MSG_BUF_SIZE ]

/-- The stores of `VirtQueue_addUsedBuf` in program order: line 205 (`used->id`),
line 206 (`used->len`), line 208 (`vq->vring.used->idx++`). None when the function
raises the error. -/
def VirtQueue_addUsedBuf_stores (b : Build) (vq : VirtQueue_Object) (head : Int) : List Store :=
  if (head % 4294967296).toNat > vq.vring.num ∨ head < 0 then []
  else
    let slot := vq.vring.used.idx % vq.vring.num
    [ .used_id slot head.toNat,
      .used_len slot b.RP_MSG_BUF_SIZE,
      .used_idx ((vq.vring.used.idx + 1) % 65536) ]

/-- The queue after the first `k` stores of the list. -/
def afterStores (vq : VirtQueue_Object) (stores : List Store) (k : Nat) : VirtQueue_Object :=
  (stores.take k).foldl Store.apply vq

/-! ## Addresses of the buffer pool and of the rings -/

/-- The local `buf_addr` of `TransportVirtio_Instance_init`, line 269:
`Ptr buf_addr = (Ptr)IPU_MEM_VRING0`. -/
def buf_addr (b : Build) : Nat := b.IPU_MEM_VRING0

/-- The address of the receive buffer number `i`, as the priming loop passes it to
`VirtQueue_addAvailBuf` (line 336): `(Char *)buf_addr + i * RP_MSG_BUF_SIZE`. -/
def recvBuf (b : Build) (i : Nat) : Nat :=
  (buf_addr b + i * b.RP_MSG_BUF_SIZE) % 4294967296

/-- The local `vring_phys` of `VirtQueue_create` after the `switch` of lines 493-506;
`none` when no case assigns it. `others 1`, `others 2` and `others 3` stand for the
constants `IPU_MEM_VRING1`, `IPU_MEM_VRING2` and `IPU_MEM_VRING3`, which the sources
do not define. -/
def vring_phys (b : Build) (others : Nat → Nat) (id : Nat) : Option Nat :=
  if id = 0 then some b.IPU_MEM_VRING0
  else if id = 1 then some (others 1)
  else if id = 2 then some (others 2)
  else if id = 3 then some (others 3)
  else none

/-- Whether the byte ranges `[a1, a1 + l1)` and `[a2, a2 + l2)` have a byte in common. -/
def overlap (a1 l1 a2 l2 : Nat) : Prop :=
  ∃ x, (a1 ≤ x ∧ x < a1 + l1) ∧ (a2 ≤ x ∧ x < a2 + l2)

/-! ## A producer and its peer on one ring -/

/-- What happens to a queue between two observations: a call of
`VirtQueue_addAvailBuf`, a call of `VirtQueue_getUsedBuf`, or the peer returning
`k` buffers (it advances `used.idx` by `k` and leaves the used ring `ring`). -/
inductive ProducerStep where
  | addAvailBuf (buf : Nat)
  | getUsedBuf
  | peerUsed (k : Nat) (ring : Nat → vring_used_elem)

/-- The number of returned buffers that the producer has not reclaimed yet:
`used.idx - last_used_idx` modulo `2^16`. -/
def usedPending (vq : VirtQueue_Object) : Nat :=
  (vq.vring.used.idx + 65536 - vq.last_used_idx) % 65536

/-- One step on the queue. -/
def producerStep (b : Build) (vq : VirtQueue_Object) : ProducerStep → Result VirtQueue_Object Unit
  | .addAvailBuf buf =>
    match VirtQueue_addAvailBuf b vq buf with
    | .ret _ vq1 => .ret () vq1
    | .raised s => .raised s
  | .getUsedBuf => .ret () (VirtQueue_getUsedBuf b vq).2
  | .peerUsed k ring =>
    .ret () { vq with
      vring := { vq.vring with
        used := { vq.vring.used with idx := (vq.vring.used.idx + k) % 65536, ring := ring } } }

/-- The steps of the list in order; a raised error ends the run. -/
def producerRun (b : Build) : VirtQueue_Object → List ProducerStep → Result VirtQueue_Object Unit
  | vq, [] => .ret () vq
  | vq, s :: rest =>
    match producerStep b vq s with
    | .ret _ vq1 => producerRun b vq1 rest
    | .raised s => .raised s

/-- The peer returns only buffers that it was given and has not returned yet: at
each of its steps `k` is at most the number `N - num_free - usedPending` of the
buffers it holds. -/
def PeerHonest (b : Build) : VirtQueue_Object → List ProducerStep → Bool
  | _, [] => true
  | vq, s :: rest =>
    (match s with
     | .peerUsed k _ => decide (usedPending vq + k + vq.num_free ≤ vq.vring.num)
     | _ => true) &&
    (match producerStep b vq s with
     | .ret _ vq1 => PeerHonest b vq1 rest
     | .raised _ => true)

/-! ## `VirtQueue_cacheWb` -/

/-- `CACHE_WB_TICK_PERIOD`, `VirtQueue.c` line 571. -/
def CACHE_WB_TICK_PERIOD : Nat := 5

/-- `VirtQueue_cacheWb`, lines 578-589. `oldticks` is the value of the function's
static `UInt32` at entry, `ticks` the value that `Clock_getTicks ()` returns; the sum
is taken in `UInt32`. The result is the number of `Cache_wbAll` calls made and the
value of `oldticks` at exit (the function has no store to it). -/
def VirtQueue_cacheWb (oldticks ticks : Nat) : Nat × Nat :=
  if ticks ≥ (oldticks + CACHE_WB_TICK_PERIOD) % 4294967296 then (0, oldticks)
  else (1, oldticks)

/-- Successive calls of `VirtQueue_cacheWb`, one per clock value of the list: the
number of `Cache_wbAll` calls of each, and `oldticks` at the end. -/
def cacheWb_calls : Nat → List Nat → List Nat × Nat
  | oldticks, [] => ([], oldticks)
  | oldticks, t :: ts =>
    ((VirtQueue_cacheWb oldticks t).1 :: (cacheWb_calls (VirtQueue_cacheWb oldticks t).2 ts).1,
      (cacheWb_calls (VirtQueue_cacheWb oldticks t).2 ts).2)

/-! ## Ring layout -/

/-- Modelled from the spec: rounding `x` up to a multiple of `a`, the `align_up` of
the ring layout (section 4.B). The header `virtio_ring.h`, which holds the layout
functions, is not among the sources. -/
def align_up (x a : Nat) : Nat := (x + a - 1) / a * a

/-- Modelled from the spec: offset of the available ring from the ring base,
`align_up (N * sizeof (desc_elem), align)` with a descriptor of 16 bytes (section
4.B; `virtio_ring.h` is not among the sources). -/
def vring_avail_offset (num align : Nat) : Nat := align_up (num * 16) align

/-- Modelled from the spec: offset of the used ring from the ring base,
`align_up (avail + sizeof (avail_header) + N * 2 + 2, align)` with an available
header of 4 bytes (section 4.B; `virtio_ring.h` is not among the sources). -/
def vring_used_offset (num align : Nat) : Nat :=
  align_up (vring_avail_offset num align + 4 + num * 2 + 2) align

/-- Modelled from the spec: `vring_size` of `virtio_ring.h`, which is not among the
sources: `used + sizeof (used_header) + N * sizeof (used_elem) + 2` with a used
header of 4 bytes and a used element of 8 bytes (section 4.B), before the rounding
to the page size that `RP_MSG_RING_SIZE` does. -/
def vring_size (num align : Nat) : Nat :=
  vring_used_offset num align + 4 + num * 8 + 2

/-! ## Successive `VirtQueue_create` calls -/

/-- `n` successive `VirtQueue_create` calls with the same arguments, every
`Memory_alloc` succeeding: the indices of the `queueRegistry` stores, in order, and
the statics at the end. -/
def createSeq (b : Build) (p : ProcIds) (shared : Nat → vring) (callback : VirtQueue_callback)
    (remoteProcId arg : Nat) : Nat → Registry → List Nat × Registry
  | 0, st => ([], st)
  | n + 1, st =>
    let r := VirtQueue_create_call b p shared true st callback remoteProcId arg
    let rest := createSeq b p shared callback remoteProcId arg n r.2
    ((match r.1 with
      | some vq => vq.id
      | none => 0) :: rest.1, rest.2)

/-- The indices of the `queueRegistry` loads among the events of a dispatcher run. -/
def registryReads : List IsrEvent → List Nat
  | [] => []
  | .registryRead i :: es => i :: registryReads es
  | _ :: es => registryReads es

/-! ## Fixtures for the copy out of a ring buffer -/

/-- The bytes of a MessageQ message whose header says `msgSize = 1000` (bytes 8 and 9
are `0xE8`, `0x03`), heap 0, destination queue 0. -/
def oversizeMsg : Nat → Nat :=
  fun i => if i = 8 then 232 else if i = 9 then 3 else 0

/-- A slave of the reference build whose receive ring holds one available entry,
descriptor 7, designating the buffer at `0xA0000E00`; the peer has written into that
buffer the header `dstAddr = 61`, `srcAddr = 1024`, `dataLen = 64` and the payload
`oversizeMsg`. -/
def slaveOversize : Machine :=
  { bootMachine refBuild false with
    obj := { (bootMachine refBuild false).obj with vq_slave := oneAvailVq 1 256 7 0xA9000E00 }
    pool := Function.update zeroPool 0xA0000E00
      { srcAddr := 1024, dstAddr := RPMSG_MESSAGEQ_PORT, reserved := 0, dataLen := 64,
        flags := 0, payload := oversizeMsg } }

/-- The lengths of the messages handed to `MessageQ_put`, oldest first. -/
def deliveredSizes (r : Option (Result Machine Unit)) : Option (List Nat) :=
  r.map (fun x => x.state.inbox.map (fun e => e.2.length))

/-! ## A host-role transport and an arbitrary peer -/

/-- What happens to a host-role transport between two observations: a
`TransportVirtio_put`, a `TransportVirtio_swiFxn`, or the peer writing the shared
memory: the contents of both rings (descriptors, available and used parts) and of
the buffer pool are replaced by arbitrary ones. -/
inductive HostStep where
  | put (msg : Nat → Nat)
  | swi
  | peer (host_ring slave_ring : vring) (pool : Nat → RpMsg_Header)

/-- The processor after the peer wrote the shared memory: its local fields (among
them the element count `num` of each `struct vring`) are its own. -/
def peerWrites (m : Machine) (host_ring slave_ring : vring) (pool : Nat → RpMsg_Header) :
    Machine :=
  { m with
    pool := pool
    obj := { m.obj with
      vq_host := { m.obj.vq_host with
        vring := { host_ring with num := m.obj.vq_host.vring.num } }
      vq_slave := { m.obj.vq_slave with
        vring := { slave_ring with num := m.obj.vq_slave.vring.num } } } }

/-- One step; `none` when the operation ends in a fatal error (or the drain runs out
of fuel). -/
def hostStep (b : Build) (q : MessageQ) (m : Machine) : HostStep → Option Machine
  | .put msg =>
    match TransportVirtio_put b q m msg with
    | .ret _ m1 => some m1
    | .raised _ => none
  | .swi =>
    match TransportVirtio_swiFxn b q m with
    | some (.ret _ m1) => some m1
    | _ => none
  | .peer host_ring slave_ring pool => some (peerWrites m host_ring slave_ring pool)

/-- The steps of the list, one after the other. -/
def hostRun (b : Build) (q : MessageQ) : Machine → List HostStep → Option Machine
  | m, [] => some m
  | m, x :: rest =>
    match hostStep b q m x with
    | some m1 => hostRun b q m1 rest
    | none => none

/-- What the free-descriptor counts of a host-role transport satisfy between
operations: the receive queue has none free (all its descriptors are primed), the
send queue has at most `N` free and at least one for each unused tx buffer. -/
def hostSafe (b : Build) (m : Machine) : Prop :=
  m.obj.isHost = true ∧ m.obj.vq_host.num_free = 0 ∧
  m.obj.vq_slave.num_free ≤ b.RP_MSG_NUM_BUFS ∧
  b.RP_MSG_NUM_BUFS ≤ m.obj.vq_slave.num_free + m.obj.last_sbuf

/-- A run of a host-role transport of the reference build: a send, the peer
replacing the shared memory (three returned entries with the id 9 on the receive
ring, one on the send ring), a drain, a second send and a second drain. -/
def hostScenario : List HostStep :=
  [ .put testMsg,
    .peer { zeroRing 256 with used := { flags := 0, idx := 3, ring := fun _ => { id := 9, len := 512 } } }
      { zeroRing 256 with used := { flags := 0, idx := 1, ring := fun _ => { id := 0, len := 512 } } }
      zeroPool,
    .swi, .put testMsg, .swi ]

/-! ## Rings and buffers in one byte-addressed memory

The definitions above keep the contents of a ring inside its `VirtQueue_Object` and
the buffers in `Machine.pool`, apart from each other. The definitions of this part
run the same source functions on one memory of bytes in which rings and buffers lie
at their addresses, so that a store into a buffer that overlies a ring changes the
ring: `TransportVirtio_Instance_init` hands out receive buffers that start at
`IPU_MEM_VRING0`, the base of the ring of the queue with id 0. Addresses are natural
numbers; the rings and buffers of the sources lie below `2^32`, where the pointer
arithmetic of the functions does not wrap. -/

/-- Little-endian load of `n` bytes at the address `a` of the memory `mem` (the
byte at each address). -/
def loadLE (mem : Nat → Nat) (a : Nat) : Nat → Nat
  | 0 => 0
  | n + 1 => mem a % 256 + 256 * loadLE mem (a + 1) n

/-- Little-endian store of the low `n` bytes of `v` at the address `a`. -/
def storeLE (mem : Nat → Nat) (a n v : Nat) : Nat → Nat :=
  fun x => if a ≤ x ∧ x < a + n then v / 256 ^ (x - a) % 256 else mem x

/-- The C library `memcpy (a, src, n)` into shared memory, `src` being the bytes of
the source by offset. -/
def memcpy (mem : Nat → Nat) (a : Nat) (src : Nat → Nat) (n : Nat) : Nat → Nat :=
  fun x => if a ≤ x ∧ x < a + n then src (x - a) % 256 else mem x

/-- Modelled from the spec: the `struct vring` of `virtio_ring.h`, which is not
among the sources: the element count and the addresses of the descriptor table, of
the available ring and of the used ring (section 3). -/
structure vring_ptr where
  num : Nat
  desc : Nat
  avail : Nat
  used : Nat

/-- Modelled from the spec: `vring_init` of `virtio_ring.h`, which is not among the
sources, by the layout of section 4.B: `desc = base`,
`avail = align_up (base + N * sizeof (desc_elem), align)`,
`used = align_up (avail + sizeof (avail_header) + N * 2 + 2, align)`, with a
descriptor of 16 bytes and an available header of 4 bytes. -/
def vring_init (num p align : Nat) : vring_ptr :=
  { num := num
    desc := p
    avail := align_up (p + num * 16) align
    used := align_up (align_up (p + num * 16) align + 4 + num * 2 + 2) align }

/-- Modelled from the spec: the contents of the ring that the pointers `r`
designate, decoded field by field with the widths of section 3 (`virtio_ring.h` is
not among the sources): a descriptor is `{ addr: 64-bit, len: 32-bit, flags: 16-bit,
next: 16-bit }`, the available ring a header `{ flags: 16-bit, idx: 16-bit }` and
16-bit entries, the used ring a header `{ flags: 16-bit, idx: 16-bit }` and elements
`{ id: 32-bit, len: 32-bit }`, all little-endian. -/
def vring_at (mem : Nat → Nat) (r : vring_ptr) : vring :=
  { num := r.num
    desc := fun i =>
      { addr := loadLE mem (r.desc + 16 * i) 8
        len := loadLE mem (r.desc + 16 * i + 8) 4
        flags := loadLE mem (r.desc + 16 * i + 12) 2
        next := loadLE mem (r.desc + 16 * i + 14) 2 }
    avail :=
      { flags := loadLE mem r.avail 2
        idx := loadLE mem (r.avail + 2) 2
        ring := fun i => loadLE mem (r.avail + 4 + 2 * i) 2 }
    used :=
      { flags := loadLE mem r.used 2
        idx := loadLE mem (r.used + 2) 2
        ring := fun i =>
          { id := loadLE mem (r.used + 4 + 8 * i) 4
            len := loadLE mem (r.used + 4 + 8 * i + 4) 4 } } }

/-- The `VirtQueue_Object` as it lies in the private memory of its processor: the
local fields, and in `vring` the pointers into shared memory. -/
structure VirtQueue_Local where
  id : Nat
  callback : VirtQueue_callback
  vring : vring_ptr
  num_free : Nat
  last_avail_idx : Nat
  last_used_idx : Nat
  procId : Nat
  arg : Nat

/-- The queue together with the present contents of its ring. -/
def VirtQueue_Local.object (mem : Nat → Nat) (vq : VirtQueue_Local) : VirtQueue_Object :=
  { id := vq.id
    callback := vq.callback
    vring := vring_at mem vq.vring
    num_free := vq.num_free
    last_avail_idx := vq.last_avail_idx
    last_used_idx := vq.last_used_idx
    procId := vq.procId
    arg := vq.arg }

/-- `VirtQueue_kick`, lines 170-183, on shared memory. -/
def VirtQueue_kick_mem (b : Build) (mem : Nat → Nat) (vq : VirtQueue_Local)
    (mbox : List (Nat × Nat)) : List (Nat × Nat) :=
  if loadLE mem vq.vring.avail 2 &&& b.VRING_AVAIL_F_NO_INTERRUPT ≠ 0 then mbox
  else mbox ++ [(vq.procId, vq.id)]

/-- `VirtQueue_addUsedBuf`, lines 188-211, on shared memory: the stores `used->id`,
`used->len` into the element at `used.idx % num`, then `used->idx++`. The state is
the memory; the function writes no local field. -/
def VirtQueue_addUsedBuf_mem (b : Build) (mem : Nat → Nat) (vq : VirtQueue_Local) (head : Int) :
    Result (Nat → Nat) Int :=
  if (head % 4294967296).toNat > vq.vring.num ∨ head < 0 then
    .raised mem
  else
    let used := vq.vring.used + 4 + 8 * (loadLE mem (vq.vring.used + 2) 2 % vq.vring.num)
    let mem1 := storeLE mem used 4 head.toNat
    let mem2 := storeLE mem1 (used + 4) 4 b.RP_MSG_BUF_SIZE
    .ret 0 (storeLE mem2 (vq.vring.used + 2) 2 (loadLE mem2 (vq.vring.used + 2) 2 + 1))

/-- `VirtQueue_addAvailBuf`, lines 216-236, on shared memory: `vq->num_free--`, the
post-increment of `avail->idx`, then the stores `desc[avail].addr` and
`desc[avail].len`. -/
def VirtQueue_addAvailBuf_mem (b : Build) (mem : Nat → Nat) (vq : VirtQueue_Local) (buf : Nat) :
    Result ((Nat → Nat) × VirtQueue_Local) Int :=
  if vq.num_free = 0 then
    .raised (mem, vq)
  else
    let num_free := vq.num_free - 1
    let idx := loadLE mem (vq.vring.avail + 2) 2
    let mem1 := storeLE mem (vq.vring.avail + 2) 2 (idx + 1)
    let avail := idx % vq.vring.num
    let mem2 := storeLE mem1 (vq.vring.desc + 16 * avail) 8 (mapVAtoPA buf)
    let mem3 := storeLE mem2 (vq.vring.desc + 16 * avail + 8) 4 b.RP_MSG_BUF_SIZE
    .ret (num_free : Int) (mem3, { vq with num_free := num_free })

/-- `VirtQueue_getUsedBuf`, lines 241-262, on shared memory; it stores nothing
there. -/
def VirtQueue_getUsedBuf_mem (b : Build) (mem : Nat → Nat) (vq : VirtQueue_Local) :
    Nat × VirtQueue_Local :=
  if vq.last_used_idx = loadLE mem (vq.vring.used + 2) 2 then
    (0, vq)
  else
    let head :=
      loadLE mem (vq.vring.used + 4 + 8 * (vq.last_used_idx % vq.vring.num)) 4 % 65536
    (mapPAtoVA (loadLE mem (vq.vring.desc + 16 * head) 8),
      { vq with
        last_used_idx := (vq.last_used_idx + 1) % 65536
        num_free := (vq.num_free + 1) % b.NUM_FREE_MOD })

/-- Lines 291-308 of `VirtQueue_getAvailBuf` on shared memory: the part after the
emptiness test. The result is the token, the buffer pointer, the memory and the
queue. -/
def getAvailBuf_take_mem (b : Build) (mem : Nat → Nat) (vq : VirtQueue_Local) :
    Int × Nat × (Nat → Nat) × VirtQueue_Local :=
  let mem1 :=
    if b.VirtQueue_isHost (vq.object mem) then
      storeLE mem vq.vring.used 2 (loadLE mem vq.vring.used 2 ||| b.VRING_USED_F_NO_NOTIFY)
    else mem
  let head :=
    if b.APPM3_IS_HOST then vq.last_avail_idx % vq.vring.num
    else loadLE mem1 (vq.vring.avail + 4 + 2 * (vq.last_avail_idx % vq.vring.num)) 2
  (toInt16 head, mapPAtoVA (loadLE mem1 (vq.vring.desc + 16 * head) 8), mem1,
    { vq with last_avail_idx := (vq.last_avail_idx + 1) % 65536 })

/-- `VirtQueue_getAvailBuf`, lines 267-309, on shared memory. `buf` is the value of
`*buf` at entry. -/
def VirtQueue_getAvailBuf_mem (b : Build) (mem : Nat → Nat) (vq : VirtQueue_Local) (buf : Nat) :
    Int × Nat × (Nat → Nat) × VirtQueue_Local :=
  if vq.last_avail_idx = loadLE mem (vq.vring.avail + 2) 2 then
    if b.VirtQueue_isHost (vq.object mem) then
      let mem1 := storeLE mem vq.vring.used 2
        (loadLE mem vq.vring.used 2 &&& (65535 - b.VRING_USED_F_NO_NOTIFY % 65536))
      if vq.last_avail_idx = loadLE mem1 (vq.vring.avail + 2) 2 then (-1, buf, mem1, vq)
      else getAvailBuf_take_mem b mem1 vq
    else (-1, buf, mem, vq)
  else getAvailBuf_take_mem b mem vq

/-- The instance state `TransportVirtio_Object` in the private memory of its
processor. -/
structure TransportVirtio_Local where
  priority : Nat
  remoteProcId : Nat
  isHost : Bool
  vq_host : VirtQueue_Local
  vq_slave : VirtQueue_Local
  sbufs : Nat
  last_sbuf : Nat

/-- One processor running the transport, and the shared memory as it sees it: the
rings and the buffers lie in `mem`; `mbox`, `inbox` and `freed` are as in `Machine`. -/
structure Processor where
  mem : Nat → Nat
  obj : TransportVirtio_Local
  mbox : List (Nat × Nat)
  inbox : List (Nat × List Nat)
  freed : Nat

/-- `getTxBuf`, lines 157-174, on shared memory. -/
def getTxBuf_mem (b : Build) (mem : Nat → Nat) (obj : TransportVirtio_Local)
    (vq : VirtQueue_Local) : Nat × TransportVirtio_Local × VirtQueue_Local :=
  if obj.last_sbuf < b.RP_MSG_NUM_BUFS then
    ((obj.sbufs + b.RP_MSG_BUF_SIZE * obj.last_sbuf) % 4294967296,
      { obj with last_sbuf := obj.last_sbuf + 1 }, vq)
  else
    let r := VirtQueue_getUsedBuf_mem b mem vq
    (r.1, obj, r.2)

/-- Lines 421-430 of `TransportVirtio_put` on shared memory, in program order:
`memcpy` of `msgSize` bytes to `rp_msg->payload` (offset 16), then the stores
`dataLen` (16-bit, offset 12), `dstAddr` (offset 4), `srcAddr` (offset 0), `flags`
(16-bit, offset 14) and `reserved` (offset 8) of the `RpMsg_Header`. -/
def put_fill_mem (mem : Nat → Nat) (rp_msg : Nat) (msg : Nat → Nat) (msgSize : Nat) :
    Nat → Nat :=
  let mem1 := memcpy mem (rp_msg + 16) msg msgSize
  let mem2 := storeLE mem1 (rp_msg + 12) 2 msgSize
  let mem3 := storeLE mem2 (rp_msg + 4) 4 1024
  let mem4 := storeLE mem3 rp_msg 4 RPMSG_MESSAGEQ_PORT
  let mem5 := storeLE mem4 (rp_msg + 14) 2 0
  storeLE mem5 (rp_msg + 8) 4 0

/-- `TransportVirtio_put`, lines 393-460, on shared memory. -/
def TransportVirtio_put_mem (b : Build) (q : MessageQ) (s : Processor) (msg : Nat → Nat) :
    Result Processor Bool :=
  if s.obj.isHost then
    let a := getTxBuf_mem b s.mem s.obj s.obj.vq_slave
    let rp_msg := a.1
    let obj := { a.2.1 with vq_slave := a.2.2 }
    if rp_msg ≠ 0 then
      let msgSize := q.getMsgSize msg
      if ¬ msgSize ≤ MAX_PAYLOAD b then
        .raised { s with obj := obj }
      else
        let mem1 := put_fill_mem s.mem rp_msg msg msgSize
        let freed := if q.heapId msg ≠ q.STATICMSG then s.freed + 1 else s.freed
        match VirtQueue_addAvailBuf_mem b mem1 obj.vq_slave rp_msg with
        | .raised r =>
          .raised { s with mem := r.1, obj := { obj with vq_slave := r.2 }, freed := freed }
        | .ret _ r =>
          .ret true { s with
            mem := r.1, obj := { obj with vq_slave := r.2 }, freed := freed
            mbox := VirtQueue_kick_mem b r.1 r.2 s.mbox }
    else
      .ret false { s with obj := obj }
  else
    let a := VirtQueue_getAvailBuf_mem b s.mem s.obj.vq_host 0
    let token := a.1
    let rp_msg := a.2.1
    let obj := { s.obj with vq_host := a.2.2.2 }
    if token ≥ 0 then
      let msgSize := q.getMsgSize msg
      if ¬ msgSize ≤ MAX_PAYLOAD b then
        .raised { s with mem := a.2.2.1, obj := obj }
      else
        let mem1 := put_fill_mem a.2.2.1 rp_msg msg msgSize
        let freed := if q.heapId msg ≠ q.STATICMSG then s.freed + 1 else s.freed
        match VirtQueue_addUsedBuf_mem b mem1 obj.vq_host token with
        | .raised mem2 => .raised { s with mem := mem2, obj := obj, freed := freed }
        | .ret _ mem2 =>
          .ret true { s with
            mem := mem2, obj := obj, freed := freed
            mbox := VirtQueue_kick_mem b mem2 obj.vq_host s.mbox }
    else
      .ret false { s with mem := a.2.2.1, obj := obj }

/-- Lines 229-234 of `sendRpmsg` on shared memory, in program order: `memcpy` of the
40 bytes of `nsMsg` to `msg->payload`, then the stores `dataLen`, `dstAddr`,
`srcAddr`, `flags` and `reserved`. -/
def ns_fill_mem (mem : Nat → Nat) (msg : Nat) (name : List Nat) (port flags : Nat) :
    Nat → Nat :=
  let mem1 := memcpy mem (msg + 16) (fun i => (rpmsg_ns_msg name port flags).getD i 0) 40
  let mem2 := storeLE mem1 (msg + 12) 2 40
  let mem3 := storeLE mem2 (msg + 4) 4 NAMESERVICE_PORT
  let mem4 := storeLE mem3 msg 4 port
  let mem5 := storeLE mem4 (msg + 14) 2 0
  storeLE mem5 (msg + 8) 4 0

/-- `sendRpmsg`, lines 205-245, on shared memory. `dstProc` is
`MultiProc_getId("HOST")`, `self` is `MultiProc_self()`; the static `vq_host` is the
`vq_host` of the instance. The constructor `raised` stands for `System_abort` as
well as for a raised error. -/
def sendRpmsg_mem (b : Build) (dstProc self : Nat) (s : Processor) (name : List Nat)
    (port flags : Nat) : Result Processor Unit :=
  if dstProc ≠ self then
    let a := VirtQueue_getAvailBuf_mem b s.mem s.obj.vq_host 0
    let token := a.1
    let msg := a.2.1
    let obj := { s.obj with vq_host := a.2.2.2 }
    if token ≥ 0 then
      let mem1 := ns_fill_mem a.2.2.1 msg name port flags
      match VirtQueue_addUsedBuf_mem b mem1 obj.vq_host token with
      | .raised mem2 => .raised { s with mem := mem2, obj := obj }
      | .ret _ mem2 =>
        .ret () { s with
          mem := mem2, obj := obj
          mbox := VirtQueue_kick_mem b mem2 obj.vq_host s.mbox }
    else
      .raised { s with mem := a.2.2.1, obj := obj }
  else
    .ret () s

/-- Lines 509-516 and 567-574 of `TransportVirtio_swiFxn` on shared memory: taking
the next buffer. -/
def swiFxn_next_mem (b : Build) (s : Processor) (l : SwiLocals) : Processor × SwiLocals :=
  if s.obj.isHost then
    let r := VirtQueue_getUsedBuf_mem b s.mem s.obj.vq_host
    ({ s with obj := { s.obj with vq_host := r.2 } },
      { l with rp_msg := r.1, buf_avail := decide (r.1 ≠ 0) })
  else
    let r := VirtQueue_getAvailBuf_mem b s.mem s.obj.vq_slave l.rp_msg
    ({ s with mem := r.2.2.1, obj := { s.obj with vq_slave := r.2.2.2 } },
      { l with rp_msg := r.2.1, token := r.1, buf_avail := decide (r.1 ≥ 0) })

/-- Lines 525-555 of `TransportVirtio_swiFxn` on shared memory: `rp_msg->dstAddr` is
the 32-bit word at offset 4 of the buffer, the message the bytes from offset 16. -/
def swiFxn_deliver_mem (q : MessageQ) (s : Processor) (rp_msg : Nat) : Result Processor Unit :=
  if loadLE s.mem (rp_msg + 4) 4 ≠ RPMSG_MESSAGEQ_PORT then
    .ret () s
  else
    let msg := fun i => s.mem (rp_msg + 16 + i) % 256
    let msgSize := q.getMsgSize msg
    if q.alloc (q.heapId msg) msgSize = false then
      .raised s
    else
      let buf := (List.range msgSize).map msg
      let queueId := q.getDstQueue msg
      .ret () { s with inbox := s.inbox ++ [(queueId, buf)] }

/-- Lines 557-564 of `TransportVirtio_swiFxn` on shared memory: returning the ring
slot. -/
def swiFxn_giveBack_mem (b : Build) (s : Processor) (l : SwiLocals) : Result Processor Unit :=
  if s.obj.isHost then
    match VirtQueue_addAvailBuf_mem b s.mem s.obj.vq_host l.rp_msg with
    | .raised r => .raised { s with mem := r.1, obj := { s.obj with vq_host := r.2 } }
    | .ret _ r => .ret () { s with mem := r.1, obj := { s.obj with vq_host := r.2 } }
  else
    match VirtQueue_addUsedBuf_mem b s.mem s.obj.vq_slave l.token with
    | .raised mem1 => .raised { s with mem := mem1 }
    | .ret _ mem1 => .ret () { s with mem := mem1 }

/-- The `while (buf_avail)` loop of `TransportVirtio_swiFxn`, lines 518-575, on
shared memory, run for at most `fuel` iterations; `none` when the fuel does not
suffice. -/
def swiFxn_loop_mem (b : Build) (q : MessageQ) :
    Nat → Processor → SwiLocals → Option (Result Processor SwiLocals)
  | 0, s, l => if l.buf_avail then none else some (.ret l s)
  | fuel + 1, s, l =>
    if l.buf_avail then
      match swiFxn_deliver_mem q s l.rp_msg with
      | .raised s1 => some (.raised s1)
      | .ret _ s1 =>
        match swiFxn_giveBack_mem b s1 l with
        | .raised s2 => some (.raised s2)
        | .ret _ s2 =>
          let n := swiFxn_next_mem b s2 { l with bufAdded := true }
          swiFxn_loop_mem b q fuel n.1 n.2
    else some (.ret l s)

/-- `TransportVirtio_swiFxn`, lines 491-582, on shared memory, for at most `fuel`
iterations of its loop. -/
def TransportVirtio_swiFxn_mem (b : Build) (q : MessageQ) (fuel : Nat) (s : Processor) :
    Option (Result Processor Unit) :=
  let n := swiFxn_next_mem b s { rp_msg := 0, token := 0, buf_avail := false, bufAdded := false }
  match swiFxn_loop_mem b q fuel n.1 n.2 with
  | none => none
  | some (.raised s1) => some (.raised s1)
  | some (.ret l s1) =>
    if l.bufAdded then
      some (.ret () { s1 with
        mbox := VirtQueue_kick_mem b s1.mem
          (if s1.obj.isHost then s1.obj.vq_host else s1.obj.vq_slave) s1.mbox })
    else some (.ret () s1)

/-- The priming loop of `TransportVirtio_Instance_init`, lines 334-337, on shared
memory: one `VirtQueue_addAvailBuf` for each buffer of the list, in order. -/
def addAvailBufs_mem (b : Build) :
    (Nat → Nat) → VirtQueue_Local → List Nat → Result ((Nat → Nat) × VirtQueue_Local) Unit
  | mem, vq, [] => .ret () (mem, vq)
  | mem, vq, buf :: rest =>
    match VirtQueue_addAvailBuf_mem b mem vq buf with
    | .ret _ r => addAvailBufs_mem b r.1 r.2 rest
    | .raised r => .raised r

/-- Lines 328-339 of `TransportVirtio_Instance_init`, the host-role part, on shared
memory: the send half of the pool, its cursor, the priming of `vq_host` with the
buffers that start at `buf_addr = IPU_MEM_VRING0`, and the kick. -/
def Instance_init_host_mem (b : Build) (s : Processor) : Result Processor Unit :=
  let obj := { s.obj with
    sbufs := (b.IPU_MEM_VRING0 + b.RP_MSG_NUM_BUFS * b.RP_MSG_BUF_SIZE) % 4294967296
    last_sbuf := 0 }
  match addAvailBufs_mem b s.mem obj.vq_host (recvBufs b) with
  | .raised r => .raised { s with mem := r.1, obj := { obj with vq_host := r.2 } }
  | .ret _ r =>
    .ret () { s with
      mem := r.1, obj := { obj with vq_host := r.2 }
      mbox := VirtQueue_kick_mem b r.1 r.2 s.mbox }

/-- `VirtQueue_create`, lines 465-517, without the registry store, for the queue
number `numQueues` (shifted by 2 on CORE1 in the default build): the local object,
whose `struct vring` is the one that `vring_init` computes from the `vring_phys` of
the `switch` of lines 493-506. For an id outside the `switch` the local `vring_phys`
is not initialised; its value is then taken to be `others id`. -/
def VirtQueue_create_mem (b : Build) (others : Nat → Nat) (numQueues : Nat) (onAppM3 : Bool)
    (callback : VirtQueue_callback) (remoteProcId arg : Nat) : VirtQueue_Local :=
  let id := if b.APPM3_IS_HOST = false ∧ onAppM3 = true then numQueues + 2 else numQueues
  { id := id
    callback := callback
    procId := remoteProcId
    last_avail_idx := 0
    last_used_idx := 0
    num_free := b.RP_MSG_NUM_BUFS
    arg := arg
    vring := vring_init b.RP_MSG_NUM_BUFS ((vring_phys b others id).getD (others id))
      RP_MSG_VRING_ALIGN }

/-- The processor that lines 273-326 of `TransportVirtio_Instance_init` leave in the
given role over the shared memory `mem`, the two queues created in the order
`vq_host`, `vq_slave` from the queue count 0; `onAppM3` tells whether the processor
is CORE1. -/
def bootProcessor (b : Build) (others : Nat → Nat) (isHost onAppM3 : Bool) (mem : Nat → Nat) :
    Processor :=
  let cb : VirtQueue_callback :=
    if isHost then .callback_usedBufReady else .callback_availBufReady
  { mem := mem
    obj :=
      { priority := 0
        remoteProcId := 0
        isHost := isHost
        vq_host := VirtQueue_create_mem b others 0 onAppM3 cb 0 0
        vq_slave := VirtQueue_create_mem b others 1 onAppM3 cb 0 0
        sbufs := 0
        last_sbuf := 0 }
    mbox := []
    inbox := []
    freed := 0 }

/-- The ring addresses of the resource table `rsc_table_ipu.h` for the constants
that the sources do not define: `IPU_MEM_VRING1` at `RPMSG_VRING1_DA = 0xA0004000`
and, in the same step, the rings 2 and 3 at `0xA0008000` and `0xA000C000`. -/
def refOthers : Nat → Nat := fun i => 0xA0000000 + i * 0x4000

/-- Shared memory after the `memset` of `VirtQueue_startup`: every byte zero. -/
def zeroMem : Nat → Nat := fun _ => 0

/-! ## The two-sided system -/

/-- Two processors on the same shared memory: one runs the transport in host role,
the other in slave role. Each holds its local fields and the memory as it last saw
it. -/
structure Duo where
  host : Processor
  slave : Processor

/-- An operation of one of the two transports. -/
inductive DuoStep where
  | hostInit
  | hostPut (msg : Nat → Nat)
  | hostSwi
  | slavePut (msg : Nat → Nat)
  | slaveSwi
  | slaveAnnounce (dstProc self : Nat) (name : List Nat) (port flags : Nat)

/-- The processor `own` once its peer has run: its own local fields, and the shared
memory as the peer left it. -/
def sees (own peer : Processor) : Processor :=
  { own with mem := peer.mem }

/-- One operation, run to completion on its processor; the other processor then
sees the shared memory as the operation left it. `none` when the operation ends in
a fatal error (or, for the drain, runs out of fuel): the firmware is terminated. -/
def duoStep (b : Build) (q : MessageQ) (s : Duo) : DuoStep → Option Duo
  | .hostInit =>
    match Instance_init_host_mem b s.host with
    | .ret _ h => some { host := h, slave := sees s.slave h }
    | .raised _ => none
  | .hostPut msg =>
    match TransportVirtio_put_mem b q s.host msg with
    | .ret _ h => some { host := h, slave := sees s.slave h }
    | .raised _ => none
  | .hostSwi =>
    match TransportVirtio_swiFxn_mem b q 65536 s.host with
    | some (.ret _ h) => some { host := h, slave := sees s.slave h }
    | _ => none
  | .slavePut msg =>
    match TransportVirtio_put_mem b q s.slave msg with
    | .ret _ c => some { host := sees s.host c, slave := c }
    | .raised _ => none
  | .slaveSwi =>
    match TransportVirtio_swiFxn_mem b q 65536 s.slave with
    | some (.ret _ c) => some { host := sees s.host c, slave := c }
    | _ => none
  | .slaveAnnounce dstProc self name port flags =>
    match sendRpmsg_mem b dstProc self s.slave name port flags with
    | .ret _ c => some { host := sees s.host c, slave := c }
    | .raised _ => none

/-- The operations of the list, one after the other. -/
def duoRun (b : Build) (q : MessageQ) : Duo → List DuoStep → Option Duo
  | s, [] => some s
  | s, x :: rest =>
    match duoStep b q s x with
    | some s1 => duoRun b q s1 rest
    | none => none

/-- The system after `VirtQueue_startup` and the two `VirtQueue_create` calls on
each side: shared memory zeroed, the queues freshly created, nothing primed or
sent. The host is CORE1, the slave CORE0 (line 282 of `TransportVirtio.c`); in the
build with `APPM3_IS_HOST` both sides create the queues 0 and 1, on the same rings. -/
def duoFresh (b : Build) (others : Nat → Nat) : Duo :=
  { host := bootProcessor b others true true zeroMem
    slave := bootProcessor b others false false zeroMem }

/-- The number of available buffers that the consumer `vq` has not taken:
`avail.idx - last_avail_idx` modulo `2^16`. -/
def availBacklog (mem : Nat → Nat) (vq : VirtQueue_Local) : Nat :=
  (loadLE mem (vq.vring.avail + 2) 2 + 65536 - vq.last_avail_idx) % 65536

/-- The number of returned buffers that the producer `vq` has not reclaimed:
`used.idx - last_used_idx` modulo `2^16`. -/
def usedBacklog (mem : Nat → Nat) (vq : VirtQueue_Local) : Nat :=
  (loadLE mem (vq.vring.used + 2) 2 + 65536 - vq.last_used_idx) % 65536

/-- The bounds of the claim on both rings: the slave holds the consumer cursor
`last_avail_idx` of each ring, the host the producer cursor `last_used_idx`. -/
def ringBounds (b : Build) (s : Duo) : Prop :=
  availBacklog s.slave.mem s.slave.obj.vq_host ≤ b.RP_MSG_NUM_BUFS ∧
  usedBacklog s.host.mem s.host.obj.vq_host ≤ b.RP_MSG_NUM_BUFS ∧
  availBacklog s.slave.mem s.slave.obj.vq_slave ≤ b.RP_MSG_NUM_BUFS ∧
  usedBacklog s.host.mem s.host.obj.vq_slave ≤ b.RP_MSG_NUM_BUFS

/-! ## Fixtures for descriptor indices that are negative as `Int16`, and for shared memory -/

/-- A slave of the reference build whose receive ring holds two available entries:
the value `0xFFFF` in slot 0 and the descriptor index 7 in slot 1 (`avail.idx = 2`),
descriptor 7 designating the buffer at `0xA0000E00`. -/
def slaveBadEntry : Machine :=
  { bootMachine refBuild false with
    obj := { (bootMachine refBuild false).obj with
      vq_slave := { freshVq 1 256 with
        vring := { zeroRing 256 with
          desc := Function.update (zeroRing 256).desc 7
            { addr := 0xA9000E00, len := 512, flags := 0, next := 0 }
          avail := { flags := 0, idx := 2
                     ring := Function.update (Function.update (fun _ => 0) 0 0xFFFF) 1 7 } } } } }

/-- A slave of the reference build whose host-direction ring holds one available
entry, the value `0xFFFF` (`avail.idx = 1`). -/
def slaveNegToken : Machine :=
  { bootMachine refBuild false with
    obj := { (bootMachine refBuild false).obj with
      vq_host := { freshVq 0 256 with
        vring := { zeroRing 256 with
          avail := { flags := 0, idx := 1, ring := Function.update (fun _ => 0) 0 0xFFFF } } } } }

/-- A host of the reference build after `TransportVirtio_Instance_init` whose cursor
`last_sbuf` stands at `N = 256`, no buffer having been returned on the
slave-direction ring. -/
def hostNoTxBuf : Machine :=
  { hostBoot refBuild with obj := { (hostBoot refBuild).obj with last_sbuf := 256 } }

/-- A slave of the reference build on shared memory whose host-direction ring (the
ring at `0xA0000000`) holds one available entry, descriptor 7, with
`desc[7] = { addr = 0xA9000E00, len = 512 }`: the receive buffer number 7 of
`TransportVirtio_Instance_init`, at `0xA0000E00`. -/
def slaveOneAvail_mem : Processor :=
  bootProcessor refBuild refOthers false false
    (storeLE (storeLE (storeLE (storeLE zeroMem 0xA0000070 8 0xA9000E00) 0xA0000078 4 512)
      0xA0001004 2 7) 0xA0001002 2 1)

/-- The host of the reference build after `TransportVirtio_Instance_init` on zeroed
shared memory: `vq_host` primed with the 256 receive buffers, the transmit buffers
from `0xA0020000`, none handed out yet. -/
def hostBoot_mem : Processor :=
  (Instance_init_host_mem refBuild (bootProcessor refBuild refOthers true true zeroMem)).state

/-! ## The two embeddings side by side -/

/-- The buffer at the address `p` of shared memory, seen through `RpMsg_Header *`:
the five header fields at the offsets 0, 4, 8, 12 and 14, the payload from offset
16. -/
def header_at (mem : Nat → Nat) (p : Nat) : RpMsg_Header :=
  { srcAddr := loadLE mem p 4
    dstAddr := loadLE mem (p + 4) 4
    reserved := loadLE mem (p + 8) 4
    dataLen := loadLE mem (p + 12) 2
    flags := loadLE mem (p + 14) 2
    payload := fun i => mem (p + 16 + i) % 256 }

/-- The processor seen as a `Machine`: each queue with the present contents of its
ring, the pool with the present contents of the memory at each buffer address. -/
def Processor.machine (s : Processor) : Machine :=
  { obj :=
      { priority := s.obj.priority
        remoteProcId := s.obj.remoteProcId
        isHost := s.obj.isHost
        vq_host := s.obj.vq_host.object s.mem
        vq_slave := s.obj.vq_slave.object s.mem
        sbufs := s.obj.sbufs
        last_sbuf := s.obj.last_sbuf }
    pool := header_at s.mem
    mbox := s.mbox
    inbox := s.inbox
    freed := s.freed }

/-- The fields of a queue that lie in the private memory of the processor: `id`,
`procId`, `num_free`, the two cursors and the element count. -/
def VirtQueue_Object.locals (vq : VirtQueue_Object) : List Nat :=
  [vq.id, vq.procId, vq.num_free, vq.last_avail_idx, vq.last_used_idx, vq.vring.num]

/-- The same fields of a queue on shared memory. -/
def VirtQueue_Local.locals (vq : VirtQueue_Local) : List Nat :=
  [vq.id, vq.procId, vq.num_free, vq.last_avail_idx, vq.last_used_idx, vq.vring.num]

/-- What a processor holds outside shared memory: the role, `sbufs`, `last_sbuf`, the
count of freed messages and the local fields of both queues. -/
def Machine.locals (m : Machine) : Bool × List Nat × List Nat × List Nat :=
  (m.obj.isHost, [m.obj.sbufs, m.obj.last_sbuf, m.freed], m.obj.vq_host.locals,
    m.obj.vq_slave.locals)

/-- The same on shared memory. -/
def Processor.locals (s : Processor) : Bool × List Nat × List Nat × List Nat :=
  (s.obj.isHost, [s.obj.sbufs, s.obj.last_sbuf, s.freed], s.obj.vq_host.locals,
    s.obj.vq_slave.locals)

/-! ## Address translation -/

/-- The low 20 bits of a 32-bit value, placed under a base that is a multiple of `2^20`. -/
theorem low20_or_base (x a : Nat) :
    ((x % 4294967296) &&& 0x000fffff) ||| (2 ^ 20 * a) = 2 ^ 20 * a + x % 2 ^ 20 := by
  have h1 : (x % 4294967296) &&& 0x000fffff = x % 2 ^ 20 := by
    have h := Nat.and_pow_two_sub_one_eq_mod (x % 4294967296) 20
    have e : (0x000fffff : Nat) = 2 ^ 20 - 1 := by norm_num
    rw [e, h]
    exact Nat.mod_mod_of_dvd x (by norm_num : 2 ^ 20 ∣ 4294967296)
  rw [h1, Nat.or_comm]
  exact (Nat.mul_add_lt_is_or (Nat.mod_lt _ (by norm_num)) a).symm

theorem mapPAtoVA_eq (pa : Nat) : mapPAtoVA pa = 0xa0000000 + pa % 1048576 := by
  have h := low20_or_base pa 2560
  norm_num at h
  simpa [mapPAtoVA] using h

theorem mapVAtoPA_eq (va : Nat) : mapVAtoPA va = 0xa9000000 + va % 1048576 := by
  have h := low20_or_base va 2704
  norm_num at h
  simpa [mapVAtoPA] using h

/-- A pointer into the IPC virtual window survives the trip through its physical alias. -/
theorem mapPAtoVA_mapVAtoPA_of_window (v : Nat) (h1 : 0xA0000000 ≤ v) (h2 : v ≤ 0xA00FFFFF) :
    mapPAtoVA (mapVAtoPA v) = v := by
  rw [mapVAtoPA_eq, mapPAtoVA_eq]
  omega

theorem mapPAtoVA_ne_zero (pa : Nat) : mapPAtoVA pa ≠ 0 := by
  rw [mapPAtoVA_eq]
  omega

/-- C3: for every physical address `x` in the IPC window `[0xA9000000, 0xA90FFFFF]`
the translation satisfies `mapVAtoPA (mapPAtoVA x) = x`, and for every virtual
address `v` in `[0xA0000000, 0xA00FFFFF]` it satisfies `mapPAtoVA (mapVAtoPA v) = v`. -/
theorem C3_map_roundtrip (x v : Nat)
    (hx1 : 0xA9000000 ≤ x) (hx2 : x ≤ 0xA90FFFFF)
    (hv1 : 0xA0000000 ≤ v) (hv2 : v ≤ 0xA00FFFFF) :
    mapVAtoPA (mapPAtoVA x) = x ∧ mapPAtoVA (mapVAtoPA v) = v := by
  refine ⟨?_, mapPAtoVA_mapVAtoPA_of_window v hv1 hv2⟩
  rw [mapPAtoVA_eq, mapVAtoPA_eq]
  omega

/-- C3 at the physical address `0xA9012345` and the virtual address `0xA00FFFFF`. -/
theorem C3_map_roundtrip_witness :
    mapVAtoPA (mapPAtoVA 0xA9012345) = 0xA9012345 ∧
      mapPAtoVA (mapVAtoPA 0xA00FFFFF) = 0xA00FFFFF :=
  C3_map_roundtrip 0xA9012345 0xA00FFFFF (by decide) (by decide) (by decide) (by decide)

/-! ## The four ring operations -/

theorem addAvailBuf_of_ne_zero (b : Build) (vq : VirtQueue_Object) (buf : Nat)
    (h : vq.num_free ≠ 0) :
    VirtQueue_addAvailBuf b vq buf
      = .ret ((vq.num_free - 1 : Nat) : Int) (addAvailBuf_post b vq buf) := by
  simp [addAvailBuf_post, VirtQueue_addAvailBuf, h, Result.state]

/-- C7: with `num_free > 0` on a ring of `N > 0` elements, `VirtQueue_addAvailBuf`
returns the new `num_free = old - 1`, writes `desc[s].addr = mapVAtoPA buf` and
`desc[s].len = RP_MSG_BUF_SIZE` at `s = old avail.idx mod N`, advances `avail.idx`
by one modulo `2^16`, and leaves `last_avail_idx`, `last_used_idx`, the used ring
and every other descriptor unchanged. -/
theorem C7_addAvailBuf_effect (b : Build) (vq : VirtQueue_Object) (buf : Nat)
    (hfree : 0 < vq.num_free) (_hN : 0 < vq.vring.num) :
    ∃ vq1 : VirtQueue_Object,
      VirtQueue_addAvailBuf b vq buf = .ret ((vq.num_free - 1 : Nat) : Int) vq1 ∧
      (vq1.vring.desc (vq.vring.avail.idx % vq.vring.num)).addr = mapVAtoPA buf ∧
      (vq1.vring.desc (vq.vring.avail.idx % vq.vring.num)).len = b.RP_MSG_BUF_SIZE ∧
      vq1.vring.avail.idx = (vq.vring.avail.idx + 1) % 65536 ∧
      vq1.num_free = vq.num_free - 1 ∧
      vq1.last_avail_idx = vq.last_avail_idx ∧
      vq1.last_used_idx = vq.last_used_idx ∧
      vq1.vring.used = vq.vring.used ∧
      (∀ j, j ≠ vq.vring.avail.idx % vq.vring.num → vq1.vring.desc j = vq.vring.desc j) := by
  have hne : vq.num_free ≠ 0 := by omega
  refine ⟨_, addAvailBuf_of_ne_zero b vq buf hne, ?_⟩
  simp only [addAvailBuf_post, VirtQueue_addAvailBuf, if_neg hne, Result.state]
  refine ⟨by simp, by simp, trivial, trivial, trivial, trivial, trivial, ?_⟩
  intro j hj
  simp [Function.update_noteq hj]

/-- C7 on a fresh queue of the reference build (256 free descriptors). -/
theorem C7_addAvailBuf_effect_witness :
    ∃ vq1 : VirtQueue_Object,
      VirtQueue_addAvailBuf refBuild (freshVq 1 256) 0xA0020000
        = .ret (((freshVq 1 256).num_free - 1 : Nat) : Int) vq1 ∧
      (vq1.vring.desc ((freshVq 1 256).vring.avail.idx % (freshVq 1 256).vring.num)).addr
        = mapVAtoPA 0xA0020000 ∧
      (vq1.vring.desc ((freshVq 1 256).vring.avail.idx % (freshVq 1 256).vring.num)).len
        = refBuild.RP_MSG_BUF_SIZE ∧
      vq1.vring.avail.idx = ((freshVq 1 256).vring.avail.idx + 1) % 65536 ∧
      vq1.num_free = (freshVq 1 256).num_free - 1 ∧
      vq1.last_avail_idx = (freshVq 1 256).last_avail_idx ∧
      vq1.last_used_idx = (freshVq 1 256).last_used_idx ∧
      vq1.vring.used = (freshVq 1 256).vring.used ∧
      (∀ j, j ≠ (freshVq 1 256).vring.avail.idx % (freshVq 1 256).vring.num →
        vq1.vring.desc j = (freshVq 1 256).vring.desc j) :=
  C7_addAvailBuf_effect refBuild (freshVq 1 256) 0xA0020000 (by decide) (by decide)

/-- C8: `VirtQueue_addAvailBuf` raises its error exactly when `num_free = 0`; the
program is then stopped before any store, so that the object and the ring
(`avail.idx`, `num_free`, the descriptor table) are as they were at entry. With
`num_free > 0` it returns. -/
theorem C8_addAvailBuf_full (b : Build) (vq : VirtQueue_Object) (buf : Nat) :
    ((VirtQueue_addAvailBuf b vq buf).isRaised = true ↔ vq.num_free = 0) ∧
    (vq.num_free = 0 → VirtQueue_addAvailBuf b vq buf = .raised vq) ∧
    (0 < vq.num_free → ∃ r vq1, VirtQueue_addAvailBuf b vq buf = .ret r vq1) := by
  by_cases h : vq.num_free = 0
  · refine ⟨?_, ?_, ?_⟩
    · simp [VirtQueue_addAvailBuf, h, Result.isRaised]
    · intro _
      simp [VirtQueue_addAvailBuf, h]
    · intro h0
      omega
  · refine ⟨?_, ?_, ?_⟩
    · simp [VirtQueue_addAvailBuf, h, Result.isRaised]
    · intro h0
      exact absurd h0 h
    · intro _
      exact ⟨_, _, addAvailBuf_of_ne_zero b vq buf h⟩

theorem toInt16_of_lt (x : Nat) (h : x < 32768) : toInt16 x = (x : Int) := by
  have h1 : x % 65536 = x := Nat.mod_eq_of_lt (by omega)
  simp [toInt16, h1, h]

/-- The emptiness test of `VirtQueue_getAvailBuf` on an empty ring: the result is `-1`,
`*buf` keeps its value, and at most `used.flags` is written. -/
theorem getAvailBuf_of_eq (b : Build) (vq : VirtQueue_Object) (buf : Nat)
    (h : vq.last_avail_idx = vq.vring.avail.idx) :
    VirtQueue_getAvailBuf b vq buf
      = (-1, buf, if b.VirtQueue_isHost vq then clearNoNotify b vq else vq) := by
  by_cases hh : b.VirtQueue_isHost vq = true
  · simp [VirtQueue_getAvailBuf, h, hh, clearNoNotify]
  · simp [VirtQueue_getAvailBuf, h, hh]

theorem getAvailBuf_of_ne (b : Build) (vq : VirtQueue_Object) (buf : Nat)
    (h : vq.last_avail_idx ≠ vq.vring.avail.idx) :
    VirtQueue_getAvailBuf b vq buf = getAvailBuf_take b vq := by
  simp [VirtQueue_getAvailBuf, h]

/-- C9: in the build of the sources (`APPM3_IS_HOST` undefined), on a ring of
`0 < N ≤ 32768` elements: if `last_avail_idx = avail.idx`, `VirtQueue_getAvailBuf`
returns `-1` and keeps `last_avail_idx`; otherwise, with
`h = avail.ring[last_avail_idx mod N]` and `h < N`, it returns `h` and the pointer
`mapPAtoVA (desc[h].addr)` and advances `last_avail_idx` by one modulo `2^16`. In
both cases `avail.idx`, `avail.ring`, the descriptor table, `used.idx`, `used.ring`,
`last_used_idx` and `num_free` are unchanged. -/
theorem C9_getAvailBuf_effect (b : Build) (vq : VirtQueue_Object) (buf : Nat)
    (hbuild : b.APPM3_IS_HOST = false)
    (_hN : 0 < vq.vring.num) (hN2 : vq.vring.num ≤ 32768) :
    (vq.last_avail_idx = vq.vring.avail.idx →
      (VirtQueue_getAvailBuf b vq buf).1 = -1 ∧
      (VirtQueue_getAvailBuf b vq buf).2.2.last_avail_idx = vq.last_avail_idx) ∧
    (vq.last_avail_idx ≠ vq.vring.avail.idx →
      vq.vring.avail.ring (vq.last_avail_idx % vq.vring.num) < vq.vring.num →
      (VirtQueue_getAvailBuf b vq buf).1
        = (vq.vring.avail.ring (vq.last_avail_idx % vq.vring.num) : Int) ∧
      (VirtQueue_getAvailBuf b vq buf).2.1
        = mapPAtoVA (vq.vring.desc
            (vq.vring.avail.ring (vq.last_avail_idx % vq.vring.num))).addr ∧
      (VirtQueue_getAvailBuf b vq buf).2.2.last_avail_idx
        = (vq.last_avail_idx + 1) % 65536) ∧
    ((VirtQueue_getAvailBuf b vq buf).2.2.vring.avail.idx = vq.vring.avail.idx ∧
      (VirtQueue_getAvailBuf b vq buf).2.2.vring.avail.ring = vq.vring.avail.ring ∧
      (VirtQueue_getAvailBuf b vq buf).2.2.vring.desc = vq.vring.desc ∧
      (VirtQueue_getAvailBuf b vq buf).2.2.vring.used.idx = vq.vring.used.idx ∧
      (VirtQueue_getAvailBuf b vq buf).2.2.vring.used.ring = vq.vring.used.ring ∧
      (VirtQueue_getAvailBuf b vq buf).2.2.last_used_idx = vq.last_used_idx ∧
      (VirtQueue_getAvailBuf b vq buf).2.2.num_free = vq.num_free) := by
  by_cases he : vq.last_avail_idx = vq.vring.avail.idx
  · rw [getAvailBuf_of_eq b vq buf he]
    refine ⟨fun _ => ⟨rfl, ?_⟩, fun hne => absurd he hne, ?_⟩
    · by_cases hh : b.VirtQueue_isHost vq = true <;> simp [hh, clearNoNotify]
    · by_cases hh : b.VirtQueue_isHost vq = true <;> simp [hh, clearNoNotify]
  · rw [getAvailBuf_of_ne b vq buf he]
    refine ⟨fun h => absurd h he, fun _ hlt => ?_, ?_⟩
    · have h15 : vq.vring.avail.ring (vq.last_avail_idx % vq.vring.num) < 32768 := by omega
      by_cases hh : b.VirtQueue_isHost vq = true <;>
        simp [getAvailBuf_take, hbuild, hh, setNoNotify, toInt16_of_lt _ h15]
    · by_cases hh : b.VirtQueue_isHost vq = true <;>
        simp [getAvailBuf_take, hh, setNoNotify]

/-- C9 on a ring of 256 elements holding the single available entry 7. -/
theorem C9_getAvailBuf_effect_witness :
    (VirtQueue_getAvailBuf refBuild (oneAvailVq 1 256 7 0xA9020000) 0).1 = 7 ∧
    (VirtQueue_getAvailBuf refBuild (oneAvailVq 1 256 7 0xA9020000) 0).2.1
      = mapPAtoVA 0xA9020000 ∧
    (VirtQueue_getAvailBuf refBuild (oneAvailVq 1 256 7 0xA9020000) 0).2.2.last_avail_idx
      = 1 :=
  (C9_getAvailBuf_effect refBuild (oneAvailVq 1 256 7 0xA9020000) 0 rfl
    (by decide) (by decide)).2.1 (by decide) (by decide)

/-- C10: for `0 ≤ head < N` (an `Int16`), `VirtQueue_addUsedBuf` returns 0, writes
`used.ring[old used.idx mod N] = { id := head, len := RP_MSG_BUF_SIZE }`, advances
`used.idx` by one modulo `2^16`, and leaves every other used slot, the available
ring, the descriptor table, `last_avail_idx`, `last_used_idx` and `num_free`
unchanged. -/
theorem C10_addUsedBuf_effect (b : Build) (vq : VirtQueue_Object) (head : Int)
    (h0 : 0 ≤ head) (hlt : head < vq.vring.num) (h16 : head ≤ 32767) :
    ∃ vq1 : VirtQueue_Object,
      VirtQueue_addUsedBuf b vq head = .ret 0 vq1 ∧
      (vq1.vring.used.ring (vq.vring.used.idx % vq.vring.num)).id = head.toNat ∧
      ((vq1.vring.used.ring (vq.vring.used.idx % vq.vring.num)).id : Int) = head ∧
      (vq1.vring.used.ring (vq.vring.used.idx % vq.vring.num)).len = b.RP_MSG_BUF_SIZE ∧
      vq1.vring.used.idx = (vq.vring.used.idx + 1) % 65536 ∧
      (∀ j, j ≠ vq.vring.used.idx % vq.vring.num →
        vq1.vring.used.ring j = vq.vring.used.ring j) ∧
      vq1.vring.avail = vq.vring.avail ∧
      vq1.vring.desc = vq.vring.desc ∧
      vq1.last_avail_idx = vq.last_avail_idx ∧
      vq1.last_used_idx = vq.last_used_idx ∧
      vq1.num_free = vq.num_free := by
  have hmod : head % 4294967296 = head := Int.emod_eq_of_lt h0 (by omega)
  have hc : ¬ ((head % 4294967296).toNat > vq.vring.num ∨ head < 0) := by
    rw [hmod]
    omega
  refine ⟨(VirtQueue_addUsedBuf b vq head).state, ?_, ?_⟩
  · simp only [VirtQueue_addUsedBuf, if_neg hc, Result.state]
  · simp only [VirtQueue_addUsedBuf, if_neg hc, Result.state]
    refine ⟨by simp, by simp [Int.toNat_of_nonneg h0], by simp, trivial, ?_,
      trivial, trivial, trivial, trivial, trivial⟩
    intro j hj
    simp [Function.update_noteq hj]

/-- C10 on a fresh ring of 256 elements with head 7. -/
theorem C10_addUsedBuf_effect_witness :
    ∃ vq1 : VirtQueue_Object,
      VirtQueue_addUsedBuf refBuild (freshVq 0 256) 7 = .ret 0 vq1 ∧
      (vq1.vring.used.ring ((freshVq 0 256).vring.used.idx % (freshVq 0 256).vring.num)).id
        = (7 : Int).toNat ∧
      ((vq1.vring.used.ring
        ((freshVq 0 256).vring.used.idx % (freshVq 0 256).vring.num)).id : Int) = 7 ∧
      (vq1.vring.used.ring ((freshVq 0 256).vring.used.idx % (freshVq 0 256).vring.num)).len
        = refBuild.RP_MSG_BUF_SIZE ∧
      vq1.vring.used.idx = ((freshVq 0 256).vring.used.idx + 1) % 65536 ∧
      (∀ j, j ≠ (freshVq 0 256).vring.used.idx % (freshVq 0 256).vring.num →
        vq1.vring.used.ring j = (freshVq 0 256).vring.used.ring j) ∧
      vq1.vring.avail = (freshVq 0 256).vring.avail ∧
      vq1.vring.desc = (freshVq 0 256).vring.desc ∧
      vq1.last_avail_idx = (freshVq 0 256).last_avail_idx ∧
      vq1.last_used_idx = (freshVq 0 256).last_used_idx ∧
      vq1.num_free = (freshVq 0 256).num_free :=
  C10_addUsedBuf_effect refBuild (freshVq 0 256) 7 (by decide) (by decide) (by decide)

/-! ## Producer and consumer on one ring -/

/-- What `k` additions leave on a ring whose available index does not wrap: the
index advanced by `k`, the `i`-th buffer in descriptor `avail.idx + i`, and the
available ring itself untouched. -/
theorem addAvailBufs_spec (b : Build) (bs : List Nat) :
    ∀ vq : VirtQueue_Object, bs.length ≤ vq.num_free →
      vq.vring.avail.idx + bs.length ≤ vq.vring.num → vq.vring.num ≤ 32768 →
      ∃ P : VirtQueue_Object, addAvailBufs b vq bs = .ret () P ∧
        P.vring.num = vq.vring.num ∧
        P.vring.avail.idx = vq.vring.avail.idx + bs.length ∧
        P.vring.avail.ring = vq.vring.avail.ring ∧
        P.num_free = vq.num_free - bs.length ∧
        (∀ i, i < bs.length →
          (P.vring.desc (vq.vring.avail.idx + i)).addr = mapVAtoPA (bs.getD i 0)) ∧
        (∀ j, j < vq.vring.avail.idx → P.vring.desc j = vq.vring.desc j) := by
  induction bs with
  | nil =>
    intro vq _ _ _
    exact ⟨vq, rfl, rfl, rfl, rfl, rfl, fun i hi => absurd hi (by simp), fun _ _ => rfl⟩
  | cons x rest ih =>
    intro vq hfree hidx hN
    simp only [List.length_cons] at hfree hidx
    have hne : vq.num_free ≠ 0 := by omega
    have hmod : vq.vring.avail.idx % vq.vring.num = vq.vring.avail.idx :=
      Nat.mod_eq_of_lt (by omega)
    have hwrap : (vq.vring.avail.idx + 1) % 65536 = vq.vring.avail.idx + 1 :=
      Nat.mod_eq_of_lt (by omega)
    have hpost : addAvailBuf_post b vq x =
        { vq with
          num_free := vq.num_free - 1
          vring := { vq.vring with
            avail := { vq.vring.avail with idx := vq.vring.avail.idx + 1 }
            desc := Function.update vq.vring.desc vq.vring.avail.idx
              { vq.vring.desc vq.vring.avail.idx with
                addr := mapVAtoPA x, len := b.RP_MSG_BUF_SIZE } } } := by
      simp [addAvailBuf_post, VirtQueue_addAvailBuf, hne, Result.state, hmod, hwrap]
    obtain ⟨P, hP, hnum, hi, hring, hnf, hdesc, hold⟩ :=
      ih (addAvailBuf_post b vq x) (by rw [hpost]; simp; omega)
        (by rw [hpost]; simp; omega) (by rw [hpost]; simpa using hN)
    rw [hpost] at hnum hi hring hnf hdesc hold
    simp only at hnum hi hring hnf hdesc hold
    refine ⟨P, ?_, hnum, ?_, hring, ?_, ?_, ?_⟩
    · simp only [addAvailBufs, addAvailBuf_of_ne_zero b vq x hne]
      exact hP
    · rw [hi, List.length_cons]; omega
    · rw [hnf, List.length_cons]; omega
    · intro i hilt
      cases i with
      | zero =>
        rw [Nat.add_zero, hold _ (Nat.lt_succ_self _)]
        simp
      | succ n =>
        have h := hdesc n (by simpa using hilt)
        rw [List.getD_cons_succ, ← h]
        congr 2
        omega
    · intro j hj
      rw [hold j (by omega)]
      exact Function.update_noteq (Nat.ne_of_lt hj) _ _

theorem getAvailBuf_take_spec (b : Build) (vq : VirtQueue_Object) :
    (getAvailBuf_take b vq).1 = toInt16 (headAt b vq.vring vq.last_avail_idx) ∧
    (getAvailBuf_take b vq).2.1
      = mapPAtoVA (vq.vring.desc (headAt b vq.vring vq.last_avail_idx)).addr ∧
    (getAvailBuf_take b vq).2.2.last_avail_idx = (vq.last_avail_idx + 1) % 65536 ∧
    (getAvailBuf_take b vq).2.2.vring.avail = vq.vring.avail ∧
    (getAvailBuf_take b vq).2.2.vring.desc = vq.vring.desc ∧
    (getAvailBuf_take b vq).2.2.vring.num = vq.vring.num := by
  by_cases hh : b.VirtQueue_isHost vq = true <;>
    by_cases ha : b.APPM3_IS_HOST = true <;>
      simp [getAvailBuf_take, headAt, hh, ha, setNoNotify]

theorem headAt_congr (b : Build) (r1 r2 : vring) (j : Nat)
    (hn : r1.num = r2.num) (ha : r1.avail = r2.avail) : headAt b r1 j = headAt b r2 j := by
  simp [headAt, hn, ha]

/-- What `k` successive `VirtQueue_getAvailBuf` calls return when at least `k`
entries are available: the `i`-th call returns the descriptor index taken at
cursor `last_avail_idx + i` and the pointer stored in that descriptor. -/
theorem getAvailBufs_spec (b : Build) (k : Nat) :
    ∀ (vq : VirtQueue_Object) (buf : Nat),
      vq.last_avail_idx + k ≤ vq.vring.avail.idx → vq.vring.avail.idx < 65536 →
      (getAvailBufs b k vq buf).1 = (List.range k).map (fun i =>
        (toInt16 (headAt b vq.vring (vq.last_avail_idx + i)),
          mapPAtoVA (vq.vring.desc (headAt b vq.vring (vq.last_avail_idx + i))).addr)) := by
  induction k with
  | zero =>
    intro vq buf _ _
    simp [getAvailBufs]
  | succ k ih =>
    intro vq buf hle hidx
    have hne : vq.last_avail_idx ≠ vq.vring.avail.idx := by omega
    obtain ⟨h1, h2, h3, h4, h5, h6⟩ := getAvailBuf_take_spec b vq
    have hwrap : (vq.last_avail_idx + 1) % 65536 = vq.last_avail_idx + 1 :=
      Nat.mod_eq_of_lt (by omega)
    rw [hwrap] at h3
    have hrec := ih (getAvailBuf_take b vq).2.2 (getAvailBuf_take b vq).2.1
      (by rw [h3, h4]; omega) (by rw [h4]; exact hidx)
    simp only [getAvailBufs, getAvailBuf_of_ne b vq buf hne]
    rw [hrec, h1, h2, h3, h5, List.range_succ_eq_map, List.map_cons, List.map_map]
    refine congrArg₂ List.cons (by simp) ?_
    apply List.map_congr_left
    intro i _
    have e : vq.last_avail_idx + 1 + i = vq.last_avail_idx + (i + 1) := by omega
    simp only [Function.comp, e, headAt_congr b _ vq.vring _ h6 h4]

/-- C2, as stated, fails: on a zeroed ring of 256 elements in the build of the
sources, after the producer added the buffers `0xA0020000` and `0xA0020200`, the
second `VirtQueue_getAvailBuf` of the consumer returns head 0 and the first buffer
again, not the second one: `VirtQueue_addAvailBuf` never stores into `avail.ring`. -/
theorem C2_second_get_repeats_first_buffer :
    (getAvailBufs refBuild 2
      (onRing (freshVq 1 256)
        (addAvailBufs refBuild (freshVq 1 256) [0xA0020000, 0xA0020200]).state.vring)
      0).1 = [(0, 0xA0020000), (0, 0xA0020000)] ∧
    ((getAvailBufs refBuild 2
      (onRing (freshVq 1 256)
        (addAvailBufs refBuild (freshVq 1 256) [0xA0020000, 0xA0020200]).state.vring)
      0).1.map Prod.snd) ≠ [0xA0020000, 0xA0020200] := by
  decide

/-- C2, amended: on a zeroed ring of `N ≤ 32768` elements, after the producer added
the `k` buffers `bs` (`1 ≤ k ≤ N`, each inside the IPC virtual window), `k`
successive `VirtQueue_getAvailBuf` calls of the consumer each return a token `≥ 0`.
In the build of the sources (`APPM3_IS_HOST` undefined) the head is read from
`avail.ring`, which `VirtQueue_addAvailBuf` does not write: every call returns head
`0` and the first buffer. In the build with `APPM3_IS_HOST` the `i`-th call returns
head `i` and the `i`-th buffer. -/
theorem C2_amended_gets_after_adds (b : Build) (N pid cid : Nat) (bs : List Nat)
    (hk1 : 1 ≤ bs.length) (hkN : bs.length ≤ N) (hN : N ≤ 32768)
    (hwin : ∀ x ∈ bs, 0xA0000000 ≤ x ∧ x ≤ 0xA00FFFFF) :
    ∃ P : VirtQueue_Object, addAvailBufs b (freshVq pid N) bs = .ret () P ∧
      (b.APPM3_IS_HOST = false →
        (getAvailBufs b bs.length (onRing (freshVq cid N) P.vring) 0).1
          = (List.range bs.length).map (fun _ => ((0 : Int), bs.getD 0 0))) ∧
      (b.APPM3_IS_HOST = true →
        (getAvailBufs b bs.length (onRing (freshVq cid N) P.vring) 0).1
          = (List.range bs.length).map (fun i : Nat => ((i : Int), bs.getD i 0))) := by
  obtain ⟨P, hP, hnum, hidx, hring, _, hdesc, _⟩ :=
    addAvailBufs_spec b bs (freshVq pid N) (by simpa [freshVq] using hkN)
      (by simpa [freshVq, zeroRing] using hkN) (by simpa [freshVq, zeroRing] using hN)
  have hnum1 : P.vring.num = N := by simpa [freshVq, zeroRing] using hnum
  have hidx1 : P.vring.avail.idx = bs.length := by simpa [freshVq, zeroRing] using hidx
  have hring1 : ∀ j, P.vring.avail.ring j = 0 := by
    intro j
    rw [hring]
    rfl
  have hdesc1 : ∀ i, i < bs.length → (P.vring.desc i).addr = mapVAtoPA (bs.getD i 0) := by
    intro i hi
    simpa [freshVq, zeroRing] using hdesc i hi
  have hback : ∀ i, i < bs.length → mapPAtoVA (P.vring.desc i).addr = bs.getD i 0 := by
    intro i hi
    rw [hdesc1 i hi]
    have hm : bs.getD i 0 ∈ bs := by
      rw [List.getD_eq_getElem _ _ hi]
      exact List.getElem_mem hi
    exact mapPAtoVA_mapVAtoPA_of_window _ (hwin _ hm).1 (hwin _ hm).2
  have hspec := getAvailBufs_spec b bs.length (onRing (freshVq cid N) P.vring) 0
    (by simp [onRing, freshVq, hidx1]) (by simp only [onRing, hidx1]; omega)
  refine ⟨P, hP, ?_, ?_⟩
  · intro hb
    rw [hspec]
    apply List.map_congr_left
    intro i _
    simp [onRing, headAt, hb, hring1, freshVq, hback 0 (by omega), toInt16]
  · intro hb
    rw [hspec]
    apply List.map_congr_left
    intro i hi
    have hi1 : i < bs.length := List.mem_range.mp hi
    have hmod : i % N = i := Nat.mod_eq_of_lt (by omega)
    simp [onRing, headAt, hb, hnum1, freshVq, hmod, hback i hi1, toInt16_of_lt i (by omega)]

/-- C2 amended, on a ring of 256 elements with two buffers of the send half. -/
theorem C2_amended_gets_after_adds_witness :
    ∃ P : VirtQueue_Object,
      addAvailBufs refBuild (freshVq 1 256) [0xA0020000, 0xA0020200] = .ret () P ∧
      (refBuild.APPM3_IS_HOST = false →
        (getAvailBufs refBuild [0xA0020000, 0xA0020200].length
            (onRing (freshVq 1 256) P.vring) 0).1
          = (List.range [0xA0020000, 0xA0020200].length).map
              (fun _ => ((0 : Int), [0xA0020000, 0xA0020200].getD 0 0))) ∧
      (refBuild.APPM3_IS_HOST = true →
        (getAvailBufs refBuild [0xA0020000, 0xA0020200].length
            (onRing (freshVq 1 256) P.vring) 0).1
          = (List.range [0xA0020000, 0xA0020200].length).map
              (fun i : Nat => ((i : Int), [0xA0020000, 0xA0020200].getD i 0))) :=
  C2_amended_gets_after_adds refBuild 256 1 1 [0xA0020000, 0xA0020200]
    (by decide) (by decide) (by decide) (by decide)

/-! ## The transport -/

/-- C1 at a concrete input: a freshly initialised host-role transport of the
reference build sends the 64-byte message `testMsg`; `TransportVirtio_put` returns
`TRUE`. The slave-role peer then runs `TransportVirtio_swiFxn` on the same rings:
the drain returns, takes the buffer and gives the slot back (`used.idx` becomes 1),
but hands nothing to `MessageQ_put`: the buffer carries `dstAddr = 1024`, which the
drain does not accept (it delivers `dstAddr = 61` only). -/
theorem C1_put_then_peer_drain_delivers_nothing :
    (TransportVirtio_put refBuild refMessageQ (hostBoot refBuild) testMsg).value = some true ∧
    ((TransportVirtio_put refBuild refMessageQ (hostBoot refBuild) testMsg).state.pool
      0xA0020000).dstAddr = 1024 ∧
    (TransportVirtio_swiFxn refBuild refMessageQ
        (peerView (bootMachine refBuild false)
          (TransportVirtio_put refBuild refMessageQ (hostBoot refBuild) testMsg).state)).map
      (fun r => (r.isRaised, r.state.inbox, r.state.obj.vq_slave.vring.used.idx))
      = some (false, [], 1) := by
  decide

theorem put_fill_spec (old : RpMsg_Header) (msg : Nat → Nat) (s : Nat) (hs : s < 65536) :
    (put_fill old msg s).srcAddr = 61 ∧ (put_fill old msg s).dstAddr = 1024 ∧
    (put_fill old msg s).reserved = 0 ∧ (put_fill old msg s).dataLen = s ∧
    (put_fill old msg s).flags = 0 ∧
    (∀ j, j < s → (put_fill old msg s).payload j = msg j) ∧
    (∀ j, s ≤ j → (put_fill old msg s).payload j = old.payload j) := by
  refine ⟨rfl, rfl, rfl, Nat.mod_eq_of_lt hs, rfl, ?_, ?_⟩
  · intro j hj
    simp [put_fill, hj]
  · intro j hj
    have : ¬ j < s := by omega
    simp [put_fill, this]

theorem Result.eq_ret_of_value {σ α : Type} {r : Result σ α} {a : α}
    (h : r.value = some a) : r = .ret a r.state := by
  cases r with
  | raised s => simp [Result.value] at h
  | ret x s =>
    simp only [Result.value, Option.some.injEq] at h
    simp [h, Result.state]

theorem put_hostBoot_testMsg_ret :
    TransportVirtio_put refBuild refMessageQ (hostBoot refBuild) testMsg
      = .ret true (TransportVirtio_put refBuild refMessageQ (hostBoot refBuild) testMsg).state := by
  exact Result.eq_ret_of_value (by decide)

/-! ### Success and failure of a send -/

theorem put_host_fail (b : Build) (q : MessageQ) (m : Machine) (msg : Nat → Nat)
    (hH : m.obj.isHost = true) (hl : ¬ m.obj.last_sbuf < b.RP_MSG_NUM_BUFS)
    (hu : m.obj.vq_slave.last_used_idx = m.obj.vq_slave.vring.used.idx) :
    TransportVirtio_put b q m msg = .ret false m := by
  obtain ⟨obj, pool, mbox, inbox, freed⟩ := m
  obtain ⟨priority, remoteProcId, isHost, vq_host, vq_slave, sbufs, last_sbuf⟩ := obj
  simp only at hH hl hu
  subst hH
  simp [TransportVirtio_put, put_acquire, getTxBuf, VirtQueue_getUsedBuf, hl, hu]

theorem put_slave_fail (b : Build) (q : MessageQ) (m : Machine) (msg : Nat → Nat)
    (hS : m.obj.isHost = false)
    (he : m.obj.vq_host.last_avail_idx = m.obj.vq_host.vring.avail.idx) :
    ∃ m1, TransportVirtio_put b q m msg = .ret false m1 := by
  refine ⟨_, Result.eq_ret_of_value ?_⟩
  simp only [TransportVirtio_put, put_acquire, hS, getAvailBuf_of_eq b _ 0 he]
  simp [Result.value]

theorem put_host_fresh (b : Build) (q : MessageQ) (m : Machine) (msg : Nat → Nat)
    (hH : m.obj.isHost = true) (hl : m.obj.last_sbuf < b.RP_MSG_NUM_BUFS)
    (hp : (m.obj.sbufs + b.RP_MSG_BUF_SIZE * m.obj.last_sbuf) % 4294967296 ≠ 0)
    (hsz : q.getMsgSize msg ≤ MAX_PAYLOAD b) (hnf : m.obj.vq_slave.num_free ≠ 0) :
    TransportVirtio_put b q m msg = .ret true
      { m with
        obj := { m.obj with
          last_sbuf := m.obj.last_sbuf + 1
          vq_slave := addAvailBuf_post b m.obj.vq_slave
            ((m.obj.sbufs + b.RP_MSG_BUF_SIZE * m.obj.last_sbuf) % 4294967296) }
        pool := Function.update m.pool
          ((m.obj.sbufs + b.RP_MSG_BUF_SIZE * m.obj.last_sbuf) % 4294967296)
          (put_fill (m.pool ((m.obj.sbufs + b.RP_MSG_BUF_SIZE * m.obj.last_sbuf) % 4294967296))
            msg (q.getMsgSize msg))
        freed := if q.heapId msg ≠ q.STATICMSG then m.freed + 1 else m.freed
        mbox := VirtQueue_kick b
          (addAvailBuf_post b m.obj.vq_slave
            ((m.obj.sbufs + b.RP_MSG_BUF_SIZE * m.obj.last_sbuf) % 4294967296)) m.mbox } := by
  simp [TransportVirtio_put, put_acquire, getTxBuf, hH, hl, hp, hsz,
    addAvailBuf_of_ne_zero b _ _ hnf]

theorem put_host_recycle (b : Build) (q : MessageQ) (m : Machine) (msg : Nat → Nat)
    (hH : m.obj.isHost = true) (hl : ¬ m.obj.last_sbuf < b.RP_MSG_NUM_BUFS)
    (hu : m.obj.vq_slave.last_used_idx ≠ m.obj.vq_slave.vring.used.idx)
    (hsz : q.getMsgSize msg ≤ MAX_PAYLOAD b)
    (hnf : (m.obj.vq_slave.num_free + 1) % b.NUM_FREE_MOD ≠ 0) :
    ∃ m1, TransportVirtio_put b q m msg = .ret true m1 := by
  refine ⟨_, Result.eq_ret_of_value ?_⟩
  have hnf2 : (VirtQueue_getUsedBuf b m.obj.vq_slave).2.num_free ≠ 0 := by
    simpa [VirtQueue_getUsedBuf, hu] using hnf
  have hptr : (VirtQueue_getUsedBuf b m.obj.vq_slave).1 ≠ 0 := by
    simp only [VirtQueue_getUsedBuf, hu, if_false]
    exact mapPAtoVA_ne_zero _
  simp only [TransportVirtio_put, put_acquire, getTxBuf, hH, hl, if_true, if_false]
  simp only [hptr, hsz, ne_eq, not_false_eq_true, and_self, true_or, if_true, not_true_eq_false,
    if_false, addAvailBuf_of_ne_zero b _ _ hnf2, Result.value]

theorem put_slave_ok (b : Build) (q : MessageQ) (m : Machine) (msg : Nat → Nat)
    (hS : m.obj.isHost = false)
    (hne : m.obj.vq_host.last_avail_idx ≠ m.obj.vq_host.vring.avail.idx)
    (hN : m.obj.vq_host.vring.num ≤ 32768)
    (hhead : headAt b m.obj.vq_host.vring m.obj.vq_host.last_avail_idx
      < m.obj.vq_host.vring.num)
    (hsz : q.getMsgSize msg ≤ MAX_PAYLOAD b) :
    ∃ m1, TransportVirtio_put b q m msg = .ret true m1 := by
  refine ⟨_, Result.eq_ret_of_value ?_⟩
  obtain ⟨h1, _, _, _, _, h6⟩ := getAvailBuf_take_spec b m.obj.vq_host
  have htok : (getAvailBuf_take b m.obj.vq_host).1
      = ((headAt b m.obj.vq_host.vring m.obj.vq_host.last_avail_idx : Nat) : Int) := by
    rw [h1, toInt16_of_lt _ (by omega)]
  have hc : ¬ (((getAvailBuf_take b m.obj.vq_host).1 % 4294967296).toNat
        > (getAvailBuf_take b m.obj.vq_host).2.2.vring.num
      ∨ (getAvailBuf_take b m.obj.vq_host).1 < 0) := by
    rw [htok, h6]
    omega
  have hge : (getAvailBuf_take b m.obj.vq_host).1 ≥ 0 := by
    rw [htok]
    omega
  simp only [TransportVirtio_put, put_acquire, hS, getAvailBuf_of_ne b _ 0 hne,
    Bool.false_eq_true, if_false, false_and, false_or, hge, if_true, hsz, not_true_eq_false,
    VirtQueue_addUsedBuf, if_neg hc, Result.value]

/-- C4: `TransportVirtio_put` is a loop-free function of the state: it returns at
once. For a message within `MAX_PAYLOAD` it returns `TRUE` if and only if a tx
buffer can be obtained, that is, in host role iff `last_sbuf < N` or
`used.idx ≠ last_used_idx` on the slave-direction queue, and in slave role iff
`avail.idx ≠ last_avail_idx` on the host-direction queue; in every other case it
returns `FALSE`. The state is one the transport can be in: in host role the
slave-direction queue has a free descriptor for an unused buffer (whose address is
not `NULL`) and `num_free` does not wrap on a recycled one; in slave role the ring
has at most `32768` elements and the available entry is a valid index `< N`. -/
theorem C4_put_true_iff_buffer (b : Build) (q : MessageQ) (m : Machine) (msg : Nat → Nat)
    (hsz : q.getMsgSize msg ≤ MAX_PAYLOAD b)
    (hhost : m.obj.isHost = true →
      (m.obj.last_sbuf < b.RP_MSG_NUM_BUFS →
        0 < m.obj.vq_slave.num_free ∧
        (m.obj.sbufs + b.RP_MSG_BUF_SIZE * m.obj.last_sbuf) % 4294967296 ≠ 0) ∧
      (b.RP_MSG_NUM_BUFS ≤ m.obj.last_sbuf → m.obj.vq_slave.num_free + 1 < b.NUM_FREE_MOD))
    (hslave : m.obj.isHost = false →
      m.obj.vq_host.vring.avail.idx ≠ m.obj.vq_host.last_avail_idx →
      m.obj.vq_host.vring.num ≤ 32768 ∧
      headAt b m.obj.vq_host.vring m.obj.vq_host.last_avail_idx < m.obj.vq_host.vring.num) :
    ∃ (r : Bool) (m1 : Machine), TransportVirtio_put b q m msg = .ret r m1 ∧
      (r = true ↔
        (m.obj.isHost = true ∧
          (m.obj.last_sbuf < b.RP_MSG_NUM_BUFS ∨
            m.obj.vq_slave.vring.used.idx ≠ m.obj.vq_slave.last_used_idx)) ∨
        (m.obj.isHost = false ∧
          m.obj.vq_host.vring.avail.idx ≠ m.obj.vq_host.last_avail_idx)) := by
  cases hH : m.obj.isHost with
  | true =>
    obtain ⟨hf, hr⟩ := hhost hH
    by_cases hl : m.obj.last_sbuf < b.RP_MSG_NUM_BUFS
    · obtain ⟨hnf, hp⟩ := hf hl
      exact ⟨true, _, put_host_fresh b q m msg hH hl hp hsz (by omega), by simp [hl]⟩
    · by_cases hu : m.obj.vq_slave.last_used_idx = m.obj.vq_slave.vring.used.idx
      · exact ⟨false, _, put_host_fail b q m msg hH hl hu, by simp [hl, hu]⟩
      · have hlt := hr (by omega)
        have hnz : (m.obj.vq_slave.num_free + 1) % b.NUM_FREE_MOD ≠ 0 := by
          rw [Nat.mod_eq_of_lt hlt]
          omega
        obtain ⟨m1, h1⟩ := put_host_recycle b q m msg hH hl hu hsz hnz
        exact ⟨true, m1, h1, by simp [hl, Ne.symm hu]⟩
  | false =>
    by_cases he : m.obj.vq_host.last_avail_idx = m.obj.vq_host.vring.avail.idx
    · obtain ⟨m1, h1⟩ := put_slave_fail b q m msg hH he
      exact ⟨false, m1, h1, by simp [he]⟩
    · obtain ⟨hN, hhead⟩ := hslave hH (Ne.symm he)
      obtain ⟨m1, h1⟩ := put_slave_ok b q m msg hH he hN hhead hsz
      exact ⟨true, m1, h1, by simp [Ne.symm he]⟩

/-- C4 at the first send of a freshly initialised host of the reference build. -/
theorem C4_put_true_iff_buffer_witness :
    ∃ (r : Bool) (m1 : Machine),
      TransportVirtio_put refBuild refMessageQ (hostBoot refBuild) testMsg = .ret r m1 ∧
      (r = true ↔
        ((hostBoot refBuild).obj.isHost = true ∧
          ((hostBoot refBuild).obj.last_sbuf < refBuild.RP_MSG_NUM_BUFS ∨
            (hostBoot refBuild).obj.vq_slave.vring.used.idx
              ≠ (hostBoot refBuild).obj.vq_slave.last_used_idx)) ∨
        ((hostBoot refBuild).obj.isHost = false ∧
          (hostBoot refBuild).obj.vq_host.vring.avail.idx
            ≠ (hostBoot refBuild).obj.vq_host.last_avail_idx)) :=
  C4_put_true_iff_buffer refBuild refMessageQ (hostBoot refBuild) testMsg
    (by decide) (by decide) (by decide)

/-! ### Flow control on the host -/

theorem addAvailBuf_post_eq (b : Build) (vq : VirtQueue_Object) (buf : Nat)
    (h : vq.num_free ≠ 0) :
    addAvailBuf_post b vq buf =
      { vq with
        num_free := vq.num_free - 1
        vring := { vq.vring with
          avail := { vq.vring.avail with idx := (vq.vring.avail.idx + 1) % 65536 }
          desc := Function.update vq.vring.desc (vq.vring.avail.idx % vq.vring.num)
            { vq.vring.desc (vq.vring.avail.idx % vq.vring.num) with
              addr := mapVAtoPA buf, len := b.RP_MSG_BUF_SIZE } } } := by
  simp [addAvailBuf_post, VirtQueue_addAvailBuf, h, Result.state]

theorem putAll_snoc (b : Build) (q : MessageQ) (x : Nat → Nat) (r : Bool) :
    ∀ (l : List (Nat → Nat)) (m m1 m2 : Machine) (rs : List Bool),
      putAll b q m l = .ret rs m1 → TransportVirtio_put b q m1 x = .ret r m2 →
      putAll b q m (l ++ [x]) = .ret (rs ++ [r]) m2 := by
  intro l
  induction l with
  | nil =>
    intro m m1 m2 rs h1 h2
    simp only [putAll, Result.ret.injEq] at h1
    obtain ⟨hrs, hm⟩ := h1
    subst hrs
    subst hm
    simp [putAll, h2]
  | cons y rest ih =>
    intro m m1 m2 rs h1 h2
    simp only [putAll] at h1
    cases hy : TransportVirtio_put b q m y with
    | raised s => simp [hy] at h1
    | ret ry my =>
      simp only [hy] at h1
      cases hr : putAll b q my rest with
      | raised s => simp [hr] at h1
      | ret rr mr =>
        simp only [hr, Result.ret.injEq] at h1
        obtain ⟨hrs, hm⟩ := h1
        subst hrs
        subst hm
        simp [putAll, hy, ih my mr m2 rr hr h2]

theorem sendBuf_eq (b : Build) (i : Nat) (hi : i < b.RP_MSG_NUM_BUFS)
    (hB : 0 < b.RP_MSG_BUF_SIZE)
    (htop : b.IPU_MEM_VRING0 + 2 * (b.RP_MSG_NUM_BUFS * b.RP_MSG_BUF_SIZE) ≤ 4294967296) :
    sendBuf b i
      = b.IPU_MEM_VRING0 + b.RP_MSG_NUM_BUFS * b.RP_MSG_BUF_SIZE + b.RP_MSG_BUF_SIZE * i := by
  have h1 : b.RP_MSG_BUF_SIZE * i < b.RP_MSG_BUF_SIZE * b.RP_MSG_NUM_BUFS :=
    Nat.mul_lt_mul_of_pos_left hi hB
  have h2 : b.RP_MSG_BUF_SIZE * b.RP_MSG_NUM_BUFS = b.RP_MSG_NUM_BUFS * b.RP_MSG_BUF_SIZE :=
    Nat.mul_comm _ _
  unfold sendBuf
  rw [Nat.mod_eq_of_lt (a := b.IPU_MEM_VRING0 + b.RP_MSG_NUM_BUFS * b.RP_MSG_BUF_SIZE)
    (by omega), Nat.mod_eq_of_lt (by omega)]

theorem sendBuf_lt (b : Build) (i k : Nat) (hik : i < k) (hk : k < b.RP_MSG_NUM_BUFS)
    (hB : 0 < b.RP_MSG_BUF_SIZE)
    (htop : b.IPU_MEM_VRING0 + 2 * (b.RP_MSG_NUM_BUFS * b.RP_MSG_BUF_SIZE) ≤ 4294967296) :
    sendBuf b i < sendBuf b k := by
  rw [sendBuf_eq b i (by omega) hB htop, sendBuf_eq b k hk hB htop]
  have h1 : b.RP_MSG_BUF_SIZE * i < b.RP_MSG_BUF_SIZE * k := Nat.mul_lt_mul_of_pos_left hik hB
  omega

/-- One more send from an unused tx buffer. -/
theorem put_fresh_step (b : Build) (q : MessageQ) (msgs : Nat → Nat → Nat) (n : Nat)
    (m : Machine) (hn : n < b.RP_MSG_NUM_BUFS) (hN : b.RP_MSG_NUM_BUFS ≤ 32768)
    (hV : 0 < b.IPU_MEM_VRING0) (hB : 0 < b.RP_MSG_BUF_SIZE)
    (htop : b.IPU_MEM_VRING0 + 2 * (b.RP_MSG_NUM_BUFS * b.RP_MSG_BUF_SIZE) ≤ 4294967296)
    (hsz : q.getMsgSize (msgs n) ≤ MAX_PAYLOAD b)
    (hinv : SentFresh b q msgs n m) :
    ∃ m1, TransportVirtio_put b q m (msgs n) = .ret true m1 ∧ SentFresh b q msgs (n + 1) m1 := by
  obtain ⟨hH, hl, hs, hnf, hidx, hnum, hused, hdesc, hpool⟩ := hinv
  have hptr : (m.obj.sbufs + b.RP_MSG_BUF_SIZE * m.obj.last_sbuf) % 4294967296 = sendBuf b n := by
    rw [hs, hl]
    rfl
  have hpos : sendBuf b n ≠ 0 := by
    rw [sendBuf_eq b n hn hB htop]
    omega
  have hnf0 : m.obj.vq_slave.num_free ≠ 0 := by omega
  have hput := put_host_fresh b q m (msgs n) hH (by omega) (by rw [hptr]; exact hpos) hsz hnf0
  rw [hptr] at hput
  refine ⟨_, hput, ?_⟩
  have hmodN : m.obj.vq_slave.vring.avail.idx % m.obj.vq_slave.vring.num = n := by
    rw [hidx, hnum]
    exact Nat.mod_eq_of_lt hn
  have hwrap : (m.obj.vq_slave.vring.avail.idx + 1) % 65536 = n + 1 := by
    rw [hidx]
    exact Nat.mod_eq_of_lt (by omega)
  rw [addAvailBuf_post_eq b _ _ hnf0, hmodN, hwrap]
  refine ⟨hH, by simp [hl], hs, by simp only; omega, rfl, hnum, hused, ?_, ?_⟩
  · intro i hi
    by_cases hin : i = n
    · subst hin
      simp
    · simp only [Function.update_noteq hin]
      exact hdesc i (by omega)
  · intro i hi j hj
    by_cases hin : i = n
    · subst hin
      simp [put_fill, hj]
    · have hlt : sendBuf b i < sendBuf b n := sendBuf_lt b i n (by omega) hn hB htop
      have hne : sendBuf b i ≠ sendBuf b n := Nat.ne_of_lt hlt
      simp only [Function.update_noteq hne]
      exact hpool i (by omega) j hj

theorem recvBufs_length (b : Build) : (recvBufs b).length = b.RP_MSG_NUM_BUFS := by
  simp [recvBufs]

/-- The host-role part of the initialisation returns: the priming loop finds a free
descriptor for each of the `RP_MSG_NUM_BUFS` receive buffers. -/
theorem Instance_init_host_returns (b : Build) (hN : b.RP_MSG_NUM_BUFS ≤ 32768) :
    Instance_init_host b (bootMachine b true) = .ret () (hostBoot b) := by
  obtain ⟨P, hP, _⟩ := addAvailBufs_spec b (recvBufs b) (bootMachine b true).obj.vq_host
    (by simp [recvBufs_length, bootMachine, createdObj, VirtQueue_create])
    (by simp [recvBufs_length, bootMachine, createdObj, VirtQueue_create, zeroRing])
    (by simpa [bootMachine, createdObj, VirtQueue_create] using hN)
  simp only [hostBoot, Instance_init_host, hP, Result.state]

/-- What the host-role part of the initialisation leaves outside `vq_host`. -/
theorem Instance_init_host_state (b : Build) (m : Machine) :
    (Instance_init_host b m).state.obj.isHost = m.obj.isHost ∧
    (Instance_init_host b m).state.obj.last_sbuf = 0 ∧
    (Instance_init_host b m).state.obj.sbufs
      = (b.IPU_MEM_VRING0 + b.RP_MSG_NUM_BUFS * b.RP_MSG_BUF_SIZE) % 4294967296 ∧
    (Instance_init_host b m).state.obj.vq_slave = m.obj.vq_slave ∧
    (Instance_init_host b m).state.pool = m.pool := by
  dsimp only [Instance_init_host]
  cases h : addAvailBufs b m.obj.vq_host (recvBufs b) <;> simp [Result.state]

theorem hostBoot_sentFresh (b : Build) (q : MessageQ) (msgs : Nat → Nat → Nat) :
    SentFresh b q msgs 0 (hostBoot b) := by
  obtain ⟨h1, h2, h3, h4, _⟩ := Instance_init_host_state b (bootMachine b true)
  unfold SentFresh hostBoot
  rw [h1, h2, h3, h4]
  simp [bootMachine, createdObj, VirtQueue_create, zeroRing]

/-- The first `n ≤ RP_MSG_NUM_BUFS` sends of a freshly initialised host succeed. -/
theorem putAll_fresh (b : Build) (q : MessageQ) (msgs : Nat → Nat → Nat)
    (hN : b.RP_MSG_NUM_BUFS ≤ 32768)
    (hV : 0 < b.IPU_MEM_VRING0) (hB : 0 < b.RP_MSG_BUF_SIZE)
    (htop : b.IPU_MEM_VRING0 + 2 * (b.RP_MSG_NUM_BUFS * b.RP_MSG_BUF_SIZE) ≤ 4294967296)
    (hsz : ∀ i, q.getMsgSize (msgs i) ≤ MAX_PAYLOAD b) :
    ∀ n, n ≤ b.RP_MSG_NUM_BUFS →
      ∃ mn, putAll b q (hostBoot b) ((List.range n).map msgs)
          = .ret (List.replicate n true) mn ∧ SentFresh b q msgs n mn := by
  intro n
  induction n with
  | zero =>
    intro _
    exact ⟨hostBoot b, rfl, hostBoot_sentFresh b q msgs⟩
  | succ n ih =>
    intro hn
    obtain ⟨mn, hrun, hinv⟩ := ih (by omega)
    obtain ⟨m1, hput, hinv1⟩ :=
      put_fresh_step b q msgs n mn (by omega) hN hV hB htop (hsz n) hinv
    refine ⟨m1, ?_, hinv1⟩
    rw [List.range_succ, List.map_append, List.map_singleton, List.replicate_succ']
    exact putAll_snoc b q (msgs n) true _ _ mn m1 _ hrun hput

/-- C5: a host-role transport freshly initialised by `TransportVirtio_Instance_init`
on zeroed ring memory (the initialisation returns), whose peer consumes nothing,
sends `N + 1` messages `msgs 0`, ..., `msgs N` in a row, each within
`MAX_PAYLOAD` (`N = RP_MSG_NUM_BUFS`, at most `32768`; the pool lies in the 32-bit
address space above `NULL`). The first `N` calls of `TransportVirtio_put` return
`TRUE` and the `(N+1)`-th returns `FALSE`; the `i`-th call used the send-half
buffer `sbufs + i * RP_MSG_BUF_SIZE`: descriptor `i` of the slave-direction ring
holds its physical address and the buffer holds the bytes of `msgs i`. -/
theorem C5_host_sends_N_then_fails (b : Build) (q : MessageQ) (msgs : Nat → Nat → Nat)
    (hN : b.RP_MSG_NUM_BUFS ≤ 32768)
    (hV : 0 < b.IPU_MEM_VRING0) (hB : 0 < b.RP_MSG_BUF_SIZE)
    (htop : b.IPU_MEM_VRING0 + 2 * (b.RP_MSG_NUM_BUFS * b.RP_MSG_BUF_SIZE) ≤ 4294967296)
    (hsz : ∀ i, q.getMsgSize (msgs i) ≤ MAX_PAYLOAD b) :
    Instance_init_host b (bootMachine b true) = .ret () (hostBoot b) ∧
    ∃ mf, putAll b q (hostBoot b) ((List.range (b.RP_MSG_NUM_BUFS + 1)).map msgs)
        = .ret (List.replicate b.RP_MSG_NUM_BUFS true ++ [false]) mf ∧
      mf.obj.last_sbuf = b.RP_MSG_NUM_BUFS ∧
      (∀ i, i < b.RP_MSG_NUM_BUFS →
        (mf.obj.vq_slave.vring.desc i).addr
          = mapVAtoPA ((hostBoot b).obj.sbufs + i * b.RP_MSG_BUF_SIZE) ∧
        ∀ j, j < q.getMsgSize (msgs i) →
          (mf.pool ((hostBoot b).obj.sbufs + i * b.RP_MSG_BUF_SIZE)).payload j = msgs i j) := by
  refine ⟨Instance_init_host_returns b hN, ?_⟩
  obtain ⟨mN, hrun, hinv⟩ := putAll_fresh b q msgs hN hV hB htop hsz b.RP_MSG_NUM_BUFS le_rfl
  obtain ⟨hH, hl, hs, _, _, _, hused, hdesc, hpool⟩ := hinv
  have hfail := put_host_fail b q mN (msgs b.RP_MSG_NUM_BUFS) hH (by omega) hused
  refine ⟨mN, ?_, hl, ?_⟩
  · rw [List.range_succ, List.map_append, List.map_singleton]
    exact putAll_snoc b q _ false _ _ mN mN _ hrun hfail
  · intro i hi
    have hboot : (hostBoot b).obj.sbufs
        = (b.IPU_MEM_VRING0 + b.RP_MSG_NUM_BUFS * b.RP_MSG_BUF_SIZE) % 4294967296 :=
      (hostBoot_sentFresh b q msgs).2.2.1
    have hmul : b.RP_MSG_BUF_SIZE * i < b.RP_MSG_BUF_SIZE * b.RP_MSG_NUM_BUFS :=
      Nat.mul_lt_mul_of_pos_left hi hB
    have hcomm : b.RP_MSG_BUF_SIZE * b.RP_MSG_NUM_BUFS
        = b.RP_MSG_NUM_BUFS * b.RP_MSG_BUF_SIZE := Nat.mul_comm _ _
    have hcomm2 : i * b.RP_MSG_BUF_SIZE = b.RP_MSG_BUF_SIZE * i := Nat.mul_comm _ _
    have haddr : (hostBoot b).obj.sbufs + i * b.RP_MSG_BUF_SIZE = sendBuf b i := by
      rw [sendBuf_eq b i hi hB htop, hboot,
        Nat.mod_eq_of_lt (a := b.IPU_MEM_VRING0 + b.RP_MSG_NUM_BUFS * b.RP_MSG_BUF_SIZE)
          (by omega), hcomm2]
    rw [haddr]
    exact ⟨hdesc i hi, hpool i hi⟩

/-- C5 in the reference build (`N = 256`), every message being `testMsg`. -/
theorem C5_host_sends_N_then_fails_witness :
    Instance_init_host refBuild (bootMachine refBuild true) = .ret () (hostBoot refBuild) ∧
    ∃ mf, putAll refBuild refMessageQ (hostBoot refBuild)
          ((List.range (refBuild.RP_MSG_NUM_BUFS + 1)).map (fun _ => testMsg))
        = .ret (List.replicate refBuild.RP_MSG_NUM_BUFS true ++ [false]) mf ∧
      mf.obj.last_sbuf = refBuild.RP_MSG_NUM_BUFS ∧
      (∀ i, i < refBuild.RP_MSG_NUM_BUFS →
        (mf.obj.vq_slave.vring.desc i).addr
          = mapVAtoPA ((hostBoot refBuild).obj.sbufs + i * refBuild.RP_MSG_BUF_SIZE) ∧
        ∀ j, j < refMessageQ.getMsgSize ((fun _ => testMsg) i) →
          (mf.pool ((hostBoot refBuild).obj.sbufs + i * refBuild.RP_MSG_BUF_SIZE)).payload j
            = (fun _ => testMsg) i j) :=
  C5_host_sends_N_then_fails refBuild refMessageQ (fun _ => testMsg)
    (by decide) (by decide) (by decide) (by decide)
    (fun _ => (by decide : refMessageQ.getMsgSize testMsg ≤ MAX_PAYLOAD refBuild))

/-! ## Rejection of a descriptor index, reclaiming, kicking -/

/-- C11 at a concrete input: on a ring of `N = 256` elements `VirtQueue_addUsedBuf`
called with `head = 256 = N` raises no error: the test of line 196 is
`head > vring.num`, not `head >= vring.num`. The call returns 0 and stores the
index `256`, which designates no descriptor, into `used.ring[0]`. -/
theorem C11_addUsedBuf_accepts_head_eq_num :
    (VirtQueue_addUsedBuf refBuild (freshVq 0 256) 256).isRaised = false ∧
    (VirtQueue_addUsedBuf refBuild (freshVq 0 256) 256).value = some 0 ∧
    ((VirtQueue_addUsedBuf refBuild (freshVq 0 256) 256).state.vring.used.ring 0).id = 256 ∧
    (VirtQueue_addUsedBuf refBuild (freshVq 0 256) 256).state.vring.used.idx = 1 ∧
    (VirtQueue_addUsedBuf refBuild (freshVq 0 256) 257).isRaised = true ∧
    (VirtQueue_addUsedBuf refBuild (freshVq 0 256) (-1)).isRaised = true := by
  decide

theorem getUsedBuf_of_eq (b : Build) (vq : VirtQueue_Object)
    (h : vq.last_used_idx = vq.vring.used.idx) : VirtQueue_getUsedBuf b vq = (0, vq) := by
  simp [VirtQueue_getUsedBuf, h]

theorem getUsedBuf_of_ne (b : Build) (vq : VirtQueue_Object)
    (h : vq.last_used_idx ≠ vq.vring.used.idx) :
    VirtQueue_getUsedBuf b vq =
      (mapPAtoVA (vq.vring.desc
          ((vq.vring.used.ring (vq.last_used_idx % vq.vring.num)).id % 65536)).addr,
        { vq with
          last_used_idx := (vq.last_used_idx + 1) % 65536
          num_free := (vq.num_free + 1) % b.NUM_FREE_MOD }) := by
  simp [VirtQueue_getUsedBuf, h]

/-- C13: `VirtQueue_kick` reads `avail.flags`, `procId` and `id` of the queue and
stores nothing into it; its only effect is on the mailbox. When
`avail.flags & VRING_AVAIL_F_NO_INTERRUPT` is zero exactly one interrupt is sent,
to `procId` with payload `id`; when the bit is set none is sent. -/
theorem C13_kick_effect (b : Build) (vq : VirtQueue_Object) (mbox : List (Nat × Nat)) :
    (vq.vring.avail.flags &&& b.VRING_AVAIL_F_NO_INTERRUPT = 0 →
      VirtQueue_kick b vq mbox = mbox ++ [(vq.procId, vq.id)]) ∧
    (vq.vring.avail.flags &&& b.VRING_AVAIL_F_NO_INTERRUPT ≠ 0 →
      VirtQueue_kick b vq mbox = mbox) := by
  constructor
  · intro h
    simp [VirtQueue_kick, h]
  · intro h
    simp [VirtQueue_kick, h]

/-! ### The size check of a send -/

theorem high_bits_of_lt (msg : Nat) (h : msg < NUM_QUEUES) : msg &&& 0xFFFF0000 = 0 := by
  unfold NUM_QUEUES at h
  interval_cases msg <;> decide

/-- C16: in the default build, for every `msg < NUM_QUEUES`: on CORE0
(`MultiProc_self() = sysm3ProcId`) a `msg` equal to 2 or 3 is forwarded by exactly one
interrupt with the same payload to CORE1 (`appm3ProcId`), with no registry read and
no callback; every other `msg < NUM_QUEUES` on CORE0, and every `msg < NUM_QUEUES`
on another core, reads `queueRegistry[msg]` once and calls the callback of the
registered queue exactly once, does nothing more when none is registered, and
sends no interrupt. -/
theorem C16_isr_data_messages (b : Build) (p : ProcIds)
    (registry : Nat → Option VirtQueue_Object) (msg : Nat)
    (hbuild : b.APPM3_IS_HOST = false) (hmsg : msg < NUM_QUEUES) :
    (p.self = p.sysm3ProcId → (msg = 2 ∨ msg = 3) →
      VirtQueue_isr b p registry msg = [.intSend p.appm3ProcId msg]) ∧
    ((p.self ≠ p.sysm3ProcId ∨ (msg ≠ 2 ∧ msg ≠ 3)) →
      (∀ vq, registry msg = some vq →
        VirtQueue_isr b p registry msg = [.registryRead msg, .callback vq.id vq.callback]) ∧
      (registry msg = none → VirtQueue_isr b p registry msg = [.registryRead msg])) := by
  have hhi := high_bits_of_lt msg hmsg
  have h1 : msg ≠ RP_MSG_MBOX_READY := by unfold NUM_QUEUES at hmsg; unfold RP_MSG_MBOX_READY; omega
  have h2 : msg ≠ RP_MBOX_ECHO_REQUEST := by
    unfold NUM_QUEUES at hmsg; unfold RP_MBOX_ECHO_REQUEST; omega
  have h3 : msg ≠ RP_MBOX_ABORT_REQUEST := by
    unfold NUM_QUEUES at hmsg; unfold RP_MBOX_ABORT_REQUEST; omega
  have h4 : msg ≠ RP_MSG_FLUSH_CACHE := by
    unfold NUM_QUEUES at hmsg; unfold RP_MSG_FLUSH_CACHE; omega
  have h5 : msg ≠ RP_MSG_HIBERNATION := by
    unfold NUM_QUEUES at hmsg; unfold RP_MSG_HIBERNATION; omega
  have hroute : VirtQueue_isr b p registry msg = isr_route p registry msg := by
    by_cases hs : p.self = p.sysm3ProcId <;>
      simp [VirtQueue_isr, hbuild, hs, h1, h2, h3, h4, h5, hhi]
  rw [hroute]
  constructor
  · intro hs h23
    have : msg = ID_A9_TO_APPM3 ∨ msg = ID_APPM3_TO_A9 := by
      unfold ID_A9_TO_APPM3 ID_APPM3_TO_A9
      omega
    simp [isr_route, hs, this]
  · intro hcase
    have hno : ¬ (p.self = p.sysm3ProcId ∧ (msg = ID_A9_TO_APPM3 ∨ msg = ID_APPM3_TO_A9)) := by
      unfold ID_A9_TO_APPM3 ID_APPM3_TO_A9
      rintro ⟨hs, h23⟩
      rcases hcase with h | ⟨ha, hb⟩
      · exact h hs
      · omega
    constructor
    · intro vq hvq
      simp [isr_route, hno, isr_lookup, hvq]
    · intro hnone
      simp [isr_route, hno, isr_lookup, hnone]

/-- C16 on CORE0 of the reference system, for the forwarded id 3 and the local id 1. -/
theorem C16_isr_data_messages_witness :
    VirtQueue_isr refBuild (refProcs 1) refRegistry 3 = [.intSend (refProcs 1).appm3ProcId 3] ∧
    VirtQueue_isr refBuild (refProcs 1) refRegistry 1
      = [.registryRead 1, .callback 1 .callback_availBufReady] :=
  ⟨(C16_isr_data_messages refBuild (refProcs 1) refRegistry 3 rfl (by decide)).1 rfl
      (Or.inr rfl),
    ((C16_isr_data_messages refBuild (refProcs 1) refRegistry 1 rfl (by decide)).2
      (Or.inr (by decide))).1 (bootMachine refBuild false).obj.vq_slave rfl⟩

/-- C17, as stated, fails on CORE1: in the default build the dispatcher of a core
other than CORE0 answers `RP_MBOX_ECHO_REQUEST` with nothing at all. -/
theorem C17_core1_sends_no_echo_reply :
    VirtQueue_isr refBuild (refProcs 2) refRegistry RP_MBOX_ECHO_REQUEST = [] ∧
    IsrEvent.intSend 0 RP_MBOX_ECHO_REPLY
      ∉ VirtQueue_isr refBuild (refProcs 2) refRegistry RP_MBOX_ECHO_REQUEST := by
  decide

/-- C17, amended: in the default build, on CORE0 the dispatcher answers
`RP_MBOX_ECHO_REQUEST` with exactly one `RP_MBOX_ECHO_REPLY` interrupt, addressed to
the HOST processor, without reading the registry or calling a callback; on every
other core it ignores `RP_MBOX_ECHO_REQUEST`; `RP_MSG_MBOX_READY` is ignored on
every core (nothing sent, no registry read, no callback). -/
theorem C17_amended_echo_and_ready (b : Build) (p : ProcIds)
    (registry : Nat → Option VirtQueue_Object) (hbuild : b.APPM3_IS_HOST = false) :
    (p.self = p.sysm3ProcId →
      VirtQueue_isr b p registry RP_MBOX_ECHO_REQUEST
        = [.intSend p.hostProcId RP_MBOX_ECHO_REPLY]) ∧
    (p.self ≠ p.sysm3ProcId → VirtQueue_isr b p registry RP_MBOX_ECHO_REQUEST = []) ∧
    VirtQueue_isr b p registry RP_MSG_MBOX_READY = [] := by
  refine ⟨?_, ?_, ?_⟩
  · intro hs
    simp [VirtQueue_isr, hbuild, hs, RP_MBOX_ECHO_REQUEST, RP_MSG_MBOX_READY]
  · intro hs
    simp [VirtQueue_isr, hbuild, hs, RP_MBOX_ECHO_REQUEST, RP_MSG_HIBERNATION]
  · by_cases hs : p.self = p.sysm3ProcId
    · simp [VirtQueue_isr, hbuild, hs]
    · simp [VirtQueue_isr, hbuild, hs, RP_MSG_MBOX_READY, RP_MSG_HIBERNATION]

/-- C17 amended, on CORE0 of the reference system. -/
theorem C17_amended_echo_and_ready_witness :
    VirtQueue_isr refBuild (refProcs 1) refRegistry RP_MBOX_ECHO_REQUEST
      = [.intSend (refProcs 1).hostProcId RP_MBOX_ECHO_REPLY] ∧
    VirtQueue_isr refBuild (refProcs 1) refRegistry RP_MSG_MBOX_READY = [] :=
  ⟨(C17_amended_echo_and_ready refBuild (refProcs 1) refRegistry rfl).1 rfl,
    (C17_amended_echo_and_ready refBuild (refProcs 1) refRegistry rfl).2.2⟩

/-- C18 at a concrete input: on CORE0 of the reference system, in the default
build, the out-of-band code `RP_MSG_MBOX_CRASH = 0xFFFFFF02` is not filtered: the
`switch` falls to `default`, the test of the high 16 bits belongs to the `else`
branch of the other cores, and the dispatcher loads `queueRegistry[0xFFFFFF02]`,
far behind the 5 entries of the array. The same happens with
`RP_MSG_MBOX_STATE_CHANGE` and `RP_MBOX_ECHO_REPLY`; on CORE1 the three codes are
dropped. -/
theorem C18_core0_indexes_registry_with_control_code :
    VirtQueue_isr refBuild (refProcs 1) refRegistry RP_MSG_MBOX_CRASH
      = [.registryRead 0xFFFFFF02] ∧
    VirtQueue_isr refBuild (refProcs 1) refRegistry RP_MSG_MBOX_STATE_CHANGE
      = [.registryRead 0xFFFFFF01] ∧
    VirtQueue_isr refBuild (refProcs 1) refRegistry RP_MBOX_ECHO_REPLY
      = [.registryRead 0xFFFFFF04] ∧
    VirtQueue_isr refBuild (refProcs 1)
        (fun _ => some (bootMachine refBuild false).obj.vq_host) RP_MSG_MBOX_CRASH
      = [.registryRead 0xFFFFFF02, .callback 0 .callback_availBufReady] ∧
    VirtQueue_isr refBuild (refProcs 2) refRegistry RP_MSG_MBOX_CRASH = [] := by
  decide

/-! ## The name-service announcement -/

theorem strncpy_length (src : List Nat) (n : Nat) : (strncpy src n).length = n := by
  simp only [strncpy, List.length_append, List.length_take, List.length_replicate]
  omega

theorem strncpy_of_no_nul (src : List Nat) (n : Nat) (h0 : ∀ c ∈ src, c ≠ 0)
    (hlen : src.length ≤ n) :
    strncpy src n = src ++ List.replicate (n - src.length) 0 := by
  have htw : src.takeWhile (fun c => c != 0) = src := by
    rw [List.takeWhile_eq_self_iff]
    intro c hc
    simpa using h0 c hc
  simp only [strncpy, htw]
  rw [List.take_of_length_le hlen]

theorem rpmsg_ns_msg_length (name : List Nat) (port flags : Nat) :
    (rpmsg_ns_msg name port flags).length = 40 := by
  simp [rpmsg_ns_msg, strncpy_length, le32, RPMSG_NAME_SIZE]

/-- A valid available entry is returned as a non-negative token, which
`VirtQueue_addUsedBuf` accepts. -/
theorem getAvailBuf_take_valid (b : Build) (vq : VirtQueue_Object)
    (hN : vq.vring.num ≤ 32768)
    (hhead : headAt b vq.vring vq.last_avail_idx < vq.vring.num) :
    (getAvailBuf_take b vq).1 = ((headAt b vq.vring vq.last_avail_idx : Nat) : Int) ∧
    VirtQueue_addUsedBuf b (getAvailBuf_take b vq).2.2 (getAvailBuf_take b vq).1
      = .ret 0 (VirtQueue_addUsedBuf b (getAvailBuf_take b vq).2.2
          (getAvailBuf_take b vq).1).state := by
  obtain ⟨h1, _, _, _, _, h6⟩ := getAvailBuf_take_spec b vq
  have htok : (getAvailBuf_take b vq).1 = ((headAt b vq.vring vq.last_avail_idx : Nat) : Int) := by
    rw [h1, toInt16_of_lt _ (by omega)]
  have hc : ¬ (((getAvailBuf_take b vq).1 % 4294967296).toNat
        > (getAvailBuf_take b vq).2.2.vring.num ∨ (getAvailBuf_take b vq).1 < 0) := by
    rw [htok, h6]
    omega
  refine ⟨htok, ?_⟩
  simp only [VirtQueue_addUsedBuf, if_neg hc, Result.state]

/-! ## The receive drain -/

/-- The delivery step: a buffer addressed to the MessageQ port is copied and handed
to `MessageQ_put` (when `MessageQ_alloc` succeeds), any other buffer is left alone;
nothing else changes. -/
theorem swiFxn_deliver_spec (q : MessageQ) (m : Machine) (p : Nat)
    (halloc : (m.pool p).dstAddr = RPMSG_MESSAGEQ_PORT →
      q.alloc (q.heapId (m.pool p).payload) (q.getMsgSize (m.pool p).payload) = true) :
    swiFxn_deliver q m p = .ret ()
      { m with inbox :=
          if (m.pool p).dstAddr = RPMSG_MESSAGEQ_PORT then
            m.inbox ++ [(q.getDstQueue (m.pool p).payload,
              (List.range (q.getMsgSize (m.pool p).payload)).map (m.pool p).payload)]
          else m.inbox } := by
  by_cases hd : (m.pool p).dstAddr = RPMSG_MESSAGEQ_PORT
  · simp [swiFxn_deliver, hd, halloc hd]
  · simp [swiFxn_deliver, hd]

theorem getAvailBuf_take_eq (b : Build) (vq : VirtQueue_Object) :
    getAvailBuf_take b vq =
      (toInt16 (headAt b vq.vring vq.last_avail_idx),
        mapPAtoVA (vq.vring.desc (headAt b vq.vring vq.last_avail_idx)).addr,
        { (if b.VirtQueue_isHost vq then setNoNotify b vq else vq) with
          last_avail_idx := (vq.last_avail_idx + 1) % 65536 }) := by
  by_cases hh : b.VirtQueue_isHost vq = true <;>
    by_cases ha : b.APPM3_IS_HOST = true <;>
      simp [getAvailBuf_take, headAt, hh, ha, setNoNotify]

/-- One buffer through the slave-role drain, the ring holding a valid entry: what
`VirtQueue_getAvailBuf` yields, and the slot return by `VirtQueue_addUsedBuf` with
the token it returned. -/
theorem drain_slave_step (b : Build) (m0 : Machine) (l0 : SwiLocals)
    (hS : m0.obj.isHost = false)
    (hne : m0.obj.vq_slave.last_avail_idx ≠ m0.obj.vq_slave.vring.avail.idx)
    (hN : m0.obj.vq_slave.vring.num ≤ 32768)
    (hhead : headAt b m0.obj.vq_slave.vring m0.obj.vq_slave.last_avail_idx
      < m0.obj.vq_slave.vring.num) :
    swiFxn_next b m0 l0 =
      ({ m0 with obj := { m0.obj with vq_slave := (getAvailBuf_take b m0.obj.vq_slave).2.2 } },
        { l0 with
          rp_msg := (getAvailBuf_take b m0.obj.vq_slave).2.1
          token := (getAvailBuf_take b m0.obj.vq_slave).1
          buf_avail := true }) ∧
    ∃ vqU, VirtQueue_addUsedBuf b (getAvailBuf_take b m0.obj.vq_slave).2.2
        (getAvailBuf_take b m0.obj.vq_slave).1 = .ret 0 vqU ∧
      ∀ m1 : Machine,
        m1.obj = { m0.obj with vq_slave := (getAvailBuf_take b m0.obj.vq_slave).2.2 } →
        swiFxn_giveBack b m1 (swiFxn_next b m0 l0).2
          = .ret () { m1 with obj := { m0.obj with vq_slave := vqU } } := by
  obtain ⟨obj, pool, mbox, inbox, freed⟩ := m0
  obtain ⟨priority, remoteProcId, isHost, vq_host, vq_slave, sbufs, last_sbuf⟩ := obj
  simp only at hS hne hN hhead ⊢
  subst hS
  obtain ⟨htok, hadd⟩ := getAvailBuf_take_valid b vq_slave hN hhead
  have hge : (getAvailBuf_take b vq_slave).1 ≥ 0 := by
    rw [htok]
    omega
  obtain ⟨vqU, hU⟩ : ∃ vqU, VirtQueue_addUsedBuf b (getAvailBuf_take b vq_slave).2.2
      (getAvailBuf_take b vq_slave).1 = .ret 0 vqU := ⟨_, hadd⟩
  refine ⟨?_, vqU, hU, ?_⟩
  · simp [swiFxn_next, getAvailBuf_of_ne b _ _ hne, hge]
  · intro m1 hm1
    simp [swiFxn_next, swiFxn_giveBack, getAvailBuf_of_ne b _ _ hne, hU, hm1]

/-- One buffer through the host-role drain, the used ring holding an entry: what
`VirtQueue_getUsedBuf` yields, and the slot return by `VirtQueue_addAvailBuf` of the
same buffer. -/
theorem drain_host_step (b : Build) (m0 : Machine) (l0 : SwiLocals)
    (hH : m0.obj.isHost = true)
    (hne : m0.obj.vq_host.last_used_idx ≠ m0.obj.vq_host.vring.used.idx)
    (hnf : m0.obj.vq_host.num_free + 1 < b.NUM_FREE_MOD) :
    swiFxn_next b m0 l0 =
      ({ m0 with obj := { m0.obj with vq_host := (VirtQueue_getUsedBuf b m0.obj.vq_host).2 } },
        { l0 with
          rp_msg := (VirtQueue_getUsedBuf b m0.obj.vq_host).1
          buf_avail := true }) ∧
    VirtQueue_addAvailBuf b (VirtQueue_getUsedBuf b m0.obj.vq_host).2
        (VirtQueue_getUsedBuf b m0.obj.vq_host).1
      = .ret ((m0.obj.vq_host.num_free : Nat) : Int)
          (addAvailBuf_post b (VirtQueue_getUsedBuf b m0.obj.vq_host).2
            (VirtQueue_getUsedBuf b m0.obj.vq_host).1) ∧
    ∀ m1 : Machine,
      m1.obj = { m0.obj with vq_host := (VirtQueue_getUsedBuf b m0.obj.vq_host).2 } →
      swiFxn_giveBack b m1 (swiFxn_next b m0 l0).2
        = .ret () { m1 with obj := { m0.obj with
            vq_host := addAvailBuf_post b (VirtQueue_getUsedBuf b m0.obj.vq_host).2
              (VirtQueue_getUsedBuf b m0.obj.vq_host).1 } } := by
  obtain ⟨obj, pool, mbox, inbox, freed⟩ := m0
  obtain ⟨priority, remoteProcId, isHost, vq_host, vq_slave, sbufs, last_sbuf⟩ := obj
  simp only at hH hne hnf ⊢
  subst hH
  have hptr : (VirtQueue_getUsedBuf b vq_host).1 ≠ 0 := by
    rw [getUsedBuf_of_ne b vq_host hne]
    exact mapPAtoVA_ne_zero _
  have hfree : (VirtQueue_getUsedBuf b vq_host).2.num_free = vq_host.num_free + 1 := by
    rw [getUsedBuf_of_ne b vq_host hne]
    exact Nat.mod_eq_of_lt hnf
  have hadd := addAvailBuf_of_ne_zero b (VirtQueue_getUsedBuf b vq_host).2
    (VirtQueue_getUsedBuf b vq_host).1 (by omega)
  rw [hfree] at hadd
  refine ⟨?_, ?_, ?_⟩
  · simp [swiFxn_next, hptr]
  · simpa using hadd
  · intro m1 hm1
    simp [swiFxn_next, swiFxn_giveBack, hm1, hadd]

theorem swiFxn_deliver_ex (q : MessageQ) (m : Machine) (p : Nat)
    (halloc : (m.pool p).dstAddr = RPMSG_MESSAGEQ_PORT →
      q.alloc (q.heapId (m.pool p).payload) (q.getMsgSize (m.pool p).payload) = true) :
    ∃ m1, swiFxn_deliver q m p = .ret () m1 ∧ m1.obj = m.obj ∧ m1.pool = m.pool ∧
      m1.mbox = m.mbox ∧
      ((m.pool p).dstAddr = 61 → m1.inbox = m.inbox ++
        [(q.getDstQueue (m.pool p).payload,
          (List.range (q.getMsgSize (m.pool p).payload)).map (m.pool p).payload)]) ∧
      ((m.pool p).dstAddr ≠ 61 → m1.inbox = m.inbox) := by
  have hport : RPMSG_MESSAGEQ_PORT = 61 := rfl
  refine ⟨_, swiFxn_deliver_spec q m p halloc, rfl, rfl, rfl, ?_, ?_⟩
  · intro h
    simp [hport, h]
  · intro h
    simp [hport, h]

theorem next_taken_host (b : Build) (m0 : Machine) (l0 : SwiLocals)
    (hH : m0.obj.isHost = true) (htaken : (swiFxn_next b m0 l0).2.buf_avail = true) :
    m0.obj.vq_host.last_used_idx ≠ m0.obj.vq_host.vring.used.idx := by
  intro he
  simp [swiFxn_next, hH, getUsedBuf_of_eq b _ he] at htaken

theorem next_taken_slave (b : Build) (m0 : Machine) (l0 : SwiLocals)
    (hS : m0.obj.isHost = false) (htaken : (swiFxn_next b m0 l0).2.buf_avail = true) :
    m0.obj.vq_slave.last_avail_idx ≠ m0.obj.vq_slave.vring.avail.idx := by
  intro he
  simp [swiFxn_next, hS, getAvailBuf_of_eq b _ _ he] at htaken

/-- The loop of the drain, one iteration unfolded. -/
theorem swiFxn_loop_step (b : Build) (q : MessageQ) (fuel : Nat) (m m1 m2 : Machine)
    (l : SwiLocals) (hav : l.buf_avail = true)
    (hd : swiFxn_deliver q m l.rp_msg = .ret () m1)
    (hg : swiFxn_giveBack b m1 l = .ret () m2) :
    swiFxn_loop b q (fuel + 1) m l
      = swiFxn_loop b q fuel (swiFxn_next b m2 { l with bufAdded := true }).1
          (swiFxn_next b m2 { l with bufAdded := true }).2 := by
  simp [swiFxn_loop, hav, hd, hg]

/-- C14: for every buffer that `TransportVirtio_swiFxn` takes (`m0`, `l0` being the
state and the locals before `VirtQueue_getUsedBuf`, respectively
`VirtQueue_getAvailBuf`, yields it), when `MessageQ_alloc` succeeds for it and the
slot return raises no error (host: `num_free` below the largest value of its type;
slave: at most `32768` elements and a valid ring entry `< N`): the payload is
copied and handed to `MessageQ_put` if its `dstAddr` is 61, and nothing is
delivered for any other `dstAddr` (53 included); the slot is then returned once, in
host role by `VirtQueue_addAvailBuf` of the same buffer on `vq_host`, in slave role
by `VirtQueue_addUsedBuf` on `vq_slave` with the token that `VirtQueue_getAvailBuf`
returned; the loop then goes on with the next buffer. -/
theorem C14_drain_one_buffer (b : Build) (q : MessageQ) (m0 : Machine) (l0 : SwiLocals)
    (fuel : Nat)
    (htaken : (swiFxn_next b m0 l0).2.buf_avail = true)
    (halloc : (m0.pool (swiFxn_next b m0 l0).2.rp_msg).dstAddr = RPMSG_MESSAGEQ_PORT →
      q.alloc (q.heapId (m0.pool (swiFxn_next b m0 l0).2.rp_msg).payload)
        (q.getMsgSize (m0.pool (swiFxn_next b m0 l0).2.rp_msg).payload) = true)
    (hhost : m0.obj.isHost = true → m0.obj.vq_host.num_free + 1 < b.NUM_FREE_MOD)
    (hslave : m0.obj.isHost = false →
      m0.obj.vq_slave.vring.num ≤ 32768 ∧
      headAt b m0.obj.vq_slave.vring m0.obj.vq_slave.last_avail_idx
        < m0.obj.vq_slave.vring.num) :
    ∃ m1 m2 : Machine,
      swiFxn_deliver q (swiFxn_next b m0 l0).1 (swiFxn_next b m0 l0).2.rp_msg = .ret () m1 ∧
      ((m0.pool (swiFxn_next b m0 l0).2.rp_msg).dstAddr = 61 →
        m1.inbox = m0.inbox ++
          [(q.getDstQueue (m0.pool (swiFxn_next b m0 l0).2.rp_msg).payload,
            (List.range (q.getMsgSize (m0.pool (swiFxn_next b m0 l0).2.rp_msg).payload)).map
              (m0.pool (swiFxn_next b m0 l0).2.rp_msg).payload)]) ∧
      ((m0.pool (swiFxn_next b m0 l0).2.rp_msg).dstAddr ≠ 61 → m1.inbox = m0.inbox) ∧
      swiFxn_giveBack b m1 (swiFxn_next b m0 l0).2 = .ret () m2 ∧
      m2.inbox = m1.inbox ∧ m2.pool = m0.pool ∧ m2.mbox = m0.mbox ∧
      (m0.obj.isHost = true →
        (swiFxn_next b m0 l0).2.rp_msg = (VirtQueue_getUsedBuf b m0.obj.vq_host).1 ∧
        VirtQueue_addAvailBuf b (VirtQueue_getUsedBuf b m0.obj.vq_host).2
            (swiFxn_next b m0 l0).2.rp_msg
          = .ret ((m0.obj.vq_host.num_free : Nat) : Int) m2.obj.vq_host ∧
        m2.obj.vq_slave = m0.obj.vq_slave) ∧
      (m0.obj.isHost = false →
        (swiFxn_next b m0 l0).2.token = (VirtQueue_getAvailBuf b m0.obj.vq_slave l0.rp_msg).1 ∧
        (swiFxn_next b m0 l0).2.rp_msg
          = (VirtQueue_getAvailBuf b m0.obj.vq_slave l0.rp_msg).2.1 ∧
        VirtQueue_addUsedBuf b (VirtQueue_getAvailBuf b m0.obj.vq_slave l0.rp_msg).2.2
            (swiFxn_next b m0 l0).2.token = .ret 0 m2.obj.vq_slave ∧
        m2.obj.vq_host = m0.obj.vq_host) ∧
      swiFxn_loop b q (fuel + 1) (swiFxn_next b m0 l0).1 (swiFxn_next b m0 l0).2
        = swiFxn_loop b q fuel
            (swiFxn_next b m2 { (swiFxn_next b m0 l0).2 with bufAdded := true }).1
            (swiFxn_next b m2 { (swiFxn_next b m0 l0).2 with bufAdded := true }).2 := by
  have hpool : (swiFxn_next b m0 l0).1.pool = m0.pool := by
    unfold swiFxn_next
    split <;> rfl
  have hinbox : (swiFxn_next b m0 l0).1.inbox = m0.inbox := by
    unfold swiFxn_next
    split <;> rfl
  have hmbox0 : (swiFxn_next b m0 l0).1.mbox = m0.mbox := by
    unfold swiFxn_next
    split <;> rfl
  obtain ⟨m1, hdel, hobj, hp1, hmb1, hin1, hin2⟩ :=
    swiFxn_deliver_ex q (swiFxn_next b m0 l0).1 (swiFxn_next b m0 l0).2.rp_msg
      (by rw [hpool]; exact halloc)
  rw [hpool, hinbox] at hin1 hin2
  cases hrole : m0.obj.isHost with
  | true =>
    have hne := next_taken_host b m0 l0 hrole htaken
    obtain ⟨hnext, hadd, hgive⟩ := drain_host_step b m0 l0 hrole hne (hhost hrole)
    have hg := hgive m1 (by rw [hobj, hnext])
    refine ⟨m1, _, hdel, hin1, hin2, hg, rfl, by simp [hp1, hpool], by simp [hmb1, hmbox0],
      ?_, ?_, swiFxn_loop_step b q fuel _ _ _ _ htaken hdel hg⟩
    · intro _
      rw [hnext]
      exact ⟨rfl, hadd, rfl⟩
    · intro h
      exact absurd h (by simp)
  | false =>
    have hne := next_taken_slave b m0 l0 hrole htaken
    obtain ⟨hN, hhead⟩ := hslave hrole
    obtain ⟨hnext, vqU, hU, hgive⟩ := drain_slave_step b m0 l0 hrole hne hN hhead
    have hg := hgive m1 (by rw [hobj, hnext])
    refine ⟨m1, _, hdel, hin1, hin2, hg, rfl, by simp [hp1, hpool], by simp [hmb1, hmbox0],
      ?_, ?_, swiFxn_loop_step b q fuel _ _ _ _ htaken hdel hg⟩
    · intro h
      exact absurd h (by simp)
    · intro _
      rw [hnext, getAvailBuf_of_ne b _ _ hne]
      exact ⟨rfl, rfl, hU, rfl⟩

/-- C14 on the slave of the reference build holding one inbound buffer addressed to
port 61: its 64 bytes are handed to `MessageQ_put` for queue 0 and the slot is
returned. -/
theorem C14_drain_one_buffer_witness :
    ∃ m1 m2 : Machine,
      swiFxn_deliver refMessageQ (swiFxn_next refBuild slaveInbound swiEntry).1
          (swiFxn_next refBuild slaveInbound swiEntry).2.rp_msg = .ret () m1 ∧
      swiFxn_giveBack refBuild m1 (swiFxn_next refBuild slaveInbound swiEntry).2 = .ret () m2 ∧
      m1.inbox = slaveInbound.inbox ++
        [(refMessageQ.getDstQueue
            (slaveInbound.pool (swiFxn_next refBuild slaveInbound swiEntry).2.rp_msg).payload,
          (List.range (refMessageQ.getMsgSize
            (slaveInbound.pool (swiFxn_next refBuild slaveInbound swiEntry).2.rp_msg).payload)).map
            (slaveInbound.pool (swiFxn_next refBuild slaveInbound swiEntry).2.rp_msg).payload)] := by
  obtain ⟨m1, m2, h1, h2, _, h4, _⟩ :=
    C14_drain_one_buffer refBuild refMessageQ slaveInbound swiEntry 0
      (by decide) (fun _ => rfl) (by decide) (by decide)
  exact ⟨m1, m2, h1, h4, h2 (by decide)⟩

/-! ### Termination of the drain -/

theorem addUsedBuf_ret_fields (b : Build) (vq vq1 : VirtQueue_Object) (h r : Int)
    (hret : VirtQueue_addUsedBuf b vq h = .ret r vq1) :
    vq1.vring.used.idx = (vq.vring.used.idx + 1) % 65536 ∧
    vq1.vring.avail = vq.vring.avail ∧ vq1.vring.desc = vq.vring.desc ∧
    vq1.vring.num = vq.vring.num ∧ vq1.last_avail_idx = vq.last_avail_idx ∧
    vq1.last_used_idx = vq.last_used_idx ∧ vq1.num_free = vq.num_free := by
  unfold VirtQueue_addUsedBuf at hret
  split at hret
  · exact absurd hret (by simp)
  · injection hret with _ hv
    subst hv
    exact ⟨rfl, rfl, rfl, rfl, rfl, rfl, rfl⟩

theorem getAvailBuf_take_frame (b : Build) (vq : VirtQueue_Object) :
    (getAvailBuf_take b vq).2.2.vring.used.idx = vq.vring.used.idx ∧
    (getAvailBuf_take b vq).2.2.vring.used.ring = vq.vring.used.ring ∧
    (getAvailBuf_take b vq).2.2.num_free = vq.num_free ∧
    (getAvailBuf_take b vq).2.2.last_used_idx = vq.last_used_idx := by
  rw [getAvailBuf_take_eq]
  by_cases hh : b.VirtQueue_isHost vq = true <;> simp [hh, setNoNotify]

/-- One iteration of the drain from a ready state with a pending buffer: the loop
goes on from a ready state with one pending buffer less and one slot more
returned. -/
theorem drain_iter (b : Build) (q : MessageQ) (m0 : Machine) (l0 : SwiLocals)
    (hr : DrainReady b q m0) (hp : drainPending m0 ≠ 0) :
    ∃ m2 : Machine,
      (∀ fuel, swiFxn_loop b q (fuel + 1) (swiFxn_next b m0 l0).1 (swiFxn_next b m0 l0).2
        = swiFxn_loop b q fuel
            (swiFxn_next b m2 { (swiFxn_next b m0 l0).2 with bufAdded := true }).1
            (swiFxn_next b m2 { (swiFxn_next b m0 l0).2 with bufAdded := true }).2) ∧
      DrainReady b q m2 ∧ drainPending m2 + 1 = drainPending m0 ∧
      drainReturned m2 = (drainReturned m0 + 1) % 65536 ∧
      drainIndex m2 = drainIndex m0 ∧ m2.mbox = m0.mbox ∧ m2.obj.isHost = m0.obj.isHost := by
  obtain ⟨halloc, hhost, hslave⟩ := hr
  have hpool : (swiFxn_next b m0 l0).1.pool = m0.pool := by
    unfold swiFxn_next
    split <;> rfl
  have hmbox0 : (swiFxn_next b m0 l0).1.mbox = m0.mbox := by
    unfold swiFxn_next
    split <;> rfl
  obtain ⟨m1, hdel, hobj, hp1, hmb1, _, _⟩ :=
    swiFxn_deliver_ex q (swiFxn_next b m0 l0).1 (swiFxn_next b m0 l0).2.rp_msg
      (by rw [hpool]; exact halloc _)
  cases hrole : m0.obj.isHost with
  | true =>
    obtain ⟨hl, hu, ha, hnf⟩ := hhost hrole
    have hne : m0.obj.vq_host.last_used_idx ≠ m0.obj.vq_host.vring.used.idx := by
      intro he
      apply hp
      simp only [drainPending, hrole, if_true, he]
      omega
    obtain ⟨hnext, hadd, hgive⟩ := drain_host_step b m0 l0 hrole hne hnf
    have hg := hgive m1 (by rw [hobj, hnext])
    have htaken : (swiFxn_next b m0 l0).2.buf_avail = true := by rw [hnext]
    have hG := getUsedBuf_of_ne b m0.obj.vq_host hne
    have hnfG : (VirtQueue_getUsedBuf b m0.obj.vq_host).2.num_free ≠ 0 := by
      rw [hG]
      simp only
      rw [Nat.mod_eq_of_lt hnf]
      omega
    have hpost := addAvailBuf_post_eq b (VirtQueue_getUsedBuf b m0.obj.vq_host).2
      (VirtQueue_getUsedBuf b m0.obj.vq_host).1 hnfG
    refine ⟨_, fun fuel => swiFxn_loop_step b q fuel _ _ _ _ htaken hdel hg, ?_, ?_, ?_, ?_, ?_, ?_⟩
    · refine ⟨by simpa [hp1, hpool] using halloc, ?_, ?_⟩
      · intro _
        rw [hpost, hG]
        simp only
        rw [Nat.mod_eq_of_lt hnf]
        refine ⟨Nat.mod_lt _ (by norm_num), hu, Nat.mod_lt _ (by norm_num), ?_⟩
        omega
      · intro h
        simp [hrole] at h
    · simp only [drainPending, hrole, if_true]
      rw [hpost, hG]
      simp only
      omega
    · simp only [drainReturned, hrole, if_true]
      rw [hpost, hG]
    · simp only [drainIndex, hrole, if_true]
      rw [hpost, hG]
    · simp [hmb1, hmbox0]
    · simp [hrole]
  | false =>
    obtain ⟨hl, ha, hu, hN, hheads⟩ := hslave hrole
    have hne : m0.obj.vq_slave.last_avail_idx ≠ m0.obj.vq_slave.vring.avail.idx := by
      intro he
      apply hp
      simp only [drainPending, hrole, Bool.false_eq_true, if_false, he]
      omega
    obtain ⟨hnext, vqU, hU, hgive⟩ := drain_slave_step b m0 l0 hrole hne hN (hheads _)
    have hg := hgive m1 (by rw [hobj, hnext])
    have htaken : (swiFxn_next b m0 l0).2.buf_avail = true := by rw [hnext]
    obtain ⟨f1, f2, f3, f4, f5, _, _⟩ := addUsedBuf_ret_fields b _ vqU _ _ hU
    obtain ⟨_, _, t3, t4, _, t6⟩ := getAvailBuf_take_spec b m0.obj.vq_slave
    obtain ⟨g1, _, _, _⟩ := getAvailBuf_take_frame b m0.obj.vq_slave
    refine ⟨_, fun fuel => swiFxn_loop_step b q fuel _ _ _ _ htaken hdel hg, ?_, ?_, ?_, ?_, ?_, ?_⟩
    · refine ⟨by simpa [hp1, hpool] using halloc, ?_, ?_⟩
      · intro h
        simp [hrole] at h
      · intro _
        simp only
        rw [f5, f2, f1, f4, t3, t4, t6, g1]
        refine ⟨Nat.mod_lt _ (by norm_num), ha, Nat.mod_lt _ (by norm_num), hN, ?_⟩
        intro j
        rw [headAt_congr b vqU.vring m0.obj.vq_slave.vring j (by rw [f4, t6]) (by rw [f2, t4])]
        exact hheads j
    · simp only [drainPending, hrole, Bool.false_eq_true, if_false]
      rw [f5, f2, t3, t4]
      omega
    · simp only [drainReturned, hrole, Bool.false_eq_true, if_false]
      rw [f1, g1]
    · simp only [drainIndex, hrole, Bool.false_eq_true, if_false]
      rw [f2, t4]
    · simp [hmb1, hmbox0]
    · simp [hrole]

/-- The drain on a ready state with nothing pending: no buffer is taken. -/
theorem drain_stop (b : Build) (q : MessageQ) (m0 : Machine) (l0 : SwiLocals)
    (hr : DrainReady b q m0) (hp : drainPending m0 = 0) :
    (swiFxn_next b m0 l0).2.buf_avail = false ∧
    (swiFxn_next b m0 l0).2.bufAdded = l0.bufAdded ∧
    drainCursor (swiFxn_next b m0 l0).1 = drainIndex (swiFxn_next b m0 l0).1 ∧
    drainIndex (swiFxn_next b m0 l0).1 = drainIndex m0 ∧
    drainReturned (swiFxn_next b m0 l0).1 = drainReturned m0 ∧
    (swiFxn_next b m0 l0).1.mbox = m0.mbox ∧
    (swiFxn_next b m0 l0).1.obj.isHost = m0.obj.isHost := by
  obtain ⟨_, hhost, hslave⟩ := hr
  cases hrole : m0.obj.isHost with
  | true =>
    obtain ⟨hl, hu, _, _⟩ := hhost hrole
    have he : m0.obj.vq_host.last_used_idx = m0.obj.vq_host.vring.used.idx := by
      simp only [drainPending, hrole, if_true] at hp
      omega
    simp [swiFxn_next, hrole, getUsedBuf_of_eq b _ he, drainCursor, drainIndex, drainReturned, he]
  | false =>
    obtain ⟨hl, ha, _, _, _⟩ := hslave hrole
    have he : m0.obj.vq_slave.last_avail_idx = m0.obj.vq_slave.vring.avail.idx := by
      simp only [drainPending, hrole, Bool.false_eq_true, if_false] at hp
      omega
    by_cases hh : b.VirtQueue_isHost m0.obj.vq_slave = true <;>
      simp [swiFxn_next, hrole, getAvailBuf_of_eq b _ _ he, drainCursor, drainIndex,
        drainReturned, he, hh, clearNoNotify]

theorem drainReturned_lt (b : Build) (q : MessageQ) (m : Machine) (hr : DrainReady b q m) :
    drainReturned m < 65536 := by
  obtain ⟨_, hhost, hslave⟩ := hr
  cases hrole : m.obj.isHost with
  | true =>
    simp only [drainReturned, hrole, if_true]
    exact (hhost hrole).2.2.1
  | false =>
    simp only [drainReturned, hrole, Bool.false_eq_true, if_false]
    exact (hslave hrole).2.2.1

/-- The loop of the drain from a ready state with `d` pending buffers ends, with
enough fuel, after `d` slot returns, the cursor on the ring index. -/
theorem drain_run (b : Build) (q : MessageQ) (d : Nat) :
    ∀ (m0 : Machine) (l0 : SwiLocals) (fuel : Nat), d ≤ fuel → DrainReady b q m0 →
      drainPending m0 = d →
      ∃ (lf : SwiLocals) (mf : Machine),
        swiFxn_loop b q fuel (swiFxn_next b m0 l0).1 (swiFxn_next b m0 l0).2
          = some (.ret lf mf) ∧
        lf.bufAdded = (l0.bufAdded || decide (0 < d)) ∧
        drainCursor mf = drainIndex mf ∧ drainIndex mf = drainIndex m0 ∧
        drainReturned mf = (drainReturned m0 + d) % 65536 ∧
        mf.mbox = m0.mbox ∧ mf.obj.isHost = m0.obj.isHost := by
  induction d with
  | zero =>
    intro m0 l0 fuel _ hr hp
    obtain ⟨h1, h2, h3, h4, h5, h6, h7⟩ := drain_stop b q m0 l0 hr hp
    refine ⟨(swiFxn_next b m0 l0).2, (swiFxn_next b m0 l0).1, ?_, by simp [h2], h3, h4, ?_, h6, h7⟩
    · cases fuel <;> simp [swiFxn_loop, h1]
    · rw [h5, Nat.add_zero, Nat.mod_eq_of_lt (drainReturned_lt b q m0 hr)]
  | succ d ih =>
    intro m0 l0 fuel hfuel hr hp
    obtain ⟨m2, hstep, hr2, hp2, hret2, hidx2, hmb2, hrole2⟩ :=
      drain_iter b q m0 l0 hr (by omega)
    obtain ⟨f, rfl⟩ : ∃ f, fuel = f + 1 := ⟨fuel - 1, by omega⟩
    obtain ⟨lf, mf, hloop, hadded, hcur, hidx, hret, hmb, hrole⟩ :=
      ih m2 { (swiFxn_next b m0 l0).2 with bufAdded := true } f (by omega) hr2 (by omega)
    refine ⟨lf, mf, ?_, ?_, hcur, by rw [hidx, hidx2], ?_, by rw [hmb, hmb2],
      by rw [hrole, hrole2]⟩
    · rw [hstep f]
      exact hloop
    · simp [hadded]
    · rw [hret, hret2]
      omega

theorem drainPending_lt (m : Machine) : drainPending m < 65536 := by
  unfold drainPending
  split <;> exact Nat.mod_lt _ (by norm_num)

/-- C15, amended: from a state in which the drain raises no error and, in slave
role, every entry of the available ring is a valid descriptor index (`DrainReady`),
the peer not touching the ring meanwhile, `TransportVirtio_swiFxn` returns. With `d` the
number of pending buffers at entry (`used.idx - last_used_idx` modulo `2^16` on
`vq_host` in host role, `avail.idx - last_avail_idx` modulo `2^16` on `vq_slave` in
slave role) it has returned exactly `d` slots (`avail.idx` of `vq_host`,
respectively `used.idx` of `vq_slave`, has advanced by `d` modulo `2^16`); on return
the cursor equals the ring index, which is the one at entry; the mailbox is that
left by one `VirtQueue_kick` of the receive queue if `d > 0` and the one at entry
if `d = 0`. -/
theorem C15_amended_drain_terminates (b : Build) (q : MessageQ) (m : Machine)
    (hr : DrainReady b q m) :
    ∃ mf : Machine, TransportVirtio_swiFxn b q m = some (.ret () mf) ∧
      mf.obj.isHost = m.obj.isHost ∧
      (m.obj.isHost = true →
        mf.obj.vq_host.last_used_idx = mf.obj.vq_host.vring.used.idx ∧
        mf.obj.vq_host.vring.used.idx = m.obj.vq_host.vring.used.idx ∧
        mf.obj.vq_host.vring.avail.idx
          = (m.obj.vq_host.vring.avail.idx
              + (m.obj.vq_host.vring.used.idx + 65536 - m.obj.vq_host.last_used_idx) % 65536)
            % 65536 ∧
        (0 < (m.obj.vq_host.vring.used.idx + 65536 - m.obj.vq_host.last_used_idx) % 65536 →
          mf.mbox = VirtQueue_kick b mf.obj.vq_host m.mbox) ∧
        ((m.obj.vq_host.vring.used.idx + 65536 - m.obj.vq_host.last_used_idx) % 65536 = 0 →
          mf.mbox = m.mbox)) ∧
      (m.obj.isHost = false →
        mf.obj.vq_slave.last_avail_idx = mf.obj.vq_slave.vring.avail.idx ∧
        mf.obj.vq_slave.vring.avail.idx = m.obj.vq_slave.vring.avail.idx ∧
        mf.obj.vq_slave.vring.used.idx
          = (m.obj.vq_slave.vring.used.idx
              + (m.obj.vq_slave.vring.avail.idx + 65536 - m.obj.vq_slave.last_avail_idx) % 65536)
            % 65536 ∧
        (0 < (m.obj.vq_slave.vring.avail.idx + 65536 - m.obj.vq_slave.last_avail_idx) % 65536 →
          mf.mbox = VirtQueue_kick b mf.obj.vq_slave m.mbox) ∧
        ((m.obj.vq_slave.vring.avail.idx + 65536 - m.obj.vq_slave.last_avail_idx) % 65536 = 0 →
          mf.mbox = m.mbox)) := by
  obtain ⟨lf, m1, hloop, hadded, hcur, hidx, hret, hmb, hrole⟩ :=
    drain_run b q (drainPending m) m swiEntry 65536
      (Nat.le_of_lt (drainPending_lt m)) hr rfl
  have hswi : TransportVirtio_swiFxn b q m = some (.ret ()
      (if lf.bufAdded then
        { m1 with
          mbox := (VirtQueue_kick b (if m1.obj.isHost then m1.obj.vq_host else m1.obj.vq_slave)
            m1.mbox) }
       else m1)) := by
    have hl : swiFxn_loop b q 65536
        (swiFxn_next b m { rp_msg := 0, token := 0, buf_avail := false, bufAdded := false }).1
        (swiFxn_next b m { rp_msg := 0, token := 0, buf_avail := false, bufAdded := false }).2
        = some (.ret lf m1) := hloop
    simp only [TransportVirtio_swiFxn, hl]
    split <;> rfl
  have hadded2 : lf.bufAdded = decide (0 < drainPending m) := by
    simpa [swiEntry] using hadded
  refine ⟨_, hswi, ?_, ?_, ?_⟩
  · split <;> exact hrole
  · intro hH
    have hH1 : m1.obj.isHost = true := by rw [hrole, hH]
    simp only [drainCursor, drainIndex, drainReturned, drainPending, hH, hH1, if_true]
      at hcur hidx hret hadded2
    refine ⟨?_, ?_, ?_, ?_, ?_⟩
    · split <;> exact hcur
    · split <;> exact hidx
    · split <;> exact hret
    · intro hpos
      simp [hadded2, hpos, hH1, hmb]
    · intro hzero
      simp [hadded2, hzero, hmb]
  · intro hS
    have hS1 : m1.obj.isHost = false := by rw [hrole, hS]
    simp only [drainCursor, drainIndex, drainReturned, drainPending, hS, hS1,
      Bool.false_eq_true, if_false] at hcur hidx hret hadded2
    refine ⟨?_, ?_, ?_, ?_, ?_⟩
    · split <;> exact hcur
    · split <;> exact hidx
    · split <;> exact hret
    · intro hpos
      simp [hadded2, hpos, hS1, hmb]
    · intro hzero
      simp [hadded2, hzero, hmb]

theorem slaveInbound_ready : DrainReady refBuild refMessageQ slaveInbound := by
  refine ⟨fun _ _ => rfl, fun h => absurd h (by decide), fun _ => ?_⟩
  refine ⟨by decide, by decide, by decide, by decide, ?_⟩
  intro j
  exact (by decide : (0 : Nat) < 256)

/-- C15 amended, on the slave of the reference build holding one inbound buffer:
the drain returns with the cursor on `avail.idx`, one slot returned and one kick. -/
theorem C15_amended_drain_terminates_witness :
    ∃ mf : Machine, TransportVirtio_swiFxn refBuild refMessageQ slaveInbound = some (.ret () mf) ∧
      mf.obj.vq_slave.last_avail_idx = mf.obj.vq_slave.vring.avail.idx ∧
      mf.obj.vq_slave.vring.used.idx = 1 ∧
      mf.mbox = VirtQueue_kick refBuild mf.obj.vq_slave slaveInbound.mbox := by
  obtain ⟨mf, h1, _, _, h4⟩ :=
    C15_amended_drain_terminates refBuild refMessageQ slaveInbound slaveInbound_ready
  obtain ⟨h5, _, h7, h8, _⟩ := h4 (by decide)
  exact ⟨mf, h1, h5, by rw [h7]; decide, h8 (by decide)⟩

/-! ## Wrap-around of the 16-bit indices -/

theorem mod_of_dvd_65536 (n : Nat) (h : n ∣ 65536) : 65535 % n = n - 1 := by
  obtain ⟨k, hk⟩ := h
  have hn : n ≠ 0 := by rintro rfl; simp at hk
  cases k with
  | zero => simp at hk
  | succ k =>
    have e : 65535 = (n - 1) + n * k := by
      rw [Nat.mul_succ] at hk
      omega
    rw [e, Nat.add_mul_mod_self_left]
    exact Nat.mod_eq_of_lt (by omega)

/-- C25: index wrap-around. On a ring whose size `N` is a power of two dividing
`2^16` (such as 256), with `used.idx = last_used_idx = 65535`,
`VirtQueue_addUsedBuf (h)` for a valid `h < N` returns 0, writes `{h, BUF_SIZE}`
into slot `N - 1` and sets `used.idx` to 0; the next `VirtQueue_getUsedBuf` returns
the buffer of descriptor `h` and sets `last_used_idx` to 0; one more
`VirtQueue_getUsedBuf` returns `NULL`. With `avail.idx = 65535` and two free
descriptors, `VirtQueue_addAvailBuf` returns, writes `desc[N - 1]` and sets
`avail.idx` to 0, and the following add returns, writes `desc[0]` and sets
`avail.idx` to 1. -/
theorem C25_index_wrap_around (b : Build) (vq : VirtQueue_Object) (h buf buf2 : Nat)
    (hN : vq.vring.num ∣ 65536) (hh : h < vq.vring.num) (h16 : h < 32768) :
    (vq.vring.used.idx = 65535 → vq.last_used_idx = 65535 →
      (VirtQueue_addUsedBuf b vq (h : Int)).value = some 0 ∧
      (VirtQueue_addUsedBuf b vq (h : Int)).state.vring.used.ring =
        Function.update vq.vring.used.ring (vq.vring.num - 1)
          { id := h, len := b.RP_MSG_BUF_SIZE } ∧
      (VirtQueue_addUsedBuf b vq (h : Int)).state.vring.used.idx = 0 ∧
      (VirtQueue_getUsedBuf b (VirtQueue_addUsedBuf b vq (h : Int)).state).1 =
        mapPAtoVA (vq.vring.desc h).addr ∧
      (VirtQueue_getUsedBuf b (VirtQueue_addUsedBuf b vq (h : Int)).state).2.last_used_idx = 0 ∧
      (VirtQueue_getUsedBuf b
        (VirtQueue_getUsedBuf b (VirtQueue_addUsedBuf b vq (h : Int)).state).2).1 = 0) ∧
    (vq.vring.avail.idx = 65535 → 2 ≤ vq.num_free →
      (VirtQueue_addAvailBuf b vq buf).value = some ((vq.num_free - 1 : Nat) : Int) ∧
      (VirtQueue_addAvailBuf b vq buf).state.vring.desc =
        Function.update vq.vring.desc (vq.vring.num - 1)
          { vq.vring.desc (vq.vring.num - 1) with
            addr := mapVAtoPA buf, len := b.RP_MSG_BUF_SIZE } ∧
      (VirtQueue_addAvailBuf b vq buf).state.vring.avail.idx = 0 ∧
      (VirtQueue_addAvailBuf b (VirtQueue_addAvailBuf b vq buf).state buf2).value =
        some ((vq.num_free - 2 : Nat) : Int) ∧
      (VirtQueue_addAvailBuf b (VirtQueue_addAvailBuf b vq buf).state buf2).state.vring.desc =
        Function.update (VirtQueue_addAvailBuf b vq buf).state.vring.desc 0
          { (VirtQueue_addAvailBuf b vq buf).state.vring.desc 0 with
            addr := mapVAtoPA buf2, len := b.RP_MSG_BUF_SIZE } ∧
      (VirtQueue_addAvailBuf b (VirtQueue_addAvailBuf b vq buf).state buf2).state.vring.avail.idx
        = 1) := by
  have hmod := mod_of_dvd_65536 _ hN
  have hn0 : vq.vring.num ≠ 0 := by omega
  refine ⟨fun hu hl => ?_, fun ha hf => ?_⟩
  · have hguard : ¬ ((((h : Int) % 4294967296).toNat > vq.vring.num) ∨ ((h : Int) < 0)) := by
      omega
    have e : VirtQueue_addUsedBuf b vq (h : Int) = .ret 0 { vq with
        vring := { vq.vring with
          used := { vq.vring.used with
            ring := Function.update vq.vring.used.ring (vq.vring.num - 1)
              { id := h, len := b.RP_MSG_BUF_SIZE }
            idx := 0 } } } := by
      simp only [VirtQueue_addUsedBuf, if_neg hguard]
      simp [hu, hmod]
    rw [e]
    simp [Result.value, Result.state, VirtQueue_getUsedBuf, hl,
      Nat.mod_eq_of_lt (show h < 65536 by omega), hmod]
  · have hf0 : vq.num_free ≠ 0 := by omega
    have hf1 : vq.num_free - 1 ≠ 0 := by omega
    have e2 : vq.num_free - 1 - 1 = vq.num_free - 2 := by omega
    simp [VirtQueue_addAvailBuf, hf0, hf1, Result.value, Result.state, ha, hmod, e2]

theorem C25_index_wrap_around_witness :
    ((VirtQueue_addUsedBuf refBuild wrapVq (7 : Nat)).value = some 0 ∧
      (VirtQueue_addUsedBuf refBuild wrapVq (7 : Nat)).state.vring.used.ring =
        Function.update wrapVq.vring.used.ring (wrapVq.vring.num - 1)
          { id := 7, len := refBuild.RP_MSG_BUF_SIZE } ∧
      (VirtQueue_addUsedBuf refBuild wrapVq (7 : Nat)).state.vring.used.idx = 0 ∧
      (VirtQueue_getUsedBuf refBuild (VirtQueue_addUsedBuf refBuild wrapVq (7 : Nat)).state).1 =
        mapPAtoVA (wrapVq.vring.desc 7).addr ∧
      (VirtQueue_getUsedBuf refBuild
        (VirtQueue_addUsedBuf refBuild wrapVq (7 : Nat)).state).2.last_used_idx = 0 ∧
      (VirtQueue_getUsedBuf refBuild
        (VirtQueue_getUsedBuf refBuild
          (VirtQueue_addUsedBuf refBuild wrapVq (7 : Nat)).state).2).1 = 0) ∧
    (VirtQueue_addAvailBuf refBuild wrapVq 0xA0020000).state.vring.avail.idx = 0 ∧
    (VirtQueue_addAvailBuf refBuild
      (VirtQueue_addAvailBuf refBuild wrapVq 0xA0020000).state 0xA0020200).state.vring.avail.idx
        = 1 :=
  ⟨(C25_index_wrap_around refBuild wrapVq 7 0xA0020000 0xA0020200
      (by decide) (by decide) (by decide)).1 rfl rfl,
   ((C25_index_wrap_around refBuild wrapVq 7 0xA0020000 0xA0020200
      (by decide) (by decide) (by decide)).2 rfl (by decide)).2.2.1,
   ((C25_index_wrap_around refBuild wrapVq 7 0xA0020000 0xA0020200
      (by decide) (by decide) (by decide)).2 rfl (by decide)).2.2.2.2.2⟩

/-! ## Creation of the queues and start-up -/

/-- C29: default build, both `Memory_alloc` calls succeeding. From an empty
registry (`numQueues = 0`) the two `VirtQueue_create` calls of
`TransportVirtio_Instance_init` give `vq_host` the id 0 and `vq_slave` the id 1 on
every processor but CORE1, and the ids 2 and 3 on CORE1: an even id, then the
following odd one, both below `NUM_QUEUES = 5`. Each queue has
`last_avail_idx = 0`, `last_used_idx = 0`, `num_free = RP_MSG_NUM_BUFS`, the
callback chosen for the role, the peer id and the argument passed, and is the entry
of `queueRegistry` at its id; `numQueues` ends at 2. -/
theorem C29_created_queue_ids (b : Build) (p : ProcIds) (shared : Nat → vring) (st : Registry)
    (remoteProcId swiHandle : Nat) (hb : b.APPM3_IS_HOST = false) (h0 : st.numQueues = 0) :
    ∃ vqh vqs : VirtQueue_Object,
      (Instance_init_queues b p shared true true st remoteProcId swiHandle).1 = some vqh ∧
      (Instance_init_queues b p shared true true st remoteProcId swiHandle).2.1 = some vqs ∧
      vqh.id = (if p.self = p.appm3ProcId then 2 else 0) ∧
      vqs.id = vqh.id + 1 ∧ vqh.id % 2 = 0 ∧ vqs.id % 2 = 1 ∧
      vqh.id < NUM_QUEUES ∧ vqs.id < NUM_QUEUES ∧
      vqh.last_avail_idx = 0 ∧ vqh.last_used_idx = 0 ∧ vqh.num_free = b.RP_MSG_NUM_BUFS ∧
      vqs.last_avail_idx = 0 ∧ vqs.last_used_idx = 0 ∧ vqs.num_free = b.RP_MSG_NUM_BUFS ∧
      vqh.callback = (if Instance_init_isHost p then VirtQueue_callback.callback_usedBufReady
        else VirtQueue_callback.callback_availBufReady) ∧
      vqs.callback = vqh.callback ∧
      vqh.procId = remoteProcId ∧ vqs.procId = remoteProcId ∧
      vqh.arg = swiHandle ∧ vqs.arg = swiHandle ∧
      (Instance_init_queues b p shared true true st remoteProcId swiHandle).2.2.queueRegistry
        vqh.id = some vqh ∧
      (Instance_init_queues b p shared true true st remoteProcId swiHandle).2.2.queueRegistry
        vqs.id = some vqs ∧
      (Instance_init_queues b p shared true true st remoteProcId swiHandle).2.2.numQueues = 2 := by
  by_cases hp : p.self = p.appm3ProcId
  · refine ⟨_, _, rfl, rfl, ?_⟩
    simp [Instance_init_queues, VirtQueue_create_call, VirtQueue_create, hb, h0, hp, NUM_QUEUES]
  · refine ⟨_, _, rfl, rfl, ?_⟩
    simp [Instance_init_queues, VirtQueue_create_call, VirtQueue_create, hb, h0, hp, NUM_QUEUES]

theorem C29_created_queue_ids_witness :
    ∃ vqh vqs : VirtQueue_Object,
      (Instance_init_queues refBuild (refProcs 2) (fun _ => zeroRing 256) true true
        emptyRegistry 0 9).1 = some vqh ∧
      (Instance_init_queues refBuild (refProcs 2) (fun _ => zeroRing 256) true true
        emptyRegistry 0 9).2.1 = some vqs ∧
      vqh.id = 2 ∧ vqs.id = 3 ∧
      (Instance_init_queues refBuild (refProcs 2) (fun _ => zeroRing 256) true true
        emptyRegistry 0 9).2.2.queueRegistry 2 = some vqh ∧
      (Instance_init_queues refBuild (refProcs 2) (fun _ => zeroRing 256) true true
        emptyRegistry 0 9).2.2.queueRegistry 3 = some vqs := by
  obtain ⟨vqh, vqs, h1, h2, h3, h4, _, _, _, _, _, _, _, _, _, _, _, _, _, _, _, _, h5, h6, _⟩ :=
    C29_created_queue_ids refBuild (refProcs 2) (fun _ => zeroRing 256) emptyRegistry 0 9
      rfl rfl
  have e3 : vqh.id = 2 := by rw [h3]; decide
  have e4 : vqs.id = 3 := by rw [h4, e3]
  rw [e3] at h5
  rw [e4] at h6
  exact ⟨vqh, vqs, h1, h2, e3, e4, h5, h6⟩

theorem startup_sends_append (xs ys : List StartupEvent) :
    startup_sends (xs ++ ys) = startup_sends xs ++ startup_sends ys := by
  induction xs with
  | nil => rfl
  | cons x xs ih => cases x <;> simp [startup_sends, ih]

theorem startup_wait_spec (synced : Nat → Bool) :
    ∀ (fuel k : Nat) (es : List StartupEvent), startup_wait synced fuel k = some es →
      ∃ n, n < fuel ∧ synced (k + n) = true ∧ (∀ j, j < n → synced (k + j) = false) ∧
        es = List.replicate n (StartupEvent.readSynced false) ++ [StartupEvent.readSynced true] := by
  intro fuel
  induction fuel with
  | zero => intro k es h; simp [startup_wait] at h
  | succ fuel ih =>
    intro k es h
    by_cases hs : synced k = true
    · simp only [startup_wait, hs, if_true, Option.some.injEq] at h
      exact ⟨0, by omega, by simpa using hs, by intro j hj; omega, by simp [← h]⟩
    · simp only [startup_wait, hs, Bool.false_eq_true, if_false, Option.map_eq_some'] at h
      obtain ⟨es1, h1, h2⟩ := h
      obtain ⟨n, hn, hsn, hbefore, hes⟩ := ih (k + 1) es1 h1
      refine ⟨n + 1, by omega, ?_, ?_, ?_⟩
      · rw [← hsn]; congr 1; omega
      · intro j hj
        cases j with
        | zero => simpa using hs
        | succ j =>
          have := hbefore j (by omega)
          rw [← this]; congr 1; omega
      · rw [← h2, hes]; rfl

theorem startup_wait_of_synced (synced : Nat → Bool) :
    ∀ (fuel k n : Nat), n < fuel → synced (k + n) = true →
      (startup_wait synced fuel k).isSome = true := by
  intro fuel
  induction fuel with
  | zero => intro k n h; omega
  | succ fuel ih =>
    intro k n hn hs
    by_cases hk : synced k = true
    · simp [startup_wait, hk]
    · cases n with
      | zero => exact absurd (by simpa using hs) hk
      | succ n =>
        have h := ih (k + 1) n (by omega) (by rw [← hs]; congr 1; omega)
        simp only [startup_wait, hk, Bool.false_eq_true, if_false, Option.isSome_map']
        exact h

theorem startup_sends_reads (n : Nat) :
    startup_sends (List.replicate n (StartupEvent.readSynced false)
      ++ [StartupEvent.readSynced true]) = [] := by
  induction n with
  | zero => rfl
  | succ n ih => simpa [List.replicate_succ, startup_sends] using ih

/-- C27: before anything else can happen, `VirtQueue_startup (isHost = TRUE)` makes
exactly two `InterruptM3_intSend` calls, `READY` (`0xFFFFFF00`) then
`ECHO_REQUEST` (`0xFFFFFF03`), both to `sysm3ProcId`, the id of CORE0;
`VirtQueue_startup (isHost = FALSE)` makes none. In both cases
`InterruptM3_intRegister (VirtQueue_isr)` is called exactly when the local
processor is CORE1, CORE0 or DSP. These are also the sends of every returning call,
and in the default build the call returns right after them. -/
theorem C27_startup_interrupts (b : Build) (vring_size : Nat → Nat → Nat) (p : ProcIds)
    (synced : Nat → Bool) (fuel : Nat) :
    startup_sends (startup_events b vring_size p true)
      = [(p.sysm3ProcId, 0xFFFFFF00), (p.sysm3ProcId, 0xFFFFFF03)] ∧
    startup_sends (startup_events b vring_size p false) = [] ∧
    (∀ isHost, StartupEvent.intRegister ∈ startup_events b vring_size p isHost ↔
      (p.self = p.sysm3ProcId ∨ p.self = p.appm3ProcId ∨ p.self = p.dspProcId)) ∧
    (∀ isHost es, VirtQueue_startup b vring_size p synced fuel isHost = some es →
      startup_sends es = startup_sends (startup_events b vring_size p isHost) ∧
      (StartupEvent.intRegister ∈ es ↔
        (p.self = p.sysm3ProcId ∨ p.self = p.appm3ProcId ∨ p.self = p.dspProcId))) ∧
    (b.APPM3_IS_HOST = false → ∀ isHost,
      VirtQueue_startup b vring_size p synced fuel isHost
        = some (startup_events b vring_size p isHost)) := by
  have hsend : ∀ isHost, startup_sends (startup_events b vring_size p isHost)
      = if isHost then [(p.sysm3ProcId, 0xFFFFFF00), (p.sysm3ProcId, 0xFFFFFF03)] else [] := by
    intro isHost
    cases isHost <;>
      by_cases h1 : p.self = p.appm3ProcId <;> by_cases h2 : p.self = p.sysm3ProcId <;>
        by_cases h3 : p.self = p.dspProcId <;>
          simp [startup_events, startup_sends, h1, h2, h3, RP_MSG_MBOX_READY,
            RP_MBOX_ECHO_REQUEST]
  have hreg : ∀ isHost, StartupEvent.intRegister ∈ startup_events b vring_size p isHost ↔
      (p.self = p.sysm3ProcId ∨ p.self = p.appm3ProcId ∨ p.self = p.dspProcId) := by
    intro isHost
    cases isHost <;>
      by_cases h1 : p.self = p.appm3ProcId <;> by_cases h2 : p.self = p.sysm3ProcId <;>
        by_cases h3 : p.self = p.dspProcId <;>
          simp [startup_events, h1, h2, h3]
  refine ⟨by simpa using hsend true, by simpa using hsend false, hreg, ?_, ?_⟩
  · intro isHost es h
    by_cases hb : b.APPM3_IS_HOST = true
    · simp only [VirtQueue_startup, hb, if_true, Option.map_eq_some'] at h
      obtain ⟨ws, hw, rfl⟩ := h
      obtain ⟨n, _, _, _, rfl⟩ := startup_wait_spec synced fuel 0 ws hw
      refine ⟨by rw [startup_sends_append, startup_sends_reads, List.append_nil], ?_⟩
      rw [← hreg isHost]
      simp [List.mem_replicate]
    · simp only [VirtQueue_startup, hb, Bool.false_eq_true, if_false, Option.some.injEq] at h
      subst h
      exact ⟨rfl, hreg isHost⟩
  · intro hb isHost
    simp [VirtQueue_startup, hb]

/-- C28, counterexample: in the default build of the sources (`APPM3_IS_HOST` not
defined) the host-role call on CORE1 returns although the dispatcher has handled
no mailbox word at all, so that the flag was never set; it does not even read the
flag. -/
theorem C28_default_startup_returns_unsynced :
    syncedAfter refBuild (refProcs 2) refRegistry [] = false ∧
    VirtQueue_startup refBuild (fun _ _ => 10246) (refProcs 2)
        (fun _ => syncedAfter refBuild (refProcs 2) refRegistry []) 0 true
      = some [StartupEvent.ipcPowerInit, StartupEvent.memset 0xA0000000 286720,
          StartupEvent.intRegister,
          StartupEvent.intSend 1 0xFFFFFF00, StartupEvent.intSend 1 0xFFFFFF03] := by
  decide

/-- C28, amended: the wait exists in the build with `APPM3_IS_HOST` only. There a
call of `VirtQueue_startup` (host or not) returns only after an evaluation of the
loop condition read the flag `synced` as set, every earlier evaluation having read
it as clear, and it does return as soon as the flag is set within the fuel; the
flag is set by the dispatcher alone, on CORE1 when it handles `ECHO_REPLY` and on
CORE0 when it handles `ECHO_REQUEST`. In the default build the call returns
without waiting. `arrivals k` is the list of the mailbox words that the dispatcher
has handled before the evaluation number `k` of the loop condition. -/
theorem C28_amended_startup_wait (b : Build) (vring_size : Nat → Nat → Nat) (p : ProcIds)
    (registry : Nat → Option VirtQueue_Object) (arrivals : Nat → List Nat) (fuel : Nat)
    (isHost : Bool) :
    (b.APPM3_IS_HOST = true → ∀ es,
      VirtQueue_startup b vring_size p (fun k => syncedAfter b p registry (arrivals k)) fuel
        isHost = some es →
      ∃ n, n < fuel ∧ syncedAfter b p registry (arrivals n) = true ∧
        (∀ j, j < n → syncedAfter b p registry (arrivals j) = false) ∧
        es = startup_events b vring_size p isHost
          ++ List.replicate n (StartupEvent.readSynced false)
          ++ [StartupEvent.readSynced true]) ∧
    (b.APPM3_IS_HOST = true → ∀ n, n < fuel → syncedAfter b p registry (arrivals n) = true →
      (VirtQueue_startup b vring_size p (fun k => syncedAfter b p registry (arrivals k)) fuel
        isHost).isSome = true) ∧
    (b.APPM3_IS_HOST = true → p.self ≠ p.sysm3ProcId → ∀ n,
      syncedAfter b p registry (arrivals n) = true →
      p.self = p.appm3ProcId ∧ RP_MBOX_ECHO_REPLY ∈ arrivals n) ∧
    (b.APPM3_IS_HOST = true → p.self = p.sysm3ProcId → ∀ n,
      syncedAfter b p registry (arrivals n) = true → RP_MBOX_ECHO_REQUEST ∈ arrivals n) ∧
    (b.APPM3_IS_HOST = false → ∀ synced : Nat → Bool,
      VirtQueue_startup b vring_size p synced fuel isHost
        = some (startup_events b vring_size p isHost)) := by
  refine ⟨?_, ?_, ?_, ?_, ?_⟩
  · intro hb es h
    simp only [VirtQueue_startup, hb, if_true, Option.map_eq_some'] at h
    obtain ⟨ws, hw, rfl⟩ := h
    obtain ⟨n, hn, hs, hbefore, rfl⟩ := startup_wait_spec _ fuel 0 ws hw
    refine ⟨n, hn, by simpa using hs, ?_, by simp⟩
    intro j hj
    simpa using hbefore j hj
  · intro hb n hn hs
    have h := startup_wait_of_synced (fun k => syncedAfter b p registry (arrivals k)) fuel 0 n hn
      (by simpa using hs)
    simpa [VirtQueue_startup, hb] using h
  · intro hb hne n hs
    simp only [syncedAfter, List.any_eq_true, decide_eq_true_eq] at hs
    obtain ⟨msg, hmem, hset⟩ := hs
    simp only [VirtQueue_isr, hb, if_true, hne, if_false] at hset
    by_cases hhi : msg &&& 0xFFFF0000 ≠ 0
    · simp only [hhi, ne_eq, not_false_eq_true, if_true, List.mem_append] at hset
      rcases hset with hset | hset
      · by_cases hh : msg = RP_MSG_HIBERNATION <;> simp [hh] at hset
      · by_cases hh : p.self = p.appm3ProcId ∧ msg = RP_MBOX_ECHO_REPLY
        · exact ⟨hh.1, hh.2 ▸ hmem⟩
        · simp [hh] at hset
    · simp only [hhi, if_false, isr_lookup] at hset
      cases hreg : registry msg <;> simp [hreg] at hset
  · intro hb hself n hs
    simp only [syncedAfter, List.any_eq_true, decide_eq_true_eq] at hs
    obtain ⟨msg, hmem, hset⟩ := hs
    simp only [VirtQueue_isr, hb, if_true, hself] at hset
    by_cases h1 : msg = RP_MSG_MBOX_READY
    · rw [if_pos h1] at hset
      simp at hset
    rw [if_neg h1] at hset
    by_cases h2 : msg = RP_MBOX_ECHO_REQUEST
    · exact h2 ▸ hmem
    rw [if_neg h2] at hset
    by_cases h3 : msg = RP_MBOX_ABORT_REQUEST
    · rw [if_pos h3] at hset
      simp at hset
    rw [if_neg h3] at hset
    by_cases h4 : msg = RP_MSG_FLUSH_CACHE
    · rw [if_pos h4] at hset
      simp at hset
    rw [if_neg h4] at hset
    by_cases h5 : msg = RP_MSG_HIBERNATION
    · rw [if_pos h5] at hset
      simp at hset
    · rw [if_neg h5] at hset
      simp only [isr_lookup] at hset
      cases hreg : registry msg <;> simp [hreg] at hset
  · intro hb synced
    simp [VirtQueue_startup, hb]

theorem C28_amended_startup_wait_witness :
    VirtQueue_startup appm3Build (fun _ _ => 10246) (refProcs 2)
        (fun k => syncedAfter appm3Build (refProcs 2) refRegistry
          (if k < 2 then [] else [RP_MBOX_ECHO_REPLY])) 8 true
      = some (startup_events appm3Build (fun _ _ => 10246) (refProcs 2) true
          ++ [StartupEvent.readSynced false, StartupEvent.readSynced false,
              StartupEvent.readSynced true]) ∧
    RP_MBOX_ECHO_REPLY ∈ (if 2 < 2 then [] else [RP_MBOX_ECHO_REPLY]) :=
  ⟨by decide,
   ((C28_amended_startup_wait appm3Build (fun _ _ => 10246) (refProcs 2) refRegistry
      (fun k => if k < 2 then [] else [RP_MBOX_ECHO_REPLY]) 8 true).2.2.1
      rfl (by decide) 2 (by decide)).2⟩

/-! ## Program order of the producer stores -/

theorem update_update_same {α : Type} (f : Nat → α) (i : Nat) (x y : α) :
    Function.update (Function.update f i x) i y = Function.update f i y := by
  funext j
  by_cases h : j = i <;> simp [Function.update, h]

/-- The store lists are those of the functions: applied in order they give the
state that the function leaves. -/
theorem stores_agree (b : Build) (vq : VirtQueue_Object) (buf : Nat) (head : Int) :
    (VirtQueue_addAvailBuf_stores b vq buf).foldl Store.apply vq
      = (VirtQueue_addAvailBuf b vq buf).state ∧
    (VirtQueue_addUsedBuf_stores b vq head).foldl Store.apply vq
      = (VirtQueue_addUsedBuf b vq head).state := by
  constructor
  · by_cases h : vq.num_free = 0
    · simp [VirtQueue_addAvailBuf_stores, VirtQueue_addAvailBuf, h, Result.state]
    · simp [VirtQueue_addAvailBuf_stores, VirtQueue_addAvailBuf, h, Result.state, Store.apply,
        update_update_same]
  · by_cases h : (head % 4294967296).toNat > vq.vring.num ∨ head < 0
    · simp only [VirtQueue_addUsedBuf_stores, VirtQueue_addUsedBuf, if_pos h, Result.state,
        List.foldl]
    · simp only [VirtQueue_addUsedBuf_stores, VirtQueue_addUsedBuf, if_neg h, Result.state,
        List.foldl, Store.apply, update_update_same, Function.update_same]

/-- C30: program order of the stores. `VirtQueue_addUsedBuf` stores
`used.ring[slot].id` and `used.ring[slot].len` first and `used.idx` last, as the
claim says. `VirtQueue_addAvailBuf` does not: the post-increment of line 230 stores
the new `avail.idx` second, before the stores to `desc[slot].addr` and
`desc[slot].len`, so that after its second store the index already covers a
descriptor that still holds its old contents. -/
theorem C30_store_order (b : Build) (vq : VirtQueue_Object) (buf : Nat) (head : Int)
    (hfree : vq.num_free ≠ 0)
    (hhead : ¬ ((head % 4294967296).toNat > vq.vring.num ∨ head < 0)) :
    VirtQueue_addUsedBuf_stores b vq head =
      [ Store.used_id (vq.vring.used.idx % vq.vring.num) head.toNat,
        Store.used_len (vq.vring.used.idx % vq.vring.num) b.RP_MSG_BUF_SIZE,
        Store.used_idx ((vq.vring.used.idx + 1) % 65536) ] ∧
    VirtQueue_addAvailBuf_stores b vq buf =
      [ Store.num_free (vq.num_free - 1),
        Store.avail_idx ((vq.vring.avail.idx + 1) % 65536),
        Store.desc_addr (vq.vring.avail.idx % vq.vring.num) (mapVAtoPA buf),
        Store.desc_len (vq.vring.avail.idx % vq.vring.num) b.RP_MSG_BUF_SIZE ] ∧
    (afterStores vq (VirtQueue_addAvailBuf_stores b vq buf) 2).vring.avail.idx
      = (vq.vring.avail.idx + 1) % 65536 ∧
    (afterStores vq (VirtQueue_addAvailBuf_stores b vq buf) 2).vring.desc = vq.vring.desc ∧
    afterStores vq (VirtQueue_addAvailBuf_stores b vq buf) 4
      = (VirtQueue_addAvailBuf b vq buf).state := by
  refine ⟨by simp only [VirtQueue_addUsedBuf_stores, if_neg hhead],
    by simp [VirtQueue_addAvailBuf_stores, hfree],
    by simp [afterStores, VirtQueue_addAvailBuf_stores, hfree, Store.apply],
    by simp [afterStores, VirtQueue_addAvailBuf_stores, hfree, Store.apply], ?_⟩
  rw [← (stores_agree b vq buf head).1]
  simp [afterStores, VirtQueue_addAvailBuf_stores, hfree]

theorem C30_store_order_witness :
    VirtQueue_addAvailBuf_stores refBuild (freshVq 1 256) 0xA0020000 =
      [ Store.num_free 255, Store.avail_idx 1,
        Store.desc_addr 0 0xA9020000, Store.desc_len 0 512 ] ∧
    (afterStores (freshVq 1 256)
      (VirtQueue_addAvailBuf_stores refBuild (freshVq 1 256) 0xA0020000) 2).vring.avail.idx = 1 ∧
    ((afterStores (freshVq 1 256)
      (VirtQueue_addAvailBuf_stores refBuild (freshVq 1 256) 0xA0020000) 2).vring.desc 0).addr
        = 0 :=
  ⟨by decide,
   (C30_store_order refBuild (freshVq 1 256) 0xA0020000 0 (by decide) (by decide)).2.2.1,
   by rw [(C30_store_order refBuild (freshVq 1 256) 0xA0020000 0 (by decide)
        (by decide)).2.2.2.1]; rfl⟩

/-! ## The buffer pool and the ring memory -/

theorem recvBufs_eq_map (b : Build) :
    recvBufs b = (List.range b.RP_MSG_NUM_BUFS).map (recvBuf b) := rfl

theorem recvBuf_eq (b : Build) (i : Nat) (hi : i < b.RP_MSG_NUM_BUFS)
    (hB : 0 < b.RP_MSG_BUF_SIZE)
    (htop : b.IPU_MEM_VRING0 + 2 * (b.RP_MSG_NUM_BUFS * b.RP_MSG_BUF_SIZE) ≤ 4294967296) :
    recvBuf b i = b.IPU_MEM_VRING0 + b.RP_MSG_BUF_SIZE * i := by
  have h1 : b.RP_MSG_BUF_SIZE * i < b.RP_MSG_BUF_SIZE * b.RP_MSG_NUM_BUFS :=
    Nat.mul_lt_mul_of_pos_left hi hB
  have h2 : b.RP_MSG_BUF_SIZE * b.RP_MSG_NUM_BUFS = b.RP_MSG_NUM_BUFS * b.RP_MSG_BUF_SIZE :=
    Nat.mul_comm _ _
  have h3 : i * b.RP_MSG_BUF_SIZE = b.RP_MSG_BUF_SIZE * i := Nat.mul_comm _ _
  unfold recvBuf buf_addr
  rw [h3, Nat.mod_eq_of_lt (by omega)]

theorem mul_step_le (B i j : Nat) (h : i < j) : B * i + B ≤ B * j := by
  have := Nat.mul_le_mul_left B (show i + 1 ≤ j from h)
  rw [Nat.mul_succ] at this
  exact this

/-- C26: the pool taken by itself is laid out as the claim says: the `N` receive
buffers and the `N` send buffers are `2 * N` consecutive ranges of `BUF_SIZE` bytes
from `buf_addr`, pairwise disjoint. But `buf_addr` is `IPU_MEM_VRING0`, the very
address that `VirtQueue_create` takes as the base of the ring of the queue with id
0: the receive buffer 0 starts at the ring base and has bytes in common with the
ring region, whatever the size of the ring. -/
theorem C26_pool_starts_at_ring_base (b : Build) (others : Nat → Nat)
    (vring_size : Nat → Nat → Nat)
    (hN : 0 < b.RP_MSG_NUM_BUFS) (hB : 0 < b.RP_MSG_BUF_SIZE)
    (hR : 0 < RP_MSG_RING_SIZE b vring_size)
    (htop : b.IPU_MEM_VRING0 + 2 * (b.RP_MSG_NUM_BUFS * b.RP_MSG_BUF_SIZE) ≤ 4294967296) :
    (∀ i j, i < b.RP_MSG_NUM_BUFS → j < b.RP_MSG_NUM_BUFS → i ≠ j →
      ¬ overlap (recvBuf b i) b.RP_MSG_BUF_SIZE (recvBuf b j) b.RP_MSG_BUF_SIZE ∧
      ¬ overlap (sendBuf b i) b.RP_MSG_BUF_SIZE (sendBuf b j) b.RP_MSG_BUF_SIZE) ∧
    (∀ i j, i < b.RP_MSG_NUM_BUFS → j < b.RP_MSG_NUM_BUFS →
      ¬ overlap (recvBuf b i) b.RP_MSG_BUF_SIZE (sendBuf b j) b.RP_MSG_BUF_SIZE) ∧
    vring_phys b others 0 = some (recvBuf b 0) ∧
    (∀ base, vring_phys b others 0 = some base →
      overlap (recvBuf b 0) b.RP_MSG_BUF_SIZE base (RP_MSG_RING_SIZE b vring_size)) := by
  have h0 : recvBuf b 0 = b.IPU_MEM_VRING0 := by
    rw [recvBuf_eq b 0 hN hB htop]; simp
  refine ⟨?_, ?_, ?_, ?_⟩
  · intro i j hi hj hij
    rw [recvBuf_eq b i hi hB htop, recvBuf_eq b j hj hB htop, sendBuf_eq b i hi hB htop,
      sendBuf_eq b j hj hB htop]
    rcases Nat.lt_or_gt_of_ne hij with h | h
    · have := mul_step_le b.RP_MSG_BUF_SIZE i j h
      constructor <;> rintro ⟨x, ⟨h1, h2⟩, h3, h4⟩ <;> omega
    · have := mul_step_le b.RP_MSG_BUF_SIZE j i h
      constructor <;> rintro ⟨x, ⟨h1, h2⟩, h3, h4⟩ <;> omega
  · intro i j hi hj
    rw [recvBuf_eq b i hi hB htop, sendBuf_eq b j hj hB htop]
    have := mul_step_le b.RP_MSG_BUF_SIZE i b.RP_MSG_NUM_BUFS hi
    have h2 : b.RP_MSG_BUF_SIZE * b.RP_MSG_NUM_BUFS = b.RP_MSG_NUM_BUFS * b.RP_MSG_BUF_SIZE :=
      Nat.mul_comm _ _
    rintro ⟨x, ⟨h1, h2⟩, h3, h4⟩
    omega
  · simp [vring_phys, h0]
  · intro base hbase
    simp only [vring_phys, if_true, Option.some.injEq] at hbase
    subst hbase
    rw [h0]
    exact ⟨b.IPU_MEM_VRING0, ⟨le_refl _, by omega⟩, le_refl _, by omega⟩

theorem C26_pool_starts_at_ring_base_witness :
    vring_phys refBuild (fun _ => 0) 0 = some (recvBuf refBuild 0) ∧
    overlap (recvBuf refBuild 0) refBuild.RP_MSG_BUF_SIZE 0xA0000000
      (RP_MSG_RING_SIZE refBuild (fun _ _ => 10246)) :=
  ⟨(C26_pool_starts_at_ring_base refBuild (fun _ => 0) (fun _ _ => 10246)
      (by decide) (by decide) (by decide) (by decide)).2.2.1,
   (C26_pool_starts_at_ring_base refBuild (fun _ => 0) (fun _ _ => 10246)
      (by decide) (by decide) (by decide) (by decide)).2.2.2 0xA0000000 (by decide)⟩

/-! ## The bound on `num_free` -/

/-- C23, counterexample: on a queue just created over zeroed memory
(`num_free = N = 256`) the peer advances `used.idx` by one; the next
`VirtQueue_getUsedBuf` leaves `num_free = 257`. -/
theorem C23_getUsedBuf_pushes_num_free_past_N :
    (VirtQueue_create refBuild 1 false (fun _ => zeroRing 256)
      VirtQueue_callback.callback_usedBufReady 0 0).num_free = 256 ∧
    (producerRun refBuild
      (VirtQueue_create refBuild 1 false (fun _ => zeroRing 256)
        VirtQueue_callback.callback_usedBufReady 0 0)
      [ProducerStep.peerUsed 1 (fun _ => { id := 0, len := 512 }),
       ProducerStep.getUsedBuf]).state.num_free = 257 := by
  decide

theorem producerRun_inv (b : Build) (N : Nat) (hN : N < 65536) (hM : N < b.NUM_FREE_MOD) :
    ∀ (steps : List ProducerStep) (vq : VirtQueue_Object),
      vq.vring.num = N → vq.vring.used.idx < 65536 → vq.last_used_idx < 65536 →
      usedPending vq + vq.num_free ≤ N → PeerHonest b vq steps = true →
      (producerRun b vq steps).state.num_free ≤ N := by
  intro steps
  induction steps with
  | nil =>
    intro vq _ _ _ h _
    simp only [producerRun, Result.state]
    omega
  | cons s rest ih =>
    intro vq hnum hu hl hinv hhon
    simp only [PeerHonest, Bool.and_eq_true] at hhon
    obtain ⟨hs, hrest⟩ := hhon
    cases s with
    | addAvailBuf buf =>
      by_cases hf : vq.num_free = 0
      · simp only [producerRun, producerStep, VirtQueue_addAvailBuf, if_pos hf, Result.state]
        omega
      · simp only [producerStep, VirtQueue_addAvailBuf, if_neg hf] at hrest
        simp only [producerRun, producerStep, VirtQueue_addAvailBuf, if_neg hf]
        refine ih _ hnum hu hl ?_ hrest
        simp only [usedPending] at hinv ⊢
        omega
    | getUsedBuf =>
      simp only [producerStep] at hrest
      simp only [producerRun, producerStep]
      by_cases he : vq.last_used_idx = vq.vring.used.idx
      · rw [getUsedBuf_of_eq b vq he] at hrest ⊢
        exact ih _ hnum hu hl hinv hrest
      · simp only [VirtQueue_getUsedBuf, if_neg he] at hrest ⊢
        refine ih _ hnum hu (Nat.mod_lt _ (by norm_num)) ?_ hrest
        simp only [usedPending] at hinv ⊢
        have hnf : (vq.num_free + 1) % b.NUM_FREE_MOD = vq.num_free + 1 :=
          Nat.mod_eq_of_lt (by omega)
        rw [hnf]
        omega
    | peerUsed k ring =>
      simp only [producerStep] at hrest
      simp only [producerRun, producerStep]
      refine ih _ hnum (Nat.mod_lt _ (by norm_num)) hl ?_ hrest
      simp only [decide_eq_true_eq] at hs
      simp only [usedPending] at hinv hs ⊢
      omega

/-- C23, amended: on a queue created by `VirtQueue_create` over a ring whose
`used.idx` is 0, with `N < 2^16` fitting the type of `num_free`, every run of
`VirtQueue_addAvailBuf` and `VirtQueue_getUsedBuf` calls interleaved with steps of
a peer that returns only buffers it holds ends with `num_free ≤ N` (and `0 ≤
num_free`, the field being unsigned); a run is any sequence of steps, so that the
bound holds after each call. -/
theorem C23_amended_num_free_bound (b : Build) (numQueues : Nat) (onAppM3 : Bool)
    (shared : Nat → vring) (callback : VirtQueue_callback) (remoteProcId arg : Nat)
    (steps : List ProducerStep)
    (hN : b.RP_MSG_NUM_BUFS < 65536) (hM : b.RP_MSG_NUM_BUFS < b.NUM_FREE_MOD)
    (hzero : (VirtQueue_create b numQueues onAppM3 shared callback remoteProcId arg).vring.used.idx
      = 0)
    (hpeer : PeerHonest b
      (VirtQueue_create b numQueues onAppM3 shared callback remoteProcId arg) steps = true) :
    (VirtQueue_create b numQueues onAppM3 shared callback remoteProcId arg).num_free
      = b.RP_MSG_NUM_BUFS ∧
    (producerRun b (VirtQueue_create b numQueues onAppM3 shared callback remoteProcId arg)
      steps).state.num_free ≤ b.RP_MSG_NUM_BUFS := by
  refine ⟨rfl, producerRun_inv b _ hN hM steps _ rfl (by rw [hzero]; norm_num) (by
    simp [VirtQueue_create]) ?_ hpeer⟩
  have h1 : (VirtQueue_create b numQueues onAppM3 shared callback remoteProcId arg).last_used_idx
      = 0 := rfl
  have h2 : (VirtQueue_create b numQueues onAppM3 shared callback remoteProcId arg).num_free
      = b.RP_MSG_NUM_BUFS := rfl
  simp only [usedPending, hzero, h1, h2]
  omega

theorem C23_amended_num_free_bound_witness :
    (producerRun refBuild
      (VirtQueue_create refBuild 1 false (fun _ => zeroRing 256)
        VirtQueue_callback.callback_usedBufReady 0 0)
      [ProducerStep.addAvailBuf 0xA0020000,
       ProducerStep.peerUsed 1 (fun _ => { id := 0, len := 512 }),
       ProducerStep.getUsedBuf]).state.num_free ≤ 256 :=
  (C23_amended_num_free_bound refBuild 1 false (fun _ => zeroRing 256)
    VirtQueue_callback.callback_usedBufReady 0 0
    [ProducerStep.addAvailBuf 0xA0020000,
     ProducerStep.peerUsed 1 (fun _ => { id := 0, len := 512 }),
     ProducerStep.getUsedBuf]
    (by decide) (by decide) (by decide) (by decide)).2

/-! ## What each ring operation leaves of a queue -/

theorem addAvailBuf_fields (b : Build) (vq : VirtQueue_Object) (buf : Nat) :
    (VirtQueue_addAvailBuf b vq buf).state.vring.used = vq.vring.used ∧
    (VirtQueue_addAvailBuf b vq buf).state.vring.num = vq.vring.num ∧
    (VirtQueue_addAvailBuf b vq buf).state.vring.avail.ring = vq.vring.avail.ring ∧
    (VirtQueue_addAvailBuf b vq buf).state.vring.avail.flags = vq.vring.avail.flags ∧
    (VirtQueue_addAvailBuf b vq buf).state.last_avail_idx = vq.last_avail_idx ∧
    (VirtQueue_addAvailBuf b vq buf).state.last_used_idx = vq.last_used_idx ∧
    (VirtQueue_addAvailBuf b vq buf).state.vring.avail.idx
      = (if vq.num_free = 0 then vq.vring.avail.idx else (vq.vring.avail.idx + 1) % 65536) ∧
    (VirtQueue_addAvailBuf b vq buf).state.num_free = vq.num_free - 1 := by
  by_cases h : vq.num_free = 0 <;> simp [VirtQueue_addAvailBuf, h, Result.state]

theorem addAvailBuf_ret (b : Build) (vq vq1 : VirtQueue_Object) (buf : Nat) (r : Int)
    (h : VirtQueue_addAvailBuf b vq buf = .ret r vq1) :
    vq.num_free ≠ 0 ∧ vq1 = (VirtQueue_addAvailBuf b vq buf).state := by
  refine ⟨?_, by rw [h]; rfl⟩
  intro h0
  simp [VirtQueue_addAvailBuf, h0] at h

theorem getUsedBuf_fields (b : Build) (vq : VirtQueue_Object) :
    (VirtQueue_getUsedBuf b vq).2.vring = vq.vring ∧
    (VirtQueue_getUsedBuf b vq).2.last_avail_idx = vq.last_avail_idx ∧
    (VirtQueue_getUsedBuf b vq).2.last_used_idx
      = (if vq.last_used_idx = vq.vring.used.idx then vq.last_used_idx
         else (vq.last_used_idx + 1) % 65536) ∧
    (VirtQueue_getUsedBuf b vq).2.num_free
      = (if vq.last_used_idx = vq.vring.used.idx then vq.num_free
         else (vq.num_free + 1) % b.NUM_FREE_MOD) ∧
    ((VirtQueue_getUsedBuf b vq).1 ≠ 0 ↔ vq.last_used_idx ≠ vq.vring.used.idx) := by
  by_cases h : vq.last_used_idx = vq.vring.used.idx
  · simp [VirtQueue_getUsedBuf, h]
  · simp [VirtQueue_getUsedBuf, h, mapPAtoVA_ne_zero]

theorem getAvailBuf_fields (b : Build) (vq : VirtQueue_Object) (buf : Nat) :
    (VirtQueue_getAvailBuf b vq buf).2.2.vring.avail = vq.vring.avail ∧
    (VirtQueue_getAvailBuf b vq buf).2.2.vring.desc = vq.vring.desc ∧
    (VirtQueue_getAvailBuf b vq buf).2.2.vring.num = vq.vring.num ∧
    (VirtQueue_getAvailBuf b vq buf).2.2.vring.used.idx = vq.vring.used.idx ∧
    (VirtQueue_getAvailBuf b vq buf).2.2.vring.used.ring = vq.vring.used.ring ∧
    (VirtQueue_getAvailBuf b vq buf).2.2.num_free = vq.num_free ∧
    (VirtQueue_getAvailBuf b vq buf).2.2.last_used_idx = vq.last_used_idx ∧
    (VirtQueue_getAvailBuf b vq buf).2.2.last_avail_idx
      = (if vq.last_avail_idx = vq.vring.avail.idx then vq.last_avail_idx
         else (vq.last_avail_idx + 1) % 65536) ∧
    (VirtQueue_getAvailBuf b vq buf).1
      = (if vq.last_avail_idx = vq.vring.avail.idx then -1
         else toInt16 (headAt b vq.vring vq.last_avail_idx)) := by
  by_cases h : vq.last_avail_idx = vq.vring.avail.idx
  · rw [getAvailBuf_of_eq b vq buf h]
    by_cases hh : b.VirtQueue_isHost vq = true <;> simp [hh, h, clearNoNotify]
  · rw [getAvailBuf_of_ne b vq buf h, getAvailBuf_take_eq]
    by_cases hh : b.VirtQueue_isHost vq = true <;> simp [hh, h, setNoNotify]

theorem addUsedBuf_fields (b : Build) (vq : VirtQueue_Object) (head : Int) :
    (VirtQueue_addUsedBuf b vq head).state.vring.avail = vq.vring.avail ∧
    (VirtQueue_addUsedBuf b vq head).state.vring.desc = vq.vring.desc ∧
    (VirtQueue_addUsedBuf b vq head).state.vring.num = vq.vring.num ∧
    (VirtQueue_addUsedBuf b vq head).state.vring.used.flags = vq.vring.used.flags ∧
    (VirtQueue_addUsedBuf b vq head).state.num_free = vq.num_free ∧
    (VirtQueue_addUsedBuf b vq head).state.last_used_idx = vq.last_used_idx ∧
    (VirtQueue_addUsedBuf b vq head).state.last_avail_idx = vq.last_avail_idx ∧
    (VirtQueue_addUsedBuf b vq head).state.vring.used.idx
      = (if (head % 4294967296).toNat > vq.vring.num ∨ head < 0 then vq.vring.used.idx
         else (vq.vring.used.idx + 1) % 65536) ∧
    (VirtQueue_addUsedBuf b vq head).state.vring.used.ring
      = (if (head % 4294967296).toNat > vq.vring.num ∨ head < 0 then vq.vring.used.ring
         else Function.update vq.vring.used.ring (vq.vring.used.idx % vq.vring.num)
           { id := head.toNat, len := b.RP_MSG_BUF_SIZE }) := by
  by_cases h : (head % 4294967296).toNat > vq.vring.num ∨ head < 0
  · simp only [VirtQueue_addUsedBuf, if_pos h, Result.state, and_self]
  · simp only [VirtQueue_addUsedBuf, if_neg h, Result.state, and_self]

theorem addUsedBuf_ret (b : Build) (vq vq1 : VirtQueue_Object) (head r : Int)
    (h : VirtQueue_addUsedBuf b vq head = .ret r vq1) :
    ¬ ((head % 4294967296).toNat > vq.vring.num ∨ head < 0) ∧
    vq1 = (VirtQueue_addUsedBuf b vq head).state := by
  refine ⟨?_, by rw [h]; rfl⟩
  intro h0
  simp only [VirtQueue_addUsedBuf, if_pos h0] at h
  exact absurd h (by simp)

/-! ## What a send leaves of the instance -/

theorem put_slave_ret (b : Build) (q : MessageQ) (m m1 : Machine) (msg : Nat → Nat) (r : Bool)
    (hS : m.obj.isHost = false) (h : TransportVirtio_put b q m msg = .ret r m1) :
    m1.obj.isHost = false ∧ m1.obj.vq_slave = m.obj.vq_slave ∧
    ((r = false ∧ (VirtQueue_getAvailBuf b m.obj.vq_host 0).1 < 0 ∧
        m1.obj.vq_host = (VirtQueue_getAvailBuf b m.obj.vq_host 0).2.2 ∧ m1.pool = m.pool) ∨
     (r = true ∧ (VirtQueue_getAvailBuf b m.obj.vq_host 0).1 ≥ 0 ∧
        (∃ x, VirtQueue_addUsedBuf b (VirtQueue_getAvailBuf b m.obj.vq_host 0).2.2
          (VirtQueue_getAvailBuf b m.obj.vq_host 0).1 = .ret x m1.obj.vq_host) ∧
        m1.pool = Function.update m.pool (VirtQueue_getAvailBuf b m.obj.vq_host 0).2.1
          (put_fill (m.pool (VirtQueue_getAvailBuf b m.obj.vq_host 0).2.1) msg
            (q.getMsgSize msg)))) := by
  obtain ⟨obj, pool, mbox, inbox, freed⟩ := m
  obtain ⟨priority, remoteProcId, isHost, vq_host, vq_slave, sbufs, last_sbuf⟩ := obj
  simp only at hS ⊢
  subst hS
  simp only [TransportVirtio_put, put_acquire, Bool.false_eq_true, if_false, false_and,
    false_or] at h
  by_cases hg : (VirtQueue_getAvailBuf b vq_host 0).1 ≥ 0
  · simp only [hg, if_true] at h
    by_cases hsz : q.getMsgSize msg ≤ MAX_PAYLOAD b
    · simp only [hsz, not_true_eq_false, if_false] at h
      cases hadd : VirtQueue_addUsedBuf b (VirtQueue_getAvailBuf b vq_host 0).2.2
          (VirtQueue_getAvailBuf b vq_host 0).1 with
      | raised s => rw [hadd] at h; exact absurd h (by simp)
      | ret x vq =>
        rw [hadd] at h
        simp only [Result.ret.injEq] at h
        obtain ⟨hr, hm⟩ := h
        subst hm
        exact ⟨rfl, rfl, Or.inr ⟨hr.symm, hg, ⟨x, rfl⟩, rfl⟩⟩
    · simp only [hsz, not_false_eq_true, if_true] at h
      exact absurd h (by simp)
  · simp only [hg, if_false, Result.ret.injEq] at h
    obtain ⟨hr, hm⟩ := h
    subst hm
    exact ⟨rfl, rfl, Or.inl ⟨hr.symm, by omega, rfl, rfl⟩⟩

theorem put_slave_state (b : Build) (q : MessageQ) (m : Machine) (msg : Nat → Nat)
    (hS : m.obj.isHost = false) :
    (TransportVirtio_put b q m msg).state.obj.isHost = false ∧
    (TransportVirtio_put b q m msg).state.obj.vq_slave = m.obj.vq_slave ∧
    ((TransportVirtio_put b q m msg).state.obj.vq_host
        = (VirtQueue_getAvailBuf b m.obj.vq_host 0).2.2 ∨
     (TransportVirtio_put b q m msg).state.obj.vq_host
        = (VirtQueue_addUsedBuf b (VirtQueue_getAvailBuf b m.obj.vq_host 0).2.2
            (VirtQueue_getAvailBuf b m.obj.vq_host 0).1).state) := by
  obtain ⟨obj, pool, mbox, inbox, freed⟩ := m
  obtain ⟨priority, remoteProcId, isHost, vq_host, vq_slave, sbufs, last_sbuf⟩ := obj
  simp only at hS ⊢
  subst hS
  simp only [TransportVirtio_put, put_acquire, Bool.false_eq_true, if_false, false_and,
    false_or]
  by_cases hg : (VirtQueue_getAvailBuf b vq_host 0).1 ≥ 0
  · simp only [hg, if_true]
    by_cases hsz : q.getMsgSize msg ≤ MAX_PAYLOAD b
    · simp only [hsz, not_true_eq_false, if_false]
      cases hadd : VirtQueue_addUsedBuf b (VirtQueue_getAvailBuf b vq_host 0).2.2
          (VirtQueue_getAvailBuf b vq_host 0).1 <;> simp [Result.state]
    · simp [hsz, Result.state]
  · simp [hg, Result.state]

theorem getTxBuf_fields (b : Build) (obj : TransportVirtio_Object) (vq : VirtQueue_Object) :
    (getTxBuf b obj vq).2.1.isHost = obj.isHost ∧
    (getTxBuf b obj vq).2.1.vq_host = obj.vq_host ∧
    ((getTxBuf b obj vq).2.2 = vq ∨
     ((getTxBuf b obj vq).2.2 = (VirtQueue_getUsedBuf b vq).2 ∧
      (getTxBuf b obj vq).1 = (VirtQueue_getUsedBuf b vq).1)) := by
  by_cases hl : obj.last_sbuf < b.RP_MSG_NUM_BUFS <;> simp [getTxBuf, hl]

theorem put_host_ret (b : Build) (q : MessageQ) (m m1 : Machine) (msg : Nat → Nat) (r : Bool)
    (hH : m.obj.isHost = true) (h : TransportVirtio_put b q m msg = .ret r m1) :
    m1.obj.isHost = true ∧ m1.obj.vq_host = m.obj.vq_host ∧
    ((r = false ∧ (getTxBuf b m.obj m.obj.vq_slave).1 = 0 ∧
        m1.obj.vq_slave = (getTxBuf b m.obj m.obj.vq_slave).2.2 ∧ m1.pool = m.pool) ∨
     (r = true ∧ (getTxBuf b m.obj m.obj.vq_slave).1 ≠ 0 ∧
        (∃ x, VirtQueue_addAvailBuf b (getTxBuf b m.obj m.obj.vq_slave).2.2
          (getTxBuf b m.obj m.obj.vq_slave).1 = .ret x m1.obj.vq_slave) ∧
        m1.pool = Function.update m.pool (getTxBuf b m.obj m.obj.vq_slave).1
          (put_fill (m.pool (getTxBuf b m.obj m.obj.vq_slave).1) msg (q.getMsgSize msg)))) := by
  obtain ⟨hr1, hr2, _⟩ := getTxBuf_fields b m.obj m.obj.vq_slave
  rw [hH] at hr1
  simp only [TransportVirtio_put, put_acquire, hH, if_true, hr1, true_and] at h
  by_cases hg : (getTxBuf b m.obj m.obj.vq_slave).1 ≠ 0
  · have hc : (getTxBuf b m.obj m.obj.vq_slave).1 ≠ 0 ∨ (-1 : Int) ≥ 0 := Or.inl hg
    simp only [hc, if_true] at h
    by_cases hsz : q.getMsgSize msg ≤ MAX_PAYLOAD b
    · simp only [hsz, not_true_eq_false, if_false] at h
      cases hadd : VirtQueue_addAvailBuf b (getTxBuf b m.obj m.obj.vq_slave).2.2
          (getTxBuf b m.obj m.obj.vq_slave).1 with
      | raised s => rw [hadd] at h; exact absurd h (by simp)
      | ret x vq =>
        rw [hadd] at h
        simp only [Result.ret.injEq] at h
        obtain ⟨hr, hm⟩ := h
        subst hm
        exact ⟨rfl, hr2, Or.inr ⟨hr.symm, hg, ⟨x, rfl⟩, rfl⟩⟩
    · simp only [hsz, not_false_eq_true, if_true] at h
      exact absurd h (by simp)
  · have hc : ¬ ((getTxBuf b m.obj m.obj.vq_slave).1 ≠ 0 ∨ (-1 : Int) ≥ 0) := by
      rintro (h1 | h1)
      · exact hg h1
      · omega
    simp only [hc, if_false, Result.ret.injEq] at h
    obtain ⟨hr, hm⟩ := h
    subst hm
    exact ⟨rfl, hr2, Or.inl ⟨hr.symm, by simpa using hg, rfl, rfl⟩⟩

theorem put_host_state (b : Build) (q : MessageQ) (m : Machine) (msg : Nat → Nat)
    (hH : m.obj.isHost = true) :
    (TransportVirtio_put b q m msg).state.obj.isHost = true ∧
    (TransportVirtio_put b q m msg).state.obj.vq_host = m.obj.vq_host ∧
    ((TransportVirtio_put b q m msg).state.obj.vq_slave
        = (getTxBuf b m.obj m.obj.vq_slave).2.2 ∨
     (TransportVirtio_put b q m msg).state.obj.vq_slave
        = (VirtQueue_addAvailBuf b (getTxBuf b m.obj m.obj.vq_slave).2.2
            (getTxBuf b m.obj m.obj.vq_slave).1).state) := by
  obtain ⟨hr1, hr2, _⟩ := getTxBuf_fields b m.obj m.obj.vq_slave
  rw [hH] at hr1
  simp only [TransportVirtio_put, put_acquire, hH, if_true, hr1, true_and]
  by_cases hg : (getTxBuf b m.obj m.obj.vq_slave).1 ≠ 0
  · have hc : (getTxBuf b m.obj m.obj.vq_slave).1 ≠ 0 ∨ (-1 : Int) ≥ 0 := Or.inl hg
    simp only [hc, if_true]
    by_cases hsz : q.getMsgSize msg ≤ MAX_PAYLOAD b
    · simp only [hsz, not_true_eq_false, if_false]
      cases hadd : VirtQueue_addAvailBuf b (getTxBuf b m.obj m.obj.vq_slave).2.2
          (getTxBuf b m.obj m.obj.vq_slave).1 with
      | raised s => exact ⟨rfl, hr2, Or.inr rfl⟩
      | ret x vq => exact ⟨rfl, hr2, Or.inr rfl⟩
    · simp only [hsz, not_false_eq_true, if_true]
      exact ⟨rfl, hr2, Or.inl rfl⟩
  · have hc : ¬ ((getTxBuf b m.obj m.obj.vq_slave).1 ≠ 0 ∨ (-1 : Int) ≥ 0) := by
      rintro (h1 | h1)
      · exact hg h1
      · omega
    simp only [hc, if_false]
    exact ⟨rfl, hr2, Or.inl rfl⟩

theorem sendRpmsg_ret (b : Build) (dstProc self : Nat) (m m1 : Machine) (name : List Nat)
    (port flags : Nat) (hremote : dstProc ≠ self)
    (h : sendRpmsg b dstProc self m name port flags = .ret () m1) :
    m1.obj.isHost = m.obj.isHost ∧ m1.obj.vq_slave = m.obj.vq_slave ∧
    (VirtQueue_getAvailBuf b m.obj.vq_host 0).1 ≥ 0 ∧
    (∃ x, VirtQueue_addUsedBuf b (VirtQueue_getAvailBuf b m.obj.vq_host 0).2.2
      (VirtQueue_getAvailBuf b m.obj.vq_host 0).1 = .ret x m1.obj.vq_host) ∧
    m1.pool = Function.update m.pool (VirtQueue_getAvailBuf b m.obj.vq_host 0).2.1
      (ns_fill (m.pool (VirtQueue_getAvailBuf b m.obj.vq_host 0).2.1) name port flags) := by
  simp only [sendRpmsg, hremote, ne_eq, not_false_eq_true, if_true] at h
  by_cases hg : (VirtQueue_getAvailBuf b m.obj.vq_host 0).1 ≥ 0
  · simp only [hg, if_true] at h
    cases hadd : VirtQueue_addUsedBuf b (VirtQueue_getAvailBuf b m.obj.vq_host 0).2.2
        (VirtQueue_getAvailBuf b m.obj.vq_host 0).1 with
    | raised s => rw [hadd] at h; exact absurd h (by simp)
    | ret x vq =>
      rw [hadd] at h
      simp only [Result.ret.injEq, true_and] at h
      subst h
      exact ⟨rfl, rfl, hg, ⟨x, rfl⟩, rfl⟩
  · simp only [hg, if_false] at h
    exact absurd h (by simp)

theorem sendRpmsg_state (b : Build) (dstProc self : Nat) (m : Machine) (name : List Nat)
    (port flags : Nat) :
    (sendRpmsg b dstProc self m name port flags).state.obj.isHost = m.obj.isHost ∧
    (sendRpmsg b dstProc self m name port flags).state.obj.vq_slave = m.obj.vq_slave ∧
    ((sendRpmsg b dstProc self m name port flags).state.obj.vq_host = m.obj.vq_host ∨
     (sendRpmsg b dstProc self m name port flags).state.obj.vq_host
        = (VirtQueue_getAvailBuf b m.obj.vq_host 0).2.2 ∨
     (sendRpmsg b dstProc self m name port flags).state.obj.vq_host
        = (VirtQueue_addUsedBuf b (VirtQueue_getAvailBuf b m.obj.vq_host 0).2.2
            (VirtQueue_getAvailBuf b m.obj.vq_host 0).1).state) := by
  by_cases hremote : dstProc ≠ self
  · simp only [sendRpmsg, hremote, ne_eq, not_false_eq_true, if_true]
    by_cases hg : (VirtQueue_getAvailBuf b m.obj.vq_host 0).1 ≥ 0
    · simp only [hg, if_true]
      cases hadd : VirtQueue_addUsedBuf b (VirtQueue_getAvailBuf b m.obj.vq_host 0).2.2
          (VirtQueue_getAvailBuf b m.obj.vq_host 0).1 <;> simp [Result.state]
    · simp [hg, Result.state]
  · simp [sendRpmsg, hremote, Result.state]

/-! ## What the parts of the drain leave of the instance -/

theorem swiFxn_next_state (b : Build) (m : Machine) (l : SwiLocals) :
    (swiFxn_next b m l).1.pool = m.pool ∧ (swiFxn_next b m l).1.obj.isHost = m.obj.isHost ∧
    (m.obj.isHost = true →
      (swiFxn_next b m l).1.obj.vq_host = (VirtQueue_getUsedBuf b m.obj.vq_host).2 ∧
      (swiFxn_next b m l).1.obj.vq_slave = m.obj.vq_slave ∧
      (swiFxn_next b m l).2.rp_msg = (VirtQueue_getUsedBuf b m.obj.vq_host).1 ∧
      (swiFxn_next b m l).2.buf_avail = decide ((VirtQueue_getUsedBuf b m.obj.vq_host).1 ≠ 0)) ∧
    (m.obj.isHost = false →
      (swiFxn_next b m l).1.obj.vq_slave = (VirtQueue_getAvailBuf b m.obj.vq_slave l.rp_msg).2.2 ∧
      (swiFxn_next b m l).1.obj.vq_host = m.obj.vq_host ∧
      (swiFxn_next b m l).2.token = (VirtQueue_getAvailBuf b m.obj.vq_slave l.rp_msg).1 ∧
      (swiFxn_next b m l).2.buf_avail
        = decide ((VirtQueue_getAvailBuf b m.obj.vq_slave l.rp_msg).1 ≥ 0)) := by
  by_cases h : m.obj.isHost = true
  · simp [swiFxn_next, h]
  · simp [swiFxn_next, h]

theorem swiFxn_deliver_state (q : MessageQ) (m : Machine) (p : Nat) :
    (swiFxn_deliver q m p).state.obj = m.obj ∧ (swiFxn_deliver q m p).state.pool = m.pool ∧
    (swiFxn_deliver q m p).state.mbox = m.mbox := by
  by_cases h1 : (m.pool p).dstAddr ≠ RPMSG_MESSAGEQ_PORT
  · simp [swiFxn_deliver, h1, Result.state]
  · by_cases h2 : q.alloc (q.heapId (m.pool p).payload) (q.getMsgSize (m.pool p).payload) = false
    · simp [swiFxn_deliver, h1, h2, Result.state]
    · simp [swiFxn_deliver, h1, h2, Result.state]

theorem swiFxn_giveBack_state (b : Build) (m : Machine) (l : SwiLocals) :
    (swiFxn_giveBack b m l).state.pool = m.pool ∧
    (swiFxn_giveBack b m l).state.obj.isHost = m.obj.isHost ∧
    (m.obj.isHost = true →
      (swiFxn_giveBack b m l).state.obj.vq_host
        = (VirtQueue_addAvailBuf b m.obj.vq_host l.rp_msg).state ∧
      (swiFxn_giveBack b m l).state.obj.vq_slave = m.obj.vq_slave) ∧
    (m.obj.isHost = false →
      (swiFxn_giveBack b m l).state.obj.vq_slave
        = (VirtQueue_addUsedBuf b m.obj.vq_slave l.token).state ∧
      (swiFxn_giveBack b m l).state.obj.vq_host = m.obj.vq_host) := by
  by_cases h : m.obj.isHost = true
  · simp only [swiFxn_giveBack, h, if_true]
    cases hadd : VirtQueue_addAvailBuf b m.obj.vq_host l.rp_msg <;> simp [Result.state, h]
  · simp only [swiFxn_giveBack, h, if_false]
    cases hadd : VirtQueue_addUsedBuf b m.obj.vq_slave l.token <;> simp [Result.state, h]

theorem swiFxn_giveBack_ret (b : Build) (m m2 : Machine) (l : SwiLocals)
    (h : swiFxn_giveBack b m l = .ret () m2) :
    m2 = (swiFxn_giveBack b m l).state ∧
    (m.obj.isHost = true → ∃ x, VirtQueue_addAvailBuf b m.obj.vq_host l.rp_msg
      = .ret x m2.obj.vq_host) ∧
    (m.obj.isHost = false → ∃ x, VirtQueue_addUsedBuf b m.obj.vq_slave l.token
      = .ret x m2.obj.vq_slave) := by
  refine ⟨by rw [h]; rfl, ?_, ?_⟩
  · intro hH
    simp only [swiFxn_giveBack, hH, if_true] at h
    cases hadd : VirtQueue_addAvailBuf b m.obj.vq_host l.rp_msg with
    | raised s => rw [hadd] at h; exact absurd h (by simp)
    | ret x vq =>
      rw [hadd] at h
      simp only [Result.ret.injEq, true_and] at h
      subst h
      exact ⟨x, rfl⟩
  · intro hS
    simp only [swiFxn_giveBack, hS, Bool.false_eq_true, if_false] at h
    cases hadd : VirtQueue_addUsedBuf b m.obj.vq_slave l.token with
    | raised s => rw [hadd] at h; exact absurd h (by simp)
    | ret x vq =>
      rw [hadd] at h
      simp only [Result.ret.injEq, true_and] at h
      subst h
      exact ⟨x, rfl⟩

/-- A property that every part of the drain keeps is kept by the loop, whatever its
outcome. -/
theorem swiFxn_loop_preserves (b : Build) (q : MessageQ) (P : Machine → Prop)
    (hnext : ∀ m l, P m → P (swiFxn_next b m l).1)
    (hdel : ∀ m p, P m → P (swiFxn_deliver q m p).state)
    (hgive : ∀ m l, P m → P (swiFxn_giveBack b m l).state) :
    ∀ (fuel : Nat) (m : Machine) (l : SwiLocals) (r : Result Machine SwiLocals),
      P m → swiFxn_loop b q fuel m l = some r → P r.state := by
  intro fuel
  induction fuel with
  | zero =>
    intro m l r hP h
    by_cases hav : l.buf_avail = true
    · simp [swiFxn_loop, hav] at h
    · simp only [swiFxn_loop, hav, Bool.false_eq_true, if_false, Option.some.injEq] at h
      subst h
      exact hP
  | succ fuel ih =>
    intro m l r hP h
    by_cases hav : l.buf_avail = true
    · simp only [swiFxn_loop, hav, if_true] at h
      have h1 := hdel m l.rp_msg hP
      cases hd : swiFxn_deliver q m l.rp_msg with
      | raised s =>
        rw [hd] at h1
        simp only [hd, Option.some.injEq] at h
        subst h
        exact h1
      | ret u m1 =>
        rw [hd] at h1
        simp only [hd] at h
        simp only [Result.state] at h1
        have h2 := hgive m1 l h1
        cases hg : swiFxn_giveBack b m1 l with
        | raised s =>
          rw [hg] at h2
          simp only [hg, Option.some.injEq] at h
          subst h
          exact h2
        | ret u2 m2 =>
          rw [hg] at h2
          simp only [hg] at h
          simp only [Result.state] at h2
          exact ih _ _ r (hnext m2 _ h2) h
    · simp only [swiFxn_loop, hav, Bool.false_eq_true, if_false, Option.some.injEq] at h
      subst h
      exact hP

theorem swiFxn_preserves (b : Build) (q : MessageQ) (P : Machine → Prop)
    (hnext : ∀ m l, P m → P (swiFxn_next b m l).1)
    (hdel : ∀ m p, P m → P (swiFxn_deliver q m p).state)
    (hgive : ∀ m l, P m → P (swiFxn_giveBack b m l).state)
    (hmbox : ∀ (m : Machine) (mb : List (Nat × Nat)), P m → P { m with mbox := mb })
    (m : Machine) (r : Result Machine Unit) (hP : P m)
    (h : TransportVirtio_swiFxn b q m = some r) : P r.state := by
  simp only [TransportVirtio_swiFxn] at h
  cases hl : swiFxn_loop b q 65536
      (swiFxn_next b m { rp_msg := 0, token := 0, buf_avail := false, bufAdded := false }).1
      (swiFxn_next b m { rp_msg := 0, token := 0, buf_avail := false, bufAdded := false }).2 with
  | none => simp only [hl] at h; exact absurd h (by simp)
  | some r1 =>
    have h1 := swiFxn_loop_preserves b q P hnext hdel hgive 65536 _ _ r1 (hnext m _ hP) hl
    simp only [hl] at h
    cases r1 with
    | raised s =>
      simp only [Option.some.injEq] at h
      subst h
      exact h1
    | ret lf mf =>
      simp only [Result.state] at h1
      by_cases hb : lf.bufAdded = true
      · simp only [hb, if_true, Option.some.injEq] at h
        subst h
        exact hmbox _ _ h1
      · simp only [hb, Bool.false_eq_true, if_false, Option.some.injEq] at h
        subst h
        exact h1

/-- A property that every completed iteration of the drain re-establishes, and that
the failing attempt to take one more buffer keeps, holds when the drain returns. -/
theorem swiFxn_loop_returns_ind (b : Build) (q : MessageQ) (I : Machine → Prop)
    (hiter : ∀ (m : Machine) (l : SwiLocals) (m1 m2 : Machine), I m →
      (swiFxn_next b m l).2.buf_avail = true →
      swiFxn_deliver q (swiFxn_next b m l).1 (swiFxn_next b m l).2.rp_msg = .ret () m1 →
      swiFxn_giveBack b m1 (swiFxn_next b m l).2 = .ret () m2 → I m2)
    (hstop : ∀ (m : Machine) (l : SwiLocals), I m →
      (swiFxn_next b m l).2.buf_avail = false → I (swiFxn_next b m l).1) :
    ∀ (fuel : Nat) (m : Machine) (l lf : SwiLocals) (mf : Machine), I m →
      swiFxn_loop b q fuel (swiFxn_next b m l).1 (swiFxn_next b m l).2 = some (.ret lf mf) →
      I mf := by
  intro fuel
  induction fuel with
  | zero =>
    intro m l lf mf hI h
    by_cases hav : (swiFxn_next b m l).2.buf_avail = true
    · simp [swiFxn_loop, hav] at h
    · simp only [swiFxn_loop, hav, Bool.false_eq_true, if_false, Option.some.injEq,
        Result.ret.injEq] at h
      rw [← h.2]
      exact hstop m l hI (by simpa using hav)
  | succ fuel ih =>
    intro m l lf mf hI h
    by_cases hav : (swiFxn_next b m l).2.buf_avail = true
    · simp only [swiFxn_loop, hav, if_true] at h
      cases hd : swiFxn_deliver q (swiFxn_next b m l).1 (swiFxn_next b m l).2.rp_msg with
      | raised s => simp only [hd] at h; exact absurd h (by simp)
      | ret u m1 =>
        simp only [hd] at h
        cases hg : swiFxn_giveBack b m1 (swiFxn_next b m l).2 with
        | raised s => simp only [hg] at h; exact absurd h (by simp)
        | ret u2 m2 =>
          simp only [hg] at h
          exact ih m2 _ lf mf (hiter m l m1 m2 hI hav hd hg) h
    · simp only [swiFxn_loop, hav, Bool.false_eq_true, if_false, Option.some.injEq,
        Result.ret.injEq] at h
      rw [← h.2]
      exact hstop m l hI (by simpa using hav)

theorem swiFxn_returns_ind (b : Build) (q : MessageQ) (I : Machine → Prop)
    (hiter : ∀ (m : Machine) (l : SwiLocals) (m1 m2 : Machine), I m →
      (swiFxn_next b m l).2.buf_avail = true →
      swiFxn_deliver q (swiFxn_next b m l).1 (swiFxn_next b m l).2.rp_msg = .ret () m1 →
      swiFxn_giveBack b m1 (swiFxn_next b m l).2 = .ret () m2 → I m2)
    (hstop : ∀ (m : Machine) (l : SwiLocals), I m →
      (swiFxn_next b m l).2.buf_avail = false → I (swiFxn_next b m l).1)
    (hmbox : ∀ (m : Machine) (mb : List (Nat × Nat)), I m → I { m with mbox := mb })
    (m mf : Machine) (hI : I m)
    (h : TransportVirtio_swiFxn b q m = some (.ret () mf)) : I mf := by
  simp only [TransportVirtio_swiFxn] at h
  cases hl : swiFxn_loop b q 65536
      (swiFxn_next b m { rp_msg := 0, token := 0, buf_avail := false, bufAdded := false }).1
      (swiFxn_next b m { rp_msg := 0, token := 0, buf_avail := false, bufAdded := false }).2 with
  | none => simp only [hl] at h; exact absurd h (by simp)
  | some r1 =>
    simp only [hl] at h
    cases r1 with
    | raised s => exact absurd h (by simp)
    | ret lf m1 =>
      have h1 := swiFxn_loop_returns_ind b q I hiter hstop 65536 m _ lf m1 hI hl
      by_cases hb : lf.bufAdded = true
      · simp only [hb, if_true, Option.some.injEq, Result.ret.injEq, true_and] at h
        subst h
        exact hmbox _ _ h1
      · simp only [hb, Bool.false_eq_true, if_false, Option.some.injEq, Result.ret.injEq,
          true_and] at h
        subst h
        exact h1

/-! ## What the priming and a ready drain leave -/

theorem addAvailBufs_fields (b : Build) (bs : List Nat) :
    ∀ vq : VirtQueue_Object,
      (addAvailBufs b vq bs).state.vring.used = vq.vring.used ∧
      (addAvailBufs b vq bs).state.vring.num = vq.vring.num ∧
      (addAvailBufs b vq bs).state.vring.avail.ring = vq.vring.avail.ring ∧
      (addAvailBufs b vq bs).state.last_used_idx = vq.last_used_idx ∧
      (addAvailBufs b vq bs).state.last_avail_idx = vq.last_avail_idx := by
  induction bs with
  | nil => intro vq; exact ⟨rfl, rfl, rfl, rfl, rfl⟩
  | cons x rest ih =>
    intro vq
    obtain ⟨h1, h2, h3, _, h5, h6, _⟩ := addAvailBuf_fields b vq x
    cases hadd : VirtQueue_addAvailBuf b vq x with
    | raised s =>
      rw [hadd] at h1 h2 h3 h5 h6
      simp only [addAvailBufs, hadd, Result.state] at h1 h2 h3 h5 h6 ⊢
      exact ⟨h1, h2, h3, h6, h5⟩
    | ret r vq1 =>
      rw [hadd] at h1 h2 h3 h5 h6
      simp only [Result.state] at h1 h2 h3 h5 h6
      obtain ⟨i1, i2, i3, i4, i5⟩ := ih vq1
      simp only [addAvailBufs, hadd]
      exact ⟨i1.trans h1, i2.trans h2, i3.trans h3, i4.trans h6, i5.trans h5⟩

theorem Instance_init_host_queues (b : Build) (m : Machine) :
    (Instance_init_host b m).state.obj.vq_host
      = (addAvailBufs b m.obj.vq_host (recvBufs b)).state := by
  dsimp only [Instance_init_host]
  cases h : addAvailBufs b m.obj.vq_host (recvBufs b) <;> simp [Result.state]

/-- The outcome of a drain from a ready state, in terms of the index through which
it returns the slots. -/
theorem swiFxn_of_ready (b : Build) (q : MessageQ) (m : Machine) (hr : DrainReady b q m) :
    ∃ mf, TransportVirtio_swiFxn b q m = some (.ret () mf) ∧
      drainReturned mf = (drainReturned m + drainPending m) % 65536 := by
  obtain ⟨lf, mf, hloop, _, _, _, hret, _, hrole⟩ :=
    drain_run b q (drainPending m) m swiEntry 65536 (le_of_lt (drainPending_lt m)) hr rfl
  have hloop2 : swiFxn_loop b q 65536
      (swiFxn_next b m { rp_msg := 0, token := 0, buf_avail := false, bufAdded := false }).1
      (swiFxn_next b m { rp_msg := 0, token := 0, buf_avail := false, bufAdded := false }).2
      = some (.ret lf mf) := hloop
  by_cases hb : lf.bufAdded = true
  · refine ⟨{ mf with
        mbox := VirtQueue_kick b (if mf.obj.isHost then mf.obj.vq_host else mf.obj.vq_slave)
          mf.mbox },
      by simp only [TransportVirtio_swiFxn, hloop2, hb, if_true], ?_⟩
    rw [← hret]
    simp [drainReturned]
  · refine ⟨mf, by simp only [TransportVirtio_swiFxn, hloop2, hb, Bool.false_eq_true,
      if_false], hret⟩

/-! ## Descriptor indices taken from the peer -/

/-- C21, counterexample: default build, ring of 256 elements. The peer has placed
the value 300 in the available ring. `VirtQueue_getAvailBuf` takes it as the
descriptor index without a test: the token it returns is 300 and the buffer it
yields is the one of `desc[300]`, an element past the end of the table. -/
theorem C21_getAvailBuf_reads_desc_past_N :
    (oneAvailVq 0 256 300 0xA9000E00).vring.num = 256 ∧
    (oneAvailVq 0 256 300 0xA9000E00).vring.avail.ring 0 = 300 ∧
    ((oneAvailVq 0 256 300 0xA9000E00).vring.desc 300).addr = 0xA9000E00 ∧
    (VirtQueue_getAvailBuf refBuild (oneAvailVq 0 256 300 0xA9000E00) 0).1 = 300 ∧
    (VirtQueue_getAvailBuf refBuild (oneAvailVq 0 256 300 0xA9000E00) 0).2.1 = 0xA0000E00 ∧
    (VirtQueue_getAvailBuf refBuild (oneAvailVq 0 256 300 0) 0).2.1 = 0xA0000000 := by
  decide

/-- C21, amended. The index that `VirtQueue_getAvailBuf` uses on the descriptor
table is the entry of the available ring at its cursor (in the build with
`APPM3_IS_HOST` the cursor modulo `N`, which is below `N`), and the one that
`VirtQueue_getUsedBuf` uses is the low 16 bits of the `id` of the used element at
its cursor: neither is tested. The slave-role paths (`TransportVirtio_put`,
`sendRpmsg`, one round of `TransportVirtio_swiFxn`) pass the token of
`VirtQueue_getAvailBuf` to `VirtQueue_addUsedBuf`, which returns only for a token
(an `Int16`) that is neither negative nor above `N`, and then stores it in the used
slot. When
the entry is a valid index (`< N`, `N ≤ 32768`) the stored index is that entry,
below `N`. -/
theorem C21_amended_valid_entries (b : Build) (q : MessageQ) (m : Machine) (msg : Nat → Nat)
    (dstProc self : Nat) (name : List Nat) (port flags : Nat) (l0 : SwiLocals)
    (hS : m.obj.isHost = false) (hremote : dstProc ≠ self) :
    (∀ (vq : VirtQueue_Object) (buf : Nat), vq.last_avail_idx ≠ vq.vring.avail.idx →
      (VirtQueue_getAvailBuf b vq buf).1 = toInt16 (headAt b vq.vring vq.last_avail_idx) ∧
      (VirtQueue_getAvailBuf b vq buf).2.1
        = mapPAtoVA (vq.vring.desc (headAt b vq.vring vq.last_avail_idx)).addr) ∧
    (∀ vq : VirtQueue_Object, vq.last_used_idx ≠ vq.vring.used.idx →
      (VirtQueue_getUsedBuf b vq).1 = mapPAtoVA (vq.vring.desc
        ((vq.vring.used.ring (vq.last_used_idx % vq.vring.num)).id % 65536)).addr) ∧
    (∀ (r : vring) (j : Nat),
      headAt b r j = if b.APPM3_IS_HOST then j % r.num else r.avail.ring (j % r.num)) ∧
    (b.APPM3_IS_HOST = true → ∀ (r : vring) (j : Nat), 0 < r.num → headAt b r j < r.num) ∧
    (∀ (vq vq1 : VirtQueue_Object) (head r : Int), head < 32768 →
      VirtQueue_addUsedBuf b vq head = .ret r vq1 →
      0 ≤ head ∧ head ≤ vq.vring.num ∧
      vq1.vring.used.ring (vq.vring.used.idx % vq.vring.num)
        = { id := head.toNat, len := b.RP_MSG_BUF_SIZE }) ∧
    (∀ m1, TransportVirtio_put b q m msg = .ret true m1 →
      ∃ x, VirtQueue_addUsedBuf b (VirtQueue_getAvailBuf b m.obj.vq_host 0).2.2
        (VirtQueue_getAvailBuf b m.obj.vq_host 0).1 = .ret x m1.obj.vq_host) ∧
    (∀ m1, sendRpmsg b dstProc self m name port flags = .ret () m1 →
      ∃ x, VirtQueue_addUsedBuf b (VirtQueue_getAvailBuf b m.obj.vq_host 0).2.2
        (VirtQueue_getAvailBuf b m.obj.vq_host 0).1 = .ret x m1.obj.vq_host) ∧
    (∀ m1, swiFxn_giveBack b (swiFxn_next b m l0).1 (swiFxn_next b m l0).2 = .ret () m1 →
      ∃ x, VirtQueue_addUsedBuf b (VirtQueue_getAvailBuf b m.obj.vq_slave l0.rp_msg).2.2
        (VirtQueue_getAvailBuf b m.obj.vq_slave l0.rp_msg).1 = .ret x m1.obj.vq_slave) ∧
    (∀ (vq : VirtQueue_Object) (buf : Nat), vq.last_avail_idx ≠ vq.vring.avail.idx →
      vq.vring.num ≤ 32768 → headAt b vq.vring vq.last_avail_idx < vq.vring.num →
      (VirtQueue_addUsedBuf b (VirtQueue_getAvailBuf b vq buf).2.2
        (VirtQueue_getAvailBuf b vq buf).1).value = some 0 ∧
      (VirtQueue_addUsedBuf b (VirtQueue_getAvailBuf b vq buf).2.2
        (VirtQueue_getAvailBuf b vq buf).1).state.vring.used.ring
          (vq.vring.used.idx % vq.vring.num)
        = { id := headAt b vq.vring vq.last_avail_idx, len := b.RP_MSG_BUF_SIZE }) := by
  refine ⟨?_, ?_, ?_, ?_, ?_, ?_, ?_, ?_, ?_⟩
  · intro vq buf hne
    rw [getAvailBuf_of_ne b vq buf hne, getAvailBuf_take_eq]
    exact ⟨rfl, rfl⟩
  · intro vq hne
    rw [getUsedBuf_of_ne b vq hne]
  · intro r j
    rfl
  · intro hb r j hr
    simp only [headAt, hb, if_true]
    exact Nat.mod_lt _ hr
  · intro vq vq1 head r h16 h
    obtain ⟨hg, hv⟩ := addUsedBuf_ret b vq vq1 head r h
    obtain ⟨_, _, _, _, _, _, _, _, f9⟩ := addUsedBuf_fields b vq head
    rw [hv, f9, if_neg hg]
    clear f9 hv h hS hremote
    refine ⟨by omega, by omega, by simp⟩
  · intro m1 h
    obtain ⟨_, _, h3⟩ := put_slave_ret b q m m1 msg true hS h
    rcases h3 with ⟨h4, _⟩ | ⟨_, _, h5, _⟩
    · exact absurd h4 (by simp)
    · exact h5
  · intro m1 h
    exact (sendRpmsg_ret b dstProc self m m1 name port flags hremote h).2.2.2.1
  · intro m1 h
    obtain ⟨_, n2, _, n4⟩ := swiFxn_next_state b m l0
    obtain ⟨n5, _, n7, _⟩ := n4 hS
    obtain ⟨_, _, g3⟩ := swiFxn_giveBack_ret b _ m1 _ h
    obtain ⟨x, hx⟩ := g3 (n2.trans hS)
    rw [n5, n7] at hx
    exact ⟨x, hx⟩
  · intro vq buf hne hN hhead
    rw [getAvailBuf_of_ne b vq buf hne]
    obtain ⟨htok, hadd⟩ := getAvailBuf_take_valid b vq hN hhead
    obtain ⟨_, _, _, _, _, _, _, f8, f9⟩ := addUsedBuf_fields b (getAvailBuf_take b vq).2.2
      (getAvailBuf_take b vq).1
    obtain ⟨hg, _⟩ := addUsedBuf_ret b _ _ _ _ hadd
    obtain ⟨_, _, _, _, _, t6⟩ := getAvailBuf_take_spec b vq
    obtain ⟨t1, _⟩ := getAvailBuf_take_frame b vq
    refine ⟨by rw [hadd]; rfl, ?_⟩
    rw [f9, if_neg hg, t6, t1, htok]
    simp

theorem C21_amended_valid_entries_witness :
    ∃ x, VirtQueue_addUsedBuf refBuild
        (VirtQueue_getAvailBuf refBuild slaveOneAvail.obj.vq_host 0).2.2
        (VirtQueue_getAvailBuf refBuild slaveOneAvail.obj.vq_host 0).1
      = .ret x (TransportVirtio_put refBuild refMessageQ slaveOneAvail testMsg).state.obj.vq_host :=
  (C21_amended_valid_entries refBuild refMessageQ slaveOneAvail testMsg 0 1
    [116, 101, 115, 116] 50 0 swiEntry rfl (by decide)).2.2.2.2.2.1 _
    (Result.eq_ret_of_value (by decide))

/-! ## Outcomes of the priming and of the delivery step -/

theorem headAt_of_zero_ring (b : Build) (r : vring) (j : Nat) (hpos : 0 < r.num)
    (hz : ∀ i, r.avail.ring i = 0) : headAt b r j < r.num := by
  by_cases hb : b.APPM3_IS_HOST = true
  · simp only [headAt, hb, if_true]
    exact Nat.mod_lt _ hpos
  · simp only [headAt, hb, Bool.false_eq_true, if_false, hz]
    exact hpos

theorem Instance_init_host_ret (b : Build) (m m1 : Machine)
    (h : Instance_init_host b m = .ret () m1) :
    addAvailBufs b m.obj.vq_host (recvBufs b) = .ret () m1.obj.vq_host ∧
    m1.obj.isHost = m.obj.isHost ∧ m1.obj.vq_slave = m.obj.vq_slave := by
  simp only [Instance_init_host] at h
  cases hadd : addAvailBufs b m.obj.vq_host (recvBufs b) with
  | raised s => simp only [hadd] at h; exact absurd h (by simp)
  | ret u vq =>
    simp only [hadd, Result.ret.injEq, true_and] at h
    subst h
    exact ⟨rfl, rfl, rfl⟩

theorem swiFxn_deliver_ret (q : MessageQ) (m m1 : Machine) (p : Nat)
    (h : swiFxn_deliver q m p = .ret () m1) : m1.obj = m.obj := by
  have h1 := (swiFxn_deliver_state q m p).1
  rw [h] at h1
  exact h1

/-! ## The cache write-back throttle and the ring layout -/

theorem cacheWb_calls_zero (ts : List Nat) :
    (cacheWb_calls 0 ts).2 = 0 ∧
    (cacheWb_calls 0 ts).1 = ts.map (fun t => if t ≥ 5 then 0 else 1) := by
  induction ts with
  | nil => exact ⟨rfl, rfl⟩
  | cons t rest ih =>
    have h2 : (VirtQueue_cacheWb 0 t).2 = 0 := by
      unfold VirtQueue_cacheWb
      split <;> rfl
    have h1 : (VirtQueue_cacheWb 0 t).1 = if t ≥ 5 then 0 else 1 := by
      unfold VirtQueue_cacheWb CACHE_WB_TICK_PERIOD
      by_cases h : t ≥ 5
      · rw [if_pos (by norm_num; exact h), if_pos h]
      · rw [if_neg (by norm_num; omega), if_neg h]
    simp only [cacheWb_calls, h2, h1, List.map_cons]
    exact ⟨ih.1, by rw [ih.2]⟩

/-- C31: `VirtQueue_cacheWb` makes no `Cache_wbAll` call exactly when
`Clock_getTicks () >= oldticks + 5` in 32-bit arithmetic, and exactly one
otherwise; it leaves `oldticks` as it was. From the initial value 0 of the static,
`oldticks` is 0 after any number of calls, so that a call writes the caches back if
and only if the clock is below 5. -/
theorem C31_cacheWb_early_return (oldticks ticks : Nat) (ts : List Nat) :
    ((VirtQueue_cacheWb oldticks ticks).1 = 0 ↔
      ticks ≥ (oldticks + CACHE_WB_TICK_PERIOD) % 4294967296) ∧
    ((VirtQueue_cacheWb oldticks ticks).1 = 1 ↔
      ¬ ticks ≥ (oldticks + CACHE_WB_TICK_PERIOD) % 4294967296) ∧
    (VirtQueue_cacheWb oldticks ticks).2 = oldticks ∧
    CACHE_WB_TICK_PERIOD = 5 ∧
    (cacheWb_calls 0 ts).2 = 0 ∧
    (cacheWb_calls 0 ts).1 = ts.map (fun t => if t ≥ 5 then 0 else 1) := by
  refine ⟨?_, ?_, ?_, rfl, (cacheWb_calls_zero ts).1, (cacheWb_calls_zero ts).2⟩
  · by_cases h : ticks ≥ (oldticks + CACHE_WB_TICK_PERIOD) % 4294967296
    · simp only [VirtQueue_cacheWb, if_pos h, true_iff]
      exact h
    · simp only [VirtQueue_cacheWb, if_neg h]
      simp [h]
  · by_cases h : ticks ≥ (oldticks + CACHE_WB_TICK_PERIOD) % 4294967296
    · simp only [VirtQueue_cacheWb, if_pos h]
      simp [h]
    · simp only [VirtQueue_cacheWb, if_neg h, true_iff]
      exact h
  · unfold VirtQueue_cacheWb
    split <;> rfl

/-- C32: with 256 buffers and the ring alignment 4096 the layout of the spec puts
the available ring at offset 4096 and the used ring at offset 8192 and has a raw
size of 10246 bytes; `RP_MSG_RING_SIZE`, which rounds that size up to whole pages of
4096 bytes, is 12288 bytes, three pages. -/
theorem C32_ring_size_three_pages :
    refBuild.RP_MSG_NUM_BUFS = 256 ∧ RP_MSG_VRING_ALIGN = 4096 ∧ PAGE_SIZE = 4096 ∧
    vring_avail_offset 256 4096 = 4096 ∧
    vring_used_offset 256 4096 = 8192 ∧
    vring_size 256 4096 = 10246 ∧
    RP_MSG_RING_SIZE refBuild vring_size = 12288 ∧
    RP_MSG_RING_SIZE refBuild vring_size = 3 * PAGE_SIZE := by
  decide

/-! ## Bounds of the registry accesses -/

/-- C35, counterexample: default build. On CORE1 the mailbox word 5, whose high 16
bits are clear, makes the dispatcher load `queueRegistry[5]`, past the 5 entries of
the array; and from an empty registry the fourth `VirtQueue_create` on CORE1 stores
into `queueRegistry[5]`. -/
theorem C35_registry_index_out_of_bounds :
    (5 : Nat) &&& 0xFFFF0000 = 0 ∧
    registryReads (VirtQueue_isr refBuild (refProcs 2) refRegistry 5) = [5] ∧
    (createSeq refBuild (refProcs 2) (fun _ => zeroRing 256)
      VirtQueue_callback.callback_usedBufReady 0 0 4 emptyRegistry).1 = [2, 3, 4, 5] ∧
    ¬ (5 < NUM_QUEUES) := by
  decide

theorem registryReads_lookup (registry : Nat → Option VirtQueue_Object) (msg : Nat) :
    registryReads (isr_lookup registry msg) = [msg] := by
  unfold isr_lookup
  cases registry msg <;> rfl

theorem registryReads_route (p : ProcIds) (registry : Nat → Option VirtQueue_Object)
    (msg : Nat) : ∀ i ∈ registryReads (isr_route p registry msg), i = msg := by
  unfold isr_route
  split
  · intro i hi
    simp [registryReads] at hi
  · intro i hi
    rw [registryReads_lookup] at hi
    simpa using hi

theorem registryReads_isr (b : Build) (p : ProcIds) (registry : Nat → Option VirtQueue_Object)
    (msg : Nat) : ∀ i ∈ registryReads (VirtQueue_isr b p registry msg), i = msg := by
  have hl : ∀ i ∈ registryReads (isr_lookup registry msg), i = msg := by
    intro i hi
    rw [registryReads_lookup] at hi
    simpa using hi
  have hr := registryReads_route p registry msg
  unfold VirtQueue_isr
  intro i hi
  repeat' split at hi
  all_goals first
    | exact hl i hi
    | exact hr i hi
    | (simp [registryReads] at hi)

theorem createSeq_indices (b : Build) (p : ProcIds) (shared : Nat → vring)
    (callback : VirtQueue_callback) (remoteProcId arg : Nat) (n : Nat) :
    ∀ st : Registry, st.numQueues + n < 4294967296 →
      (createSeq b p shared callback remoteProcId arg n st).1
        = (List.range n).map (fun k =>
            if b.APPM3_IS_HOST = false ∧ p.self = p.appm3ProcId then st.numQueues + k + 2
            else st.numQueues + k) ∧
      (createSeq b p shared callback remoteProcId arg n st).2.numQueues
        = st.numQueues + n := by
  induction n with
  | zero =>
    intro st _
    exact ⟨rfl, rfl⟩
  | succ n ih =>
    intro st h
    have hq : (VirtQueue_create_call b p shared true st callback remoteProcId arg).2.numQueues
        = st.numQueues + 1 := by
      simp only [VirtQueue_create_call, Bool.true_eq_false, if_false]
      exact Nat.mod_eq_of_lt (by omega)
    obtain ⟨i1, i2⟩ := ih (VirtQueue_create_call b p shared true st callback remoteProcId arg).2
      (by rw [hq]; omega)
    refine ⟨?_, ?_⟩
    · simp only [createSeq, i1, hq, List.range_succ_eq_map, List.map_cons, List.map_map]
      congr 1
      · by_cases hc : b.APPM3_IS_HOST = false ∧ p.self = p.appm3ProcId
        · simp [VirtQueue_create_call, VirtQueue_create, hc]
        · have hc2 : ¬ (b.APPM3_IS_HOST = false ∧ decide (p.self = p.appm3ProcId) = true) := by
            simpa using hc
          simp only [VirtQueue_create_call, VirtQueue_create, Bool.true_eq_false, if_false,
            if_neg hc2, if_neg hc, Nat.add_zero]
      · apply List.map_congr_left
        intro k _
        simp only [Function.comp, Nat.succ_eq_add_one]
        split <;> omega
    · simp only [createSeq, i2, hq]
      omega

/-- C35, amended. The only index at which `VirtQueue_isr` loads `queueRegistry` is
the mailbox word itself, so that the load is within the 5 entries when
`msg < NUM_QUEUES`; a word from 5 to `0xFFFF` is an index past the array. The store
of the `k`-th `VirtQueue_create` call (counted from 0, from an empty registry) is at
index `k`, or `k + 2` on CORE1 in the default build, so that the stores of `n` calls
are within the array when `n ≤ 5`, respectively `n ≤ 3`. -/
theorem C35_amended_registry_bounds (b : Build) (p : ProcIds)
    (registry : Nat → Option VirtQueue_Object) (msg : Nat) (shared : Nat → vring)
    (callback : VirtQueue_callback) (remoteProcId arg n : Nat)
    (hn : n + (if b.APPM3_IS_HOST = false ∧ p.self = p.appm3ProcId then 2 else 0)
      ≤ NUM_QUEUES) :
    (∀ i ∈ registryReads (VirtQueue_isr b p registry msg), i = msg) ∧
    (msg < NUM_QUEUES → ∀ i ∈ registryReads (VirtQueue_isr b p registry msg), i < NUM_QUEUES) ∧
    (createSeq b p shared callback remoteProcId arg n emptyRegistry).1
      = (List.range n).map (fun k =>
          if b.APPM3_IS_HOST = false ∧ p.self = p.appm3ProcId then k + 2 else k) ∧
    (∀ i ∈ (createSeq b p shared callback remoteProcId arg n emptyRegistry).1,
      i < NUM_QUEUES) := by
  have hreads := registryReads_isr b p registry msg
  have hn5 : n ≤ 5 := by
    simp only [NUM_QUEUES] at hn
    omega
  obtain ⟨h1, _⟩ := createSeq_indices b p shared callback remoteProcId arg n emptyRegistry
    (by simp only [emptyRegistry]; omega)
  have h2 : (createSeq b p shared callback remoteProcId arg n emptyRegistry).1
      = (List.range n).map (fun k =>
          if b.APPM3_IS_HOST = false ∧ p.self = p.appm3ProcId then k + 2 else k) := by
    rw [h1]
    apply List.map_congr_left
    intro k _
    simp [emptyRegistry]
  refine ⟨hreads, fun hm i hi => by rw [hreads i hi]; exact hm, h2, ?_⟩
  intro i hi
  rw [h2, List.mem_map] at hi
  obtain ⟨k, hk, rfl⟩ := hi
  rw [List.mem_range] at hk
  simp only [NUM_QUEUES] at hn ⊢
  split at hn <;> rename_i hc
  · rw [if_pos hc]; omega
  · rw [if_neg hc]; omega

theorem C35_amended_registry_bounds_witness :
    (createSeq refBuild (refProcs 2) (fun _ => zeroRing 256)
      VirtQueue_callback.callback_usedBufReady 0 0 3 emptyRegistry).1 = [2, 3, 4] ∧
    ∀ i ∈ registryReads (VirtQueue_isr refBuild (refProcs 2) refRegistry 1), i < NUM_QUEUES :=
  ⟨by
    rw [(C35_amended_registry_bounds refBuild (refProcs 2) refRegistry 1
      (fun _ => zeroRing 256) VirtQueue_callback.callback_usedBufReady 0 0 3
      (by decide)).2.2.1]
    decide,
   (C35_amended_registry_bounds refBuild (refProcs 2) refRegistry 1
      (fun _ => zeroRing 256) VirtQueue_callback.callback_usedBufReady 0 0 3
      (by decide)).2.1 (by decide)⟩

/-! ## The size of the copy out of a ring buffer -/

/-- C34: the number of bytes that the drain copies out of a ring buffer addressed to
the MessageQ port is the `msgSize` field of the MessageQ header inside the payload,
whatever `dataLen` and `MAX_PAYLOAD` are: the message handed to `MessageQ_put` has
that many bytes. No comparison with `MAX_PAYLOAD` or `dataLen` precedes the
`memcpy`. -/
theorem C34_copy_size_is_embedded_size (q : MessageQ) (m m1 : Machine) (p : Nat)
    (hdst : (m.pool p).dstAddr = RPMSG_MESSAGEQ_PORT)
    (hret : swiFxn_deliver q m p = .ret () m1) :
    ∃ (queueId : Nat) (buf : List Nat), m1.inbox = m.inbox ++ [(queueId, buf)] ∧
      buf.length = q.getMsgSize (m.pool p).payload ∧
      (∀ i, i < buf.length → buf.getD i 0 = (m.pool p).payload i) := by
  have h1 : ¬ (m.pool p).dstAddr ≠ RPMSG_MESSAGEQ_PORT := by simpa using hdst
  by_cases h2 : q.alloc (q.heapId (m.pool p).payload) (q.getMsgSize (m.pool p).payload) = false
  · simp [swiFxn_deliver, h1, h2] at hret
  · simp only [swiFxn_deliver, if_neg h1, if_neg h2, Result.ret.injEq, true_and] at hret
    subst hret
    refine ⟨_, _, rfl, by simp, ?_⟩
    intro i hi
    simp only [List.length_map, List.length_range] at hi
    simp [List.getD, hi]

set_option maxRecDepth 100000 in
theorem C34_copy_size_is_embedded_size_witness :
    MAX_PAYLOAD refBuild = 496 ∧ (slaveOversize.pool 0xA0000E00).dataLen = 64 ∧
    deliveredSizes (TransportVirtio_swiFxn refBuild refMessageQ slaveOversize) = some [1000] ∧
    ∃ (queueId : Nat) (buf : List Nat),
      (swiFxn_deliver refMessageQ slaveOversize 0xA0000E00).state.inbox
        = slaveOversize.inbox ++ [(queueId, buf)] ∧
      buf.length = refMessageQ.getMsgSize (slaveOversize.pool 0xA0000E00).payload ∧
      (∀ i, i < buf.length → buf.getD i 0 = (slaveOversize.pool 0xA0000E00).payload i) :=
  ⟨by decide, by decide, by decide,
   C34_copy_size_is_embedded_size refMessageQ slaveOversize _ 0xA0000E00 (by decide)
    (Result.eq_ret_of_value (by decide))⟩

/-! ## A send that fails -/

theorem put_slave_fail_eq (b : Build) (q : MessageQ) (m : Machine) (msg : Nat → Nat)
    (hS : m.obj.isHost = false)
    (he : m.obj.vq_host.last_avail_idx = m.obj.vq_host.vring.avail.idx) :
    TransportVirtio_put b q m msg = .ret false
      { m with obj := { m.obj with
          vq_host := if b.VirtQueue_isHost m.obj.vq_host then clearNoNotify b m.obj.vq_host
            else m.obj.vq_host } } := by
  simp only [TransportVirtio_put, put_acquire, hS, getAvailBuf_of_eq b _ 0 he]
  simp

/-- C36, amended: from a state in which, in slave role, the available entry at the
cursor is a valid descriptor index (`< N`, `N ≤ 32768`) and, in host role, the next
unused tx buffer has an address other than `NULL`, a `TransportVirtio_put` that
returns `FALSE` leaves `last_sbuf`, the cursors and `num_free` of both queues,
`avail` (flags, index, ring), `used.idx`, the used ring and the descriptor table of
both rings as they were, sends no interrupt and does not free the message; pool and
inbox are untouched as well. In host role the whole state is unchanged. In slave
role the only store is the one of `VirtQueue_getAvailBuf` on the empty queue, which
clears `VRING_USED_F_NO_NOTIFY` in `used.flags` when the queue is a host queue. -/
theorem C36_amended_put_false_no_trace (b : Build) (q : MessageQ) (m m1 : Machine) (msg : Nat → Nat)
    (h : TransportVirtio_put b q m msg = .ret false m1)
    (hhost : m.obj.isHost = true → m.obj.last_sbuf < b.RP_MSG_NUM_BUFS →
      (m.obj.sbufs + b.RP_MSG_BUF_SIZE * m.obj.last_sbuf) % 4294967296 ≠ 0)
    (hslave : m.obj.isHost = false →
      m.obj.vq_host.last_avail_idx ≠ m.obj.vq_host.vring.avail.idx →
      m.obj.vq_host.vring.num ≤ 32768 ∧
      headAt b m.obj.vq_host.vring m.obj.vq_host.last_avail_idx < m.obj.vq_host.vring.num) :
    m1.obj.last_sbuf = m.obj.last_sbuf ∧ m1.obj.sbufs = m.obj.sbufs ∧
    m1.obj.vq_slave = m.obj.vq_slave ∧
    m1.obj.vq_host.last_avail_idx = m.obj.vq_host.last_avail_idx ∧
    m1.obj.vq_host.last_used_idx = m.obj.vq_host.last_used_idx ∧
    m1.obj.vq_host.num_free = m.obj.vq_host.num_free ∧
    m1.obj.vq_host.vring.avail = m.obj.vq_host.vring.avail ∧
    m1.obj.vq_host.vring.desc = m.obj.vq_host.vring.desc ∧
    m1.obj.vq_host.vring.used.idx = m.obj.vq_host.vring.used.idx ∧
    m1.obj.vq_host.vring.used.ring = m.obj.vq_host.vring.used.ring ∧
    m1.obj.vq_host.vring.num = m.obj.vq_host.vring.num ∧
    m1.mbox = m.mbox ∧ m1.freed = m.freed ∧ m1.pool = m.pool ∧ m1.inbox = m.inbox ∧
    (m.obj.isHost = true → m1 = m) ∧
    (m.obj.isHost = false →
      m1.obj.vq_host = (if b.VirtQueue_isHost m.obj.vq_host then clearNoNotify b m.obj.vq_host
        else m.obj.vq_host)) := by
  cases hrole : m.obj.isHost with
  | true =>
    obtain ⟨_, _, k3⟩ := put_host_ret b q m m1 msg false hrole h
    have hz : (getTxBuf b m.obj m.obj.vq_slave).1 = 0 := by
      rcases k3 with ⟨_, e, _⟩ | ⟨e, _⟩
      · exact e
      · exact absurd e (by simp)
    have hl : ¬ m.obj.last_sbuf < b.RP_MSG_NUM_BUFS := by
      intro hl
      have hp := hhost hrole hl
      simp only [getTxBuf, if_pos hl] at hz
      exact hp hz
    have hu : m.obj.vq_slave.last_used_idx = m.obj.vq_slave.vring.used.idx := by
      by_contra hne
      simp only [getTxBuf, if_neg hl] at hz
      exact ((getUsedBuf_fields b m.obj.vq_slave).2.2.2.2.mpr hne) hz
    have he := put_host_fail b q m msg hrole hl hu
    rw [he] at h
    simp only [Result.ret.injEq, true_and] at h
    subst h
    simp
  | false =>
    have he : m.obj.vq_host.last_avail_idx = m.obj.vq_host.vring.avail.idx := by
      by_contra hne
      obtain ⟨hN, hhead⟩ := hslave hrole hne
      obtain ⟨_, _, k3⟩ := put_slave_ret b q m m1 msg false hrole h
      rcases k3 with ⟨_, e, _⟩ | ⟨e, _⟩
      · obtain ⟨_, _, _, _, _, _, _, _, g9⟩ := getAvailBuf_fields b m.obj.vq_host 0
        rw [g9, if_neg hne, toInt16_of_lt _ (by omega)] at e
        omega
      · exact absurd e (by simp)
    have hq := put_slave_fail_eq b q m msg hrole he
    rw [hq] at h
    simp only [Result.ret.injEq, true_and] at h
    subst h
    by_cases hh : b.VirtQueue_isHost m.obj.vq_host = true <;> simp [hh, clearNoNotify]

set_option maxRecDepth 100000 in
theorem C36_amended_put_false_no_trace_witness :
    (TransportVirtio_put refBuild refMessageQ hostNoTxBuf testMsg).state = hostNoTxBuf ∧
    (TransportVirtio_put refBuild refMessageQ (bootMachine refBuild false) testMsg).state.obj.vq_host.last_avail_idx
      = (bootMachine refBuild false).obj.vq_host.last_avail_idx ∧
    (TransportVirtio_put refBuild refMessageQ (bootMachine refBuild false) testMsg).state.mbox
      = (bootMachine refBuild false).mbox :=
  ⟨(C36_amended_put_false_no_trace refBuild refMessageQ hostNoTxBuf _ testMsg
      (Result.eq_ret_of_value (by decide)) (fun _ h => absurd h (by decide))
      (fun h => absurd h (by decide))).2.2.2.2.2.2.2.2.2.2.2.2.2.2.2.1 (by decide),
   (C36_amended_put_false_no_trace refBuild refMessageQ (bootMachine refBuild false) _ testMsg
      (Result.eq_ret_of_value (by decide)) (by decide) (fun _ hne => absurd rfl hne)).2.2.2.1,
   (C36_amended_put_false_no_trace refBuild refMessageQ (bootMachine refBuild false) _ testMsg
      (Result.eq_ret_of_value (by decide)) (by decide)
      (fun _ hne => absurd rfl hne)).2.2.2.2.2.2.2.2.2.2.2.1⟩

/-! ## The free-descriptor count of a host-role transport -/

theorem getTxBuf_cases (b : Build) (obj : TransportVirtio_Object) (vq : VirtQueue_Object) :
    (obj.last_sbuf < b.RP_MSG_NUM_BUFS →
      (getTxBuf b obj vq).2.2 = vq ∧ (getTxBuf b obj vq).2.1.last_sbuf = obj.last_sbuf + 1) ∧
    (¬ obj.last_sbuf < b.RP_MSG_NUM_BUFS →
      (getTxBuf b obj vq).2.2 = (VirtQueue_getUsedBuf b vq).2 ∧
      (getTxBuf b obj vq).1 = (VirtQueue_getUsedBuf b vq).1 ∧
      (getTxBuf b obj vq).2.1.last_sbuf = obj.last_sbuf) := by
  by_cases hl : obj.last_sbuf < b.RP_MSG_NUM_BUFS <;> simp [getTxBuf, hl]

theorem put_host_ret_sbuf (b : Build) (q : MessageQ) (m m1 : Machine) (msg : Nat → Nat)
    (r : Bool) (hH : m.obj.isHost = true) (h : TransportVirtio_put b q m msg = .ret r m1) :
    m1.obj.last_sbuf = (getTxBuf b m.obj m.obj.vq_slave).2.1.last_sbuf := by
  obtain ⟨hr1, _, _⟩ := getTxBuf_fields b m.obj m.obj.vq_slave
  rw [hH] at hr1
  simp only [TransportVirtio_put, put_acquire, hH, if_true, hr1, true_and] at h
  by_cases hg : (getTxBuf b m.obj m.obj.vq_slave).1 ≠ 0
  · have hc : (getTxBuf b m.obj m.obj.vq_slave).1 ≠ 0 ∨ (-1 : Int) ≥ 0 := Or.inl hg
    simp only [hc, if_true] at h
    by_cases hsz : q.getMsgSize msg ≤ MAX_PAYLOAD b
    · simp only [hsz, not_true_eq_false, if_false] at h
      cases hadd : VirtQueue_addAvailBuf b (getTxBuf b m.obj m.obj.vq_slave).2.2
          (getTxBuf b m.obj m.obj.vq_slave).1 with
      | raised s => rw [hadd] at h; exact absurd h (by simp)
      | ret x vq =>
        rw [hadd] at h
        simp only [Result.ret.injEq] at h
        obtain ⟨_, hm⟩ := h
        subst hm
        rfl
    · simp only [hsz, not_false_eq_true, if_true] at h
      exact absurd h (by simp)
  · have hc : ¬ ((getTxBuf b m.obj m.obj.vq_slave).1 ≠ 0 ∨ (-1 : Int) ≥ 0) := by
      rintro (h1 | h1)
      · exact hg h1
      · omega
    simp only [hc, if_false, Result.ret.injEq] at h
    obtain ⟨_, hm⟩ := h
    subst hm
    rfl

theorem put_host_raised (b : Build) (q : MessageQ) (m s : Machine) (msg : Nat → Nat)
    (hH : m.obj.isHost = true) (h : TransportVirtio_put b q m msg = .raised s) :
    ¬ q.getMsgSize msg ≤ MAX_PAYLOAD b ∨
    ((getTxBuf b m.obj m.obj.vq_slave).1 ≠ 0 ∧
      (getTxBuf b m.obj m.obj.vq_slave).2.2.num_free = 0) := by
  obtain ⟨hr1, _, _⟩ := getTxBuf_fields b m.obj m.obj.vq_slave
  rw [hH] at hr1
  simp only [TransportVirtio_put, put_acquire, hH, if_true, hr1, true_and] at h
  by_cases hg : (getTxBuf b m.obj m.obj.vq_slave).1 ≠ 0
  · have hc : (getTxBuf b m.obj m.obj.vq_slave).1 ≠ 0 ∨ (-1 : Int) ≥ 0 := Or.inl hg
    simp only [hc, if_true] at h
    by_cases hsz : q.getMsgSize msg ≤ MAX_PAYLOAD b
    · right
      refine ⟨hg, ?_⟩
      by_contra hnf
      rw [addAvailBuf_of_ne_zero b _ _ hnf] at h
      simp only [hsz, not_true_eq_false, if_false] at h
      exact absurd h (by simp)
    · exact Or.inl hsz
  · have hc : ¬ ((getTxBuf b m.obj m.obj.vq_slave).1 ≠ 0 ∨ (-1 : Int) ≥ 0) := by
      rintro (h1 | h1)
      · exact hg h1
      · omega
    simp only [hc, if_false] at h
    exact absurd h (by simp)

/-- The queue that a host-role send passes to `VirtQueue_addAvailBuf` has a free
descriptor. -/
theorem hostSafe_put_arg (b : Build) (m : Machine)
    (hM : b.RP_MSG_NUM_BUFS + 1 < b.NUM_FREE_MOD) (hs : hostSafe b m)
    (hp : (getTxBuf b m.obj m.obj.vq_slave).1 ≠ 0) :
    (getTxBuf b m.obj m.obj.vq_slave).2.2.num_free ≠ 0 := by
  obtain ⟨_, _, s3, s4⟩ := hs
  obtain ⟨c1, c2⟩ := getTxBuf_cases b m.obj m.obj.vq_slave
  by_cases hl : m.obj.last_sbuf < b.RP_MSG_NUM_BUFS
  · rw [(c1 hl).1]
    omega
  · obtain ⟨e1, e2, _⟩ := c2 hl
    obtain ⟨_, _, _, f4, f5⟩ := getUsedBuf_fields b m.obj.vq_slave
    rw [e2] at hp
    have hne := f5.mp hp
    rw [e1, f4, if_neg hne, Nat.mod_eq_of_lt (by omega)]
    omega

theorem hostSafe_put (b : Build) (q : MessageQ) (m m1 : Machine) (msg : Nat → Nat) (r : Bool)
    (hM : b.RP_MSG_NUM_BUFS + 1 < b.NUM_FREE_MOD) (hs : hostSafe b m)
    (h : TransportVirtio_put b q m msg = .ret r m1) : hostSafe b m1 := by
  obtain ⟨s1, s2, s3, s4⟩ := hs
  obtain ⟨k1, k2, k3⟩ := put_host_ret b q m m1 msg r s1 h
  have k4 := put_host_ret_sbuf b q m m1 msg r s1 h
  obtain ⟨c1, c2⟩ := getTxBuf_cases b m.obj m.obj.vq_slave
  obtain ⟨_, _, _, f4, f5⟩ := getUsedBuf_fields b m.obj.vq_slave
  refine ⟨k1, by rw [k2]; exact s2, ?_⟩
  by_cases hl : m.obj.last_sbuf < b.RP_MSG_NUM_BUFS
  · obtain ⟨e1, e2⟩ := c1 hl
    rw [k4, e2]
    rcases k3 with ⟨_, _, e, _⟩ | ⟨_, _, ⟨x, e⟩, _⟩
    · rw [e, e1]
      omega
    · obtain ⟨hf, hv⟩ := addAvailBuf_ret b _ _ _ x e
      obtain ⟨_, _, _, _, _, _, _, a8⟩ := addAvailBuf_fields b
        (getTxBuf b m.obj m.obj.vq_slave).2.2 (getTxBuf b m.obj m.obj.vq_slave).1
      rw [hv, a8, e1]
      rw [e1] at hf
      omega
  · obtain ⟨e1, e2, e3⟩ := c2 hl
    rw [k4, e3]
    rcases k3 with ⟨_, ez, e, _⟩ | ⟨_, enz, ⟨x, e⟩, _⟩
    · rw [e2] at ez
      have heq : m.obj.vq_slave.last_used_idx = m.obj.vq_slave.vring.used.idx := by
        by_contra hne
        exact (f5.mpr hne) ez
      rw [e, e1, f4, if_pos heq]
      omega
    · rw [e2] at enz
      have hne := f5.mp enz
      obtain ⟨hf, hv⟩ := addAvailBuf_ret b _ _ _ x e
      obtain ⟨_, _, _, _, _, _, _, a8⟩ := addAvailBuf_fields b
        (getTxBuf b m.obj m.obj.vq_slave).2.2 (getTxBuf b m.obj m.obj.vq_slave).1
      rw [hv, a8, e1, f4, if_neg hne, Nat.mod_eq_of_lt (by omega)]
      omega

theorem swiFxn_next_host (b : Build) (m : Machine) (l : SwiLocals) (hH : m.obj.isHost = true) :
    swiFxn_next b m l =
      ({ m with obj := { m.obj with vq_host := (VirtQueue_getUsedBuf b m.obj.vq_host).2 } },
        { l with rp_msg := (VirtQueue_getUsedBuf b m.obj.vq_host).1
                 buf_avail := decide ((VirtQueue_getUsedBuf b m.obj.vq_host).1 ≠ 0) }) := by
  simp only [swiFxn_next, hH, if_true]

theorem swiFxn_giveBack_host (b : Build) (m : Machine) (l : SwiLocals)
    (hH : m.obj.isHost = true) (hnf : m.obj.vq_host.num_free ≠ 0) :
    swiFxn_giveBack b m l = .ret ()
      { m with obj := { m.obj with vq_host := addAvailBuf_post b m.obj.vq_host l.rp_msg } } := by
  simp only [swiFxn_giveBack, hH, if_true, addAvailBuf_of_ne_zero b _ _ hnf]

theorem swiFxn_deliver_ret_eq (q : MessageQ) (m m1 : Machine) (p : Nat)
    (h : swiFxn_deliver q m p = .ret () m1) : m1.obj = m.obj ∧ m1.pool = m.pool := by
  obtain ⟨h1, h2, _⟩ := swiFxn_deliver_state q m p
  rw [h] at h1 h2
  exact ⟨h1, h2⟩

theorem swiFxn_deliver_raised (q : MessageQ) (m s : Machine) (p : Nat)
    (h : swiFxn_deliver q m p = .raised s) :
    (m.pool p).dstAddr = RPMSG_MESSAGEQ_PORT ∧
    q.alloc (q.heapId (m.pool p).payload) (q.getMsgSize (m.pool p).payload) = false := by
  by_cases h1 : (m.pool p).dstAddr ≠ RPMSG_MESSAGEQ_PORT
  · simp [swiFxn_deliver, h1] at h
  · by_cases h2 : q.alloc (q.heapId (m.pool p).payload) (q.getMsgSize (m.pool p).payload) = false
    · exact ⟨by simpa using h1, h2⟩
    · simp [swiFxn_deliver, h1, h2] at h

/-- The invariant of the host-role drain between iterations, relative to the state
`m0` at entry. -/
theorem hostSafe_drain_iter (b : Build) (q : MessageQ) (m0 : Machine)
    (hM : b.RP_MSG_NUM_BUFS + 1 < b.NUM_FREE_MOD) :
    (∀ (m : Machine) (l : SwiLocals) (m1 m2 : Machine),
      (hostSafe b m ∧ m.obj.vq_slave = m0.obj.vq_slave ∧ m.obj.last_sbuf = m0.obj.last_sbuf ∧
        m.pool = m0.pool) →
      (swiFxn_next b m l).2.buf_avail = true →
      swiFxn_deliver q (swiFxn_next b m l).1 (swiFxn_next b m l).2.rp_msg = .ret () m1 →
      (swiFxn_giveBack b m1 (swiFxn_next b m l).2).isRaised = false ∧
      (swiFxn_giveBack b m1 (swiFxn_next b m l).2 = .ret () m2 →
        (hostSafe b m2 ∧ m2.obj.vq_slave = m0.obj.vq_slave ∧
          m2.obj.last_sbuf = m0.obj.last_sbuf ∧ m2.pool = m0.pool))) ∧
    (∀ (m : Machine) (l : SwiLocals),
      (hostSafe b m ∧ m.obj.vq_slave = m0.obj.vq_slave ∧ m.obj.last_sbuf = m0.obj.last_sbuf ∧
        m.pool = m0.pool) →
      (swiFxn_next b m l).2.buf_avail = false →
      (hostSafe b (swiFxn_next b m l).1 ∧
        (swiFxn_next b m l).1.obj.vq_slave = m0.obj.vq_slave ∧
        (swiFxn_next b m l).1.obj.last_sbuf = m0.obj.last_sbuf ∧
        (swiFxn_next b m l).1.pool = m0.pool)) := by
  constructor
  · intro m l m1 m2 ⟨⟨s1, s2, s3, s4⟩, t1, t2, t3⟩ hav hd
    obtain ⟨_, _, _, f4, f5⟩ := getUsedBuf_fields b m.obj.vq_host
    rw [swiFxn_next_host b m l s1] at hav hd ⊢
    simp only [decide_eq_true_eq] at hav
    have hne := f5.mp hav
    obtain ⟨d1, d2⟩ := swiFxn_deliver_ret_eq q _ m1 _ hd
    simp only at d1 d2
    have hH1 : m1.obj.isHost = true := by rw [d1]; exact s1
    have hnf1 : m1.obj.vq_host.num_free = 1 := by
      rw [d1]
      simp only
      rw [f4, if_neg hne, s2]
      exact Nat.mod_eq_of_lt (by omega)
    have hg := swiFxn_giveBack_host b m1
      { l with rp_msg := (VirtQueue_getUsedBuf b m.obj.vq_host).1
               buf_avail := decide ((VirtQueue_getUsedBuf b m.obj.vq_host).1 ≠ 0) }
      hH1 (by omega)
    refine ⟨by rw [hg]; rfl, ?_⟩
    intro h2
    rw [hg] at h2
    simp only [Result.ret.injEq, true_and] at h2
    subst h2
    have hpost : (addAvailBuf_post b m1.obj.vq_host (VirtQueue_getUsedBuf b m.obj.vq_host).1).num_free
        = 0 := by
      rw [addAvailBuf_post_eq b _ _ (by omega)]
      simp only
      omega
    refine ⟨⟨hH1, hpost, ?_, ?_⟩, ?_, ?_, ?_⟩
    · simp only [d1]; exact s3
    · simp only [d1]; exact s4
    · simp only [d1]; exact t1
    · simp only [d1]; exact t2
    · simp only [d2]; exact t3
  · intro m l ⟨⟨s1, s2, s3, s4⟩, t1, t2, t3⟩ hav
    obtain ⟨_, _, _, f4, f5⟩ := getUsedBuf_fields b m.obj.vq_host
    rw [swiFxn_next_host b m l s1] at hav ⊢
    simp only [decide_eq_false_iff_not] at hav
    have heq : m.obj.vq_host.last_used_idx = m.obj.vq_host.vring.used.idx := by
      by_contra hne
      exact hav (f5.mpr hne)
    refine ⟨⟨s1, ?_, s3, s4⟩, t1, t2, t3⟩
    simp only
    rw [f4, if_pos heq]
    exact s2

/-- A drain that ends in a fatal error from a state in which every slot return
succeeds has failed in `swiFxn_deliver`. -/
theorem swiFxn_loop_raised_ind (b : Build) (q : MessageQ) (I : Machine → Prop)
    (hiter : ∀ (m : Machine) (l : SwiLocals) (m1 m2 : Machine), I m →
      (swiFxn_next b m l).2.buf_avail = true →
      swiFxn_deliver q (swiFxn_next b m l).1 (swiFxn_next b m l).2.rp_msg = .ret () m1 →
      (swiFxn_giveBack b m1 (swiFxn_next b m l).2).isRaised = false ∧
      (swiFxn_giveBack b m1 (swiFxn_next b m l).2 = .ret () m2 → I m2)) :
    ∀ (fuel : Nat) (m : Machine) (l : SwiLocals) (s : Machine), I m →
      swiFxn_loop b q fuel (swiFxn_next b m l).1 (swiFxn_next b m l).2 = some (.raised s) →
      ∃ (m' : Machine) (l' : SwiLocals), I m' ∧
        (swiFxn_deliver q (swiFxn_next b m' l').1 (swiFxn_next b m' l').2.rp_msg).isRaised
          = true := by
  intro fuel
  induction fuel with
  | zero =>
    intro m l s hI h
    by_cases hav : (swiFxn_next b m l).2.buf_avail = true
    · simp [swiFxn_loop, hav] at h
    · simp [swiFxn_loop, hav] at h
  | succ fuel ih =>
    intro m l s hI h
    by_cases hav : (swiFxn_next b m l).2.buf_avail = true
    · simp only [swiFxn_loop, hav, if_true] at h
      cases hd : swiFxn_deliver q (swiFxn_next b m l).1 (swiFxn_next b m l).2.rp_msg with
      | raised s' => exact ⟨m, l, hI, by rw [hd]; rfl⟩
      | ret u m1 =>
        simp only [hd] at h
        cases hg : swiFxn_giveBack b m1 (swiFxn_next b m l).2 with
        | raised s' =>
          have := (hiter m l m1 m1 hI hav hd).1
          rw [hg] at this
          exact absurd this (by simp [Result.isRaised])
        | ret u2 m2 =>
          simp only [hg] at h
          exact ih m2 _ s ((hiter m l m1 m2 hI hav hd).2 hg) h
    · simp [swiFxn_loop, hav] at h

theorem hostSafe_boot (b : Build) (hN : b.RP_MSG_NUM_BUFS ≤ 32768) : hostSafe b (hostBoot b) := by
  obtain ⟨h1, h2, _, h4, _⟩ := Instance_init_host_state b (bootMachine b true)
  have hq := Instance_init_host_queues b (bootMachine b true)
  obtain ⟨P, hP, _, _, _, hnf, _⟩ := addAvailBufs_spec b (recvBufs b) (bootMachine b true).obj.vq_host
    (by simp [recvBufs_length, bootMachine, createdObj, VirtQueue_create])
    (by simp [recvBufs_length, bootMachine, createdObj, VirtQueue_create, zeroRing])
    (by simpa [bootMachine, createdObj, VirtQueue_create] using hN)
  rw [hP] at hq
  have hq2 : (Instance_init_host b (bootMachine b true)).state.obj.vq_host = P := hq
  unfold hostSafe hostBoot
  rw [h1, h2, h4, hq2, hnf, recvBufs_length]
  simp [bootMachine, createdObj, VirtQueue_create]

theorem hostSafe_step (b : Build) (q : MessageQ) (hM : b.RP_MSG_NUM_BUFS + 1 < b.NUM_FREE_MOD)
    (m m1 : Machine) (x : HostStep) (hs : hostSafe b m) (h : hostStep b q m x = some m1) :
    hostSafe b m1 := by
  cases x with
  | put msg =>
    simp only [hostStep] at h
    cases hr : TransportVirtio_put b q m msg with
    | raised e => simp only [hr] at h; exact absurd h (by simp)
    | ret r m2 =>
      simp only [hr, Option.some.injEq] at h
      subst h
      exact hostSafe_put b q m m2 msg r hM hs hr
  | swi =>
    simp only [hostStep] at h
    cases hr : TransportVirtio_swiFxn b q m with
    | none => simp only [hr] at h; exact absurd h (by simp)
    | some res =>
      cases res with
      | raised e => simp only [hr] at h; exact absurd h (by simp)
      | ret u m2 =>
        simp only [hr, Option.some.injEq] at h
        subst h
        have hu : TransportVirtio_swiFxn b q m = some (.ret () m2) := hr
        obtain ⟨i1, i2⟩ := hostSafe_drain_iter b q m hM
        exact (swiFxn_returns_ind b q
          (fun s => hostSafe b s ∧ s.obj.vq_slave = m.obj.vq_slave ∧
            s.obj.last_sbuf = m.obj.last_sbuf ∧ s.pool = m.pool)
          (fun s l s1 s2 hI hav hd hg => (i1 s l s1 s2 hI hav hd).2 hg)
          i2 (fun s mb hI => hI) m m2 ⟨hs, rfl, rfl, rfl⟩ hu).1
  | peer r0 r1 pool =>
    simp only [hostStep, Option.some.injEq] at h
    subst h
    exact hs

theorem hostSafe_run (b : Build) (q : MessageQ) (hM : b.RP_MSG_NUM_BUFS + 1 < b.NUM_FREE_MOD)
    (steps : List HostStep) :
    ∀ m m1 : Machine, hostSafe b m → hostRun b q m steps = some m1 → hostSafe b m1 := by
  induction steps with
  | nil =>
    intro m m1 hs h
    simp only [hostRun, Option.some.injEq] at h
    subst h
    exact hs
  | cons x rest ih =>
    intro m m1 hs h
    cases hstep : hostStep b q m x with
    | none => simp only [hostRun, hstep] at h; exact absurd h (by simp)
    | some m2 =>
      simp only [hostRun, hstep] at h
      exact ih m2 m1 (hostSafe_step b q hM m m2 x hs hstep) h

/-- C33: a host-role transport initialised by `TransportVirtio_Instance_init` on
zeroed ring memory, with `N ≤ 32768` and `N + 1` within the type of `num_free`;
between its operations the peer may replace the contents of both rings and of the
pool by anything. The priming returns (its only fatal path is the full queue). In
every state reached through returning sends and drains and peer writes: the queue
that `TransportVirtio_put` passes to `VirtQueue_addAvailBuf` has `num_free ≠ 0`, so
that a send ends in a fatal error only through the size assertion; and a drain,
run for any number of iterations, ends in a fatal error only through the
`MessageQ_alloc` assertion on a buffer addressed to the MessageQ port, never in
`VirtQueue_addAvailBuf`. -/
theorem C33_full_unreachable (b : Build) (q : MessageQ) (steps : List HostStep) (m : Machine)
    (hN : b.RP_MSG_NUM_BUFS ≤ 32768) (hM : b.RP_MSG_NUM_BUFS + 1 < b.NUM_FREE_MOD)
    (hrun : hostRun b q (hostBoot b) steps = some m) :
    Instance_init_host b (bootMachine b true) = .ret () (hostBoot b) ∧
    ((getTxBuf b m.obj m.obj.vq_slave).1 ≠ 0 →
      (getTxBuf b m.obj m.obj.vq_slave).2.2.num_free ≠ 0) ∧
    (∀ (msg : Nat → Nat) (s : Machine), TransportVirtio_put b q m msg = .raised s →
      ¬ q.getMsgSize msg ≤ MAX_PAYLOAD b) ∧
    (∀ (fuel : Nat) (s : Machine),
      swiFxn_loop b q fuel (swiFxn_next b m swiEntry).1 (swiFxn_next b m swiEntry).2
        = some (.raised s) →
      ∃ p, (m.pool p).dstAddr = RPMSG_MESSAGEQ_PORT ∧
        q.alloc (q.heapId (m.pool p).payload) (q.getMsgSize (m.pool p).payload) = false) ∧
    (∀ s : Machine, TransportVirtio_swiFxn b q m = some (.raised s) →
      ∃ p, (m.pool p).dstAddr = RPMSG_MESSAGEQ_PORT ∧
        q.alloc (q.heapId (m.pool p).payload) (q.getMsgSize (m.pool p).payload) = false) := by
  have hs : hostSafe b m := hostSafe_run b q hM steps _ m (hostSafe_boot b hN) hrun
  have hloop : ∀ (fuel : Nat) (s : Machine),
      swiFxn_loop b q fuel (swiFxn_next b m swiEntry).1 (swiFxn_next b m swiEntry).2
        = some (.raised s) →
      ∃ p, (m.pool p).dstAddr = RPMSG_MESSAGEQ_PORT ∧
        q.alloc (q.heapId (m.pool p).payload) (q.getMsgSize (m.pool p).payload) = false := by
    intro fuel s h
    obtain ⟨i1, _⟩ := hostSafe_drain_iter b q m hM
    obtain ⟨m', l', ⟨_, _, _, hpool⟩, hraised⟩ := swiFxn_loop_raised_ind b q
      (fun s => hostSafe b s ∧ s.obj.vq_slave = m.obj.vq_slave ∧
        s.obj.last_sbuf = m.obj.last_sbuf ∧ s.pool = m.pool)
      i1 fuel m swiEntry s ⟨hs, rfl, rfl, rfl⟩ h
    cases hd : swiFxn_deliver q (swiFxn_next b m' l').1 (swiFxn_next b m' l').2.rp_msg with
    | ret u m1 => rw [hd] at hraised; exact absurd hraised (by simp [Result.isRaised])
    | raised s' =>
      obtain ⟨d1, d2⟩ := swiFxn_deliver_raised q _ s' _ hd
      rw [(swiFxn_next_state b m' l').1, hpool] at d1 d2
      exact ⟨_, d1, d2⟩
  refine ⟨Instance_init_host_returns b hN, hostSafe_put_arg b m hM hs, ?_, hloop, ?_⟩
  · intro msg s h
    rcases put_host_raised b q m s msg hs.1 h with h1 | ⟨h1, h2⟩
    · exact h1
    · exact absurd h2 (hostSafe_put_arg b m hM hs h1)
  · intro s h
    simp only [TransportVirtio_swiFxn] at h
    cases hl : swiFxn_loop b q 65536
        (swiFxn_next b m { rp_msg := 0, token := 0, buf_avail := false, bufAdded := false }).1
        (swiFxn_next b m { rp_msg := 0, token := 0, buf_avail := false, bufAdded := false }).2 with
    | none => simp only [hl] at h; exact absurd h (by simp)
    | some r1 =>
      simp only [hl] at h
      cases r1 with
      | raised s' => exact hloop 65536 s' hl
      | ret lf m1 =>
        by_cases hb : lf.bufAdded = true
        · simp only [hb, if_true] at h
          exact absurd h (by simp)
        · simp only [hb, Bool.false_eq_true, if_false] at h
          exact absurd h (by simp)

set_option maxRecDepth 100000 in
theorem C33_full_unreachable_witness :
    ∃ m, hostRun refBuild refMessageQ (hostBoot refBuild) hostScenario = some m ∧
      ((getTxBuf refBuild m.obj m.obj.vq_slave).1 ≠ 0 →
        (getTxBuf refBuild m.obj m.obj.vq_slave).2.2.num_free ≠ 0) ∧
      ∀ s : Machine, TransportVirtio_swiFxn refBuild refMessageQ m ≠ some (.raised s) := by
  have h : (hostRun refBuild refMessageQ (hostBoot refBuild) hostScenario).isSome = true := by
    decide
  obtain ⟨m, hm⟩ := Option.isSome_iff_exists.mp h
  have key := C33_full_unreachable refBuild refMessageQ hostScenario m (by decide) (by decide) hm
  refine ⟨m, hm, key.2.1, ?_⟩
  intro s hs
  obtain ⟨p, _, hp⟩ := key.2.2.2.2 s hs
  simp [refMessageQ] at hp

/-! ## Loads and stores in shared memory -/

theorem storeLE_of_out (mem : Nat → Nat) (a n v x : Nat) (h : x < a ∨ a + n ≤ x) :
    storeLE mem a n v x = mem x := by
  unfold storeLE
  rw [if_neg]
  omega

theorem storeLE_of_in (mem : Nat → Nat) (a n v x : Nat) (h1 : a ≤ x) (h2 : x < a + n) :
    storeLE mem a n v x = v / 256 ^ (x - a) % 256 := by
  unfold storeLE
  rw [if_pos ⟨h1, h2⟩]

theorem memcpy_of_out (mem : Nat → Nat) (a : Nat) (src : Nat → Nat) (n x : Nat)
    (h : x < a ∨ a + n ≤ x) : memcpy mem a src n x = mem x := by
  unfold memcpy
  rw [if_neg]
  omega

theorem memcpy_of_in (mem : Nat → Nat) (a : Nat) (src : Nat → Nat) (n x : Nat)
    (h1 : a ≤ x) (h2 : x < a + n) : memcpy mem a src n x = src (x - a) % 256 := by
  unfold memcpy
  rw [if_pos ⟨h1, h2⟩]

theorem loadLE_congr (m1 m2 : Nat → Nat) (a n : Nat)
    (h : ∀ x, a ≤ x → x < a + n → m1 x = m2 x) : loadLE m1 a n = loadLE m2 a n := by
  induction n generalizing a with
  | zero => rfl
  | succ n ih =>
    simp only [loadLE]
    rw [h a (Nat.le_refl a) (by omega), ih (a + 1) (fun x h1 h2 => h x (by omega) (by omega))]

theorem loadLE_lt (mem : Nat → Nat) (a n : Nat) : loadLE mem a n < 256 ^ n := by
  induction n generalizing a with
  | zero => simp [loadLE]
  | succ n ih =>
    simp only [loadLE]
    have h1 := ih (a + 1)
    have h2 : mem a % 256 < 256 := Nat.mod_lt _ (by norm_num)
    rw [Nat.pow_succ]
    omega

theorem loadLE_storeLE_apart (mem : Nat → Nat) (a n v a1 n1 : Nat)
    (h : a1 + n1 ≤ a ∨ a + n ≤ a1) :
    loadLE (storeLE mem a n v) a1 n1 = loadLE mem a1 n1 := by
  apply loadLE_congr
  intro x h1 h2
  exact storeLE_of_out mem a n v x (by omega)

theorem loadLE_memcpy_apart (mem : Nat → Nat) (a : Nat) (src : Nat → Nat) (n a1 n1 : Nat)
    (h : a1 + n1 ≤ a ∨ a + n ≤ a1) :
    loadLE (memcpy mem a src n) a1 n1 = loadLE mem a1 n1 := by
  apply loadLE_congr
  intro x h1 h2
  exact memcpy_of_out mem a src n x (by omega)

theorem loadLE_storeLE_same (mem : Nat → Nat) (a n v : Nat) :
    loadLE (storeLE mem a n v) a n = v % 256 ^ n := by
  induction n generalizing a v mem with
  | zero => simp [loadLE, Nat.mod_one]
  | succ n ih =>
    simp only [loadLE]
    have h0 : storeLE mem a (n + 1) v a = v % 256 := by
      rw [storeLE_of_in mem a (n + 1) v a (Nat.le_refl a) (by omega)]
      simp
    have h1 : loadLE (storeLE mem a (n + 1) v) (a + 1) n
        = loadLE (storeLE mem (a + 1) n (v / 256)) (a + 1) n := by
      apply loadLE_congr
      intro x hx1 hx2
      rw [storeLE_of_in mem a (n + 1) v x (by omega) (by omega),
        storeLE_of_in mem (a + 1) n (v / 256) x hx1 hx2]
      have e : x - a = (x - (a + 1)) + 1 := by omega
      rw [e, Nat.pow_succ, Nat.mul_comm, Nat.div_div_eq_div_mul]
    rw [h0, h1, ih, Nat.mod_mod, Nat.pow_succ, Nat.mul_comm (256 ^ n) 256, Nat.mod_mul]

/-! ## The name-service announcement on shared memory -/

theorem toInt16_lt (x : Nat) : toInt16 x < 32768 := by
  unfold toInt16
  split <;> omega

theorem ns_fill_mem_spec (mem : Nat → Nat) (msg : Nat) (name : List Nat) (port flags : Nat) :
    loadLE (ns_fill_mem mem msg name port flags) msg 4 = port % 4294967296 ∧
    loadLE (ns_fill_mem mem msg name port flags) (msg + 4) 4 = 53 ∧
    loadLE (ns_fill_mem mem msg name port flags) (msg + 8) 4 = 0 ∧
    loadLE (ns_fill_mem mem msg name port flags) (msg + 12) 2 = 40 ∧
    loadLE (ns_fill_mem mem msg name port flags) (msg + 14) 2 = 0 ∧
    (∀ i, i < 40 → ns_fill_mem mem msg name port flags (msg + 16 + i)
      = (rpmsg_ns_msg name port flags).getD i 0 % 256) ∧
    (∀ x, x < msg ∨ msg + 56 ≤ x → ns_fill_mem mem msg name port flags x = mem x) := by
  unfold ns_fill_mem
  refine ⟨?_, ?_, ?_, ?_, ?_, ?_, ?_⟩
  · rw [loadLE_storeLE_apart _ _ _ _ _ _ (by omega), loadLE_storeLE_apart _ _ _ _ _ _ (by omega),
      loadLE_storeLE_same]
    norm_num
  · rw [loadLE_storeLE_apart _ _ _ _ _ _ (by omega), loadLE_storeLE_apart _ _ _ _ _ _ (by omega),
      loadLE_storeLE_apart _ _ _ _ _ _ (by omega), loadLE_storeLE_same]
    norm_num [NAMESERVICE_PORT]
  · rw [loadLE_storeLE_same]
    norm_num
  · rw [loadLE_storeLE_apart _ _ _ _ _ _ (by omega), loadLE_storeLE_apart _ _ _ _ _ _ (by omega),
      loadLE_storeLE_apart _ _ _ _ _ _ (by omega), loadLE_storeLE_apart _ _ _ _ _ _ (by omega),
      loadLE_storeLE_same]
    norm_num
  · rw [loadLE_storeLE_apart _ _ _ _ _ _ (by omega), loadLE_storeLE_same]
    norm_num
  · intro i hi
    rw [storeLE_of_out _ _ _ _ _ (by omega), storeLE_of_out _ _ _ _ _ (by omega),
      storeLE_of_out _ _ _ _ _ (by omega), storeLE_of_out _ _ _ _ _ (by omega),
      storeLE_of_out _ _ _ _ _ (by omega), memcpy_of_in _ _ _ _ _ (by omega) (by omega)]
    have e : msg + 16 + i - (msg + 16) = i := by omega
    rw [e]
  · intro x hx
    rw [storeLE_of_out _ _ _ _ _ (by omega), storeLE_of_out _ _ _ _ _ (by omega),
      storeLE_of_out _ _ _ _ _ (by omega), storeLE_of_out _ _ _ _ _ (by omega),
      storeLE_of_out _ _ _ _ _ (by omega), memcpy_of_out _ _ _ _ _ (by omega)]

theorem getAvailBuf_take_mem_local (b : Build) (mem : Nat → Nat) (vq : VirtQueue_Local) :
    (getAvailBuf_take_mem b mem vq).2.2.2
      = { vq with last_avail_idx := (vq.last_avail_idx + 1) % 65536 } ∧
    (getAvailBuf_take_mem b mem vq).1 < 32768 := by
  refine ⟨rfl, ?_⟩
  simp only [getAvailBuf_take_mem]
  exact toInt16_lt _

theorem getAvailBuf_mem_local (b : Build) (mem : Nat → Nat) (vq : VirtQueue_Local) (buf : Nat) :
    (VirtQueue_getAvailBuf_mem b mem vq buf).2.2.2.vring = vq.vring ∧
    (VirtQueue_getAvailBuf_mem b mem vq buf).2.2.2.id = vq.id ∧
    (VirtQueue_getAvailBuf_mem b mem vq buf).2.2.2.procId = vq.procId ∧
    (VirtQueue_getAvailBuf_mem b mem vq buf).2.2.2.num_free = vq.num_free ∧
    (VirtQueue_getAvailBuf_mem b mem vq buf).2.2.2.last_used_idx = vq.last_used_idx ∧
    (VirtQueue_getAvailBuf_mem b mem vq buf).1 < 32768 := by
  unfold VirtQueue_getAvailBuf_mem
  split
  · split
    · dsimp only
      split
      · exact ⟨rfl, rfl, rfl, rfl, rfl, by norm_num⟩
      · exact ⟨rfl, rfl, rfl, rfl, rfl, (getAvailBuf_take_mem_local b _ vq).2⟩
    · exact ⟨rfl, rfl, rfl, rfl, rfl, by norm_num⟩
  · exact ⟨rfl, rfl, rfl, rfl, rfl, (getAvailBuf_take_mem_local b _ vq).2⟩

/-- A token that is a valid descriptor index is accepted by `VirtQueue_addUsedBuf`:
the three stores, in program order. -/
theorem addUsedBuf_mem_of_valid (b : Build) (mem : Nat → Nat) (vq : VirtQueue_Local) (head : Int)
    (h0 : 0 ≤ head) (h1 : head < vq.vring.num) :
    VirtQueue_addUsedBuf_mem b mem vq head = .ret 0
      (storeLE
        (storeLE
          (storeLE mem (vq.vring.used + 4 + 8 * (loadLE mem (vq.vring.used + 2) 2 % vq.vring.num))
            4 head.toNat)
          (vq.vring.used + 4 + 8 * (loadLE mem (vq.vring.used + 2) 2 % vq.vring.num) + 4) 4
          b.RP_MSG_BUF_SIZE)
        (vq.vring.used + 2) 2 (loadLE mem (vq.vring.used + 2) 2 + 1)) := by
  have hc : ¬ ((head % 4294967296).toNat > vq.vring.num ∨ head < 0) := by omega
  simp only [VirtQueue_addUsedBuf_mem, if_neg hc]
  rw [loadLE_storeLE_apart _ _ _ _ _ _ (by omega), loadLE_storeLE_apart _ _ _ _ _ _ (by omega)]

/-- C19, amended. `HOST` being a remote processor (`dstProc ≠ MultiProc_self()`);
`g` stands for the result of the one `VirtQueue_getAvailBuf` call on the
host-direction queue: token, buffer, memory, queue.

On a queue that is not empty `VirtQueue_getAvailBuf` advances the cursor
`last_avail_idx` by one modulo `2^16`, writes at most the 16-bit word `used.flags`,
and yields the ring entry at the cursor as token and the buffer of that descriptor.

When the token is a valid descriptor index (`0 ≤ token < N`) and the 56 bytes of the
buffer lie apart from the used ring of that queue, `sendRpmsg` returns: the buffer
holds `srcAddr = port`, `dstAddr = 53`, `reserved = 0`, `dataLen = 40`, `flags = 0`
and the 40 bytes of `{ name[32], addr = port, flags }`; the used element at
`used.idx mod N` is `{ id = token, len = RP_MSG_BUF_SIZE }` and `used.idx` has
advanced by one modulo `2^16`; no other byte of shared memory differs from the
memory that `VirtQueue_getAvailBuf` left; the mailbox is the one that a single
`VirtQueue_kick` of the queue produces, and the local state is that left by
`VirtQueue_getAvailBuf`.

When the queue is empty (the used ring lying past the available header, as
`vring_init` places it) the call is aborted: no interrupt, no local field changed,
and in shared memory at most the 16-bit word `used.flags`, in which
`VirtQueue_getAvailBuf` clears `VRING_USED_F_NO_NOTIFY` when the queue is a host
queue.

The 40 bytes are the 32 bytes of `strncpy` (the name, zero-padded), then `port`
and `flags`. -/
theorem C19_amended_sendRpmsg_effect (b : Build) (dstProc self : Nat) (s : Processor)
    (name : List Nat) (port flags : Nat) (hremote : dstProc ≠ self) :
    (s.obj.vq_host.last_avail_idx ≠ loadLE s.mem (s.obj.vq_host.vring.avail + 2) 2 →
      (VirtQueue_getAvailBuf_mem b s.mem s.obj.vq_host 0).2.2.2
        = { s.obj.vq_host with
            last_avail_idx := (s.obj.vq_host.last_avail_idx + 1) % 65536 } ∧
      (∀ x, x < s.obj.vq_host.vring.used ∨ s.obj.vq_host.vring.used + 2 ≤ x →
        (VirtQueue_getAvailBuf_mem b s.mem s.obj.vq_host 0).2.2.1 x = s.mem x) ∧
      (VirtQueue_getAvailBuf_mem b s.mem s.obj.vq_host 0).1
        = toInt16 (headAt b
            (vring_at (VirtQueue_getAvailBuf_mem b s.mem s.obj.vq_host 0).2.2.1
              s.obj.vq_host.vring) s.obj.vq_host.last_avail_idx) ∧
      (VirtQueue_getAvailBuf_mem b s.mem s.obj.vq_host 0).2.1
        = mapPAtoVA ((vring_at (VirtQueue_getAvailBuf_mem b s.mem s.obj.vq_host 0).2.2.1
            s.obj.vq_host.vring).desc
          (headAt b
            (vring_at (VirtQueue_getAvailBuf_mem b s.mem s.obj.vq_host 0).2.2.1
              s.obj.vq_host.vring) s.obj.vq_host.last_avail_idx)).addr) ∧
    (0 ≤ (VirtQueue_getAvailBuf_mem b s.mem s.obj.vq_host 0).1 →
      (VirtQueue_getAvailBuf_mem b s.mem s.obj.vq_host 0).1 < s.obj.vq_host.vring.num →
      ((VirtQueue_getAvailBuf_mem b s.mem s.obj.vq_host 0).2.1 + 56 ≤ s.obj.vq_host.vring.used ∨
        s.obj.vq_host.vring.used + 4 + 8 * s.obj.vq_host.vring.num
          ≤ (VirtQueue_getAvailBuf_mem b s.mem s.obj.vq_host 0).2.1) →
      ∃ s1, sendRpmsg_mem b dstProc self s name port flags = .ret () s1 ∧
        loadLE s1.mem (VirtQueue_getAvailBuf_mem b s.mem s.obj.vq_host 0).2.1 4
          = port % 4294967296 ∧
        loadLE s1.mem ((VirtQueue_getAvailBuf_mem b s.mem s.obj.vq_host 0).2.1 + 4) 4 = 53 ∧
        loadLE s1.mem ((VirtQueue_getAvailBuf_mem b s.mem s.obj.vq_host 0).2.1 + 8) 4 = 0 ∧
        loadLE s1.mem ((VirtQueue_getAvailBuf_mem b s.mem s.obj.vq_host 0).2.1 + 12) 2 = 40 ∧
        loadLE s1.mem ((VirtQueue_getAvailBuf_mem b s.mem s.obj.vq_host 0).2.1 + 14) 2 = 0 ∧
        (∀ i, i < 40 →
          s1.mem ((VirtQueue_getAvailBuf_mem b s.mem s.obj.vq_host 0).2.1 + 16 + i)
            = (rpmsg_ns_msg name port flags).getD i 0 % 256) ∧
        loadLE s1.mem (s.obj.vq_host.vring.used + 4 + 8 *
            (loadLE (VirtQueue_getAvailBuf_mem b s.mem s.obj.vq_host 0).2.2.1
              (s.obj.vq_host.vring.used + 2) 2 % s.obj.vq_host.vring.num)) 4
          = ((VirtQueue_getAvailBuf_mem b s.mem s.obj.vq_host 0).1).toNat ∧
        loadLE s1.mem (s.obj.vq_host.vring.used + 4 + 8 *
            (loadLE (VirtQueue_getAvailBuf_mem b s.mem s.obj.vq_host 0).2.2.1
              (s.obj.vq_host.vring.used + 2) 2 % s.obj.vq_host.vring.num) + 4) 4
          = b.RP_MSG_BUF_SIZE % 4294967296 ∧
        loadLE s1.mem (s.obj.vq_host.vring.used + 2) 2
          = (loadLE (VirtQueue_getAvailBuf_mem b s.mem s.obj.vq_host 0).2.2.1
              (s.obj.vq_host.vring.used + 2) 2 + 1) % 65536 ∧
        (∀ x,
          (x < (VirtQueue_getAvailBuf_mem b s.mem s.obj.vq_host 0).2.1 ∨
            (VirtQueue_getAvailBuf_mem b s.mem s.obj.vq_host 0).2.1 + 56 ≤ x) →
          (x < s.obj.vq_host.vring.used + 4 + 8 *
              (loadLE (VirtQueue_getAvailBuf_mem b s.mem s.obj.vq_host 0).2.2.1
                (s.obj.vq_host.vring.used + 2) 2 % s.obj.vq_host.vring.num) ∨
            s.obj.vq_host.vring.used + 4 + 8 *
              (loadLE (VirtQueue_getAvailBuf_mem b s.mem s.obj.vq_host 0).2.2.1
                (s.obj.vq_host.vring.used + 2) 2 % s.obj.vq_host.vring.num) + 8 ≤ x) →
          (x < s.obj.vq_host.vring.used + 2 ∨ s.obj.vq_host.vring.used + 4 ≤ x) →
          s1.mem x = (VirtQueue_getAvailBuf_mem b s.mem s.obj.vq_host 0).2.2.1 x) ∧
        s1.mbox = VirtQueue_kick_mem b s1.mem s1.obj.vq_host s.mbox ∧
        s1.obj = { s.obj with vq_host := (VirtQueue_getAvailBuf_mem b s.mem s.obj.vq_host 0).2.2.2 } ∧
        s1.inbox = s.inbox ∧ s1.freed = s.freed) ∧
    (s.obj.vq_host.last_avail_idx = loadLE s.mem (s.obj.vq_host.vring.avail + 2) 2 →
      s.obj.vq_host.vring.avail + 4 ≤ s.obj.vq_host.vring.used →
      ∃ s1, sendRpmsg_mem b dstProc self s name port flags = .raised s1 ∧
        s1.obj = s.obj ∧ s1.mbox = s.mbox ∧ s1.inbox = s.inbox ∧ s1.freed = s.freed ∧
        (∀ x, x < s.obj.vq_host.vring.used ∨ s.obj.vq_host.vring.used + 2 ≤ x →
          s1.mem x = s.mem x) ∧
        loadLE s1.mem s.obj.vq_host.vring.used 2
          = (if b.VirtQueue_isHost (s.obj.vq_host.object s.mem) then
              loadLE s.mem s.obj.vq_host.vring.used 2
                &&& (65535 - b.VRING_USED_F_NO_NOTIFY % 65536)
             else loadLE s.mem s.obj.vq_host.vring.used 2)) ∧
    ((rpmsg_ns_msg name port flags).length = 40 ∧
      (rpmsg_ns_msg name port flags).take 32 = strncpy name 32 ∧
      (rpmsg_ns_msg name port flags).drop 32 = le32 port ++ le32 flags ∧
      ((∀ c ∈ name, c ≠ 0) → name.length ≤ 32 →
        strncpy name 32 = name ++ List.replicate (32 - name.length) 0)) := by
  refine ⟨?_, ?_, ?_, ?_⟩
  · intro hne
    have hg : VirtQueue_getAvailBuf_mem b s.mem s.obj.vq_host 0
        = getAvailBuf_take_mem b s.mem s.obj.vq_host := by
      simp only [VirtQueue_getAvailBuf_mem, if_neg hne]
    rw [hg]
    refine ⟨rfl, ?_, rfl, rfl⟩
    intro x hx
    simp only [getAvailBuf_take_mem]
    split
    · exact storeLE_of_out _ _ _ _ _ (by omega)
    · rfl
  · intro h0 h1 hap
    obtain ⟨g1, _, _, _, _, g6⟩ := getAvailBuf_mem_local b s.mem s.obj.vq_host 0
    generalize hg : VirtQueue_getAvailBuf_mem b s.mem s.obj.vq_host 0 = g at *
    obtain ⟨tok, buf, gm, gq⟩ := g
    simp only at h0 h1 hap g1 g6 ⊢
    have hN : 0 < s.obj.vq_host.vring.num := by omega
    have hslot : loadLE (ns_fill_mem gm buf name port flags) (s.obj.vq_host.vring.used + 2) 2
        = loadLE gm (s.obj.vq_host.vring.used + 2) 2 := by
      apply loadLE_congr
      intro x hx1 hx2
      exact (ns_fill_mem_spec gm buf name port flags).2.2.2.2.2.2 x (by omega)
    have hlt : loadLE gm (s.obj.vq_host.vring.used + 2) 2 % s.obj.vq_host.vring.num
        < s.obj.vq_host.vring.num := Nat.mod_lt _ hN
    have hadd := addUsedBuf_mem_of_valid b (ns_fill_mem gm buf name port flags) gq tok h0
      (by rw [g1]; exact h1)
    rw [g1, hslot] at hadd
    obtain ⟨f1, f2, f3, f4, f5, f6, f7⟩ := ns_fill_mem_spec gm buf name port flags
    have hsend : sendRpmsg_mem b dstProc self s name port flags = .ret ()
        { s with
          mem := storeLE (storeLE (storeLE (ns_fill_mem gm buf name port flags)
              (s.obj.vq_host.vring.used + 4 + 8 *
                (loadLE gm (s.obj.vq_host.vring.used + 2) 2 % s.obj.vq_host.vring.num))
              4 tok.toNat)
            (s.obj.vq_host.vring.used + 4 + 8 *
              (loadLE gm (s.obj.vq_host.vring.used + 2) 2 % s.obj.vq_host.vring.num) + 4)
            4 b.RP_MSG_BUF_SIZE) (s.obj.vq_host.vring.used + 2) 2
            (loadLE gm (s.obj.vq_host.vring.used + 2) 2 + 1)
          obj := { s.obj with vq_host := gq }
          mbox := VirtQueue_kick_mem b
            (storeLE (storeLE (storeLE (ns_fill_mem gm buf name port flags)
              (s.obj.vq_host.vring.used + 4 + 8 *
                (loadLE gm (s.obj.vq_host.vring.used + 2) 2 % s.obj.vq_host.vring.num))
              4 tok.toNat)
            (s.obj.vq_host.vring.used + 4 + 8 *
              (loadLE gm (s.obj.vq_host.vring.used + 2) 2 % s.obj.vq_host.vring.num) + 4)
            4 b.RP_MSG_BUF_SIZE) (s.obj.vq_host.vring.used + 2) 2
            (loadLE gm (s.obj.vq_host.vring.used + 2) 2 + 1)) gq s.mbox } := by
      simp only [sendRpmsg_mem, hg, hremote, ne_eq, not_false_eq_true, if_true, ge_iff_le, h0,
        hadd]
    refine ⟨_, hsend, ?_, ?_, ?_, ?_, ?_, ?_, ?_, ?_, ?_, ?_, rfl, rfl, rfl, rfl⟩
    · rw [loadLE_storeLE_apart _ _ _ _ _ _ (by omega), loadLE_storeLE_apart _ _ _ _ _ _ (by omega),
        loadLE_storeLE_apart _ _ _ _ _ _ (by omega)]
      exact f1
    · rw [loadLE_storeLE_apart _ _ _ _ _ _ (by omega), loadLE_storeLE_apart _ _ _ _ _ _ (by omega),
        loadLE_storeLE_apart _ _ _ _ _ _ (by omega)]
      exact f2
    · rw [loadLE_storeLE_apart _ _ _ _ _ _ (by omega), loadLE_storeLE_apart _ _ _ _ _ _ (by omega),
        loadLE_storeLE_apart _ _ _ _ _ _ (by omega)]
      exact f3
    · rw [loadLE_storeLE_apart _ _ _ _ _ _ (by omega), loadLE_storeLE_apart _ _ _ _ _ _ (by omega),
        loadLE_storeLE_apart _ _ _ _ _ _ (by omega)]
      exact f4
    · rw [loadLE_storeLE_apart _ _ _ _ _ _ (by omega), loadLE_storeLE_apart _ _ _ _ _ _ (by omega),
        loadLE_storeLE_apart _ _ _ _ _ _ (by omega)]
      exact f5
    · intro i hi
      simp only
      rw [storeLE_of_out _ _ _ _ _ (by omega), storeLE_of_out _ _ _ _ _ (by omega),
        storeLE_of_out _ _ _ _ _ (by omega)]
      exact f6 i hi
    · simp only
      rw [loadLE_storeLE_apart _ _ _ _ _ _ (by omega), loadLE_storeLE_apart _ _ _ _ _ _ (by omega),
        loadLE_storeLE_same]
      exact Nat.mod_eq_of_lt (by omega)
    · simp only
      rw [loadLE_storeLE_apart _ _ _ _ _ _ (by omega), loadLE_storeLE_same]
      norm_num
    · simp only
      rw [loadLE_storeLE_same]
      norm_num
    · intro x hx1 hx2 hx3
      simp only
      rw [storeLE_of_out _ _ _ _ _ (by omega), storeLE_of_out _ _ _ _ _ (by omega),
        storeLE_of_out _ _ _ _ _ (by omega)]
      exact f7 x hx1
  · intro he hlay
    by_cases hh : b.VirtQueue_isHost (s.obj.vq_host.object s.mem) = true
    · have hre : s.obj.vq_host.last_avail_idx
          = loadLE (storeLE s.mem s.obj.vq_host.vring.used 2
              (loadLE s.mem s.obj.vq_host.vring.used 2
                &&& (65535 - b.VRING_USED_F_NO_NOTIFY % 65536)))
            (s.obj.vq_host.vring.avail + 2) 2 := by
        rw [loadLE_storeLE_apart _ _ _ _ _ _ (by omega)]
        exact he
      have hg : VirtQueue_getAvailBuf_mem b s.mem s.obj.vq_host 0
          = (-1, 0, storeLE s.mem s.obj.vq_host.vring.used 2
              (loadLE s.mem s.obj.vq_host.vring.used 2
                &&& (65535 - b.VRING_USED_F_NO_NOTIFY % 65536)), s.obj.vq_host) := by
        simp only [VirtQueue_getAvailBuf_mem, if_pos he, hh, if_true]
        rw [if_pos hre]
      have hsend : sendRpmsg_mem b dstProc self s name port flags = .raised
          { s with mem := (storeLE s.mem s.obj.vq_host.vring.used 2
              (loadLE s.mem s.obj.vq_host.vring.used 2
                &&& (65535 - b.VRING_USED_F_NO_NOTIFY % 65536))) } := by
        simp [sendRpmsg_mem, hg, hremote]
      refine ⟨_, hsend, rfl, rfl, rfl, rfl, ?_, ?_⟩
      · intro x hx
        exact storeLE_of_out _ _ _ _ _ (by omega)
      · simp only [hh, if_true]
        rw [loadLE_storeLE_same]
        apply Nat.mod_eq_of_lt
        have h1 := loadLE_lt s.mem s.obj.vq_host.vring.used 2
        have h2 : loadLE s.mem s.obj.vq_host.vring.used 2
            &&& (65535 - b.VRING_USED_F_NO_NOTIFY % 65536)
            ≤ loadLE s.mem s.obj.vq_host.vring.used 2 := Nat.and_le_left
        omega
    · have hg : VirtQueue_getAvailBuf_mem b s.mem s.obj.vq_host 0
          = (-1, 0, s.mem, s.obj.vq_host) := by
        simp only [VirtQueue_getAvailBuf_mem, if_pos he, hh, Bool.false_eq_true, if_false]
      have hsend : sendRpmsg_mem b dstProc self s name port flags = .raised s := by
        simp [sendRpmsg_mem, hg, hremote]
      refine ⟨_, hsend, rfl, rfl, rfl, rfl, fun _ _ => rfl, ?_⟩
      simp [hh]
  · refine ⟨rpmsg_ns_msg_length name port flags, ?_, ?_, strncpy_of_no_nul name 32⟩
    · simp only [rpmsg_ns_msg, RPMSG_NAME_SIZE, List.append_assoc]
      rw [List.take_append_of_le_length (by rw [strncpy_length])]
      exact List.take_of_length_le (by rw [strncpy_length])
    · simp only [rpmsg_ns_msg, RPMSG_NAME_SIZE, List.append_assoc]
      rw [List.drop_append_of_le_length (by rw [strncpy_length])]
      rw [List.drop_of_length_le (by rw [strncpy_length])]
      rfl

/-! ## The two embeddings side by side -/

theorem getUsedBuf_mem_view (b : Build) (mem : Nat → Nat) (vq : VirtQueue_Local) :
    (VirtQueue_getUsedBuf b (vq.object mem)).1 = (VirtQueue_getUsedBuf_mem b mem vq).1 ∧
    (VirtQueue_getUsedBuf b (vq.object mem)).2.locals
      = (VirtQueue_getUsedBuf_mem b mem vq).2.locals := by
  unfold VirtQueue_getUsedBuf VirtQueue_getUsedBuf_mem
  by_cases h : vq.last_used_idx = loadLE mem (vq.vring.used + 2) 2
  · have h2 : (vq.object mem).last_used_idx = (vq.object mem).vring.used.idx := h
    rw [if_pos h, if_pos h2]
    exact ⟨rfl, rfl⟩
  · have h2 : ¬ (vq.object mem).last_used_idx = (vq.object mem).vring.used.idx := h
    rw [if_neg h, if_neg h2]
    exact ⟨rfl, rfl⟩

theorem addAvailBuf_mem_view (b : Build) (mem : Nat → Nat) (o : VirtQueue_Object)
    (vq : VirtQueue_Local) (buf : Nat) (h : o.locals = vq.locals) :
    (VirtQueue_addAvailBuf b o buf).isRaised = (VirtQueue_addAvailBuf_mem b mem vq buf).isRaised ∧
    (VirtQueue_addAvailBuf b o buf).state.locals
      = (VirtQueue_addAvailBuf_mem b mem vq buf).state.2.locals := by
  simp only [VirtQueue_Object.locals, VirtQueue_Local.locals, List.cons.injEq, and_true] at h
  obtain ⟨h1, h2, h3, h4, h5, h6⟩ := h
  unfold VirtQueue_addAvailBuf VirtQueue_addAvailBuf_mem
  by_cases hz : vq.num_free = 0
  · have hz2 : o.num_free = 0 := by rw [h3]; exact hz
    rw [if_pos hz, if_pos hz2]
    simp [Result.isRaised, Result.state, VirtQueue_Object.locals, VirtQueue_Local.locals,
      h1, h2, h3, h4, h5, h6]
  · have hz2 : ¬ o.num_free = 0 := by rw [h3]; exact hz
    rw [if_neg hz, if_neg hz2]
    simp [Result.isRaised, Result.state, VirtQueue_Object.locals, VirtQueue_Local.locals,
      h1, h2, h3, h4, h5, h6]

theorem addUsedBuf_mem_view (b : Build) (mem : Nat → Nat) (o : VirtQueue_Object)
    (vq : VirtQueue_Local) (head : Int) (h : o.locals = vq.locals) :
    (VirtQueue_addUsedBuf b o head).isRaised = (VirtQueue_addUsedBuf_mem b mem vq head).isRaised ∧
    (VirtQueue_addUsedBuf b o head).state.locals = vq.locals := by
  simp only [VirtQueue_Object.locals, VirtQueue_Local.locals, List.cons.injEq, and_true] at h
  obtain ⟨h1, h2, h3, h4, h5, h6⟩ := h
  unfold VirtQueue_addUsedBuf VirtQueue_addUsedBuf_mem
  by_cases hc : (head % 4294967296).toNat > vq.vring.num ∨ head < 0
  · have hc2 : (head % 4294967296).toNat > o.vring.num ∨ head < 0 := by rw [h6]; exact hc
    rw [if_pos hc, if_pos hc2]
    simp [Result.isRaised, Result.state, VirtQueue_Object.locals, VirtQueue_Local.locals,
      h1, h2, h3, h4, h5, h6]
  · have hc2 : ¬ ((head % 4294967296).toNat > o.vring.num ∨ head < 0) := by rw [h6]; exact hc
    rw [if_neg hc, if_neg hc2]
    simp [Result.isRaised, Result.state, VirtQueue_Object.locals, VirtQueue_Local.locals,
      h1, h2, h3, h4, h5, h6]
theorem getAvailBuf_mem_view (b : Build) (mem : Nat → Nat) (vq : VirtQueue_Local) (buf : Nat)
    (hlay : vq.vring.avail + 4 + 2 * vq.vring.num ≤ vq.vring.used) (hN : 0 < vq.vring.num) :
    (VirtQueue_getAvailBuf b (vq.object mem) buf).1 = (VirtQueue_getAvailBuf_mem b mem vq buf).1 ∧
    (VirtQueue_getAvailBuf b (vq.object mem) buf).2.2.locals
      = (VirtQueue_getAvailBuf_mem b mem vq buf).2.2.2.locals := by
  obtain ⟨_, _, f3, _, _, f6, f7, f8, f9⟩ := getAvailBuf_fields b (vq.object mem) buf
  have hid : (VirtQueue_getAvailBuf b (vq.object mem) buf).2.2.id = vq.id ∧
      (VirtQueue_getAvailBuf b (vq.object mem) buf).2.2.procId = vq.procId := by
    by_cases h : (vq.object mem).last_avail_idx = (vq.object mem).vring.avail.idx
    · rw [getAvailBuf_of_eq b _ buf h]
      by_cases hh : b.VirtQueue_isHost (vq.object mem) = true
      · simp only [hh, if_true, clearNoNotify]
        exact ⟨rfl, rfl⟩
      · simp only [hh, Bool.false_eq_true, if_false]
        exact ⟨rfl, rfl⟩
    · rw [getAvailBuf_of_ne b _ buf h, getAvailBuf_take_eq]
      by_cases hh : b.VirtQueue_isHost (vq.object mem) = true
      · simp only [hh, if_true, setNoNotify]
        exact ⟨rfl, rfl⟩
      · simp only [hh, Bool.false_eq_true, if_false]
        exact ⟨rfl, rfl⟩
  have hslot : vq.last_avail_idx % vq.vring.num < vq.vring.num := Nat.mod_lt _ hN
  by_cases he : vq.last_avail_idx = loadLE mem (vq.vring.avail + 2) 2
  · have he2 : (vq.object mem).last_avail_idx = (vq.object mem).vring.avail.idx := he
    rw [if_pos he2] at f8 f9
    have hm : (VirtQueue_getAvailBuf_mem b mem vq buf).1 = -1 ∧
        (VirtQueue_getAvailBuf_mem b mem vq buf).2.2.2 = vq := by
      unfold VirtQueue_getAvailBuf_mem
      rw [if_pos he]
      split
      · dsimp only
        rw [loadLE_storeLE_apart _ _ _ _ _ _ (by omega), if_pos he]
        exact ⟨rfl, rfl⟩
      · exact ⟨rfl, rfl⟩
    rw [hm.1, hm.2, f9]
    refine ⟨rfl, ?_⟩
    simp only [VirtQueue_Object.locals, VirtQueue_Local.locals, hid.1, hid.2, f3, f6, f7, f8]
    rfl
  · have he2 : ¬ (vq.object mem).last_avail_idx = (vq.object mem).vring.avail.idx := he
    rw [if_neg he2] at f8 f9
    have hm : (VirtQueue_getAvailBuf_mem b mem vq buf).1
          = toInt16 (headAt b (vq.object mem).vring (vq.object mem).last_avail_idx) ∧
        (VirtQueue_getAvailBuf_mem b mem vq buf).2.2.2
          = { vq with last_avail_idx := (vq.last_avail_idx + 1) % 65536 } := by
      unfold VirtQueue_getAvailBuf_mem getAvailBuf_take_mem
      rw [if_neg he]
      refine ⟨?_, rfl⟩
      dsimp only
      by_cases ha : b.APPM3_IS_HOST = true
      · simp only [ha, if_true, headAt]
        rfl
      · simp only [ha, Bool.false_eq_true, if_false, headAt]
        split
        · rw [loadLE_storeLE_apart _ _ _ _ _ _ (by omega)]
          rfl
        · rfl
    rw [hm.1, hm.2, f9]
    refine ⟨rfl, ?_⟩
    simp only [VirtQueue_Object.locals, VirtQueue_Local.locals, hid.1, hid.2, f3, f6, f7, f8]
    rfl
theorem Result.cases_of_isRaised {σ α : Type} (r : Result σ α) :
    (r.isRaised = true ∧ r = .raised r.state) ∨
    (r.isRaised = false ∧ ∃ a, r = .ret a r.state) := by
  cases r with
  | raised s => exact Or.inl ⟨rfl, rfl⟩
  | ret a s => exact Or.inr ⟨rfl, a, rfl⟩

theorem put_mem_agrees_host (b : Build) (q : MessageQ) (s : Processor) (msg : Nat → Nat)
    (hH : s.obj.isHost = true) :
    (TransportVirtio_put b q s.machine msg).value = (TransportVirtio_put_mem b q s msg).value ∧
    (TransportVirtio_put b q s.machine msg).isRaised
      = (TransportVirtio_put_mem b q s msg).isRaised ∧
    (TransportVirtio_put b q s.machine msg).state.locals
      = (TransportVirtio_put_mem b q s msg).state.locals := by
  have hH1 : s.machine.obj.isHost = true := hH
  obtain ⟨u1, u2⟩ := getUsedBuf_mem_view b s.mem s.obj.vq_slave
  -- the buffer and the queue after `getTxBuf`, in both embeddings
  have hbuf : (getTxBuf b s.machine.obj s.machine.obj.vq_slave).1
      = (getTxBuf_mem b s.mem s.obj s.obj.vq_slave).1 := by
    unfold getTxBuf getTxBuf_mem
    by_cases hl : s.obj.last_sbuf < b.RP_MSG_NUM_BUFS
    · have hl1 : s.machine.obj.last_sbuf < b.RP_MSG_NUM_BUFS := hl
      rw [if_pos hl, if_pos hl1]
      rfl
    · have hl1 : ¬ s.machine.obj.last_sbuf < b.RP_MSG_NUM_BUFS := hl
      rw [if_neg hl, if_neg hl1]
      exact u1
  have hq : (getTxBuf b s.machine.obj s.machine.obj.vq_slave).2.2.locals
      = (getTxBuf_mem b s.mem s.obj s.obj.vq_slave).2.2.locals := by
    unfold getTxBuf getTxBuf_mem
    by_cases hl : s.obj.last_sbuf < b.RP_MSG_NUM_BUFS
    · have hl1 : s.machine.obj.last_sbuf < b.RP_MSG_NUM_BUFS := hl
      rw [if_pos hl, if_pos hl1]
      rfl
    · have hl1 : ¬ s.machine.obj.last_sbuf < b.RP_MSG_NUM_BUFS := hl
      rw [if_neg hl, if_neg hl1]
      exact u2
  have ho : (getTxBuf b s.machine.obj s.machine.obj.vq_slave).2.1.last_sbuf
        = (getTxBuf_mem b s.mem s.obj s.obj.vq_slave).2.1.last_sbuf ∧
      (getTxBuf b s.machine.obj s.machine.obj.vq_slave).2.1.sbufs = s.obj.sbufs ∧
      (getTxBuf_mem b s.mem s.obj s.obj.vq_slave).2.1.sbufs = s.obj.sbufs ∧
      (getTxBuf b s.machine.obj s.machine.obj.vq_slave).2.1.isHost = true ∧
      (getTxBuf_mem b s.mem s.obj s.obj.vq_slave).2.1.isHost = true ∧
      (getTxBuf b s.machine.obj s.machine.obj.vq_slave).2.1.vq_host.locals
        = s.obj.vq_host.locals ∧
      (getTxBuf_mem b s.mem s.obj s.obj.vq_slave).2.1.vq_host = s.obj.vq_host := by
    unfold getTxBuf getTxBuf_mem
    by_cases hl : s.obj.last_sbuf < b.RP_MSG_NUM_BUFS
    · have hl1 : s.machine.obj.last_sbuf < b.RP_MSG_NUM_BUFS := hl
      rw [if_pos hl, if_pos hl1]
      exact ⟨rfl, rfl, rfl, hH, hH, rfl, rfl⟩
    · have hl1 : ¬ s.machine.obj.last_sbuf < b.RP_MSG_NUM_BUFS := hl
      rw [if_neg hl, if_neg hl1]
      exact ⟨rfl, rfl, rfl, hH, hH, rfl, rfl⟩
  obtain ⟨o1, o2, o3, o4, o5, o6, o7⟩ := ho
  generalize hg1 : getTxBuf b s.machine.obj s.machine.obj.vq_slave = g1 at hbuf hq o1 o2 o4 o6
  generalize hg2 : getTxBuf_mem b s.mem s.obj s.obj.vq_slave = g2 at hbuf hq o1 o3 o5 o7
  obtain ⟨rp1, ob1, vq1⟩ := g1
  obtain ⟨rp2, ob2, vq2⟩ := g2
  simp only at hbuf hq o1 o2 o3 o4 o5 o6 o7
  subst hbuf
  have c1 : ((ob1.isHost = true ∧ rp1 ≠ 0) ∨ ((-1 : Int) ≥ 0)) ↔ rp1 ≠ 0 := by
    simp [o4]
  have hloc0 : ∀ (f1 f2 : Nat), f1 = f2 → ∀ (x1 : VirtQueue_Object) (x2 : VirtQueue_Local),
      x1.locals = x2.locals →
      (ob1.isHost, [ob1.sbufs, ob1.last_sbuf, f1], ob1.vq_host.locals, x1.locals)
        = (ob2.isHost, [ob2.sbufs, ob2.last_sbuf, f2], ob2.vq_host.locals, x2.locals) := by
    intro f1 f2 hf x1 x2 hx
    rw [o1, o2, o3, o4, o5, o6, o7, hf, hx]
  obtain ⟨a1, a2⟩ := addAvailBuf_mem_view b
    (put_fill_mem s.mem rp1 msg (q.getMsgSize msg)) vq1 vq2 rp1 hq
  simp only [TransportVirtio_put, TransportVirtio_put_mem, put_acquire, hH1, hH, if_true, hg1,
    hg2, c1]
  by_cases hz : rp1 = 0
  · simp only [hz, ne_eq, not_true_eq_false, if_false]
    exact ⟨rfl, rfl, hloc0 _ _ rfl _ _ hq⟩
  · simp only [hz, ne_eq, not_false_eq_true, if_true]
    by_cases hs : q.getMsgSize msg ≤ MAX_PAYLOAD b
    · simp only [hs, not_true_eq_false, if_false]
      rw [if_pos o4]
      generalize VirtQueue_addAvailBuf b vq1 rp1 = R1 at a1 a2 ⊢
      generalize VirtQueue_addAvailBuf_mem b
        (put_fill_mem s.mem rp1 msg (q.getMsgSize msg)) vq2 rp1 = R2 at a1 a2 ⊢
      cases R1 with
      | raised x1 =>
        cases R2 with
        | raised x2 => exact ⟨rfl, rfl, hloc0 _ _ rfl _ _ a2⟩
        | ret y x2 => exact absurd a1 (by simp [Result.isRaised])
      | ret y1 x1 =>
        cases R2 with
        | raised x2 => exact absurd a1 (by simp [Result.isRaised])
        | ret y x2 => exact ⟨rfl, rfl, hloc0 _ _ rfl _ _ a2⟩
    · simp only [hs, not_false_eq_true, if_true]
      exact ⟨rfl, rfl, hloc0 _ _ rfl _ _ hq⟩
theorem put_mem_agrees_slave (b : Build) (q : MessageQ) (s : Processor) (msg : Nat → Nat)
    (hS : s.obj.isHost = false)
    (hlay : s.obj.vq_host.vring.avail + 4 + 2 * s.obj.vq_host.vring.num
      ≤ s.obj.vq_host.vring.used)
    (hN : 0 < s.obj.vq_host.vring.num) :
    (TransportVirtio_put b q s.machine msg).value = (TransportVirtio_put_mem b q s msg).value ∧
    (TransportVirtio_put b q s.machine msg).isRaised
      = (TransportVirtio_put_mem b q s msg).isRaised ∧
    (TransportVirtio_put b q s.machine msg).state.locals
      = (TransportVirtio_put_mem b q s msg).state.locals := by
  have hS1 : s.machine.obj.isHost = false := hS
  obtain ⟨t1, t2⟩ := getAvailBuf_mem_view b s.mem s.obj.vq_host 0 hlay hN
  have hv : s.machine.obj.vq_host = s.obj.vq_host.object s.mem := rfl
  generalize hg1 : VirtQueue_getAvailBuf b (s.obj.vq_host.object s.mem) 0 = g1 at t1 t2
  generalize hg2 : VirtQueue_getAvailBuf_mem b s.mem s.obj.vq_host 0 = g2 at t1 t2
  obtain ⟨tok1, rp1, vq1⟩ := g1
  obtain ⟨tok2, rp2, mem2, vq2⟩ := g2
  simp only at t1 t2
  subst t1
  have c1 : ((s.machine.obj.isHost = true ∧ rp1 ≠ 0) ∨ tok1 ≥ 0) ↔ tok1 ≥ 0 := by
    simp [hS1]
  have hloc0 : ∀ (f1 f2 : Nat), f1 = f2 → ∀ (x1 : VirtQueue_Object) (x2 : VirtQueue_Local),
      x1.locals = x2.locals →
      (false, [s.machine.obj.sbufs, s.machine.obj.last_sbuf, f1], x1.locals,
          s.machine.obj.vq_slave.locals)
        = (false, [s.obj.sbufs, s.obj.last_sbuf, f2], x2.locals,
          s.obj.vq_slave.locals) := by
    intro f1 f2 hf x1 x2 hx
    rw [hf, hx]
    rfl
  simp only [TransportVirtio_put, TransportVirtio_put_mem, put_acquire, hS1, hS,
    Bool.false_eq_true, if_false, hv, hg1, hg2, false_and, false_or]
  by_cases ht : tok1 ≥ 0
  · simp only [ht, if_true]
    by_cases hs : q.getMsgSize msg ≤ MAX_PAYLOAD b
    · simp only [hs, not_true_eq_false, if_false]
      obtain ⟨a1, a2⟩ := addUsedBuf_mem_view b
        (put_fill_mem mem2 rp2 msg (q.getMsgSize msg)) vq1 vq2 tok1 t2
      generalize VirtQueue_addUsedBuf b vq1 tok1 = R1 at a1 a2 ⊢
      generalize VirtQueue_addUsedBuf_mem b
        (put_fill_mem mem2 rp2 msg (q.getMsgSize msg)) vq2 tok1 = R2 at a1 ⊢
      cases R1 with
      | raised x1 =>
        cases R2 with
        | raised x2 => exact ⟨rfl, rfl, hloc0 _ _ rfl _ _ a2⟩
        | ret y x2 => exact absurd a1 (by simp [Result.isRaised])
      | ret y1 x1 =>
        cases R2 with
        | raised x2 => exact absurd a1 (by simp [Result.isRaised])
        | ret y x2 => exact ⟨rfl, rfl, hloc0 _ _ rfl _ _ a2⟩
    · simp only [hs, not_false_eq_true, if_true]
      exact ⟨rfl, rfl, hloc0 _ _ rfl _ _ t2⟩
  · simp only [ht, if_false]
    exact ⟨rfl, rfl, hloc0 _ _ rfl _ _ t2⟩

/-- The two embeddings of `TransportVirtio_put` side by side. From a state of the
processor on shared memory (the used ring of the host-direction queue lying past
its available ring, as `vring_init` places it, `N > 0`) and from the same state
seen as a `Machine`, the two return the same value, end in a fatal error in the same
cases, and leave the same local fields: role, `sbufs`, `last_sbuf`, the count of
freed messages, and `id`, `procId`, `num_free`, both cursors and the element count
of both queues. What the two can differ in is the contents of shared memory where
the buffer overlies ring words. -/
theorem put_mem_agrees (b : Build) (q : MessageQ) (s : Processor) (msg : Nat → Nat)
    (hlay : s.obj.vq_host.vring.avail + 4 + 2 * s.obj.vq_host.vring.num
      ≤ s.obj.vq_host.vring.used)
    (hN : 0 < s.obj.vq_host.vring.num) :
    (TransportVirtio_put b q s.machine msg).value = (TransportVirtio_put_mem b q s msg).value ∧
    (TransportVirtio_put b q s.machine msg).isRaised
      = (TransportVirtio_put_mem b q s msg).isRaised ∧
    (TransportVirtio_put b q s.machine msg).state.locals
      = (TransportVirtio_put_mem b q s msg).state.locals := by
  cases hH : s.obj.isHost with
  | true => exact put_mem_agrees_host b q s msg hH
  | false => exact put_mem_agrees_slave b q s msg hH hlay hN
/-- The two embeddings of `sendRpmsg` side by side, under the conditions of
`put_mem_agrees`: the same outcome (return or abort) and the same local fields. -/
theorem sendRpmsg_mem_agrees (b : Build) (dstProc self : Nat) (s : Processor) (name : List Nat)
    (port flags : Nat)
    (hlay : s.obj.vq_host.vring.avail + 4 + 2 * s.obj.vq_host.vring.num
      ≤ s.obj.vq_host.vring.used)
    (hN : 0 < s.obj.vq_host.vring.num) :
    (sendRpmsg b dstProc self s.machine name port flags).isRaised
      = (sendRpmsg_mem b dstProc self s name port flags).isRaised ∧
    (sendRpmsg b dstProc self s.machine name port flags).state.locals
      = (sendRpmsg_mem b dstProc self s name port flags).state.locals := by
  obtain ⟨t1, t2⟩ := getAvailBuf_mem_view b s.mem s.obj.vq_host 0 hlay hN
  have hv : s.machine.obj.vq_host = s.obj.vq_host.object s.mem := rfl
  generalize hg1 : VirtQueue_getAvailBuf b (s.obj.vq_host.object s.mem) 0 = g1 at t1 t2
  generalize hg2 : VirtQueue_getAvailBuf_mem b s.mem s.obj.vq_host 0 = g2 at t1 t2
  obtain ⟨tok1, rp1, vq1⟩ := g1
  obtain ⟨tok2, rp2, mem2, vq2⟩ := g2
  simp only at t1 t2
  subst t1
  have hloc0 : ∀ (x1 : VirtQueue_Object) (x2 : VirtQueue_Local), x1.locals = x2.locals →
      (s.machine.obj.isHost, [s.machine.obj.sbufs, s.machine.obj.last_sbuf, s.machine.freed],
          x1.locals, s.machine.obj.vq_slave.locals)
        = (s.obj.isHost, [s.obj.sbufs, s.obj.last_sbuf, s.freed], x2.locals,
          s.obj.vq_slave.locals) := by
    intro x1 x2 hx
    rw [hx]
    rfl
  by_cases hr : dstProc = self
  · simp only [sendRpmsg, sendRpmsg_mem, hr, ne_eq, not_true_eq_false, if_false]
    exact ⟨rfl, rfl⟩
  · simp only [sendRpmsg, sendRpmsg_mem, hr, ne_eq, not_false_eq_true, if_true, hv, hg1, hg2]
    by_cases ht : tok1 ≥ 0
    · simp only [ht, if_true]
      obtain ⟨a1, a2⟩ := addUsedBuf_mem_view b (ns_fill_mem mem2 rp2 name port flags) vq1 vq2 tok1 t2
      generalize VirtQueue_addUsedBuf b vq1 tok1 = R1 at a1 a2 ⊢
      generalize VirtQueue_addUsedBuf_mem b (ns_fill_mem mem2 rp2 name port flags) vq2 tok1 = R2
        at a1 ⊢
      cases R1 with
      | raised x1 =>
        cases R2 with
        | raised x2 => exact ⟨rfl, hloc0 _ _ a2⟩
        | ret y x2 => exact absurd a1 (by simp [Result.isRaised])
      | ret y1 x1 =>
        cases R2 with
        | raised x2 => exact absurd a1 (by simp [Result.isRaised])
        | ret y x2 => exact ⟨rfl, hloc0 _ _ a2⟩
    · simp only [ht, if_false]
      exact ⟨rfl, hloc0 _ _ t2⟩
theorem le_align_up (x a : Nat) (ha : 0 < a) : x ≤ align_up x a := by
  unfold align_up
  have h1 := Nat.div_add_mod (x + a - 1) a
  have h2 := Nat.mod_lt (x + a - 1) ha
  rw [Nat.mul_comm]
  omega

/-- The layout of `vring_init` meets the condition of `put_mem_agrees`: the used
ring lies past the available ring. -/
theorem vring_init_ordered (num p align : Nat) (ha : 0 < align) :
    (vring_init num p align).desc + 16 * (vring_init num p align).num
      ≤ (vring_init num p align).avail ∧
    (vring_init num p align).avail + 4 + 2 * (vring_init num p align).num
      ≤ (vring_init num p align).used := by
  simp only [vring_init]
  have h1 := le_align_up (p + num * 16) align ha
  have h2 := le_align_up (align_up (p + num * 16) align + 4 + num * 2 + 2) align ha
  constructor <;> omega

/-! ## A send on shared memory, the buffer lying apart from the ring words it writes -/

theorem Result.ret_of_value {σ α : Type} (r : Result σ α) (a : α) (h : r.value = some a) :
    ∃ s, r = .ret a s := by
  cases r with
  | raised s => exact absurd h (by simp [Result.value])
  | ret v s =>
    simp only [Result.value, Option.some.injEq] at h
    exact ⟨s, by rw [h]⟩

theorem put_fill_mem_spec (mem : Nat → Nat) (rp : Nat) (msg : Nat → Nat) (sz : Nat) :
    loadLE (put_fill_mem mem rp msg sz) rp 4 = 61 ∧
    loadLE (put_fill_mem mem rp msg sz) (rp + 4) 4 = 1024 ∧
    loadLE (put_fill_mem mem rp msg sz) (rp + 8) 4 = 0 ∧
    loadLE (put_fill_mem mem rp msg sz) (rp + 12) 2 = sz % 65536 ∧
    loadLE (put_fill_mem mem rp msg sz) (rp + 14) 2 = 0 ∧
    (∀ i, i < sz → put_fill_mem mem rp msg sz (rp + 16 + i) = msg i % 256) ∧
    (∀ x, x < rp ∨ rp + 16 + sz ≤ x → put_fill_mem mem rp msg sz x = mem x) := by
  unfold put_fill_mem
  refine ⟨?_, ?_, ?_, ?_, ?_, ?_, ?_⟩
  · rw [loadLE_storeLE_apart _ _ _ _ _ _ (by omega), loadLE_storeLE_apart _ _ _ _ _ _ (by omega),
      loadLE_storeLE_same]
    norm_num [RPMSG_MESSAGEQ_PORT]
  · rw [loadLE_storeLE_apart _ _ _ _ _ _ (by omega), loadLE_storeLE_apart _ _ _ _ _ _ (by omega),
      loadLE_storeLE_apart _ _ _ _ _ _ (by omega), loadLE_storeLE_same]
    norm_num
  · rw [loadLE_storeLE_same]
    norm_num
  · rw [loadLE_storeLE_apart _ _ _ _ _ _ (by omega), loadLE_storeLE_apart _ _ _ _ _ _ (by omega),
      loadLE_storeLE_apart _ _ _ _ _ _ (by omega), loadLE_storeLE_apart _ _ _ _ _ _ (by omega),
      loadLE_storeLE_same]
    norm_num
  · rw [loadLE_storeLE_apart _ _ _ _ _ _ (by omega), loadLE_storeLE_same]
    norm_num
  · intro i hi
    rw [storeLE_of_out _ _ _ _ _ (by omega), storeLE_of_out _ _ _ _ _ (by omega),
      storeLE_of_out _ _ _ _ _ (by omega), storeLE_of_out _ _ _ _ _ (by omega),
      storeLE_of_out _ _ _ _ _ (by omega), memcpy_of_in _ _ _ _ _ (by omega) (by omega)]
    have e : rp + 16 + i - (rp + 16) = i := by omega
    rw [e]
  · intro x hx
    rw [storeLE_of_out _ _ _ _ _ (by omega), storeLE_of_out _ _ _ _ _ (by omega),
      storeLE_of_out _ _ _ _ _ (by omega), storeLE_of_out _ _ _ _ _ (by omega),
      storeLE_of_out _ _ _ _ _ (by omega), memcpy_of_out _ _ _ _ _ (by omega)]

/-- A slave-role send that returns `TRUE`, on a ring of `N > 0` elements, the
`16 + s` bytes of the buffer lying apart from the used ring of the host-direction
queue: the buffer holds the header `61`, `1024`, `0`, `s`, `0` and the `s` bytes of
the message, and outside the buffer and the used ring shared memory is as it was. -/
theorem put_mem_slave_effect (b : Build) (q : MessageQ) (s : Processor) (msg : Nat → Nat)
    (hS : s.obj.isHost = false)
    (hval : (TransportVirtio_put_mem b q s msg).value = some true)
    (hmax : MAX_PAYLOAD b < 65536) (hN : 0 < s.obj.vq_host.vring.num)
    (hap : (VirtQueue_getAvailBuf_mem b s.mem s.obj.vq_host 0).2.1 + 16 + q.getMsgSize msg
        ≤ s.obj.vq_host.vring.used ∨
      s.obj.vq_host.vring.used + 4 + 8 * s.obj.vq_host.vring.num
        ≤ (VirtQueue_getAvailBuf_mem b s.mem s.obj.vq_host 0).2.1) :
    loadLE (TransportVirtio_put_mem b q s msg).state.mem
      (VirtQueue_getAvailBuf_mem b s.mem s.obj.vq_host 0).2.1 4 = 61 ∧
    loadLE (TransportVirtio_put_mem b q s msg).state.mem
      ((VirtQueue_getAvailBuf_mem b s.mem s.obj.vq_host 0).2.1 + 4) 4 = 1024 ∧
    loadLE (TransportVirtio_put_mem b q s msg).state.mem
      ((VirtQueue_getAvailBuf_mem b s.mem s.obj.vq_host 0).2.1 + 8) 4 = 0 ∧
    loadLE (TransportVirtio_put_mem b q s msg).state.mem
      ((VirtQueue_getAvailBuf_mem b s.mem s.obj.vq_host 0).2.1 + 12) 2
      = q.getMsgSize msg ∧
    loadLE (TransportVirtio_put_mem b q s msg).state.mem
      ((VirtQueue_getAvailBuf_mem b s.mem s.obj.vq_host 0).2.1 + 14) 2 = 0 ∧
    (∀ i, i < q.getMsgSize msg →
      (TransportVirtio_put_mem b q s msg).state.mem
        ((VirtQueue_getAvailBuf_mem b s.mem s.obj.vq_host 0).2.1 + 16 + i) = msg i % 256) ∧
    (∀ x,
      (x < (VirtQueue_getAvailBuf_mem b s.mem s.obj.vq_host 0).2.1 ∨
        (VirtQueue_getAvailBuf_mem b s.mem s.obj.vq_host 0).2.1 + 16 + q.getMsgSize msg ≤ x) →
      (x < s.obj.vq_host.vring.used ∨
        s.obj.vq_host.vring.used + 4 + 8 * s.obj.vq_host.vring.num ≤ x) →
      (TransportVirtio_put_mem b q s msg).state.mem x = s.mem x) := by
  obtain ⟨s1, hret⟩ := Result.ret_of_value _ _ hval
  have hst : (TransportVirtio_put_mem b q s msg).state = s1 := by rw [hret]; rfl
  rw [hst]
  clear hst hval
  obtain ⟨g1, _, _, _, _, _⟩ := getAvailBuf_mem_local b s.mem s.obj.vq_host 0
  have gm : ∀ x, x < s.obj.vq_host.vring.used ∨ s.obj.vq_host.vring.used + 2 ≤ x →
      (VirtQueue_getAvailBuf_mem b s.mem s.obj.vq_host 0).2.2.1 x = s.mem x := by
    intro x hx
    unfold VirtQueue_getAvailBuf_mem getAvailBuf_take_mem
    split
    · split
      · dsimp only
        split
        · exact storeLE_of_out _ _ _ _ _ (by omega)
        · dsimp only
          split
          · rw [storeLE_of_out _ _ _ _ _ (by omega), storeLE_of_out _ _ _ _ _ (by omega)]
          · exact storeLE_of_out _ _ _ _ _ (by omega)
      · rfl
    · dsimp only
      split
      · exact storeLE_of_out _ _ _ _ _ (by omega)
      · rfl
  generalize hg : VirtQueue_getAvailBuf_mem b s.mem s.obj.vq_host 0 = g at *
  obtain ⟨tok, rp, gmem, gq⟩ := g
  simp only at g1 gm hap ⊢
  simp only [TransportVirtio_put_mem, hS, Bool.false_eq_true, if_false, hg] at hret
  by_cases ht : tok ≥ 0
  · simp only [ht, if_true] at hret
    by_cases hs : q.getMsgSize msg ≤ MAX_PAYLOAD b
    · simp only [hs, not_true_eq_false, if_false] at hret
      have hlt : loadLE (put_fill_mem gmem rp msg (q.getMsgSize msg))
          (s.obj.vq_host.vring.used + 2) 2 % s.obj.vq_host.vring.num
          < s.obj.vq_host.vring.num := Nat.mod_lt _ hN
      by_cases hc : (tok % 4294967296).toNat > gq.vring.num ∨ tok < 0
      · simp only [VirtQueue_addUsedBuf_mem, if_pos hc] at hret
        exact absurd hret (by simp)
      · simp only [VirtQueue_addUsedBuf_mem, if_neg hc, Result.ret.injEq, true_and] at hret
        rw [g1] at hret
        subst hret
        obtain ⟨f1, f2, f3, f4, f5, f6, f7⟩ :=
          put_fill_mem_spec gmem rp msg (q.getMsgSize msg)
        refine ⟨?_, ?_, ?_, ?_, ?_, ?_, ?_⟩
        · simp only
          rw [loadLE_storeLE_apart _ _ _ _ _ _ (by omega),
            loadLE_storeLE_apart _ _ _ _ _ _ (by omega),
            loadLE_storeLE_apart _ _ _ _ _ _ (by omega)]
          exact f1
        · simp only
          rw [loadLE_storeLE_apart _ _ _ _ _ _ (by omega),
            loadLE_storeLE_apart _ _ _ _ _ _ (by omega),
            loadLE_storeLE_apart _ _ _ _ _ _ (by omega)]
          exact f2
        · simp only
          rw [loadLE_storeLE_apart _ _ _ _ _ _ (by omega),
            loadLE_storeLE_apart _ _ _ _ _ _ (by omega),
            loadLE_storeLE_apart _ _ _ _ _ _ (by omega)]
          exact f3
        · simp only
          rw [loadLE_storeLE_apart _ _ _ _ _ _ (by omega),
            loadLE_storeLE_apart _ _ _ _ _ _ (by omega),
            loadLE_storeLE_apart _ _ _ _ _ _ (by omega)]
          rw [f4]
          exact Nat.mod_eq_of_lt (by omega)
        · simp only
          rw [loadLE_storeLE_apart _ _ _ _ _ _ (by omega),
            loadLE_storeLE_apart _ _ _ _ _ _ (by omega),
            loadLE_storeLE_apart _ _ _ _ _ _ (by omega)]
          exact f5
        · intro i hi
          simp only
          rw [storeLE_of_out _ _ _ _ _ (by omega), storeLE_of_out _ _ _ _ _ (by omega),
            storeLE_of_out _ _ _ _ _ (by omega)]
          exact f6 i hi
        · intro x hx1 hx2
          simp only
          rw [storeLE_of_out _ _ _ _ _ (by omega), storeLE_of_out _ _ _ _ _ (by omega),
            storeLE_of_out _ _ _ _ _ (by omega), f7 x hx1]
          exact gm x (by omega)
    · simp only [hs, not_false_eq_true, if_true] at hret
      exact absurd hret (by simp)
  · simp only [ht, if_false] at hret
    exact absurd hret (by simp)

theorem getTxBuf_mem_vring (b : Build) (mem : Nat → Nat) (obj : TransportVirtio_Local)
    (vq : VirtQueue_Local) : (getTxBuf_mem b mem obj vq).2.2.vring = vq.vring := by
  unfold getTxBuf_mem VirtQueue_getUsedBuf_mem
  split
  · rfl
  · dsimp only
    split <;> rfl

/-- A host-role send that returns `TRUE`, on a ring of `N > 0` elements, the
`16 + s` bytes of the buffer lying apart from the descriptor table and from
`avail.idx` of the slave-direction queue: the buffer holds the header `61`, `1024`,
`0`, `s`, `0` and the `s` bytes of the message, and outside the buffer, the
descriptor table and `avail.idx` shared memory is as it was. -/
theorem put_mem_host_effect (b : Build) (q : MessageQ) (s : Processor) (msg : Nat → Nat)
    (hH : s.obj.isHost = true)
    (hval : (TransportVirtio_put_mem b q s msg).value = some true)
    (hmax : MAX_PAYLOAD b < 65536) (hN : 0 < s.obj.vq_slave.vring.num)
    (hdesc : (getTxBuf_mem b s.mem s.obj s.obj.vq_slave).1 + 16 + q.getMsgSize msg
        ≤ s.obj.vq_slave.vring.desc ∨
      s.obj.vq_slave.vring.desc + 16 * s.obj.vq_slave.vring.num
        ≤ (getTxBuf_mem b s.mem s.obj s.obj.vq_slave).1)
    (hidx : (getTxBuf_mem b s.mem s.obj s.obj.vq_slave).1 + 16 + q.getMsgSize msg
        ≤ s.obj.vq_slave.vring.avail + 2 ∨
      s.obj.vq_slave.vring.avail + 4 ≤ (getTxBuf_mem b s.mem s.obj s.obj.vq_slave).1) :
    loadLE (TransportVirtio_put_mem b q s msg).state.mem
      (getTxBuf_mem b s.mem s.obj s.obj.vq_slave).1 4 = 61 ∧
    loadLE (TransportVirtio_put_mem b q s msg).state.mem
      ((getTxBuf_mem b s.mem s.obj s.obj.vq_slave).1 + 4) 4 = 1024 ∧
    loadLE (TransportVirtio_put_mem b q s msg).state.mem
      ((getTxBuf_mem b s.mem s.obj s.obj.vq_slave).1 + 8) 4 = 0 ∧
    loadLE (TransportVirtio_put_mem b q s msg).state.mem
      ((getTxBuf_mem b s.mem s.obj s.obj.vq_slave).1 + 12) 2 = q.getMsgSize msg ∧
    loadLE (TransportVirtio_put_mem b q s msg).state.mem
      ((getTxBuf_mem b s.mem s.obj s.obj.vq_slave).1 + 14) 2 = 0 ∧
    (∀ i, i < q.getMsgSize msg →
      (TransportVirtio_put_mem b q s msg).state.mem
        ((getTxBuf_mem b s.mem s.obj s.obj.vq_slave).1 + 16 + i) = msg i % 256) ∧
    (∀ x,
      (x < (getTxBuf_mem b s.mem s.obj s.obj.vq_slave).1 ∨
        (getTxBuf_mem b s.mem s.obj s.obj.vq_slave).1 + 16 + q.getMsgSize msg ≤ x) →
      (x < s.obj.vq_slave.vring.desc ∨
        s.obj.vq_slave.vring.desc + 16 * s.obj.vq_slave.vring.num ≤ x) →
      (x < s.obj.vq_slave.vring.avail + 2 ∨ s.obj.vq_slave.vring.avail + 4 ≤ x) →
      (TransportVirtio_put_mem b q s msg).state.mem x = s.mem x) := by
  obtain ⟨s1, hret⟩ := Result.ret_of_value _ _ hval
  have hst : (TransportVirtio_put_mem b q s msg).state = s1 := by rw [hret]; rfl
  rw [hst]
  clear hst hval
  have g1 := getTxBuf_mem_vring b s.mem s.obj s.obj.vq_slave
  generalize hg : getTxBuf_mem b s.mem s.obj s.obj.vq_slave = g at *
  obtain ⟨rp, gobj, gq⟩ := g
  simp only at g1 hdesc hidx ⊢
  simp only [TransportVirtio_put_mem, hH, if_true, hg] at hret
  by_cases hr : rp ≠ 0
  · rw [if_pos hr] at hret
    by_cases hs : q.getMsgSize msg ≤ MAX_PAYLOAD b
    · simp only [hs, not_true_eq_false, if_false] at hret
      have hlt : loadLE (put_fill_mem s.mem rp msg (q.getMsgSize msg))
          (s.obj.vq_slave.vring.avail + 2) 2 % s.obj.vq_slave.vring.num
          < s.obj.vq_slave.vring.num := Nat.mod_lt _ hN
      by_cases hz : gq.num_free = 0
      · simp only [VirtQueue_addAvailBuf_mem, if_pos hz] at hret
        exact absurd hret (by simp)
      · simp only [VirtQueue_addAvailBuf_mem, if_neg hz, Result.ret.injEq, true_and] at hret
        rw [g1] at hret
        subst hret
        obtain ⟨f1, f2, f3, f4, f5, f6, f7⟩ :=
          put_fill_mem_spec s.mem rp msg (q.getMsgSize msg)
        refine ⟨?_, ?_, ?_, ?_, ?_, ?_, ?_⟩
        · simp only
          rw [loadLE_storeLE_apart _ _ _ _ _ _ (by omega),
            loadLE_storeLE_apart _ _ _ _ _ _ (by omega),
            loadLE_storeLE_apart _ _ _ _ _ _ (by omega)]
          exact f1
        · simp only
          rw [loadLE_storeLE_apart _ _ _ _ _ _ (by omega),
            loadLE_storeLE_apart _ _ _ _ _ _ (by omega),
            loadLE_storeLE_apart _ _ _ _ _ _ (by omega)]
          exact f2
        · simp only
          rw [loadLE_storeLE_apart _ _ _ _ _ _ (by omega),
            loadLE_storeLE_apart _ _ _ _ _ _ (by omega),
            loadLE_storeLE_apart _ _ _ _ _ _ (by omega)]
          exact f3
        · simp only
          rw [loadLE_storeLE_apart _ _ _ _ _ _ (by omega),
            loadLE_storeLE_apart _ _ _ _ _ _ (by omega),
            loadLE_storeLE_apart _ _ _ _ _ _ (by omega)]
          rw [f4]
          exact Nat.mod_eq_of_lt (by omega)
        · simp only
          rw [loadLE_storeLE_apart _ _ _ _ _ _ (by omega),
            loadLE_storeLE_apart _ _ _ _ _ _ (by omega),
            loadLE_storeLE_apart _ _ _ _ _ _ (by omega)]
          exact f5
        · intro i hi
          simp only
          rw [storeLE_of_out _ _ _ _ _ (by omega), storeLE_of_out _ _ _ _ _ (by omega),
            storeLE_of_out _ _ _ _ _ (by omega)]
          exact f6 i hi
        · intro x hx1 hx2 hx3
          simp only
          rw [storeLE_of_out _ _ _ _ _ (by omega), storeLE_of_out _ _ _ _ _ (by omega),
            storeLE_of_out _ _ _ _ _ (by omega), f7 x hx1]
    · simp only [hs, not_false_eq_true, if_true] at hret
      exact absurd hret (by simp)
  · rw [if_neg hr] at hret
    exact absurd hret (by simp)

/-- The slave-role effect at a state of the reference build: one receive buffer,
number 7 at `0xA0000E00`, is available, the used ring is at `0xA0002000`, and the
64-byte test message is sent. -/
theorem put_mem_slave_effect_at_slaveOneAvail :
    (TransportVirtio_put_mem refBuild refMessageQ slaveOneAvail_mem testMsg).value = some true ∧
    loadLE (TransportVirtio_put_mem refBuild refMessageQ slaveOneAvail_mem testMsg).state.mem
      0xA0000E00 4 = 61 ∧
    loadLE (TransportVirtio_put_mem refBuild refMessageQ slaveOneAvail_mem testMsg).state.mem
      0xA0000E04 4 = 1024 ∧
    loadLE (TransportVirtio_put_mem refBuild refMessageQ slaveOneAvail_mem testMsg).state.mem
      0xA0000E08 4 = 0 ∧
    loadLE (TransportVirtio_put_mem refBuild refMessageQ slaveOneAvail_mem testMsg).state.mem
      0xA0000E0C 2 = 64 ∧
    loadLE (TransportVirtio_put_mem refBuild refMessageQ slaveOneAvail_mem testMsg).state.mem
      0xA0000E0E 2 = 0 := by
  have hv : (TransportVirtio_put_mem refBuild refMessageQ slaveOneAvail_mem testMsg).value
      = some true := by decide
  obtain ⟨h1, h2, h3, h4, h5, _, _⟩ :=
    put_mem_slave_effect refBuild refMessageQ slaveOneAvail_mem testMsg (by decide) hv
      (by decide) (by decide) (by decide)
  have e1 : (VirtQueue_getAvailBuf_mem refBuild slaveOneAvail_mem.mem
      slaveOneAvail_mem.obj.vq_host 0).2.1 = 0xA0000E00 := by decide
  have e2 : refMessageQ.getMsgSize testMsg = 64 := by decide
  rw [e1] at h1 h2 h3 h4 h5
  rw [e2] at h4
  exact ⟨hv, h1, h2, h3, h4, h5⟩

/-- The host-role effect at the host of the reference build after its
initialisation: the first transmit buffer is at `0xA0020000`, the ring of the
slave-direction queue at `0xA0004000`, and the 64-byte test message is sent. -/
theorem put_mem_host_effect_at_hostBoot :
    (TransportVirtio_put_mem refBuild refMessageQ hostBoot_mem testMsg).value = some true ∧
    loadLE (TransportVirtio_put_mem refBuild refMessageQ hostBoot_mem testMsg).state.mem
      0xA0020000 4 = 61 ∧
    loadLE (TransportVirtio_put_mem refBuild refMessageQ hostBoot_mem testMsg).state.mem
      0xA0020004 4 = 1024 ∧
    loadLE (TransportVirtio_put_mem refBuild refMessageQ hostBoot_mem testMsg).state.mem
      0xA0020008 4 = 0 ∧
    loadLE (TransportVirtio_put_mem refBuild refMessageQ hostBoot_mem testMsg).state.mem
      0xA002000C 2 = 64 ∧
    loadLE (TransportVirtio_put_mem refBuild refMessageQ hostBoot_mem testMsg).state.mem
      0xA002000E 2 = 0 := by
  have hv : (TransportVirtio_put_mem refBuild refMessageQ hostBoot_mem testMsg).value
      = some true := by decide!
  obtain ⟨h1, h2, h3, h4, h5, _, _⟩ :=
    put_mem_host_effect refBuild refMessageQ hostBoot_mem testMsg (by decide!) hv
      (by decide) (by decide!) (by decide!) (by decide!)
  have e1 : (getTxBuf_mem refBuild hostBoot_mem.mem hostBoot_mem.obj
      hostBoot_mem.obj.vq_slave).1 = 0xA0020000 := by decide!
  have e2 : refMessageQ.getMsgSize testMsg = 64 := by decide
  rw [e1] at h1 h2 h3 h4 h5
  rw [e2] at h4
  exact ⟨hv, h1, h2, h3, h4, h5⟩

/-! ## Buffers that overlie the ring of queue 0 -/

/-- C6 at a concrete input: the build in which both sides of the sources share the
rings (`APPM3_IS_HOST`), shared memory zeroed, the host primed by
`TransportVirtio_Instance_init`, the slave having sent sixteen messages `testMsg`.
The seventeenth `TransportVirtio_put` of the slave takes the receive buffer number
16 at `0xA0002000`, which is the used header of the ring of queue 0, and returns
`TRUE`; on return the buffer reads `srcAddr = 65597`, `dstAddr = 16`,
`reserved = 512`, `dataLen = 64`, `flags = 0`: the stores of
`VirtQueue_addUsedBuf` went over the header that the send had written. -/
theorem C6_put_true_header_overwritten :
    (duoRun appm3Build refMessageQ (duoFresh appm3Build refOthers)
        (.hostInit :: List.replicate 16 (.slavePut testMsg))).map
      (fun s =>
        ((VirtQueue_getAvailBuf_mem appm3Build s.slave.mem s.slave.obj.vq_host 0).2.1,
          s.slave.obj.vq_host.vring.used,
          (TransportVirtio_put_mem appm3Build refMessageQ s.slave testMsg).value))
      = some (0xA0002000, 0xA0002000, some true) ∧
    (duoRun appm3Build refMessageQ (duoFresh appm3Build refOthers)
        (.hostInit :: List.replicate 16 (.slavePut testMsg))).map
      (fun s =>
        (loadLE (TransportVirtio_put_mem appm3Build refMessageQ s.slave testMsg).state.mem
            0xA0002000 4,
          loadLE (TransportVirtio_put_mem appm3Build refMessageQ s.slave testMsg).state.mem
            0xA0002004 4,
          loadLE (TransportVirtio_put_mem appm3Build refMessageQ s.slave testMsg).state.mem
            0xA0002008 4,
          loadLE (TransportVirtio_put_mem appm3Build refMessageQ s.slave testMsg).state.mem
            0xA000200C 2,
          loadLE (TransportVirtio_put_mem appm3Build refMessageQ s.slave testMsg).state.mem
            0xA000200E 2))
      = some (65597, 16, 512, 64, 0) := by
  constructor <;> decide!

/-- C22 at a concrete input: the build in which both sides of the sources share the
rings (`APPM3_IS_HOST`), shared memory zeroed, queues freshly created. The host runs
the priming of `TransportVirtio_Instance_init`, then the slave sends `testMsg` nine
times. Every operation returns. The ninth send takes the receive buffer number 8 at
`0xA0001000`, which is the available header of the ring of queue 0: the store of
`srcAddr` leaves `avail.idx = 0` while the cursor of the slave is
`last_avail_idx = 9`, so that `(avail.idx - last_avail_idx) mod 2^16 = 65527`,
above `N = 256`; after the eighth send it was `248`. -/
theorem C22_ninth_send_breaks_avail_bound :
    (duoRun appm3Build refMessageQ (duoFresh appm3Build refOthers)
        (.hostInit :: List.replicate 8 (.slavePut testMsg))).map
      (fun s =>
        ((VirtQueue_getAvailBuf_mem appm3Build s.slave.mem s.slave.obj.vq_host 0).2.1,
          s.slave.obj.vq_host.vring.avail,
          availBacklog s.slave.mem s.slave.obj.vq_host))
      = some (0xA0001000, 0xA0001000, 248) ∧
    (duoRun appm3Build refMessageQ (duoFresh appm3Build refOthers)
        (.hostInit :: List.replicate 9 (.slavePut testMsg))).map
      (fun s =>
        (s.slave.obj.vq_host.last_avail_idx,
          loadLE s.slave.mem (s.slave.obj.vq_host.vring.avail + 2) 2,
          availBacklog s.slave.mem s.slave.obj.vq_host))
      = some (9, 0, 65527) ∧
    ∀ s, duoRun appm3Build refMessageQ (duoFresh appm3Build refOthers)
        (.hostInit :: List.replicate 9 (.slavePut testMsg)) = some s →
      ¬ ringBounds appm3Build s := by
  have h9 : (duoRun appm3Build refMessageQ (duoFresh appm3Build refOthers)
        (.hostInit :: List.replicate 9 (.slavePut testMsg))).map
      (fun s =>
        (s.slave.obj.vq_host.last_avail_idx,
          loadLE s.slave.mem (s.slave.obj.vq_host.vring.avail + 2) 2,
          availBacklog s.slave.mem s.slave.obj.vq_host))
      = some (9, 0, 65527) := by
    decide!
  refine ⟨by decide!, h9, ?_⟩
  intro s hs hb
  rw [hs] at h9
  simp only [Option.map_some', Option.some.injEq, Prod.mk.injEq] at h9
  have h1 := hb.1
  rw [h9.2.2] at h1
  exact absurd h1 (by decide)

/-- C24 at a concrete input: the build in which both sides of the sources share the
rings (`APPM3_IS_HOST`), shared memory zeroed, the host primed by
`TransportVirtio_Instance_init`. The first `TransportVirtio_put` of the slave takes
the receive buffer number 0 at `0xA0000000`, which is the base of the descriptor
table of the ring of queue 0, and returns `TRUE`: descriptor 0 goes from
`{ addr = 0xA9000000, len = 512 }` to `{ addr = 61 + 1024 * 2^32, len = 0 }` and the
`len` of descriptor 1 from `512` to `64`, written by a slave-role operation. In the
same way, on the slave of the reference build whose one available entry designates
the receive buffer number 7 at `0xA0000E00`, the send changes `desc[224].addr` from
`0` to `61 + 1024 * 2^32`. -/
theorem C24_slave_send_overwrites_descriptors :
    (duoRun appm3Build refMessageQ (duoFresh appm3Build refOthers) [.hostInit]).map
      (fun s =>
        ((VirtQueue_getAvailBuf_mem appm3Build s.slave.mem s.slave.obj.vq_host 0).2.1,
          s.slave.obj.vq_host.vring.desc,
          (TransportVirtio_put_mem appm3Build refMessageQ s.slave testMsg).value))
      = some (0xA0000000, 0xA0000000, some true) ∧
    (duoRun appm3Build refMessageQ (duoFresh appm3Build refOthers) [.hostInit]).map
      (fun s =>
        (((vring_at s.slave.mem s.slave.obj.vq_host.vring).desc 0).addr,
          ((vring_at s.slave.mem s.slave.obj.vq_host.vring).desc 0).len,
          ((vring_at s.slave.mem s.slave.obj.vq_host.vring).desc 1).len))
      = some (0xA9000000, 512, 512) ∧
    (duoRun appm3Build refMessageQ (duoFresh appm3Build refOthers) [.hostInit]).map
      (fun s =>
        (((vring_at (TransportVirtio_put_mem appm3Build refMessageQ s.slave testMsg).state.mem
            s.slave.obj.vq_host.vring).desc 0).addr,
          ((vring_at (TransportVirtio_put_mem appm3Build refMessageQ s.slave testMsg).state.mem
            s.slave.obj.vq_host.vring).desc 0).len,
          ((vring_at (TransportVirtio_put_mem appm3Build refMessageQ s.slave testMsg).state.mem
            s.slave.obj.vq_host.vring).desc 1).len))
      = some (4398046511165, 0, 64) ∧
    ((TransportVirtio_put_mem refBuild refMessageQ slaveOneAvail_mem testMsg).value,
      ((vring_at slaveOneAvail_mem.mem slaveOneAvail_mem.obj.vq_host.vring).desc 224).addr,
      ((vring_at (TransportVirtio_put_mem refBuild refMessageQ slaveOneAvail_mem testMsg).state.mem
        slaveOneAvail_mem.obj.vq_host.vring).desc 224).addr)
      = (some true, 0, 4398046511165) := by
  refine ⟨?_, ?_, ?_, ?_⟩ <;> decide!

/-- C15, counterexample: slave of the reference build, the receive ring holding the
two available entries `0xFFFF` and `7` (`avail.idx = 2`, cursor `0`), so that
`d = 2`. `TransportVirtio_swiFxn` returns without raising an error; the first entry
is negative as `Int16`, which ends the loop before its first round: the cursor
stands at `1` while `avail.idx` is `2`, `used.idx` is still `0` (no slot was
returned), no interrupt was sent and nothing was handed to `MessageQ_put`. -/
theorem C15_drain_stops_at_negative_entry :
    drainPending slaveBadEntry = 2 ∧
    (TransportVirtio_swiFxn refBuild refMessageQ slaveBadEntry).map
      (fun r => (r.isRaised, drainCursor r.state, drainIndex r.state, drainReturned r.state))
      = some (false, 1, 2, 0) ∧
    (TransportVirtio_swiFxn refBuild refMessageQ slaveBadEntry).map
      (fun r => (r.state.mbox, r.state.inbox.length)) = some ([], 0) := by
  decide

/-- C36, counterexample: slave of the reference build, the host-direction ring
holding one available entry, the value `0xFFFF`. `VirtQueue_getAvailBuf` takes the
entry (the cursor goes from `0` to `1`) and returns it as the `Int16` token `-1`;
`TransportVirtio_put` then returns `FALSE`, with `last_avail_idx` changed. -/
theorem C36_false_return_advances_cursor :
    (TransportVirtio_put refBuild refMessageQ slaveNegToken testMsg).value = some false ∧
    slaveNegToken.obj.vq_host.last_avail_idx = 0 ∧
    (TransportVirtio_put refBuild refMessageQ slaveNegToken testMsg).state.obj.vq_host.last_avail_idx
      = 1 := by
  decide

/-- C19, counterexample: slave of the reference build on shared memory, after its
one available buffer was taken by a `TransportVirtio_put`, which left
`VRING_USED_F_NO_NOTIFY` set in `used.flags` of the host-direction ring (the word at
`0xA0002000` reads `1`). The queue being empty, `sendRpmsg` is aborted, and the word
reads `0` afterwards: the aborted call has written to the ring. -/
theorem C19_abort_writes_used_flags :
    (TransportVirtio_put_mem refBuild refMessageQ slaveOneAvail_mem testMsg).value = some true ∧
    (TransportVirtio_put_mem refBuild refMessageQ slaveOneAvail_mem testMsg).state.obj.vq_host.vring.used
      = 0xA0002000 ∧
    loadLE (TransportVirtio_put_mem refBuild refMessageQ slaveOneAvail_mem testMsg).state.mem
      0xA0002000 2 = 1 ∧
    (sendRpmsg_mem refBuild 0 1
      (TransportVirtio_put_mem refBuild refMessageQ slaveOneAvail_mem testMsg).state
      [116, 101, 115, 116] 50 0).isRaised = true ∧
    loadLE (sendRpmsg_mem refBuild 0 1
      (TransportVirtio_put_mem refBuild refMessageQ slaveOneAvail_mem testMsg).state
      [116, 101, 115, 116] 50 0).state.mem 0xA0002000 2 = 0 := by
  decide

/-- C19 amended, on a slave of the reference build with one available buffer (the
receive buffer number 7 at `0xA0000E00`, apart from the used ring at `0xA0002000`),
announcing the name `test` at port 50 with flags 0 to the remote `HOST` (processor
0, from 1). -/
theorem C19_amended_sendRpmsg_effect_witness :
    ∃ s1, sendRpmsg_mem refBuild 0 1 slaveOneAvail_mem [116, 101, 115, 116] 50 0 = .ret () s1 ∧
      loadLE s1.mem 0xA0000E00 4 = 50 ∧
      loadLE s1.mem 0xA0000E04 4 = 53 ∧
      loadLE s1.mem 0xA0000E08 4 = 0 ∧
      loadLE s1.mem 0xA0000E0C 2 = 40 ∧
      loadLE s1.mem 0xA0000E0E 2 = 0 ∧
      loadLE s1.mem 0xA0002004 4 = 7 ∧
      loadLE s1.mem 0xA0002008 4 = 512 ∧
      loadLE s1.mem 0xA0002002 2 = 1 ∧
      s1.mbox = VirtQueue_kick_mem refBuild s1.mem s1.obj.vq_host slaveOneAvail_mem.mbox := by
  obtain ⟨s1, h1, h2, h3, h4, h5, h6, _, h8, h9, h10, _, h12, _⟩ :=
    (C19_amended_sendRpmsg_effect refBuild 0 1 slaveOneAvail_mem [116, 101, 115, 116] 50 0
      (by decide)).2.1 (by decide) (by decide) (by decide)
  have e1 : (VirtQueue_getAvailBuf_mem refBuild slaveOneAvail_mem.mem
      slaveOneAvail_mem.obj.vq_host 0).2.1 = 0xA0000E00 := by decide
  have e2 : slaveOneAvail_mem.obj.vq_host.vring.used = 0xA0002000 := by decide
  have e3 : loadLE (VirtQueue_getAvailBuf_mem refBuild slaveOneAvail_mem.mem
      slaveOneAvail_mem.obj.vq_host 0).2.2.1 (0xA0002000 + 2) 2 = 0 := by decide
  have e4 : (VirtQueue_getAvailBuf_mem refBuild slaveOneAvail_mem.mem
      slaveOneAvail_mem.obj.vq_host 0).1 = 7 := by decide
  have e5 : slaveOneAvail_mem.obj.vq_host.vring.num = 256 := by decide
  rw [e1] at h2 h3 h4 h5 h6
  rw [e2, e3] at h8 h9 h10
  rw [e5] at h8 h9
  rw [e4] at h8
  exact ⟨s1, h1, h2, h3, h4, h5, h6, h8, h9, h10, h12⟩

end SysbiosRpmsg
